import Mathlib

/-!
# goNextCore: the dependency-injection container (`core/container.go`)

A shallow embedding of the service container of `goNextCore` and proofs of the
properties its specification states.

## Modelling conventions

* Go values held in an `any` are terms of `Value`; their dynamic types are terms
  of `GoType`.  `Value.nil` is the nil interface (no dynamic type), while
  `Value.pointer t none` is a typed nil pointer (a non-nil interface).
* Pointer identity is the address carried by a pointer value.  The memory that
  pointers refer to is the `Heap`; `reflect.New` allocates the next free address
  for a type of non-zero size, and returns one shared address per type of size
  zero.
* Go maps are association lists read with `mapGet`, written with `mapSet` and
  shrunk with `mapDelete`.
* The maps of the container hold `*ServiceRegistration`.  Every registration call
  allocates a new record that is stored in exactly one map slot, so a record is
  identified with the slot holding it (`RegRef`) and the assignment
  `registration.Instance = inst` is a write to that slot.
* The declarations and closures of the embedding application (struct fields,
  interface satisfaction, factory bodies, bodies of invoked functions) are not
  part of the container and are collected in an environment `Env`.  Closures
  supplied by the caller are assumed to return; they act on the heap only.
* A run-time panic of the container code (for inst `reflect.Value.Type`
  called on the zero `reflect.Value`) is the outcome `Result.panicked`.
* `State.calls` is a ghost trace recording every factory invocation made by
  `getInstance`, in order.
* The reader/writer lock is not modelled: all operations are sequential.
-/

namespace GoNextCore

/-! ## Go maps as association lists -/

/-- Map lookup `m[k]` with the comma-ok result as an option. -/
def mapGet {κ ν : Type} [DecidableEq κ] : List (κ × ν) → κ → Option ν
  | [], _ => none
  | (k', v) :: m, k => if k' = k then some v else mapGet m k

/-- Map assignment `m[k] = v`. -/
def mapSet {κ ν : Type} [DecidableEq κ] : List (κ × ν) → κ → ν → List (κ × ν)
  | [], k, v => [(k, v)]
  | (k', v') :: m, k, v => if k' = k then (k, v) :: m else (k', v') :: mapSet m k v

/-- Builtin `delete(m, k)`. -/
def mapDelete {κ ν : Type} [DecidableEq κ] (m : List (κ × ν)) (k : κ) : List (κ × ν) :=
  m.filter (fun e => decide (e.1 ≠ k))

/-! ## Types and values of the embedded Go fragment -/

/-- Run-time types (`reflect.Type`).  Struct, interface and function types are
named; their declarations live in `Env`. -/
inductive GoType where
  | struct (name : String)
  | ptr (elem : GoType)
  | iface (name : String)
  | func (sig : String)
  | basic (name : String)
deriving DecidableEq, Repr

/-- The kinds the container distinguishes (`reflect.Kind`). -/
inductive Kind where
  | invalid
  | ptr
  | struct
  | interface
  | func
  | other
deriving DecidableEq, Repr

/-- Kind of a type, `reflect.Type.Kind`. -/
def GoType.kind : GoType → Kind
  | .struct _ => Kind.struct
  | .ptr _ => Kind.ptr
  | .iface _ => Kind.interface
  | .func _ => Kind.func
  | .basic _ => Kind.other

/-- Values that an `any` can hold. -/
inductive Value where
  | nil
  | pointer (elem : GoType) (addr : Option Nat)
  | structV (name : String) (fields : List Value)
  | basic (name : String) (data : Nat)
  | func (sig : String) (code : Option Nat)
deriving Repr

mutual
/-- Decision procedure for equality of values. -/
def Value.decEq : (a b : Value) → Decidable (a = b)
  | .nil, .nil => isTrue rfl
  | .pointer e a, .pointer e' a' =>
    if h : e = e' ∧ a = a' then isTrue (by rw [h.1, h.2])
    else isFalse (by intro h'; injection h' with h1 h2; exact h ⟨h1, h2⟩)
  | .structV n fs, .structV n' fs' =>
    match Value.decEqList fs fs' with
    | isTrue h1 =>
      if h : n = n' then isTrue (by rw [h, h1])
      else isFalse (by intro h'; injection h' with h2 h3; exact h h2)
    | isFalse h1 => isFalse (by intro h'; injection h' with h2 h3; exact h1 h3)
  | .basic n d, .basic n' d' =>
    if h : n = n' ∧ d = d' then isTrue (by rw [h.1, h.2])
    else isFalse (by intro h'; injection h' with h1 h2; exact h ⟨h1, h2⟩)
  | .func n d, .func n' d' =>
    if h : n = n' ∧ d = d' then isTrue (by rw [h.1, h.2])
    else isFalse (by intro h'; injection h' with h1 h2; exact h ⟨h1, h2⟩)
  | .nil, .pointer .. | .nil, .structV .. | .nil, .basic .. | .nil, .func ..
  | .pointer .., .nil | .pointer .., .structV .. | .pointer .., .basic ..
  | .pointer .., .func ..
  | .structV .., .nil | .structV .., .pointer .. | .structV .., .basic ..
  | .structV .., .func ..
  | .basic .., .nil | .basic .., .pointer .. | .basic .., .structV ..
  | .basic .., .func ..
  | .func .., .nil | .func .., .pointer .. | .func .., .structV ..
  | .func .., .basic .. => isFalse (by intro h; cases h)
/-- Decision procedure for equality of lists of values. -/
def Value.decEqList : (a b : List Value) → Decidable (a = b)
  | [], [] => isTrue rfl
  | a :: as, b :: bs =>
    match Value.decEq a b, Value.decEqList as bs with
    | isTrue h1, isTrue h2 => isTrue (by rw [h1, h2])
    | isFalse h1, _ => isFalse (by intro h'; injection h' with h2 h3; exact h1 h2)
    | _, isFalse h1 => isFalse (by intro h'; injection h' with h2 h3; exact h1 h3)
  | [], _ :: _ => isFalse (by intro h; cases h)
  | _ :: _, [] => isFalse (by intro h; cases h)
end

instance : DecidableEq Value := Value.decEq

/-- Dynamic type of a value, `reflect.TypeOf`; `none` is the nil `reflect.Type`. -/
def Value.typeOf : Value → Option GoType
  | .nil => none
  | .pointer elem _ => some (GoType.ptr elem)
  | .structV name _ => some (GoType.struct name)
  | .basic name _ => some (GoType.basic name)
  | .func sig _ => some (GoType.func sig)

/-- Kind of `reflect.ValueOf(v)`; the nil interface gives the zero Value of kind
`Invalid`. -/
def Value.kind (v : Value) : Kind :=
  match v.typeOf with
  | none => Kind.invalid
  | some t => t.kind

/-- The `reflect.Value` that `Elem()` yields on a pointer: the variable it points
to, or the zero Value for a nil pointer. -/
inductive Ref where
  | zero
  | var (typ : GoType) (addr : Nat)
deriving DecidableEq, Repr

/-- Method `reflect.Value.Elem` on a value whose kind is already known to be `Ptr`. -/
def Value.elem : Value → Ref
  | .pointer t (some a) => Ref.var t a
  | _ => Ref.zero

/-- Method `reflect.Value.Kind` on the result of `Elem()`. -/
def Ref.kind : Ref → Kind
  | .zero => Kind.invalid
  | .var t _ => t.kind

/-! ## Memory -/

/-- The memory pointers refer to: the contents of every allocated variable, the
next free address, and for each type of size zero the address its allocations
share.  The Go runtime hands out one address (`runtime.zerobase`) for every
allocation of size zero, so two such allocations are not distinct variables. -/
structure Heap where
  cells : List (Nat × Value)
  next : Nat
  zero : List (GoType × Nat) := []
deriving DecidableEq, Repr

/-- Contents of the variable at an address. -/
def Heap.read (h : Heap) (a : Nat) : Option Value := mapGet h.cells a

/-- Overwrites the variable at an address (`reflect.Value.Set`). -/
def Heap.write (h : Heap) (a : Nat) (v : Value) : Heap :=
  { h with cells := mapSet h.cells a v }

/-- Allocates a new variable holding `v` and returns its address. -/
def Heap.alloc (h : Heap) (v : Value) : Nat × Heap :=
  (h.next, { h with cells := mapSet h.cells h.next v, next := h.next + 1 })

/-- Replaces the element at index `i` of a list. -/
def listSet {α : Type} : List α → Nat → α → List α
  | [], _, _ => []
  | _ :: xs, 0, v => v :: xs
  | x :: xs, i + 1, v => x :: listSet xs i v

/-- Sets field number `i` of the struct variable at address `a`; `none` when the
address does not hold a struct with that many fields. -/
def Heap.setField (h : Heap) (a i : Nat) (v : Value) : Option Heap :=
  match h.read a with
  | some (Value.structV name fields) =>
    if i < fields.length then some (h.write a (Value.structV name (listSet fields i v)))
    else none
  | _ => none

/-! ## The environment of the embedding application -/

/-- A declared struct field as seen by `reflect`: name, type, the value of the
`inject` key of its tag (empty when absent) and whether it can be set. -/
structure StructField where
  Name : String
  Typ : GoType
  inject : String
  canSet : Bool
deriving DecidableEq, Repr

/-- Declarations and closures of the application that embeds the container. -/
structure Env where
  /-- Field declarations of each struct type, in declaration order. -/
  fields : String → List StructField
  /-- Zero values of the fields of each struct type. -/
  zeroFields : String → List Value
  /-- Whether a type implements a named interface. -/
  implements : GoType → String → Bool
  /-- Whether a type implements the builtin `error` interface. -/
  implementsError : GoType → Bool
  /-- Parameter types of a function signature. -/
  funcIn : String → List GoType
  /-- Result types of a function signature. -/
  funcOut : String → List GoType
  /-- Bodies of the factory closures supplied by the caller. -/
  factories : Nat → Heap → Value × Heap
  /-- Bodies of the functions handed to `Invoke`. -/
  funcs : Nat → List Value → Heap → List Value × Heap

/-- Zero value of a type (`reflect.Zero`). -/
def zeroValue (env : Env) : GoType → Value
  | .struct name => Value.structV name (env.zeroFields name)
  | .ptr elem => Value.pointer elem none
  | .iface _ => Value.nil
  | .func sig => Value.func sig none
  | .basic name => Value.basic name 0

mutual
/-- Whether a value occupies no memory: a struct all of whose fields occupy
none (in particular a struct without fields). -/
def Value.zeroSized : Value → Bool
  | .structV _ fields => Value.zeroSizedList fields
  | _ => false
/-- Whether every value of a list occupies no memory. -/
def Value.zeroSizedList : List Value → Bool
  | [] => true
  | v :: vs => v.zeroSized && Value.zeroSizedList vs
end

/-- The variable that `reflect.New(t)` points to, and the memory after the
allocation.  A type of non-zero size gets a new variable at the next free
address.  For a type of size zero the runtime returns the same address at every
allocation: the first one reserves it, the later ones return it again.  The
address is kept per type, so that a cell holds values of one type only; pointers
to different types are different values whatever their addresses. -/
def newVar (env : Env) (t : GoType) (h : Heap) : Nat × Heap :=
  if (zeroValue env t).zeroSized then
    match mapGet h.zero t with
    | some a => (a, h)
    | none =>
      let r := h.alloc (zeroValue env t)
      (r.1, { r.2 with zero := mapSet h.zero t r.1 })
  else h.alloc (zeroValue env t)

/-- Function `reflect.New(t)`: a pointer to an allocated zero value of `t`. -/
def reflectNew (env : Env) (t : GoType) (h : Heap) : Value × Heap :=
  (Value.pointer t (some (newVar env t h).1), (newVar env t h).2)

/-- Method `reflect.Type.AssignableTo` on the types of the fragment: identical
types, or an interface the type implements. -/
def assignableTo (env : Env) (v t : GoType) : Bool :=
  if v = t then true
  else match t with
    | .iface name => env.implements v name
    | _ => false

/-! ## Container data -/

/-- ServiceScope defines the lifetime of services (an `int` in the source). -/
abbrev ServiceScope := Int

/-- Lifetime `Singleton` (iota 0). -/
abbrev Singleton : ServiceScope := 0

/-- Lifetime `Transient` (iota 1). -/
abbrev Transient : ServiceScope := 1

/-- Lifetime `Scoped` (iota 2). -/
abbrev Scoped : ServiceScope := 2

/-- ServiceFactory values: a closure supplied by the caller (named by `id`, body
`Env.factories id`), or the closure that `RegisterTransient` and `BindTransient`
build around a prototype. -/
inductive ServiceFactory where
  | closure (id : Nat)
  | newOf (prototype : Value)
deriving DecidableEq, Repr

/-- ServiceRegistration holds service metadata.  A nil `Instance` is `Value.nil`
and a nil `Factory` is `none`. -/
structure ServiceRegistration where
  Instance : Value
  Factory : Option ServiceFactory
  Scope : ServiceScope
deriving DecidableEq, Repr

/-- The fields of `Container` (the lock apart). -/
structure Container where
  typeServices : List (Option GoType × ServiceRegistration)
  tokenServices : List (String × ServiceRegistration)
  scopedInstances : List (String × List (Option GoType × Value))
  scopedTokens : List (String × List (String × Value))
  pendingAutowire : List Value
  processing : List (Option GoType × Bool)
deriving DecidableEq, Repr

/-- Program state: the container, the memory, and the ghost trace of factory
invocations. -/
structure State where
  c : Container
  heap : Heap
  calls : List ServiceFactory
deriving DecidableEq, Repr

/-- The errors the container returns, one constructor per message. -/
inductive Error where
  /-- "target must be a pointer" -/
  | targetMustBePointer
  /-- "target must be a pointer to a struct or pointer to a pointer" -/
  | targetMustBePointerToStructOrPointer
  /-- "no registered service for type %s" -/
  | noRegisteredServiceForType (t : GoType)
  /-- "no registered service for token %s" -/
  | noRegisteredServiceForToken (token : String)
  /-- "no inst or factory registered" -/
  | noInstanceOrFactory
  /-- "no factory registered for transient service" -/
  | noFactoryForTransient
  /-- "scope key required for scoped service" -/
  | scopeKeyRequired
  /-- "no factory or inst registered for scoped service" -/
  | noFactoryOrInstanceForScoped
  /-- "unknown service scope" -/
  | unknownServiceScope
  /-- "type mismatch: expected %s, got %s" -/
  | typeMismatchExpected (expected got : GoType)
  /-- "registered service for %s is not a pointer" -/
  | notAPointer (t : GoType)
  /-- "unsupported target type" -/
  | unsupportedTarget
  /-- "type mismatch: cannot assign %s to %s" -/
  | typeMismatchAssign (got want : GoType)
  /-- "unsupported target type: %s" -/
  | unsupportedTargetType (t : GoType)
  /-- "target must be a pointer to a struct" -/
  | targetMustBePointerToStruct
  /-- "missing dependency for type %s" -/
  | missingDependencyForType (t : GoType)
  /-- "missing dependency for token %s" -/
  | missingDependencyForToken (token : String)
  /-- "type mismatch for field %s: cannot assign %s to %s" -/
  | fieldTypeMismatch (field : String) (got want : GoType)
  /-- "cannot get address of inst for field %s" -/
  | cannotGetAddress (field : String)
  /-- "failed to autowire %T: %w" -/
  | failedToAutowire (t : Option GoType) (cause : Error)
  /-- "argument must be a function" -/
  | argumentMustBeFunction
  /-- "failed to resolve argument %d (%v): %w" -/
  | failedToResolveArgument (i : Nat) (t : GoType) (cause : Error)
  /-- The non-nil error value returned by a function called through `Invoke`. -/
  | returned (v : Value)
deriving DecidableEq, Repr

/-- Outcome of a call: a normal return with a value, a returned error, or a
run-time panic. -/
inductive Result (α : Type) where
  | ok (a : α)
  | error (e : Error)
  | panicked
deriving DecidableEq, Repr

/-- The map slot holding a registration record (the model of the pointer
`*ServiceRegistration`). -/
inductive RegRef where
  | type (key : Option GoType)
  | token (token : String)
deriving DecidableEq, Repr

/-! ## Registration (`container.go`, lines 29-146) -/

/-- NewContainer: all maps empty. -/
def NewContainer : Container :=
  { typeServices := [], tokenServices := [], scopedInstances := [], scopedTokens := [],
    pendingAutowire := [], processing := [] }

/-- RegisterScoped registers a service with a specific scope, under the key
`reflect.TypeOf(service)`. -/
def RegisterScoped (s : State) (service : Value) (scope : ServiceScope) : State :=
  let serviceType := service.typeOf
  let registration : ServiceRegistration := { Instance := service, Factory := none, Scope := scope }
  { s with c := { s.c with typeServices := mapSet s.c.typeServices serviceType registration } }

/-- Register by type as singleton (default behavior). -/
def Register (s : State) (service : Value) : State :=
  RegisterScoped s service Singleton

/-- RegisterFactory registers a factory function for creating instances. -/
def RegisterFactory (s : State) (serviceType : Option GoType) (factory : ServiceFactory)
    (scope : ServiceScope) : State :=
  let registration : ServiceRegistration :=
    { Instance := Value.nil, Factory := some factory, Scope := scope }
  { s with c := { s.c with typeServices := mapSet s.c.typeServices serviceType registration } }

/-- RegisterTransientFactory registers a factory for transient services. -/
def RegisterTransientFactory (s : State) (serviceType : Option GoType)
    (factory : ServiceFactory) : State :=
  RegisterFactory s serviceType factory Transient

/-- RegisterTransient registers a service as transient (new inst each time):
the factory is the closure over the prototype. -/
def RegisterTransient (s : State) (prototype : Value) : State :=
  RegisterTransientFactory s prototype.typeOf (ServiceFactory.newOf prototype)

/-- RegisterScopedFactory registers a factory for request-scoped services. -/
def RegisterScopedFactory (s : State) (serviceType : Option GoType)
    (factory : ServiceFactory) : State :=
  RegisterFactory s serviceType factory Scoped

/-- BindScoped binds a service with a specific scope. -/
def BindScoped (s : State) (token : String) (service : Value) (scope : ServiceScope) :
    State :=
  let registration : ServiceRegistration := { Instance := service, Factory := none, Scope := scope }
  { s with c := { s.c with tokenServices := mapSet s.c.tokenServices token registration } }

/-- Bind by string token as singleton (default behavior). -/
def Bind (s : State) (token : String) (service : Value) : State :=
  BindScoped s token service Singleton

/-- BindFactory binds a factory function for creating instances. -/
def BindFactory (s : State) (token : String) (factory : ServiceFactory)
    (scope : ServiceScope) : State :=
  let registration : ServiceRegistration :=
    { Instance := Value.nil, Factory := some factory, Scope := scope }
  { s with c := { s.c with tokenServices := mapSet s.c.tokenServices token registration } }

/-- BindTransient binds a service as transient. -/
def BindTransient (s : State) (token : String) (prototype : Value) : State :=
  BindFactory s token (ServiceFactory.newOf prototype) Transient

/-- BindScopedFactory binds a factory as request-scoped. -/
def BindScopedFactory (s : State) (token : String) (factory : ServiceFactory) : State :=
  BindFactory s token factory Scoped

/-! ## Resolution (`container.go`, lines 148-366) -/

/-- Calling a factory.  A caller-supplied closure runs its body from `Env`.  The
prototype closure (lines 79-91 and 131-140) allocates a zero value of the
prototype's underlying type; `none` is the panic of `reflect.Value.Type` on the
zero Value, reached for a nil prototype. -/
def ServiceFactory.call (env : Env) : ServiceFactory → Heap → Option (Value × Heap)
  | .closure id, h => some (env.factories id h)
  | .newOf prototype, h =>
    if prototype.kind = Kind.ptr then
      match prototype.elem with
      | Ref.var elemType _ => some (reflectNew env elemType h)
      | Ref.zero => none
    else
      match prototype.typeOf with
      | some t => some (reflectNew env t h)
      | none => none

/-- The state after a factory invocation: the new memory, and the invocation
appended to the ghost trace. -/
def State.afterCall (s : State) (factory : ServiceFactory) (heap : Heap) : State :=
  { s with heap := heap, calls := s.calls ++ [factory] }

/-- The assignment `registration.Instance = inst` through the pointer held
in the map slot `ref`. -/
def State.setInstance (s : State) (ref : RegRef) (registration : ServiceRegistration)
    (inst : Value) : State :=
  let updated : ServiceRegistration := { registration with Instance := inst }
  match ref with
  | .type key =>
    { s with c := { s.c with typeServices := mapSet s.c.typeServices key updated } }
  | .token token =>
    { s with c := { s.c with tokenServices := mapSet s.c.tokenServices token updated } }

/-- The two-level lookup `m[scopeKey][key]` of a scope store. -/
def scopedGet {κ : Type} [DecidableEq κ] (m : List (String × List (κ × Value)))
    (scopeKey : String) (key : κ) : Option Value :=
  match mapGet m scopeKey with
  | some scopedMap => mapGet scopedMap key
  | none => none

/-- The two-level store of lines 238-246: create the inner map when it is
missing, then `m[scopeKey][key] = inst`. -/
def scopedSet {κ : Type} [DecidableEq κ] (m : List (String × List (κ × Value)))
    (scopeKey : String) (key : κ) (inst : Value) : List (String × List (κ × Value)) :=
  match mapGet m scopeKey with
  | some scopedMap => mapSet m scopeKey (mapSet scopedMap key inst)
  | none => mapSet m scopeKey (mapSet [] key inst)

/-- Lines 216-230: the cached inst of the scope, looked up by token when the
token is non-empty and by type otherwise. -/
def State.scopedLookup (s : State) (serviceType : Option GoType) (token scopeKey : String) :
    Option Value :=
  if token ≠ "" then scopedGet s.c.scopedTokens scopeKey token
  else scopedGet s.c.scopedInstances scopeKey serviceType

/-- Lines 237-247: store the inst for this scope. -/
def State.scopedStore (s : State) (serviceType : Option GoType) (token scopeKey : String)
    (inst : Value) : State :=
  if token ≠ "" then
    { s with c := { s.c with scopedTokens := scopedSet s.c.scopedTokens scopeKey token inst } }
  else
    let store := scopedSet s.c.scopedInstances scopeKey serviceType inst
    { s with c := { s.c with scopedInstances := store } }

/-- getInstance gets an inst based on the registration scope (lines 190-261). -/
def getInstance (env : Env) (s : State) (ref : RegRef) (registration : ServiceRegistration)
    (serviceType : Option GoType) (token scopeKey : String) : Result Value × State :=
  if registration.Scope = Singleton then
    if registration.Instance ≠ Value.nil then (Result.ok registration.Instance, s)
    else
      match registration.Factory with
      | some factory =>
        match factory.call env s.heap with
        | some (inst, heap) =>
          (Result.ok inst,
            (s.afterCall factory heap).setInstance ref registration inst)
        | none => (Result.panicked, s.afterCall factory s.heap)
      | none => (Result.error Error.noInstanceOrFactory, s)
  else if registration.Scope = Transient then
    match registration.Factory with
    | some factory =>
      match factory.call env s.heap with
      | some (inst, heap) => (Result.ok inst, s.afterCall factory heap)
      | none => (Result.panicked, s.afterCall factory s.heap)
    | none => (Result.error Error.noFactoryForTransient, s)
  else if registration.Scope = Scoped then
    if scopeKey = "" then (Result.error Error.scopeKeyRequired, s)
    else
      match s.scopedLookup serviceType token scopeKey with
      | some inst => (Result.ok inst, s)
      | none =>
        match registration.Factory with
        | some factory =>
          match factory.call env s.heap with
          | some (inst, heap) =>
            (Result.ok inst,
              (s.afterCall factory heap).scopedStore serviceType token scopeKey inst)
          | none => (Result.panicked, s.afterCall factory s.heap)
        | none =>
          if registration.Instance ≠ Value.nil then (Result.ok registration.Instance, s)
          else (Result.error Error.noFactoryOrInstanceForScoped, s)
  else (Result.error Error.unknownServiceScope, s)

/-- The state after `elem.Set(v)` on the variable at `addr`. -/
def State.setVar (s : State) (addr : Nat) (v : Value) : State :=
  { s with heap := s.heap.write addr v }

/-- assignInstance assigns the resolved inst to the target (lines 264-286).
`elem` is the variable of type `typ` at `addr`. -/
def assignInstance (env : Env) (s : State) (inst : Value) (typ : GoType) (addr : Nat)
    (targetType : GoType) : Result Unit × State :=
  if typ.kind = Kind.ptr then
    match inst.typeOf with
    | none => (Result.panicked, s)
    | some instanceType =>
      if !assignableTo env instanceType typ then
        (Result.error (Error.typeMismatchExpected typ instanceType), s)
      else (Result.ok (), s.setVar addr inst)
  else if typ.kind = Kind.struct then
    if inst.kind ≠ Kind.ptr then (Result.error (Error.notAPointer targetType), s)
    else
      match inst.elem with
      | Ref.zero => (Result.panicked, s)
      | Ref.var srcType src =>
        if !assignableTo env srcType typ then (Result.panicked, s)
        else
          match s.heap.read src with
          | some v => (Result.ok (), s.setVar addr v)
          | none => (Result.panicked, s)
  else (Result.error Error.unsupportedTarget, s)

/-- Lines 176-186 of ResolveWithScope: the registry lookup under `targetType`,
then `getInstance` and `assignInstance` on the variable `elem`, of type `typ` at
`addr`. -/
def resolveType (env : Env) (s : State) (typ : GoType) (addr : Nat) (targetType : GoType)
    (scopeKey : String) : Result Unit × State :=
  match mapGet s.c.typeServices (some targetType) with
  | none => (Result.error (Error.noRegisteredServiceForType targetType), s)
  | some registration =>
    match getInstance env s (RegRef.type (some targetType)) registration
        (some targetType) "" scopeKey with
    | (Result.ok inst, s1) => assignInstance env s1 inst typ addr targetType
    | (Result.error e, s1) => (Result.error e, s1)
    | (Result.panicked, s1) => (Result.panicked, s1)

/-- ResolveWithScope resolves with a scope key for request-scoped services
(lines 154-187).  For a pointer to a pointer the key is the type of the pointee
(`elem.Type()`), for a pointer to a struct it is the pointer type
(`reflect.PointerTo(elem.Type())`); a nil target pointer has the zero Value as
`elem`, whose kind is neither. -/
def ResolveWithScope (env : Env) (s : State) (target : Value) (scopeKey : String) :
    Result Unit × State :=
  if target.kind ≠ Kind.ptr then (Result.error Error.targetMustBePointer, s)
  else
    match target.elem with
    | Ref.var typ addr =>
      if typ.kind = Kind.ptr then resolveType env s typ addr typ scopeKey
      else if typ.kind = Kind.struct then resolveType env s typ addr (GoType.ptr typ) scopeKey
      else (Result.error Error.targetMustBePointerToStructOrPointer, s)
    | Ref.zero => (Result.error Error.targetMustBePointerToStructOrPointer, s)

/-- Resolve by type, with the empty scope key. -/
def Resolve (env : Env) (s : State) (target : Value) : Result Unit × State :=
  ResolveWithScope env s target ""

/-- Lines 315-365 of ResolveByWithScope: assignment of the inst to the
target variable `elem`. -/
def assignByToken (env : Env) (s : State) (inst : Value) (elem : Ref) :
    Result Unit × State :=
  match elem with
  | Ref.zero => (Result.panicked, s)
  | Ref.var typ addr =>
    if typ.kind = Kind.ptr then
      match inst.typeOf with
      | none => (Result.panicked, s)
      | some instanceType =>
        if !assignableTo env instanceType typ then
          (Result.error (Error.typeMismatchAssign instanceType typ), s)
        else (Result.ok (), s.setVar addr inst)
    else if typ.kind = Kind.struct then
      if inst.kind = Kind.ptr then
        match inst.elem with
        | Ref.zero => (Result.panicked, s)
        | Ref.var srcType src =>
          if !assignableTo env srcType typ then
            (Result.error (Error.typeMismatchAssign srcType typ), s)
          else
            match s.heap.read src with
            | some v => (Result.ok (), s.setVar addr v)
            | none => (Result.panicked, s)
      else
        match inst.typeOf with
        | none => (Result.panicked, s)
        | some instanceType =>
          if !assignableTo env instanceType typ then
            (Result.error (Error.typeMismatchAssign instanceType typ), s)
          else (Result.ok (), s.setVar addr inst)
    else if typ.kind = Kind.interface then
      match inst.typeOf with
      | none => (Result.panicked, s)
      | some instanceType =>
        if !assignableTo env instanceType typ then
          (Result.error (Error.typeMismatchAssign instanceType typ), s)
        else (Result.ok (), s.setVar addr inst)
    else (Result.error (Error.unsupportedTargetType typ), s)

/-- ResolveByWithScope resolves by token with scope key for request-scoped
services (lines 294-366). -/
def ResolveByWithScope (env : Env) (s : State) (token : String) (target : Value)
    (scopeKey : String) : Result Unit × State :=
  match mapGet s.c.tokenServices token with
  | none => (Result.error (Error.noRegisteredServiceForToken token), s)
  | some registration =>
    if target.kind ≠ Kind.ptr then (Result.error Error.targetMustBePointer, s)
    else
      match getInstance env s (RegRef.token token) registration target.typeOf token
          scopeKey with
      | (Result.ok inst, s1) => assignByToken env s1 inst target.elem
      | (Result.error e, s1) => (Result.error e, s1)
      | (Result.panicked, s1) => (Result.panicked, s1)

/-- Resolve by token, with the empty scope key. -/
def ResolveBy (env : Env) (s : State) (token : String) (target : Value) :
    Result Unit × State :=
  ResolveByWithScope env s token target ""

/-! ## Autowiring (`container.go`, lines 368-457 and 539-558) -/

/-- The state after `fieldVal.Set(v)` on field `i` of the struct at `addr`; a
struct variable without such a field is a panic of `reflect`. -/
def State.setFieldVar (s : State) (addr i : Nat) (v : Value) : Result Unit × State :=
  match s.heap.setField addr i v with
  | some heap => (Result.ok (), { s with heap := heap })
  | none => (Result.panicked, s)

/-- Lines 419-453: assignment of a resolved instance to field `i` of the target
struct at `addr`.  A value obtained from `reflect.ValueOf` is never addressable,
so `CanAddr` is false. -/
def assignField (env : Env) (s : State) (field : StructField) (addr i : Nat)
    (inst : Value) : Result Unit × State :=
  if field.Typ.kind = Kind.ptr then
    if inst.kind = Kind.ptr then
      match inst.typeOf with
      | none => (Result.panicked, s)
      | some instType =>
        if !assignableTo env instType field.Typ then
          (Result.error (Error.fieldTypeMismatch field.Name instType field.Typ), s)
        else s.setFieldVar addr i inst
    else (Result.error (Error.cannotGetAddress field.Name), s)
  else
    if inst.kind = Kind.ptr then
      match inst.elem with
      | Ref.zero => (Result.panicked, s)
      | Ref.var srcType src =>
        if !assignableTo env srcType field.Typ then
          (Result.error (Error.fieldTypeMismatch field.Name srcType field.Typ), s)
        else
          match s.heap.read src with
          | some v => s.setFieldVar addr i v
          | none => (Result.panicked, s)
    else
      match inst.typeOf with
      | none => (Result.panicked, s)
      | some instType =>
        if !assignableTo env instType field.Typ then
          (Result.error (Error.fieldTypeMismatch field.Name instType field.Typ), s)
        else s.setFieldVar addr i inst

/-- Lines 401-413: the instance for one tagged field, by type when the tag is
"type" and by token otherwise. -/
def resolveField (env : Env) (s : State) (field : StructField) (scopeKey : String) :
    Result Value × State :=
  if field.inject = "type" then
    match mapGet s.c.typeServices (some field.Typ) with
    | none => (Result.error (Error.missingDependencyForType field.Typ), s)
    | some registration =>
      getInstance env s (RegRef.type (some field.Typ)) registration (some field.Typ) ""
        scopeKey
  else
    match mapGet s.c.tokenServices field.inject with
    | none => (Result.error (Error.missingDependencyForToken field.inject), s)
    | some registration =>
      getInstance env s (RegRef.token field.inject) registration (some field.Typ)
        field.inject scopeKey

/-- The loop of lines 386-454 over the fields from index `i` on, for the target
struct at `addr`. -/
def autowireFields (env : Env) (scopeKey : String) (addr : Nat) :
    List StructField → Nat → State → Result Unit × State
  | [], _, s => (Result.ok (), s)
  | field :: rest, i, s =>
    if field.inject = "" then autowireFields env scopeKey addr rest (i + 1) s
    else if !field.canSet then autowireFields env scopeKey addr rest (i + 1) s
    else
      match resolveField env s field scopeKey with
      | (Result.error e, s1) => (Result.error e, s1)
      | (Result.panicked, s1) => (Result.panicked, s1)
      | (Result.ok inst, s1) =>
        match assignField env s1 field addr i inst with
        | (Result.ok (), s2) => autowireFields env scopeKey addr rest (i + 1) s2
        | (Result.error e, s2) => (Result.error e, s2)
        | (Result.panicked, s2) => (Result.panicked, s2)

/-- AutowireWithScope autowires with scope key for request-scoped services
(lines 374-457). -/
def AutowireWithScope (env : Env) (s : State) (target : Value) (scopeKey : String) :
    Result Unit × State :=
  if target.kind ≠ Kind.ptr ∨ target.elem.kind ≠ Kind.struct then
    (Result.error Error.targetMustBePointerToStruct, s)
  else
    match target.elem with
    | Ref.var (GoType.struct name) addr =>
      autowireFields env scopeKey addr (env.fields name) 0 s
    | _ => (Result.error Error.targetMustBePointerToStruct, s)

/-- Autowire fills the tagged fields, with the empty scope key. -/
def Autowire (env : Env) (s : State) (target : Value) : Result Unit × State :=
  AutowireWithScope env s target ""

/-- ClearScope clears all instances for a given scope (lines 460-465). -/
def ClearScope (s : State) (scopeKey : String) : State :=
  { s with c := { s.c with
      scopedInstances := mapDelete s.c.scopedInstances scopeKey,
      scopedTokens := mapDelete s.c.scopedTokens scopeKey } }

/-- AddForAutowiring adds a component to the pending autowire list. -/
def AddForAutowiring (s : State) (component : Value) : State :=
  { s with c := { s.c with pendingAutowire := s.c.pendingAutowire ++ [component] } }

/-- The loop of AutowireAll over the pending components. -/
def autowireAllLoop (env : Env) : List Value → State → Result Unit × State
  | [], s => (Result.ok (), s)
  | component :: rest, s =>
    match Autowire env s component with
    | (Result.ok (), s1) => autowireAllLoop env rest s1
    | (Result.error e, s1) => (Result.error (Error.failedToAutowire component.typeOf e), s1)
    | (Result.panicked, s1) => (Result.panicked, s1)

/-- AutowireAll resolves all pending components that were added for autowiring
and clears the list on success (lines 550-558). -/
def AutowireAll (env : Env) (s : State) : Result Unit × State :=
  match autowireAllLoop env s.c.pendingAutowire s with
  | (Result.ok (), s1) => (Result.ok (), { s1 with c := { s1.c with pendingAutowire := [] } })
  | (Result.error e, s1) => (Result.error e, s1)
  | (Result.panicked, s1) => (Result.panicked, s1)

/-! ## Invocation (`container.go`, lines 561-609) -/

/-- The loop of lines 571-594: for each parameter type allocate a target with
`reflect.New`, resolve it, and keep the address of the populated variable. -/
def invokeArgs (env : Env) : List GoType → Nat → State → Result (List Nat) × State
  | [], _, s => (Result.ok [], s)
  | argType :: rest, i, s =>
    let targetPtr := reflectNew env argType s.heap
    match Resolve env { s with heap := targetPtr.2 } targetPtr.1 with
    | (Result.error e, s1) => (Result.error (Error.failedToResolveArgument i argType e), s1)
    | (Result.panicked, s1) => (Result.panicked, s1)
    | (Result.ok (), s1) =>
      match invokeArgs env rest (i + 1) s1 with
      | (Result.ok addrs, s2) => (Result.ok ((newVar env argType s.heap).1 :: addrs), s2)
      | (Result.error e, s2) => (Result.error e, s2)
      | (Result.panicked, s2) => (Result.panicked, s2)

/-- Reads the argument variables at call time. -/
def readArgs (h : Heap) : List Nat → Option (List Value)
  | [] => some []
  | a :: rest =>
    match h.read a, readArgs h rest with
    | some v, some vs => some (v :: vs)
    | _, _ => none

/-- Method `reflect.Value.IsNil` on a result of declared type `t`; `none` is its
panic on a kind that has no nil. -/
def isNilResult (t : GoType) (v : Value) : Option Bool :=
  match t.kind with
  | Kind.interface => some (decide (v = Value.nil))
  | Kind.ptr =>
    match v with
    | Value.pointer _ none => some true
    | _ => some false
  | Kind.func =>
    match v with
    | Value.func _ none => some true
    | _ => some false
  | _ => none

/-- Lines 598-608: the error to return for the results of the called function. -/
def resultError (env : Env) (sig : String) (results : List Value) : Result Unit :=
  match results.getLast?, (env.funcOut sig).getLast? with
  | some last, some t =>
    if env.implementsError t then
      match isNilResult t last with
      | some true => Result.ok ()
      | some false => Result.error (Error.returned last)
      | none => Result.panicked
    else Result.ok ()
  | _, _ => Result.ok ()

/-- Invoke calls a function with dependencies injected into its arguments.  The
first component is the returned result list (empty for Go's nil), the second the
returned error. -/
def Invoke (env : Env) (s : State) (fn : Value) : (List Value × Result Unit) × State :=
  if fn.kind ≠ Kind.func then (([], Result.error Error.argumentMustBeFunction), s)
  else
    match fn with
    | Value.func sig code =>
      match invokeArgs env (env.funcIn sig) 0 s with
      | (Result.error e, s1) => (([], Result.error e), s1)
      | (Result.panicked, s1) => (([], Result.panicked), s1)
      | (Result.ok addrs, s1) =>
        match code, readArgs s1.heap addrs with
        | some body, some args =>
          let r := env.funcs body args s1.heap
          ((r.1, resultError env sig r.1), { s1 with heap := r.2 })
        | _, _ => (([], Result.panicked), s1)
    | _ => (([], Result.error Error.argumentMustBeFunction), s)

/-! ## Sequences of container operations -/

/-- The operations a caller can perform on a container. -/
inductive Op where
  | registerScoped (service : Value) (scope : ServiceScope)
  | registerFactory (serviceType : Option GoType) (factory : ServiceFactory)
      (scope : ServiceScope)
  | registerTransient (prototype : Value)
  | bindScoped (token : String) (service : Value) (scope : ServiceScope)
  | bindFactory (token : String) (factory : ServiceFactory) (scope : ServiceScope)
  | bindTransient (token : String) (prototype : Value)
  | resolveWithScope (target : Value) (scopeKey : String)
  | resolveByWithScope (token : String) (target : Value) (scopeKey : String)
  | autowireWithScope (target : Value) (scopeKey : String)
  | clearScope (scopeKey : String)
  | addForAutowiring (component : Value)
  | autowireAll
  | invoke (fn : Value)
deriving DecidableEq, Repr

/-- The state after one operation (whatever it returned). -/
def step (env : Env) (s : State) : Op → State
  | .registerScoped service scope => RegisterScoped s service scope
  | .registerFactory serviceType factory scope => RegisterFactory s serviceType factory scope
  | .registerTransient prototype => RegisterTransient s prototype
  | .bindScoped token service scope => BindScoped s token service scope
  | .bindFactory token factory scope => BindFactory s token factory scope
  | .bindTransient token prototype => BindTransient s token prototype
  | .resolveWithScope target scopeKey => (ResolveWithScope env s target scopeKey).2
  | .resolveByWithScope token target scopeKey => (ResolveByWithScope env s token target scopeKey).2
  | .autowireWithScope target scopeKey => (AutowireWithScope env s target scopeKey).2
  | .clearScope scopeKey => ClearScope s scopeKey
  | .addForAutowiring component => AddForAutowiring s component
  | .autowireAll => (AutowireAll env s).2
  | .invoke fn => (Invoke env s fn).2

/-- The state after a sequence of operations. -/
def run (env : Env) (s : State) (ops : List Op) : State :=
  ops.foldl (step env) s

/-- The registration held by a map slot. -/
def State.lookup (s : State) : RegRef → Option ServiceRegistration
  | .type key => mapGet s.c.typeServices key
  | .token token => mapGet s.c.tokenServices token

/-- Whether an operation is a registration call writing the map slot `ref`. -/
def Op.registers (ref : RegRef) : Op → Bool
  | .registerScoped service _ => decide (RegRef.type service.typeOf = ref)
  | .registerFactory serviceType _ _ => decide (RegRef.type serviceType = ref)
  | .registerTransient prototype => decide (RegRef.type prototype.typeOf = ref)
  | .bindScoped token _ _ => decide (RegRef.token token = ref)
  | .bindFactory token _ _ => decide (RegRef.token token = ref)
  | .bindTransient token _ => decide (RegRef.token token = ref)
  | _ => false

/-- The type key under which `ResolveWithScope` looks a target up (lines
158-174): the pointee type for a pointer to a pointer, the pointer type for a
pointer to a struct. -/
def ResolvesKey (key : GoType) (typ : GoType) : Prop :=
  (typ.kind = Kind.ptr ∧ key = typ) ∨ (typ.kind = Kind.struct ∧ key = GoType.ptr typ)

instance (key typ : GoType) : Decidable (ResolvesKey key typ) :=
  inferInstanceAs (Decidable
    ((typ.kind = Kind.ptr ∧ key = typ) ∨ (typ.kind = Kind.struct ∧ key = GoType.ptr typ)))

/-- Whether an operation is a resolution by type of the key `key` with a well
shaped, non-nil target. -/
def Op.resolvesType (key : GoType) : Op → Bool
  | .resolveWithScope (Value.pointer typ (some _)) _ =>
    decide (ResolvesKey key typ)
  | _ => false

/-- Whether an operation is a resolution by `token` with a pointer target. -/
def Op.resolvesToken (token : String) : Op → Bool
  | .resolveByWithScope t target _ => decide (t = token ∧ target.kind = Kind.ptr)
  | _ => false

/-- The scope key an operation resolves under (empty when it has none). -/
def Op.scopeKey : Op → String
  | .resolveWithScope _ sk => sk
  | .resolveByWithScope _ _ sk => sk
  | .autowireWithScope _ sk => sk
  | _ => ""

/-- The map slot a tagged field is resolved from (lines 401-413): the type
registry under the field's type for the tag "type", the token registry under the
tag otherwise. -/
def StructField.ref (field : StructField) : RegRef :=
  if field.inject = "type" then RegRef.type (some field.Typ) else RegRef.token field.inject

/-- The closures of the application never give memory back: the next free
address does not decrease when a caller-supplied factory or function runs. -/
def EnvMonotone (env : Env) : Prop :=
  (∀ id h, h.next ≤ (env.factories id h).2.next) ∧
  (∀ body args h, h.next ≤ (env.funcs body args h).2.next)

/-- No instance is cached under the empty scope key. -/
def NoEmptyScope (s : State) : Prop :=
  mapGet s.c.scopedInstances "" = none ∧ mapGet s.c.scopedTokens "" = none

/-! ## Relations between states used to state frame properties -/

/-- How a registration slot can change without a registration call: not at all,
or by the lazy initialisation of a Singleton whose `Instance` was nil. -/
def RegStep (a b : Option ServiceRegistration) : Prop :=
  a = b ∨ ∃ reg inst, a = some reg ∧ reg.Scope = Singleton ∧ reg.Instance = Value.nil ∧
    b = some { reg with Instance := inst }

/-- The states `s` and `s1` differ at most in the contents of memory cells. -/
def HeapOnly (s s1 : State) : Prop :=
  s1.c = s.c ∧ s1.calls = s.calls ∧ s1.heap.next = s.heap.next

/-- A relation between states that is kept by every primitive effect of the
resolution operations; such a relation is kept by the operations themselves. -/
structure Frame (env : Env) (Rel : State → State → Prop) : Prop where
  refl : ∀ s, Rel s s
  trans : ∀ {a b c}, Rel a b → Rel b c → Rel a c
  resolve : ∀ s ref reg st tok sk, s.lookup ref = some reg →
    Rel s (getInstance env s ref reg st tok sk).2
  heapOnly : ∀ s s', HeapOnly s s' → Rel s s'
  alloc : ∀ (s : State) v, Rel s { s with heap := (s.heap.alloc v).2 }
  call : ∀ (s : State) body args, Rel s { s with heap := (env.funcs body args s.heap).2 }
  drain : ∀ (s : State), Rel s { s with c := { s.c with pendingAutowire := [] } }

/-! ## A small application used for concrete evaluations -/

/-- The pointer type `*TestService`. -/
def testServicePtr : GoType := GoType.ptr (GoType.struct "TestService")

/-- An application with the struct types `TestService` (one string field),
`Other` (no field) and `Consumer` (one injected `*TestService` field), a
function `func(*TestService) string`, and three factories: number 0 allocates a
new `TestService`, number 1 returns nil, every other one returns the pointer to
address 0. -/
def demoEnv : Env :=
  { fields := fun name =>
      if name = "Consumer" then
        [{ Name := "Svc", Typ := testServicePtr, inject := "type", canSet := true }]
      else if name = "TestService" then
        [{ Name := "Value", Typ := GoType.basic "string", inject := "", canSet := true }]
      else [],
    zeroFields := fun name =>
      if name = "Consumer" then [Value.pointer (GoType.struct "TestService") none]
      else if name = "TestService" then [Value.basic "string" 0]
      else [],
    implements := fun _ _ => false,
    implementsError := fun t => decide (t = GoType.iface "error"),
    funcIn := fun sig => if sig = "func(*TestService) string" then [testServicePtr] else [],
    funcOut := fun sig =>
      if sig = "func(*TestService) string" then [GoType.basic "string"] else [],
    factories := fun id h =>
      if id = 0 then
        let r := h.alloc (Value.structV "TestService" [Value.basic "string" 7])
        (Value.pointer (GoType.struct "TestService") (some r.1), r.2)
      else if id = 1 then (Value.nil, h)
      else (Value.pointer (GoType.struct "TestService") (some 0), h),
    funcs := fun _ _ h => ([Value.basic "string" 2], h) }

/-- A memory with a `TestService` at address 0, a `*TestService` variable at
address 1, a `TestService` variable at address 2, a `*Other` variable at address
3, a `Consumer` at address 4 and a second `*TestService` variable at address 5. -/
def demoHeap : Heap :=
  { cells := [(0, Value.structV "TestService" [Value.basic "string" 1]),
              (1, Value.pointer (GoType.struct "TestService") none),
              (2, Value.structV "TestService" [Value.basic "string" 0]),
              (3, Value.pointer (GoType.struct "Other") none),
              (4, Value.structV "Consumer" [Value.pointer (GoType.struct "TestService") none]),
              (5, Value.pointer (GoType.struct "TestService") none)],
    next := 6 }

/-- A new container over `demoHeap`. -/
def demoState : State := { c := NewContainer, heap := demoHeap, calls := [] }

/-- The service `&TestService` at address 0. -/
def demoService : Value := Value.pointer (GoType.struct "TestService") (some 0)

/-- The target `&p` for the variable `p *TestService` at address 1. -/
def demoTarget : Value := Value.pointer testServicePtr (some 1)

/-- The target `&q` for the variable `q *TestService` at address 5. -/
def demoTarget2 : Value := Value.pointer testServicePtr (some 5)

/-- The target `&v` for the variable `v TestService` at address 2. -/
def demoStructTarget : Value := Value.pointer (GoType.struct "TestService") (some 2)

/-- The target `&o` for the variable `o *Other` at address 3. -/
def demoOtherTarget : Value := Value.pointer (GoType.ptr (GoType.struct "Other")) (some 3)

/-- The target `&c` for the `Consumer` at address 4. -/
def demoConsumer : Value := Value.pointer (GoType.struct "Consumer") (some 4)

/-- A function value of type `func(*TestService) string`. -/
def demoFunc : Value := Value.func "func(*TestService) string" (some 0)

/-! ## Observations used to state the properties of resolution and autowiring -/

/-- Whether an error reports an ill-shaped resolution target (the messages
"target must be a pointer", "target must be a pointer to a struct or pointer to
a pointer", "target must be a pointer to a struct" and "unsupported target
type"). -/
def Error.isTargetShape : Error → Bool
  | .targetMustBePointer => true
  | .targetMustBePointerToStructOrPointer => true
  | .targetMustBePointerToStruct => true
  | .unsupportedTarget => true
  | .unsupportedTargetType _ => true
  | _ => false

/-- The state with the token-keyed entries (token registry and token-keyed scope
store) replaced. -/
def State.withTokens (s : State) (tokenServices : List (String × ServiceRegistration))
    (scopedTokens : List (String × List (String × Value))) : State :=
  { s with c := { s.c with tokenServices := tokenServices, scopedTokens := scopedTokens } }

/-- The state with the type-keyed entries (type registry and type-keyed scope
store) replaced. -/
def State.withTypes (s : State) (typeServices : List (Option GoType × ServiceRegistration))
    (scopedInstances : List (String × List (Option GoType × Value))) : State :=
  { s with c := { s.c with typeServices := typeServices, scopedInstances := scopedInstances } }

/-- The value of field number `j` of the struct variable at `addr`. -/
def Heap.field (h : Heap) (addr j : Nat) : Option Value :=
  match h.read addr with
  | some (Value.structV _ fields) => fields[j]?
  | _ => none

/-- The value that lines 421-453 store in a field for a resolved value `inst`:
for a pointer field it is `inst`, and for any other field it is the value that
`inst` points to when `inst` is a pointer, and `inst` otherwise. -/
def wiredValue (h : Heap) (field : StructField) (inst : Value) : Option Value :=
  if field.Typ.kind = Kind.ptr then some inst
  else
    match inst with
    | Value.pointer _ (some src) => h.read src
    | Value.pointer _ none => none
    | _ => some inst

/-- The factory closures of the application leave the allocated variable at
`addr` alone: they neither write it nor release it. -/
def KeepsVar (env : Env) (addr : Nat) : Prop :=
  ∀ id h, addr < h.next →
    (env.factories id h).2.read addr = h.read addr ∧ addr < (env.factories id h).2.next

/-- The operations `Autowire(component)` for a list of components, in order. -/
def wireOps (components : List Value) : List Op :=
  components.map (fun component => Op.autowireWithScope component "")

/-! ## A second small application, used for concrete evaluations of autowiring -/

/-- The application of `demoEnv` with other struct types: `Holder` has an
unexported field `hidden *TestService` tagged "tok", a field `Svc *TestService`
tagged "type", an untagged field `Plain string` and a field `Tok *TestService`
tagged "tok"; `ValueHolder` has one field `Dep TestService` tagged "type". -/
def wireEnv : Env :=
  { demoEnv with
    fields := fun name =>
      if name = "Holder" then
        [{ Name := "hidden", Typ := testServicePtr, inject := "tok", canSet := false },
         { Name := "Svc", Typ := testServicePtr, inject := "type", canSet := true },
         { Name := "Plain", Typ := GoType.basic "string", inject := "", canSet := true },
         { Name := "Tok", Typ := testServicePtr, inject := "tok", canSet := true }]
      else if name = "ValueHolder" then
        [{ Name := "Dep", Typ := GoType.struct "TestService", inject := "type", canSet := true }]
      else [] }

/-- A memory with a `TestService` at address 0, a `Holder` at address 1, a
`ValueHolder` at address 2, an `Other` variable at address 3, a variable of
type `*TestService` at address 4 and a `TestService` variable at address 5. -/
def wireHeap : Heap :=
  { cells := [(0, Value.structV "TestService" [Value.basic "string" 1]),
              (1, Value.structV "Holder"
                    [Value.pointer (GoType.struct "TestService") none,
                     Value.pointer (GoType.struct "TestService") none,
                     Value.basic "string" 5,
                     Value.pointer (GoType.struct "TestService") none]),
              (2, Value.structV "ValueHolder" [Value.structV "TestService" [Value.basic "string" 0]]),
              (3, Value.structV "Other" []),
              (4, Value.pointer (GoType.struct "TestService") none),
              (5, Value.structV "TestService" [Value.basic "string" 0])],
    next := 6 }

/-- A new container over `wireHeap`. -/
def wireState : State := { c := NewContainer, heap := wireHeap, calls := [] }

/-- The target `&h` for the `Holder` at address 1. -/
def wireHolder : Value := Value.pointer (GoType.struct "Holder") (some 1)

/-- The target `&w` for the `ValueHolder` at address 2. -/
def wireValueHolder : Value := Value.pointer (GoType.struct "ValueHolder") (some 2)

/-- The target `&o` for the variable `o Other` at address 3. -/
def wireOtherTarget : Value := Value.pointer (GoType.struct "Other") (some 3)

/-- The target `&p` for the variable `p *TestService` at address 4. -/
def wirePtrTarget : Value := Value.pointer testServicePtr (some 4)

/-- The target `&v` for the variable `v TestService` at address 5. -/
def wireStructTarget : Value := Value.pointer (GoType.struct "TestService") (some 5)

/-! ## Module components (`registerModuleComponents.go`) -/

/-- The first loop of RegisterModuleComponents (lines 5-7): `Register` each
component. -/
def registerComponents (s : State) (components : List Value) : State :=
  components.foldl Register s

/-- The second loop of RegisterModuleComponents (lines 10-15): try autowiring
each component; one whose `Autowire` returns an error is added to the pending
list. -/
def autowireOrDefer (env : Env) : List Value → State → Result Unit × State
  | [], s => (Result.ok (), s)
  | component :: rest, s =>
    match Autowire env s component with
    | (Result.ok (), s1) => autowireOrDefer env rest s1
    | (Result.error _, s1) => autowireOrDefer env rest (AddForAutowiring s1 component)
    | (Result.panicked, s1) => (Result.panicked, s1)

/-- RegisterModuleComponents registers every component and then tries to
autowire each of them (`registerModuleComponents.go`, lines 3-16). -/
def RegisterModuleComponents (env : Env) (s : State) (components : List Value) :
    Result Unit × State :=
  autowireOrDefer env components (registerComponents s components)

/-- The state in which the second loop of `RegisterModuleComponents` autowires
component number `j`. -/
def stateBefore (env : Env) (s : State) (components : List Value) (j : Nat) : State :=
  (autowireOrDefer env (components.take j) (registerComponents s components)).2

/-- Component number `j` when its immediate `Autowire` did not succeed. -/
def deferredAt (env : Env) (s : State) (components : List Value) (j : Nat) : Option Value :=
  match components[j]? with
  | some component =>
    if (Autowire env (stateBefore env s components j) component).1 = Result.ok () then none
    else some component
  | none => none

/-- The components whose immediate `Autowire` did not succeed, in argument
order. -/
def deferredComponents (env : Env) (s : State) (components : List Value) : List Value :=
  (List.range components.length).filterMap (deferredAt env s components)

/-! ## An application with functions for `Invoke` -/

/-- The application of `demoEnv` with three functions: number 0 is
`func(s *TestService) string` and returns a string made from `s.Value`, number 1
is `func() Errno` and returns the value 13 of the non-pointer type `Errno`, which
implements `error`, and every other one is `func() error` and returns nil. -/
def invokeEnv : Env :=
  { demoEnv with
    implementsError := fun t => decide (t = GoType.iface "error" ∨ t = GoType.basic "Errno"),
    funcIn := fun sig => if sig = "func(*TestService) string" then [testServicePtr] else [],
    funcOut := fun sig =>
      if sig = "func(*TestService) string" then [GoType.basic "string"]
      else if sig = "func() Errno" then [GoType.basic "Errno"]
      else if sig = "func() error" then [GoType.iface "error"]
      else [],
    funcs := fun body args h =>
      if body = 0 then
        match args with
        | [Value.pointer _ (some a)] =>
          match h.read a with
          | some (Value.structV _ [Value.basic _ d]) => ([Value.basic "string" (1000 + d)], h)
          | _ => ([Value.basic "string" 0], h)
        | _ => ([Value.basic "string" 0], h)
      else if body = 1 then ([Value.basic "Errno" 13], h)
      else ([Value.nil], h) }

/-! ## Promises (`utils/async.go`, lines 9-69) -/

/-- How the task function handed to `Async` ends: it returns a result and an
error (`none` is the nil error), it panics with a value, or it never ends. -/
inductive TaskOutcome (α ε : Type) where
  | returned (result : α) (err : Option ε)
  | panics (r : String)
  | never

/-- The errors a promise can hold: the error the task returned, or the error
"panic in Async task: %v" made by the deferred `recover`. -/
inductive AsyncError (ε : Type) where
  | task (e : ε)
  | panicInAsyncTask (r : String)
deriving DecidableEq, Repr

/-- Promise represents a future result: the fields `result` and `err`, and
whether the channel `done` is closed. -/
structure Promise (α ε : Type) where
  result : α
  err : Option (AsyncError ε)
  done : Bool
deriving DecidableEq, Repr

/-- Async returns a promise whose fields are zero and whose channel is open
(lines 20-25); the goroutine runs from there. -/
def Async {α ε : Type} (zero : α) : Promise α ε :=
  { result := zero, err := none, done := false }

/-- Line 36 of the goroutine, `p.result, p.err = fn(ctx)`: the assignment
happens when the task returns; the second component is the panic in flight; a
task that never ends gives `none`. -/
def Promise.runTask {α ε : Type} (p : Promise α ε) :
    TaskOutcome α ε → Option (Promise α ε × Option String)
  | .returned result err =>
    some ({ p with result := result, err := err.map AsyncError.task }, none)
  | .panics r => some (p, some r)
  | .never => none

/-- The deferred function of lines 30-34: a recovered panic is stored in
`p.err`. -/
def Promise.recovered {α ε : Type} (p : Promise α ε) : Option String → Promise α ε
  | some r => { p with err := some (AsyncError.panicInAsyncTask r) }
  | none => p

/-- The deferred `close(p.done)` of line 29, which runs last. -/
def Promise.closeDone {α ε : Type} (p : Promise α ε) : Promise α ε :=
  { p with done := true }

/-- The goroutine started by `Async` (lines 28-37), run to its end; a task that
never ends leaves the promise as it is. -/
def Promise.goroutine {α ε : Type} (p : Promise α ε) (outcome : TaskOutcome α ε) :
    Promise α ε :=
  match p.runTask outcome with
  | some (p1, inFlight) => (p1.recovered inFlight).closeDone
  | none => p

/-- Await blocks until the promise is resolved and returns the result (lines
66-69); `none` is a receive from the open channel, which blocks. -/
def Promise.Await {α ε : Type} (p : Promise α ε) : Option (α × Option (AsyncError ε)) :=
  if p.done then some (p.result, p.err) else none

/-! ## Concurrent resolution of a Singleton (`container.go`, lines 154-156 and 190-201) -/

/-- The program points of a goroutine inside a resolution of a Singleton
registration: before `c.lock.RLock()`, holding the read lock, after finding
`registration.Instance == nil` (line 192), after `registration.Factory()`
returned (line 197), about to return its instance, after the return and the
deferred `RUnlock`, and after returning an error. -/
inductive Pc where
  | start
  | locked
  | sawNil
  | created (inst : Value)
  | returning (inst : Value)
  | done (inst : Value)
  | failed
deriving DecidableEq, Repr

/-- The data the goroutines share: the registration record, the state of the
`sync.RWMutex`, the memory and the trace of factory calls. -/
structure Shared where
  reg : ServiceRegistration
  readers : Nat
  writer : Bool
  heap : Heap
  calls : List ServiceFactory
deriving DecidableEq, Repr

/-- One statement of a goroutine.  `RLock` waits only for a writer; the nil
check, the factory call and the store into `registration.Instance` are separate
statements. -/
def threadStep (env : Env) (sh : Shared) : Pc → Shared × Pc
  | .start => if sh.writer then (sh, Pc.start) else ({ sh with readers := sh.readers + 1 }, Pc.locked)
  | .locked =>
    if sh.reg.Instance ≠ Value.nil then (sh, Pc.returning sh.reg.Instance)
    else
      match sh.reg.Factory with
      | some _ => (sh, Pc.sawNil)
      | none => ({ sh with readers := sh.readers - 1 }, Pc.failed)
  | .sawNil =>
    match sh.reg.Factory with
    | some factory =>
      match factory.call env sh.heap with
      | some (inst, heap) =>
        ({ sh with heap := heap, calls := sh.calls ++ [factory] }, Pc.created inst)
      | none => ({ sh with readers := sh.readers - 1, calls := sh.calls ++ [factory] }, Pc.failed)
    | none => ({ sh with readers := sh.readers - 1 }, Pc.failed)
  | .created inst => ({ sh with reg := { sh.reg with Instance := inst } }, Pc.returning inst)
  | .returning inst => ({ sh with readers := sh.readers - 1 }, Pc.done inst)
  | .done inst => (sh, Pc.done inst)
  | .failed => (sh, Pc.failed)

/-- The shared data and the program point of every goroutine. -/
structure Conc where
  shared : Shared
  threads : List Pc
deriving DecidableEq, Repr

/-- The goroutine number `tid` runs its next statement. -/
def concStep (env : Env) (c : Conc) (tid : Nat) : Conc :=
  match c.threads[tid]? with
  | some pc =>
    { shared := (threadStep env c.shared pc).1,
      threads := listSet c.threads tid (threadStep env c.shared pc).2 }
  | none => c

/-- The goroutines run their statements in the order of a schedule. -/
def concRun (env : Env) (c : Conc) (schedule : List Nat) : Conc :=
  schedule.foldl (concStep env) c

/-! ## Module initialisation (`core.go`, lines 51-82) -/

/-- A module as `InitModules` sees it: its name, the outcome of its
`OnModuleInit` hook (`none` when the module has no hook, `some none` for a nil
error, `some (some e)` for the error `e`), and the container calls its
`Register` makes. -/
structure Module where
  name : String
  onModuleInit : Option (Option String)
  register : List Op
deriving Repr

/-- The data `InitModules` works on: the container, and the names of the modules
whose `Register` ran and whose routes were mounted, in order. -/
structure Boot where
  s : State
  registered : List String
  mounted : List String
deriving DecidableEq, Repr

/-- What `InitModules` returns: nil, the error "failed to initialize %d
modules", or a panic. -/
inductive InitResult where
  | nil
  | failedToInitialize (n : Nat)
  | panicked
deriving DecidableEq, Repr

/-- The loop of lines 54-72: a module whose hook fails is skipped and its error
collected; every other module is registered and mounted. -/
def initLoop (env : Env) : List Module → Boot → List String → Boot × List String
  | [], b, initErrors => (b, initErrors)
  | module :: rest, b, initErrors =>
    match module.onModuleInit with
    | some (some err) => initLoop env rest b (initErrors ++ [err])
    | _ =>
      initLoop env rest
        { s := run env b.s module.register,
          registered := b.registered ++ [module.name],
          mounted := b.mounted ++ [module.name] } initErrors

/-- InitModules initialises, registers and mounts the modules and then calls
`AutowireAll`, whose returned error is dropped (lines 51-82). -/
def InitModules (env : Env) (modules : List Module) (b : Boot) : InitResult × Boot :=
  let r := initLoop env modules b []
  if r.2.length > 0 then (InitResult.failedToInitialize r.2.length, r.1)
  else
    match AutowireAll env r.1.s with
    | (Result.panicked, s1) => (InitResult.panicked, { r.1 with s := s1 })
    | (_, s1) => (InitResult.nil, { r.1 with s := s1 })

/-- Whether the `OnModuleInit` hook of a module returns a non-nil error. -/
def Module.hookFails (module : Module) : Bool :=
  match module.onModuleInit with
  | some (some _) => true
  | _ => false

/-- The container calls made by the `Register` of the modules whose hook does
not fail, in order. -/
def initOps : List Module → List Op
  | [] => []
  | module :: rest => if module.hookFails then initOps rest else module.register ++ initOps rest

/-- The names of the modules whose hook does not fail, in order. -/
def initNames : List Module → List String
  | [] => []
  | module :: rest => if module.hookFails then initNames rest else module.name :: initNames rest

/-- Two goroutines about to resolve a Singleton registered with factory number
0 of `demoEnv`, over `demoHeap`. -/
def raceStart : Conc :=
  { shared :=
      { reg := { Instance := Value.nil, Factory := some (ServiceFactory.closure 0),
                 Scope := Singleton },
        readers := 0, writer := false, heap := demoHeap, calls := [] },
    threads := [Pc.start, Pc.start] }

/-- The state `demoState` with one more variable, `n int`, at address 6. -/
def demoIntState : State :=
  { demoState with heap := (demoHeap.alloc (Value.basic "int" 0)).2 }

/-- The target `&n` for the variable `n int` at address 6. -/
def demoIntTarget : Value := Value.pointer (GoType.basic "int") (some 6)

/-! ## Observations and applications used to state what a resolution delivers -/

/-- The outcome `r` of a resolution delivered the value `x` to the target
variable at `addr`: the call returned the nil error and the variable holds `x`. -/
def Delivers (r : Result Unit × State) (addr : Nat) (x : Value) : Prop :=
  r.1 = Result.ok () ∧ r.2.heap.read addr = some x

instance (r : Result Unit × State) (addr : Nat) (x : Value) : Decidable (Delivers r addr x) :=
  inferInstanceAs (Decidable (r.1 = Result.ok () ∧ r.2.heap.read addr = some x))

/-- The application of `wireEnv` in which every factory closure has captured the
`Holder` at address 1: it overwrites that struct (clearing `hidden` and `Svc`,
setting `Plain` to 9 and `Tok` to the service at address 0) and returns the
service at address 0. -/
def scribbleEnv : Env :=
  { wireEnv with
    factories := fun _ h =>
      (demoService,
        h.write 1 (Value.structV "Holder"
          [Value.pointer (GoType.struct "TestService") none,
           Value.pointer (GoType.struct "TestService") none,
           Value.basic "string" 9,
           demoService])) }

/-- A memory with an `Other` (a struct without fields) at address 0 and two
variables of type `*Other` at the addresses 1 and 2. -/
def otherHeap : Heap :=
  { cells := [(0, Value.structV "Other" []),
              (1, Value.pointer (GoType.struct "Other") none),
              (2, Value.pointer (GoType.struct "Other") none)],
    next := 3 }

/-- A new container over `otherHeap`. -/
def otherState : State := { c := NewContainer, heap := otherHeap, calls := [] }

/-- The prototype `&Other{}` at address 0. -/
def otherProto : Value := Value.pointer (GoType.struct "Other") (some 0)

/-- The target `&p` for the variable `p *Other` at address 1. -/
def otherTarget1 : Value := Value.pointer (GoType.ptr (GoType.struct "Other")) (some 1)

/-- The target `&q` for the variable `q *Other` at address 2. -/
def otherTarget2 : Value := Value.pointer (GoType.ptr (GoType.struct "Other")) (some 2)

/-! ## Basic facts about maps -/

theorem mapGet_mapSet_self {κ ν : Type} [DecidableEq κ] (m : List (κ × ν)) (k : κ) (v : ν) :
    mapGet (mapSet m k v) k = some v := by
  induction m with
  | nil => simp [mapSet, mapGet]
  | cons e m ih =>
    obtain ⟨k', v'⟩ := e
    by_cases h : k' = k
    · simp [mapSet, mapGet, h]
    · simp [mapSet, mapGet, h, ih]

theorem mapGet_mapSet_other {κ ν : Type} [DecidableEq κ] (m : List (κ × ν)) (k k' : κ)
    (v : ν) (h : k' ≠ k) : mapGet (mapSet m k v) k' = mapGet m k' := by
  induction m with
  | nil => simp [mapSet, mapGet, Ne.symm h]
  | cons e m ih =>
    obtain ⟨k0, v0⟩ := e
    by_cases h0 : k0 = k
    · subst h0
      simp [mapSet, mapGet, Ne.symm h]
    · by_cases h1 : k0 = k'
      · subst h1
        simp [mapSet, mapGet, h0]
      · simp [mapSet, mapGet, h0, h1, ih]

theorem mapGet_mapDelete_self {κ ν : Type} [DecidableEq κ] (m : List (κ × ν)) (k : κ) :
    mapGet (mapDelete m k) k = none := by
  induction m with
  | nil => simp [mapDelete, mapGet]
  | cons e m ih =>
    obtain ⟨k0, v0⟩ := e
    by_cases h0 : k0 = k
    · simpa [mapDelete, List.filter, h0] using ih
    · simpa [mapDelete, List.filter, h0, mapGet] using ih

theorem mapGet_mapDelete_other {κ ν : Type} [DecidableEq κ] (m : List (κ × ν)) (k k' : κ)
    (h : k' ≠ k) : mapGet (mapDelete m k) k' = mapGet m k' := by
  induction m with
  | nil => simp [mapDelete, mapGet]
  | cons e m ih =>
    obtain ⟨k0, v0⟩ := e
    by_cases h0 : k0 = k
    · subst h0
      have h1 : ¬ k0 = k' := fun e => h e.symm
      simpa [mapDelete, List.filter, mapGet, h1] using ih
    · by_cases h1 : k0 = k'
      · subst h1
        simp [mapDelete, List.filter, h0, mapGet]
      · simpa [mapDelete, List.filter, h0, mapGet, h1] using ih

theorem scopedGet_scopedSet_self {κ : Type} [DecidableEq κ]
    (m : List (String × List (κ × Value))) (scopeKey : String) (key : κ) (inst : Value) :
    scopedGet (scopedSet m scopeKey key inst) scopeKey key = some inst := by
  unfold scopedGet scopedSet
  cases h : mapGet m scopeKey <;> simp [mapGet_mapSet_self]

theorem scopedGet_scopedSet_other {κ : Type} [DecidableEq κ]
    (m : List (String × List (κ × Value))) (scopeKey scopeKey' : String) (key key' : κ)
    (inst : Value) (h : scopeKey' ≠ scopeKey ∨ key' ≠ key) :
    scopedGet (scopedSet m scopeKey key inst) scopeKey' key' = scopedGet m scopeKey' key' := by
  unfold scopedGet scopedSet
  by_cases hs : scopeKey' = scopeKey
  · subst hs
    have hk : key' ≠ key := by
      rcases h with h | h
      · exact absurd rfl h
      · exact h
    cases hm : mapGet m scopeKey' <;>
      simp [mapGet_mapSet_self, mapGet_mapSet_other, hk, Ne.symm hk, mapGet]
  · cases hm : mapGet m scopeKey <;> simp [mapGet_mapSet_other, hs]

/-! ## Basic facts about allocation -/

theorem zeroSized_of_ptr (env : Env) (t : GoType) (hk : t.kind = Kind.ptr) :
    (zeroValue env t).zeroSized = false := by
  cases t with
  | ptr elem => simp [zeroValue, Value.zeroSized]
  | struct name => cases hk
  | iface name => cases hk
  | func sig => cases hk
  | basic name => cases hk

theorem newVar_sized (env : Env) (t : GoType) (h : Heap)
    (hz : (zeroValue env t).zeroSized = false) :
    newVar env t h = h.alloc (zeroValue env t) := by
  simp [newVar, hz]

theorem reflectNew_sized (env : Env) (t : GoType) (h : Heap)
    (hz : (zeroValue env t).zeroSized = false) :
    reflectNew env t h = (Value.pointer t (some h.next), (h.alloc (zeroValue env t)).2) := by
  simp [reflectNew, newVar_sized env t h hz, Heap.alloc]

theorem newVar_cases (env : Env) (t : GoType) (h : Heap) :
    newVar env t h = h.alloc (zeroValue env t) ∨
    (∃ a, newVar env t h = (a, h)) ∨
    newVar env t h = (h.next,
      { (h.alloc (zeroValue env t)).2 with zero := mapSet h.zero t h.next }) := by
  unfold newVar
  by_cases hz : (zeroValue env t).zeroSized = true
  · rw [if_pos hz]
    cases hm : mapGet h.zero t with
    | some a => exact Or.inr (Or.inl ⟨a, rfl⟩)
    | none => exact Or.inr (Or.inr rfl)
  · rw [if_neg hz]; exact Or.inl rfl

theorem newVar_frame {env : Env} {Rel : State → State → Prop} (F : Frame env Rel)
    (s : State) (t : GoType) : Rel s { s with heap := (newVar env t s.heap).2 } := by
  rcases newVar_cases env t s.heap with e | ⟨a, e⟩ | e <;> rw [e]
  · exact F.alloc s (zeroValue env t)
  · exact F.refl s
  · exact F.trans (F.alloc s (zeroValue env t)) (F.heapOnly _ _ ⟨rfl, rfl, rfl⟩)

theorem newVar_next_le (env : Env) (t : GoType) (h : Heap) :
    h.next ≤ (newVar env t h).2.next := by
  rcases newVar_cases env t h with e | ⟨a, e⟩ | e <;> rw [e] <;> simp [Heap.alloc]

theorem newVar_read (env : Env) (t : GoType) (h : Heap) (a : Nat) (ha : a < h.next) :
    (newVar env t h).2.read a = h.read a := by
  have hne : a ≠ h.next := Nat.ne_of_lt ha
  rcases newVar_cases env t h with e | ⟨b, e⟩ | e <;> rw [e]
  · simp only [Heap.alloc, Heap.read]
    exact mapGet_mapSet_other _ _ _ _ hne
  · simp only [Heap.alloc, Heap.read]
    exact mapGet_mapSet_other _ _ _ _ hne

/-! ## Frame properties of the resolution operations -/

theorem regStep_refl (a : Option ServiceRegistration) : RegStep a a := Or.inl rfl

theorem regStep_trans {a b c : Option ServiceRegistration} (h1 : RegStep a b)
    (h2 : RegStep b c) : RegStep a c := by
  rcases h1 with rfl | ⟨reg, inst, rfl, hs, hi, rfl⟩
  · exact h2
  · rcases h2 with rfl | ⟨reg', inst', h', _, _, rfl⟩
    · exact Or.inr ⟨reg, inst, rfl, hs, hi, rfl⟩
    · cases h'
      exact Or.inr ⟨reg, inst', rfl, hs, hi, rfl⟩

theorem regStep_pinned {a b : Option ServiceRegistration} {reg : ServiceRegistration}
    (h : RegStep a b) (ha : a = some reg)
    (hreg : reg.Instance ≠ Value.nil ∨ reg.Scope ≠ Singleton) : b = some reg := by
  rcases h with rfl | ⟨reg', inst, h', hs, hi, rfl⟩
  · exact ha
  · rw [ha] at h'
    cases h'
    rcases hreg with h | h
    · exact absurd hi h
    · exact absurd hs h

@[simp] theorem afterCall_lookup (s : State) (f : ServiceFactory) (h : Heap) (R : RegRef) :
    (s.afterCall f h).lookup R = s.lookup R := by
  cases R <;> rfl

@[simp] theorem scopedStore_lookup (s : State) (st : Option GoType) (tok sk : String)
    (inst : Value) (R : RegRef) : (s.scopedStore st tok sk inst).lookup R = s.lookup R := by
  unfold State.scopedStore
  split <;> cases R <;> rfl

@[simp] theorem setVar_lookup (s : State) (a : Nat) (v : Value) (R : RegRef) :
    (s.setVar a v).lookup R = s.lookup R := by
  cases R <;> rfl

theorem setInstance_lookup_self (s : State) (ref : RegRef) (reg : ServiceRegistration)
    (inst : Value) :
    (s.setInstance ref reg inst).lookup ref = some { reg with Instance := inst } := by
  cases ref <;> simp [State.setInstance, State.lookup, mapGet_mapSet_self]

theorem setInstance_lookup_other (s : State) (ref R : RegRef) (reg : ServiceRegistration)
    (inst : Value) (h : R ≠ ref) : (s.setInstance ref reg inst).lookup R = s.lookup R := by
  cases ref <;> cases R <;> simp [State.setInstance, State.lookup]
  · rename_i k k'
    exact mapGet_mapSet_other _ _ _ _ (fun e => h (by rw [e]))
  · rename_i k k'
    exact mapGet_mapSet_other _ _ _ _ (fun e => h (by rw [e]))

theorem getInstance_state (env : Env) (s : State) (ref : RegRef)
    (reg : ServiceRegistration) (st : Option GoType) (tok sk : String) :
    (getInstance env s ref reg st tok sk).2 = s ∨
    (∃ f inst h, reg.Scope = Singleton ∧ reg.Instance = Value.nil ∧
      f.call env s.heap = some (inst, h) ∧
      (getInstance env s ref reg st tok sk).2 = (s.afterCall f h).setInstance ref reg inst) ∨
    (∃ f h, (h = s.heap ∨ ∃ inst, f.call env s.heap = some (inst, h)) ∧
      (getInstance env s ref reg st tok sk).2 = s.afterCall f h) ∨
    (∃ f inst h, sk ≠ "" ∧ f.call env s.heap = some (inst, h) ∧
      (getInstance env s ref reg st tok sk).2 = (s.afterCall f h).scopedStore st tok sk inst) := by
  unfold getInstance
  by_cases h1 : reg.Scope = Singleton
  · simp only [h1, if_true]
    by_cases h2 : reg.Instance = Value.nil
    · simp only [h2, ne_eq, not_true_eq_false, if_false]
      cases hf : reg.Factory with
      | none => exact Or.inl rfl
      | some f =>
        cases hc : f.call env s.heap with
        | none => exact Or.inr (Or.inr (Or.inl ⟨f, s.heap, Or.inl rfl, by simp [hc]⟩))
        | some p =>
          obtain ⟨inst, h⟩ := p
          exact Or.inr (Or.inl ⟨f, inst, h, trivial, trivial, hc, by simp [hc]⟩)
    · simp only [ne_eq, h2, not_false_eq_true, if_true]
      exact Or.inl trivial
  · simp only [h1, if_false]
    by_cases h3 : reg.Scope = Transient
    · simp only [h3, if_true]
      cases hf : reg.Factory with
      | none => exact Or.inl rfl
      | some f =>
        cases hc : f.call env s.heap with
        | none => exact Or.inr (Or.inr (Or.inl ⟨f, s.heap, Or.inl rfl, by simp [hc]⟩))
        | some p =>
          obtain ⟨inst, h⟩ := p
          exact Or.inr (Or.inr (Or.inl ⟨f, h, Or.inr ⟨inst, hc⟩, by simp [hc]⟩))
    · simp only [h3, if_false]
      by_cases h4 : reg.Scope = Scoped
      · simp only [h4, if_true]
        by_cases h5 : sk = ""
        · simp only [h5, if_true]
          exact Or.inl trivial
        · simp only [h5, if_false]
          cases hl : s.scopedLookup st tok sk with
          | some inst => exact Or.inl rfl
          | none =>
            cases hf : reg.Factory with
            | none =>
              by_cases h6 : reg.Instance = Value.nil
              · simp [h6]
              · simp [h6]
            | some f =>
              cases hc : f.call env s.heap with
              | none => exact Or.inr (Or.inr (Or.inl ⟨f, s.heap, Or.inl rfl, by simp [hc]⟩))
              | some p =>
                obtain ⟨inst, h⟩ := p
                exact Or.inr (Or.inr (Or.inr ⟨f, inst, h, h5, hc, by simp [hc]⟩))
      · simp only [h4, if_false]
        exact Or.inl trivial

theorem getInstance_regStep (env : Env) (s : State) (ref : RegRef)
    (reg : ServiceRegistration) (st : Option GoType) (tok sk : String)
    (hreg : s.lookup ref = some reg) (R : RegRef) :
    RegStep (s.lookup R) ((getInstance env s ref reg st tok sk).2.lookup R) := by
  rcases getInstance_state env s ref reg st tok sk with h | ⟨f, inst, h, hs, hi, _, e⟩ |
    ⟨f, h, _, e⟩ | ⟨f, inst, h, _, _, e⟩
  · rw [h]; exact regStep_refl _
  · rw [e]
    by_cases hR : R = ref
    · subst hR
      rw [setInstance_lookup_self]
      exact Or.inr ⟨reg, inst, hreg, hs, hi, rfl⟩
    · rw [setInstance_lookup_other _ _ _ _ _ hR, afterCall_lookup]
      exact regStep_refl _
  · rw [e, afterCall_lookup]; exact regStep_refl _
  · rw [e, scopedStore_lookup, afterCall_lookup]; exact regStep_refl _

theorem heapOnly_refl (s : State) : HeapOnly s s := ⟨rfl, rfl, rfl⟩

theorem heapOnly_lookup {s s' : State} (h : HeapOnly s s') (R : RegRef) :
    s'.lookup R = s.lookup R := by
  cases R <;> simp [State.lookup, h.1]

theorem setVar_heapOnly (s : State) (a : Nat) (v : Value) : HeapOnly s (s.setVar a v) :=
  ⟨rfl, rfl, rfl⟩

theorem setFieldVar_heapOnly (s : State) (a i : Nat) (v : Value) :
    HeapOnly s (s.setFieldVar a i v).2 := by
  unfold State.setFieldVar Heap.setField
  split
  · rename_i heap hh
    refine ⟨rfl, rfl, ?_⟩
    split at hh
    · split at hh
      · cases hh; rfl
      · cases hh
    · cases hh
  · exact heapOnly_refl s

theorem assignInstance_heapOnly (env : Env) (s : State) (inst : Value) (typ : GoType)
    (addr : Nat) (targetType : GoType) :
    HeapOnly s (assignInstance env s inst typ addr targetType).2 := by
  unfold assignInstance
  repeat' split
  all_goals exact heapOnly_refl s

theorem assignByToken_heapOnly (env : Env) (s : State) (inst : Value) (elem : Ref) :
    HeapOnly s (assignByToken env s inst elem).2 := by
  unfold assignByToken
  repeat' split
  all_goals exact heapOnly_refl s

theorem assignField_heapOnly (env : Env) (s : State) (field : StructField) (addr i : Nat)
    (inst : Value) : HeapOnly s (assignField env s field addr i inst).2 := by
  unfold assignField
  repeat' split
  all_goals first | exact heapOnly_refl s | exact setFieldVar_heapOnly s _ _ _


theorem resolveType_frame {env : Env} {Rel : State → State → Prop} (F : Frame env Rel)
    (s : State) (typ : GoType) (addr : Nat) (targetType : GoType) (sk : String) :
    Rel s (resolveType env s typ addr targetType sk).2 := by
  unfold resolveType
  cases hreg : mapGet s.c.typeServices (some targetType) with
  | none => exact F.refl s
  | some registration =>
    simp only
    have hg := F.resolve s (RegRef.type (some targetType)) registration (some targetType) "" sk
      hreg
    cases hgi : getInstance env s (RegRef.type (some targetType)) registration
      (some targetType) "" sk with
    | mk r s1 =>
      rw [hgi] at hg
      cases r with
      | ok inst => exact F.trans hg (F.heapOnly _ _ (assignInstance_heapOnly _ _ _ _ _ _))
      | error e => exact hg
      | panicked => exact hg

theorem ResolveWithScope_frame {env : Env} {Rel : State → State → Prop} (F : Frame env Rel)
    (s : State) (target : Value) (sk : String) :
    Rel s (ResolveWithScope env s target sk).2 := by
  unfold ResolveWithScope
  by_cases hk : target.kind ≠ Kind.ptr
  · rw [if_pos hk]; exact F.refl s
  · rw [if_neg hk]
    cases target.elem with
    | zero => exact F.refl s
    | var typ addr =>
      simp only
      by_cases h1 : typ.kind = Kind.ptr
      · rw [if_pos h1]; exact resolveType_frame F s typ addr typ sk
      · rw [if_neg h1]
        by_cases h2 : typ.kind = Kind.struct
        · rw [if_pos h2]; exact resolveType_frame F s typ addr (GoType.ptr typ) sk
        · rw [if_neg h2]; exact F.refl s

theorem ResolveByWithScope_frame {env : Env} {Rel : State → State → Prop} (F : Frame env Rel)
    (s : State) (token : String) (target : Value) (sk : String) :
    Rel s (ResolveByWithScope env s token target sk).2 := by
  unfold ResolveByWithScope
  cases hreg : mapGet s.c.tokenServices token with
  | none => exact F.refl s
  | some registration =>
    simp only
    by_cases hk : target.kind ≠ Kind.ptr
    · rw [if_pos hk]; exact F.refl s
    · rw [if_neg hk]
      have hg := F.resolve s (RegRef.token token) registration target.typeOf token sk hreg
      cases hgi : getInstance env s (RegRef.token token) registration target.typeOf token
        sk with
      | mk r s1 =>
        rw [hgi] at hg
        cases r with
        | ok inst => exact F.trans hg (F.heapOnly _ _ (assignByToken_heapOnly _ _ _ _))
        | error e => exact hg
        | panicked => exact hg

theorem resolveField_frame {env : Env} {Rel : State → State → Prop} (F : Frame env Rel)
    (s : State) (field : StructField) (sk : String) :
    Rel s (resolveField env s field sk).2 := by
  unfold resolveField
  by_cases ht : field.inject = "type"
  · rw [if_pos ht]
    cases hreg : mapGet s.c.typeServices (some field.Typ) with
    | none => exact F.refl s
    | some registration => exact F.resolve s _ registration _ _ _ hreg
  · rw [if_neg ht]
    cases hreg : mapGet s.c.tokenServices field.inject with
    | none => exact F.refl s
    | some registration => exact F.resolve s _ registration _ _ _ hreg

theorem autowireFields_frame {env : Env} {Rel : State → State → Prop} (F : Frame env Rel)
    (sk : String) (addr : Nat) (fields : List StructField) :
    ∀ (i : Nat) (s : State), Rel s (autowireFields env sk addr fields i s).2 := by
  induction fields with
  | nil => intro i s; exact F.refl s
  | cons field rest ih =>
    intro i s
    unfold autowireFields
    by_cases h1 : field.inject = ""
    · rw [if_pos h1]; exact ih _ _
    · rw [if_neg h1]
      by_cases h2 : (!field.canSet) = true
      · rw [if_pos h2]; exact ih _ _
      · rw [if_neg h2]
        have hg := resolveField_frame F s field sk
        cases hgi : resolveField env s field sk with
        | mk r s1 =>
          rw [hgi] at hg
          cases r with
          | error e => exact hg
          | panicked => exact hg
          | ok inst =>
            simp only
            have ha := F.heapOnly _ _ (assignField_heapOnly env s1 field addr i inst)
            cases hai : assignField env s1 field addr i inst with
            | mk r2 s2 =>
              rw [hai] at ha
              cases r2 with
              | ok u => exact F.trans hg (F.trans ha (ih _ _))
              | error e => exact F.trans hg ha
              | panicked => exact F.trans hg ha

theorem AutowireWithScope_frame {env : Env} {Rel : State → State → Prop} (F : Frame env Rel)
    (s : State) (target : Value) (sk : String) :
    Rel s (AutowireWithScope env s target sk).2 := by
  unfold AutowireWithScope
  split
  · exact F.refl s
  · split
    · exact autowireFields_frame F _ _ _ _ _
    · exact F.refl s

theorem autowireAllLoop_frame {env : Env} {Rel : State → State → Prop} (F : Frame env Rel)
    (pending : List Value) : ∀ s : State, Rel s (autowireAllLoop env pending s).2 := by
  induction pending with
  | nil => intro s; exact F.refl s
  | cons component rest ih =>
    intro s
    unfold autowireAllLoop
    have hg : Rel s (Autowire env s component).2 := AutowireWithScope_frame F s component ""
    cases hgi : Autowire env s component with
    | mk r s1 =>
      rw [hgi] at hg
      cases r with
      | ok u => exact F.trans hg (ih s1)
      | error e => exact hg
      | panicked => exact hg

theorem AutowireAll_frame {env : Env} {Rel : State → State → Prop} (F : Frame env Rel)
    (s : State) : Rel s (AutowireAll env s).2 := by
  unfold AutowireAll
  have hg := autowireAllLoop_frame F s.c.pendingAutowire s
  cases hgi : autowireAllLoop env s.c.pendingAutowire s with
  | mk r s1 =>
    rw [hgi] at hg
    cases r with
    | ok u => exact F.trans hg (F.drain s1)
    | error e => exact hg
    | panicked => exact hg

theorem invokeArgs_frame {env : Env} {Rel : State → State → Prop} (F : Frame env Rel)
    (argTypes : List GoType) : ∀ (i : Nat) (s : State),
    Rel s (invokeArgs env argTypes i s).2 := by
  induction argTypes with
  | nil => intro i s; exact F.refl s
  | cons argType rest ih =>
    intro i s
    unfold invokeArgs
    simp only
    have h0 : Rel s { s with heap := (reflectNew env argType s.heap).2 } :=
      newVar_frame F s argType
    have hg : Rel { s with heap := (reflectNew env argType s.heap).2 }
        (Resolve env { s with heap := (reflectNew env argType s.heap).2 }
          (reflectNew env argType s.heap).1).2 := ResolveWithScope_frame F _ _ ""
    cases hgi : Resolve env { s with heap := (reflectNew env argType s.heap).2 }
        (reflectNew env argType s.heap).1 with
    | mk r s1 =>
      rw [hgi] at hg
      cases r with
      | error e => exact F.trans h0 hg
      | panicked => exact F.trans h0 hg
      | ok u =>
        simp only
        have h2 := ih (i + 1) s1
        cases hia : invokeArgs env rest (i + 1) s1 with
        | mk r2 s2 =>
          rw [hia] at h2
          cases r2 <;> exact F.trans h0 (F.trans hg h2)

theorem Invoke_frame {env : Env} {Rel : State → State → Prop} (F : Frame env Rel)
    (s : State) (fn : Value) : Rel s (Invoke env s fn).2 := by
  unfold Invoke
  by_cases hk : fn.kind ≠ Kind.func
  · rw [if_pos hk]; exact F.refl s
  · rw [if_neg hk]
    cases fn with
    | func sig code =>
      simp only
      have hg := invokeArgs_frame F (env.funcIn sig) 0 s
      cases hia : invokeArgs env (env.funcIn sig) 0 s with
      | mk r s1 =>
        rw [hia] at hg
        cases r with
        | error e => exact hg
        | panicked => exact hg
        | ok addrs =>
          simp only
          cases code with
          | none => exact hg
          | some body =>
            cases readArgs s1.heap addrs with
            | none => exact hg
            | some args => exact F.trans hg (F.call s1 body args)
    | nil => exact F.refl s
    | pointer _ _ => exact F.refl s
    | structV _ _ => exact F.refl s
    | basic _ _ => exact F.refl s

theorem regFrame (env : Env) (R : RegRef) :
    Frame env (fun s s1 => RegStep (s.lookup R) (s1.lookup R)) where
  refl := fun s => regStep_refl _
  trans := fun h1 h2 => regStep_trans h1 h2
  resolve := fun s ref reg st tok sk hreg => getInstance_regStep env s ref reg st tok sk hreg R
  heapOnly := fun s s1 h => by rw [heapOnly_lookup h]; exact regStep_refl _
  alloc := fun s v => by cases R <;> exact regStep_refl _
  call := fun s body args => by cases R <;> exact regStep_refl _
  drain := fun s => by cases R <;> exact regStep_refl _

theorem step_regStep (env : Env) (s : State) (op : Op) (R : RegRef)
    (hop : op.registers R = false) : RegStep (s.lookup R) ((step env s op).lookup R) := by
  cases op with
  | registerScoped service scope =>
    have h : RegRef.type service.typeOf ≠ R := by simpa [Op.registers] using hop
    cases R with
    | type key =>
      have hk : key ≠ service.typeOf := fun e => h (by rw [e])
      simp [step, RegisterScoped, State.lookup, mapGet_mapSet_other _ _ _ _ hk, regStep_refl]
    | token t => exact regStep_refl _
  | registerFactory serviceType factory scope =>
    have h : RegRef.type serviceType ≠ R := by simpa [Op.registers] using hop
    cases R with
    | type key =>
      have hk : key ≠ serviceType := fun e => h (by rw [e])
      simp [step, RegisterFactory, State.lookup, mapGet_mapSet_other _ _ _ _ hk, regStep_refl]
    | token t => exact regStep_refl _
  | registerTransient prototype =>
    have h : RegRef.type prototype.typeOf ≠ R := by simpa [Op.registers] using hop
    cases R with
    | type key =>
      have hk : key ≠ prototype.typeOf := fun e => h (by rw [e])
      simp [step, RegisterTransient, RegisterTransientFactory, RegisterFactory, State.lookup,
        mapGet_mapSet_other _ _ _ _ hk, regStep_refl]
    | token t => exact regStep_refl _
  | bindScoped token service scope =>
    have h : RegRef.token token ≠ R := by simpa [Op.registers] using hop
    cases R with
    | type key => exact regStep_refl _
    | token t =>
      have hk : t ≠ token := fun e => h (by rw [e])
      simp [step, BindScoped, State.lookup, mapGet_mapSet_other _ _ _ _ hk, regStep_refl]
  | bindFactory token factory scope =>
    have h : RegRef.token token ≠ R := by simpa [Op.registers] using hop
    cases R with
    | type key => exact regStep_refl _
    | token t =>
      have hk : t ≠ token := fun e => h (by rw [e])
      simp [step, BindFactory, State.lookup, mapGet_mapSet_other _ _ _ _ hk, regStep_refl]
  | bindTransient token prototype =>
    have h : RegRef.token token ≠ R := by simpa [Op.registers] using hop
    cases R with
    | type key => exact regStep_refl _
    | token t =>
      have hk : t ≠ token := fun e => h (by rw [e])
      simp [step, BindTransient, BindFactory, State.lookup, mapGet_mapSet_other _ _ _ _ hk,
        regStep_refl]
  | resolveWithScope target sk => exact ResolveWithScope_frame (regFrame env R) s target sk
  | resolveByWithScope token target sk =>
    exact ResolveByWithScope_frame (regFrame env R) s token target sk
  | autowireWithScope target sk => exact AutowireWithScope_frame (regFrame env R) s target sk
  | clearScope sk => cases R <;> exact regStep_refl _
  | addForAutowiring component => cases R <;> exact regStep_refl _
  | autowireAll => exact AutowireAll_frame (regFrame env R) s
  | invoke fn => exact Invoke_frame (regFrame env R) s fn

theorem run_regStep (env : Env) (R : RegRef) (ops : List Op) :
    ∀ s : State, (∀ op ∈ ops, op.registers R = false) →
      RegStep (s.lookup R) ((run env s ops).lookup R) := by
  induction ops with
  | nil => intro s _; exact regStep_refl _
  | cons op rest ih =>
    intro s h
    have h1 := step_regStep env s op R (h op (List.mem_cons_self _ _))
    have h2 := ih (step env s op) (fun o ho => h o (List.mem_cons_of_mem _ ho))
    exact regStep_trans h1 h2

theorem run_pinned (env : Env) (R : RegRef) (ops : List Op) (s : State)
    (reg : ServiceRegistration) (hops : ∀ op ∈ ops, op.registers R = false)
    (hs : s.lookup R = some reg)
    (hreg : reg.Instance ≠ Value.nil ∨ reg.Scope ≠ Singleton) :
    (run env s ops).lookup R = some reg :=
  regStep_pinned (run_regStep env R ops s hops) hs hreg

theorem run_append (env : Env) (s : State) (ops1 ops2 : List Op) :
    run env s (ops1 ++ ops2) = run env (run env s ops1) ops2 := by
  simp [run, List.foldl_append]

/-- Resolution by type when the target is well shaped and the key is registered:
the instance produced by `getInstance` is handed to `assignInstance`. -/
theorem ResolveWithScope_resolveType (env : Env) (s : State) (key typ : GoType) (addr : Nat)
    (sk : String) (hkey : ResolvesKey key typ) :
    ResolveWithScope env s (Value.pointer typ (some addr)) sk =
      resolveType env s typ addr key sk := by
  have hkind : (Value.pointer typ (some addr)).kind = Kind.ptr := rfl
  unfold ResolveWithScope
  rw [if_neg (by simp [hkind])]
  simp only [Value.elem]
  rcases hkey with ⟨h1, h2⟩ | ⟨h1, h2⟩
  · rw [if_pos h1, h2]
  · rw [if_neg (by rw [h1]; decide), if_pos h1, h2]

theorem ResolveWithScope_eq (env : Env) (s : State) (key typ : GoType) (addr : Nat)
    (sk : String) (reg : ServiceRegistration) (hkey : ResolvesKey key typ)
    (hreg : s.lookup (RegRef.type (some key)) = some reg) :
    ResolveWithScope env s (Value.pointer typ (some addr)) sk =
      match getInstance env s (RegRef.type (some key)) reg (some key) "" sk with
      | (Result.ok inst, s1) => assignInstance env s1 inst typ addr key
      | (Result.error e, s1) => (Result.error e, s1)
      | (Result.panicked, s1) => (Result.panicked, s1) := by
  have hreg' : mapGet s.c.typeServices (some key) = some reg := hreg
  rw [ResolveWithScope_resolveType env s key typ addr sk hkey]
  unfold resolveType
  simp only [hreg']

theorem getInstance_cached (env : Env) (s : State) (ref : RegRef)
    (reg : ServiceRegistration) (st : Option GoType) (tok sk : String)
    (hs : reg.Scope = Singleton) (hi : reg.Instance ≠ Value.nil) :
    getInstance env s ref reg st tok sk = (Result.ok reg.Instance, s) := by
  unfold getInstance
  rw [if_pos hs, if_pos hi]

theorem ResolveWithScope_cached (env : Env) (s : State) (key typ : GoType) (addr : Nat)
    (sk : String) (reg : ServiceRegistration) (hkey : ResolvesKey key typ)
    (hreg : s.lookup (RegRef.type (some key)) = some reg)
    (hs : reg.Scope = Singleton) (hi : reg.Instance ≠ Value.nil) :
    ResolveWithScope env s (Value.pointer typ (some addr)) sk =
      assignInstance env s reg.Instance typ addr key := by
  rw [ResolveWithScope_eq env s key typ addr sk reg hkey hreg,
    getInstance_cached env s _ reg _ _ _ hs hi]

theorem assignInstance_pointer (env : Env) (s : State) (elem : GoType) (pa : Option Nat)
    (addr : Nat) (targetType : GoType) :
    assignInstance env s (Value.pointer elem pa) (GoType.ptr elem) addr targetType =
      (Result.ok (), s.setVar addr (Value.pointer elem pa)) := by
  simp [assignInstance, GoType.kind, Value.typeOf, assignableTo]

theorem setVar_read (s : State) (a : Nat) (v : Value) : (s.setVar a v).heap.read a = some v := by
  simp [State.setVar, Heap.write, Heap.read, mapGet_mapSet_self]

theorem Register_lookup (s : State) (service : Value) :
    (Register s service).lookup (RegRef.type service.typeOf) =
      some { Instance := service, Factory := none, Scope := Singleton } := by
  simp [Register, RegisterScoped, State.lookup, mapGet_mapSet_self]

/-! ## The claims -/

/-- C1. Singleton identity (sequential): after `Register(p)` of a pointer to a
struct, and after any operations that do not register the type of `p` again,
every resolution into a pointer-to-pointer target of that type succeeds and
stores `p` itself in the target; hence two such resolutions, whatever happens in
between, yield the same instance. -/
theorem singleton_identity (env : Env) (s : State) (T : String) (pa : Option Nat)
    (ops1 ops2 : List Op) (a1 a2 : Nat) (sk1 sk2 : String)
    (h1 : ∀ op ∈ ops1, op.registers (RegRef.type (some (GoType.ptr (GoType.struct T)))) = false)
    (h2 : ∀ op ∈ ops2, op.registers (RegRef.type (some (GoType.ptr (GoType.struct T)))) = false) :
    let p := Value.pointer (GoType.struct T) pa
    let target1 := Value.pointer (GoType.ptr (GoType.struct T)) (some a1)
    let target2 := Value.pointer (GoType.ptr (GoType.struct T)) (some a2)
    let s1 := run env (Register s p) ops1
    let r1 := ResolveWithScope env s1 target1 sk1
    let s2 := run env r1.2 ops2
    let r2 := ResolveWithScope env s2 target2 sk2
    r1 = (Result.ok (), s1.setVar a1 p) ∧ r1.2.heap.read a1 = some p ∧
    r2 = (Result.ok (), s2.setVar a2 p) ∧ r2.2.heap.read a2 = some p := by
  intro p target1 target2 s1 r1 s2 r2
  have hk : ResolvesKey (GoType.ptr (GoType.struct T)) (GoType.ptr (GoType.struct T)) :=
    Or.inl ⟨rfl, rfl⟩
  have hreg : (Register s p).lookup (RegRef.type (some (GoType.ptr (GoType.struct T)))) =
      some { Instance := p, Factory := none, Scope := Singleton } := Register_lookup s p
  have hp : p ≠ Value.nil := by simp [p]
  have hpin1 := run_pinned env _ ops1 _ _ h1 hreg (Or.inl hp)
  have e1 : r1 = (Result.ok (), s1.setVar a1 p) := by
    simp only [r1, target1]
    rw [ResolveWithScope_cached env s1 _ _ a1 sk1 _ hk hpin1 rfl hp]
    exact assignInstance_pointer env s1 _ pa a1 _
  have hpin1' : r1.2.lookup (RegRef.type (some (GoType.ptr (GoType.struct T)))) =
      some { Instance := p, Factory := none, Scope := Singleton } := by
    rw [e1]; simpa using hpin1
  have hpin2 := run_pinned env _ ops2 _ _ h2 hpin1' (Or.inl hp)
  have e2 : r2 = (Result.ok (), s2.setVar a2 p) := by
    simp only [r2, target2]
    rw [ResolveWithScope_cached env s2 _ _ a2 sk2 _ hk hpin2 rfl hp]
    exact assignInstance_pointer env s2 _ pa a2 _
  refine ⟨e1, ?_, e2, ?_⟩
  · rw [e1]; exact setVar_read s1 a1 p
  · rw [e2]; exact setVar_read s2 a2 p

theorem singleton_identity_witness :
    (ResolveWithScope demoEnv
        (run demoEnv (Register demoState demoService)
          [Op.resolveWithScope demoStructTarget "", Op.autowireWithScope demoConsumer "r"])
        demoTarget "").2.heap.read 1 = some demoService ∧
    (ResolveWithScope demoEnv
        (run demoEnv
          (ResolveWithScope demoEnv
            (run demoEnv (Register demoState demoService)
              [Op.resolveWithScope demoStructTarget "", Op.autowireWithScope demoConsumer "r"])
            demoTarget "").2
          [Op.invoke demoFunc, Op.clearScope "r"])
        demoTarget2 "q").2.heap.read 5 = some demoService :=
  have h := singleton_identity demoEnv demoState "TestService" (some 0)
    [Op.resolveWithScope demoStructTarget "", Op.autowireWithScope demoConsumer "r"]
    [Op.invoke demoFunc, Op.clearScope "r"] 1 5 "" "q" (by decide) (by decide)
  ⟨h.2.1, h.2.2.2⟩

theorem ResolveByWithScope_eq (env : Env) (s : State) (token : String) (target : Value)
    (sk : String) (reg : ServiceRegistration) (hk : target.kind = Kind.ptr)
    (hreg : s.lookup (RegRef.token token) = some reg) :
    ResolveByWithScope env s token target sk =
      match getInstance env s (RegRef.token token) reg target.typeOf token sk with
      | (Result.ok inst, s1) => assignByToken env s1 inst target.elem
      | (Result.error e, s1) => (Result.error e, s1)
      | (Result.panicked, s1) => (Result.panicked, s1) := by
  have hreg' : mapGet s.c.tokenServices token = some reg := hreg
  unfold ResolveByWithScope
  simp only [hreg']
  rw [if_neg (by simp [hk])]
  try rfl

theorem getInstance_singleton_first (env : Env) (s : State) (ref : RegRef)
    (reg : ServiceRegistration) (st : Option GoType) (tok sk : String) (f : ServiceFactory)
    (v : Value) (h : Heap) (hs : reg.Scope = Singleton) (hi : reg.Instance = Value.nil)
    (hf : reg.Factory = some f) (hc : f.call env s.heap = some (v, h)) :
    getInstance env s ref reg st tok sk =
      (Result.ok v, (s.afterCall f h).setInstance ref reg v) := by
  unfold getInstance
  rw [if_pos hs, if_neg (by simp [hi])]
  simp only [hf, hc]

theorem ResolveByWithScope_cached (env : Env) (s : State) (token : String) (target : Value)
    (sk : String) (reg : ServiceRegistration) (hk : target.kind = Kind.ptr)
    (hreg : s.lookup (RegRef.token token) = some reg)
    (hs : reg.Scope = Singleton) (hi : reg.Instance ≠ Value.nil) :
    ResolveByWithScope env s token target sk =
      assignByToken env s reg.Instance target.elem := by
  rw [ResolveByWithScope_eq env s token target sk reg hk hreg,
    getInstance_cached env s _ reg _ _ _ hs hi]

theorem resolvesType_cases {key : GoType} {op : Op} (h : op.resolvesType key = true) :
    ∃ typ a sk, op = Op.resolveWithScope (Value.pointer typ (some a)) sk ∧
      ResolvesKey key typ := by
  cases op with
  | resolveWithScope target sk =>
    cases target with
    | pointer typ addr =>
      cases addr with
      | some a => exact ⟨typ, a, sk, rfl, by simpa [Op.resolvesType] using h⟩
      | none => simp [Op.resolvesType] at h
    | _ => simp [Op.resolvesType] at h
  | _ => simp [Op.resolvesType] at h

theorem resolvesToken_cases {token : String} {op : Op} (h : op.resolvesToken token = true) :
    ∃ target sk, op = Op.resolveByWithScope token target sk ∧ target.kind = Kind.ptr := by
  cases op with
  | resolveByWithScope t target sk =>
    have h' : t = token ∧ target.kind = Kind.ptr := by simpa [Op.resolvesToken] using h
    exact ⟨target, sk, by rw [h'.1], h'.2⟩
  | _ => simp [Op.resolvesToken] at h

theorem run_cached_type (env : Env) (key : GoType) (reg : ServiceRegistration)
    (hs : reg.Scope = Singleton) (hi : reg.Instance ≠ Value.nil) (ops : List Op) :
    ∀ s : State, (∀ op ∈ ops, op.resolvesType key = true) →
      s.lookup (RegRef.type (some key)) = some reg →
      (run env s ops).lookup (RegRef.type (some key)) = some reg ∧
        (run env s ops).calls = s.calls := by
  induction ops with
  | nil => intro s _ h; exact ⟨h, rfl⟩
  | cons op rest ih =>
    intro s hops h
    obtain ⟨typ, a, sk, rfl, hkey⟩ := resolvesType_cases (hops op (List.mem_cons_self _ _))
    have e : step env s (Op.resolveWithScope (Value.pointer typ (some a)) sk) =
        (assignInstance env s reg.Instance typ a key).2 := by
      simp only [step]
      rw [ResolveWithScope_cached env s key typ a sk reg hkey h hs hi]
    have ho := assignInstance_heapOnly env s reg.Instance typ a key
    have h1 : (step env s (Op.resolveWithScope (Value.pointer typ (some a)) sk)).lookup
        (RegRef.type (some key)) = some reg := by rw [e, heapOnly_lookup ho]; exact h
    have h2 := ih _ (fun o m => hops o (List.mem_cons_of_mem _ m)) h1
    refine ⟨h2.1, ?_⟩
    have h3 : (run env s (Op.resolveWithScope (Value.pointer typ (some a)) sk :: rest)).calls =
        (step env s (Op.resolveWithScope (Value.pointer typ (some a)) sk)).calls := h2.2
    rw [h3, e, ho.2.1]

theorem run_cached_token (env : Env) (token : String) (reg : ServiceRegistration)
    (hs : reg.Scope = Singleton) (hi : reg.Instance ≠ Value.nil) (ops : List Op) :
    ∀ s : State, (∀ op ∈ ops, op.resolvesToken token = true) →
      s.lookup (RegRef.token token) = some reg →
      (run env s ops).lookup (RegRef.token token) = some reg ∧
        (run env s ops).calls = s.calls := by
  induction ops with
  | nil => intro s _ h; exact ⟨h, rfl⟩
  | cons op rest ih =>
    intro s hops h
    obtain ⟨target, sk, rfl, hk⟩ := resolvesToken_cases (hops op (List.mem_cons_self _ _))
    have e : step env s (Op.resolveByWithScope token target sk) =
        (assignByToken env s reg.Instance target.elem).2 := by
      simp only [step]
      rw [ResolveByWithScope_cached env s token target sk reg hk h hs hi]
    have ho := assignByToken_heapOnly env s reg.Instance target.elem
    have h1 : (step env s (Op.resolveByWithScope token target sk)).lookup
        (RegRef.token token) = some reg := by rw [e, heapOnly_lookup ho]; exact h
    have h2 := ih _ (fun o m => hops o (List.mem_cons_of_mem _ m)) h1
    refine ⟨h2.1, ?_⟩
    have h3 : (run env s (Op.resolveByWithScope token target sk :: rest)).calls =
        (step env s (Op.resolveByWithScope token target sk)).calls := h2.2
    rw [h3, e, ho.2.1]

theorem RegisterFactory_lookup (s : State) (serviceType : Option GoType) (f : ServiceFactory)
    (scope : ServiceScope) :
    (RegisterFactory s serviceType f scope).lookup (RegRef.type serviceType) =
      some { Instance := Value.nil, Factory := some f, Scope := scope } := by
  simp [RegisterFactory, State.lookup, mapGet_mapSet_self]

theorem BindFactory_lookup (s : State) (token : String) (f : ServiceFactory)
    (scope : ServiceScope) :
    (BindFactory s token f scope).lookup (RegRef.token token) =
      some { Instance := Value.nil, Factory := some f, Scope := scope } := by
  simp [BindFactory, State.lookup, mapGet_mapSet_self]

/-- Lazy creation of a type-keyed Singleton: the first resolution invokes the
factory and caches its non-nil result; later resolutions use the cache. -/
theorem lazy_singleton_type (env : Env) (s : State) (f : ServiceFactory) (v : Value)
    (h : Heap) (key typ0 typ : GoType) (a0 a : Nat) (sk0 sk : String) (rest : List Op)
    (hcall : f.call env s.heap = some (v, h)) (hv : v ≠ Value.nil)
    (hk0 : ResolvesKey key typ0) (hk : ResolvesKey key typ)
    (hrest : ∀ op ∈ rest, op.resolvesType key = true) :
    let s0 := RegisterFactory s (some key) f Singleton
    let first := ResolveWithScope env s0 (Value.pointer typ0 (some a0)) sk0
    let s1 := run env first.2 rest
    first = assignInstance env
        ((s0.afterCall f h).setInstance (RegRef.type (some key))
          { Instance := Value.nil, Factory := some f, Scope := Singleton } v) v typ0 a0 key ∧
    first.2.calls = s.calls ++ [f] ∧
    s1.calls = s.calls ++ [f] ∧
    s1.lookup (RegRef.type (some key)) =
      some { Instance := v, Factory := some f, Scope := Singleton } ∧
    ResolveWithScope env s1 (Value.pointer typ (some a)) sk = assignInstance env s1 v typ a key ∧
    (ResolveWithScope env s1 (Value.pointer typ (some a)) sk).2.calls = s.calls ++ [f] := by
  intro s0 first s1
  have hreg0 := RegisterFactory_lookup s (some key) f Singleton
  have e1 : first = assignInstance env
        ((s0.afterCall f h).setInstance (RegRef.type (some key))
          { Instance := Value.nil, Factory := some f, Scope := Singleton } v) v typ0 a0 key := by
    simp only [first]
    rw [ResolveWithScope_eq env s0 key typ0 a0 sk0 _ hk0 hreg0,
      getInstance_singleton_first env s0 _ _ _ _ _ f v h rfl rfl rfl hcall]
  have ho := assignInstance_heapOnly env
    ((s0.afterCall f h).setInstance (RegRef.type (some key))
      { Instance := Value.nil, Factory := some f, Scope := Singleton } v) v typ0 a0 key
  rw [← e1] at ho
  have hc1 : first.2.calls = s.calls ++ [f] := by
    rw [ho.2.1]; rfl
  have hl1 : first.2.lookup (RegRef.type (some key)) =
      some { Instance := v, Factory := some f, Scope := Singleton } := by
    rw [heapOnly_lookup ho, setInstance_lookup_self]
  have hrun := run_cached_type env key { Instance := v, Factory := some f, Scope := Singleton }
    rfl hv rest first.2 hrest hl1
  have e2 : ResolveWithScope env s1 (Value.pointer typ (some a)) sk =
      assignInstance env s1 v typ a key :=
    ResolveWithScope_cached env s1 key typ a sk _ hk hrun.1 rfl hv
  refine ⟨e1, hc1, hrun.2.trans hc1, hrun.1, e2, ?_⟩
  rw [e2, (assignInstance_heapOnly env s1 v typ a key).2.1]
  exact hrun.2.trans hc1


/-- Lazy creation of a token-keyed Singleton: the first resolution invokes the
factory and caches its non-nil result; later resolutions use the cache. -/
theorem lazy_singleton_token (env : Env) (s : State) (f : ServiceFactory) (v : Value)
    (h : Heap) (token : String) (target0 target : Value) (sk0 sk : String) (rest : List Op)
    (hcall : f.call env s.heap = some (v, h)) (hv : v ≠ Value.nil)
    (hk0 : target0.kind = Kind.ptr) (hk : target.kind = Kind.ptr)
    (hrest : ∀ op ∈ rest, op.resolvesToken token = true) :
    let s0 := BindFactory s token f Singleton
    let first := ResolveByWithScope env s0 token target0 sk0
    let s1 := run env first.2 rest
    first = assignByToken env
        ((s0.afterCall f h).setInstance (RegRef.token token)
          { Instance := Value.nil, Factory := some f, Scope := Singleton } v) v target0.elem ∧
    first.2.calls = s.calls ++ [f] ∧
    s1.calls = s.calls ++ [f] ∧
    s1.lookup (RegRef.token token) =
      some { Instance := v, Factory := some f, Scope := Singleton } ∧
    ResolveByWithScope env s1 token target sk = assignByToken env s1 v target.elem ∧
    (ResolveByWithScope env s1 token target sk).2.calls = s.calls ++ [f] := by
  intro s0 first s1
  have hreg0 := BindFactory_lookup s token f Singleton
  have e1 : first = assignByToken env
        ((s0.afterCall f h).setInstance (RegRef.token token)
          { Instance := Value.nil, Factory := some f, Scope := Singleton } v) v
        target0.elem := by
    simp only [first]
    rw [ResolveByWithScope_eq env s0 token target0 sk0 _ hk0 hreg0,
      getInstance_singleton_first env s0 _ _ _ _ _ f v h rfl rfl rfl hcall]
  have ho := assignByToken_heapOnly env
    ((s0.afterCall f h).setInstance (RegRef.token token)
      { Instance := Value.nil, Factory := some f, Scope := Singleton } v) v target0.elem
  rw [← e1] at ho
  have hc1 : first.2.calls = s.calls ++ [f] := by
    rw [ho.2.1]; rfl
  have hl1 : first.2.lookup (RegRef.token token) =
      some { Instance := v, Factory := some f, Scope := Singleton } := by
    rw [heapOnly_lookup ho, setInstance_lookup_self]
  have hrun := run_cached_token env token { Instance := v, Factory := some f, Scope := Singleton }
    rfl hv rest first.2 hrest hl1
  have e2 : ResolveByWithScope env s1 token target sk = assignByToken env s1 v target.elem :=
    ResolveByWithScope_cached env s1 token target sk _ hk hrun.1 rfl hv
  refine ⟨e1, hc1, hrun.2.trans hc1, hrun.1, e2, ?_⟩
  rw [e2, (assignByToken_heapOnly env s1 v target.elem).2.1]
  exact hrun.2.trans hc1

/-- C2 (as stated, refuted). A Singleton factory that returns nil is invoked on
every resolution: after `RegisterFactory` of the factory number 1 of `demoEnv`,
two resolutions into a `*TestService` struct target both return the error
"registered service ... is not a pointer" and the trace holds two invocations. -/
theorem lazy_singleton_nil_result_not_cached :
    (ResolveWithScope demoEnv
      (RegisterFactory demoState (some testServicePtr) (ServiceFactory.closure 1) Singleton)
      demoStructTarget "").1 = Result.error (Error.notAPointer testServicePtr) ∧
    (run demoEnv
      (RegisterFactory demoState (some testServicePtr) (ServiceFactory.closure 1) Singleton)
      [Op.resolveWithScope demoStructTarget "", Op.resolveWithScope demoStructTarget ""]).calls =
      [ServiceFactory.closure 1, ServiceFactory.closure 1] := by
  decide

theorem getInstance_scoped_hit (env : Env) (s : State) (ref : RegRef)
    (reg : ServiceRegistration) (st : Option GoType) (tok sk : String) (w : Value)
    (hs : reg.Scope = Scoped) (hk : sk ≠ "") (hl : s.scopedLookup st tok sk = some w) :
    getInstance env s ref reg st tok sk = (Result.ok w, s) := by
  unfold getInstance
  rw [if_neg (by rw [hs]; decide), if_neg (by rw [hs]; decide), if_pos hs, if_neg hk]
  simp only [hl]

theorem getInstance_scoped_miss (env : Env) (s : State) (ref : RegRef)
    (reg : ServiceRegistration) (st : Option GoType) (tok sk : String) (f : ServiceFactory)
    (v : Value) (h : Heap)
    (hs : reg.Scope = Scoped) (hk : sk ≠ "") (hl : s.scopedLookup st tok sk = none)
    (hf : reg.Factory = some f) (hc : f.call env s.heap = some (v, h)) :
    getInstance env s ref reg st tok sk =
      (Result.ok v, (s.afterCall f h).scopedStore st tok sk v) := by
  unfold getInstance
  rw [if_neg (by rw [hs]; decide), if_neg (by rw [hs]; decide), if_pos hs, if_neg hk]
  simp only [hl, hf, hc]

theorem scopedLookup_type (s : State) (key : Option GoType) (sk : String) :
    s.scopedLookup key "" sk = scopedGet s.c.scopedInstances sk key := by
  simp [State.scopedLookup]

theorem scopedLookup_token (s : State) (st : Option GoType) (token sk : String)
    (ht : token ≠ "") : s.scopedLookup st token sk = scopedGet s.c.scopedTokens sk token := by
  simp [State.scopedLookup, ht]

theorem scopedStore_type_get (s : State) (key : Option GoType) (sk : String) (v : Value) :
    scopedGet (s.scopedStore key "" sk v).c.scopedInstances sk key = some v := by
  simp [State.scopedStore, scopedGet_scopedSet_self]

theorem scopedStore_token_get (s : State) (st : Option GoType) (token sk : String) (v : Value)
    (ht : token ≠ "") :
    scopedGet (s.scopedStore st token sk v).c.scopedTokens sk token = some v := by
  simp [State.scopedStore, ht, scopedGet_scopedSet_self]

theorem run_scoped_type (env : Env) (key : GoType) (k : String) (reg : ServiceRegistration)
    (w : Value) (hs : reg.Scope = Scoped) (hk : k ≠ "") (ops : List Op) :
    ∀ s : State, (∀ op ∈ ops, op.resolvesType key = true ∧ op.scopeKey = k) →
      s.lookup (RegRef.type (some key)) = some reg →
      scopedGet s.c.scopedInstances k (some key) = some w →
      (run env s ops).lookup (RegRef.type (some key)) = some reg ∧
        scopedGet (run env s ops).c.scopedInstances k (some key) = some w ∧
        (run env s ops).calls = s.calls := by
  induction ops with
  | nil => intro s _ h hw; exact ⟨h, hw, rfl⟩
  | cons op rest ih =>
    intro s hops h hw
    have hop := hops op (List.mem_cons_self _ _)
    obtain ⟨typ, a, sk, rfl, hkey⟩ := resolvesType_cases hop.1
    have hsk : sk = k := hop.2
    subst hsk
    have e : step env s (Op.resolveWithScope (Value.pointer typ (some a)) sk) =
        (assignInstance env s w typ a key).2 := by
      simp only [step]
      rw [ResolveWithScope_eq env s key typ a sk reg hkey h,
        getInstance_scoped_hit env s _ reg _ _ _ w hs hk
          ((scopedLookup_type s (some key) sk).trans hw)]
    have ho := assignInstance_heapOnly env s w typ a key
    rw [← e] at ho
    have h1 : (step env s (Op.resolveWithScope (Value.pointer typ (some a)) sk)).lookup
        (RegRef.type (some key)) = some reg := by rw [heapOnly_lookup ho]; exact h
    have hw1 : scopedGet
        (step env s (Op.resolveWithScope (Value.pointer typ (some a)) sk)).c.scopedInstances
        sk (some key) = some w := by rw [ho.1]; exact hw
    have h2 := ih _ (fun o m => hops o (List.mem_cons_of_mem _ m)) h1 hw1
    refine ⟨h2.1, h2.2.1, ?_⟩
    have h3 : (run env s (Op.resolveWithScope (Value.pointer typ (some a)) sk :: rest)).calls =
        (step env s (Op.resolveWithScope (Value.pointer typ (some a)) sk)).calls := h2.2.2
    rw [h3, ho.2.1]

theorem run_scoped_token (env : Env) (token k : String) (reg : ServiceRegistration)
    (w : Value) (hs : reg.Scope = Scoped) (hk : k ≠ "") (ht : token ≠ "") (ops : List Op) :
    ∀ s : State, (∀ op ∈ ops, op.resolvesToken token = true ∧ op.scopeKey = k) →
      s.lookup (RegRef.token token) = some reg →
      scopedGet s.c.scopedTokens k token = some w →
      (run env s ops).lookup (RegRef.token token) = some reg ∧
        scopedGet (run env s ops).c.scopedTokens k token = some w ∧
        (run env s ops).calls = s.calls := by
  induction ops with
  | nil => intro s _ h hw; exact ⟨h, hw, rfl⟩
  | cons op rest ih =>
    intro s hops h hw
    have hop := hops op (List.mem_cons_self _ _)
    obtain ⟨target, sk, rfl, hkind⟩ := resolvesToken_cases hop.1
    have hsk : sk = k := hop.2
    subst hsk
    have e : step env s (Op.resolveByWithScope token target sk) =
        (assignByToken env s w target.elem).2 := by
      simp only [step]
      rw [ResolveByWithScope_eq env s token target sk reg hkind h,
        getInstance_scoped_hit env s _ reg _ _ _ w hs hk
          ((scopedLookup_token s _ token sk ht).trans hw)]
    have ho := assignByToken_heapOnly env s w target.elem
    rw [← e] at ho
    have h1 : (step env s (Op.resolveByWithScope token target sk)).lookup
        (RegRef.token token) = some reg := by rw [heapOnly_lookup ho]; exact h
    have hw1 : scopedGet
        (step env s (Op.resolveByWithScope token target sk)).c.scopedTokens
        sk token = some w := by rw [ho.1]; exact hw
    have h2 := ih _ (fun o m => hops o (List.mem_cons_of_mem _ m)) h1 hw1
    refine ⟨h2.1, h2.2.1, ?_⟩
    have h3 : (run env s (Op.resolveByWithScope token target sk :: rest)).calls =
        (step env s (Op.resolveByWithScope token target sk)).calls := h2.2.2
    rw [h3, ho.2.1]


theorem ResolveWithScope_scoped_hit (env : Env) (s : State) (key typ : GoType) (a : Nat)
    (k : String) (reg : ServiceRegistration) (w : Value) (hkey : ResolvesKey key typ)
    (hreg : s.lookup (RegRef.type (some key)) = some reg) (hs : reg.Scope = Scoped)
    (hk : k ≠ "") (hw : scopedGet s.c.scopedInstances k (some key) = some w) :
    ResolveWithScope env s (Value.pointer typ (some a)) k = assignInstance env s w typ a key := by
  rw [ResolveWithScope_eq env s key typ a k reg hkey hreg,
    getInstance_scoped_hit env s _ reg _ _ _ w hs hk ((scopedLookup_type s (some key) k).trans hw)]

theorem ResolveWithScope_scoped_miss (env : Env) (s : State) (key typ : GoType) (a : Nat)
    (k : String) (reg : ServiceRegistration) (f : ServiceFactory) (v : Value) (h : Heap)
    (hkey : ResolvesKey key typ)
    (hreg : s.lookup (RegRef.type (some key)) = some reg) (hs : reg.Scope = Scoped)
    (hk : k ≠ "") (hw : scopedGet s.c.scopedInstances k (some key) = none)
    (hf : reg.Factory = some f) (hc : f.call env s.heap = some (v, h)) :
    ResolveWithScope env s (Value.pointer typ (some a)) k =
      assignInstance env ((s.afterCall f h).scopedStore (some key) "" k v) v typ a key := by
  rw [ResolveWithScope_eq env s key typ a k reg hkey hreg,
    getInstance_scoped_miss env s _ reg _ _ _ f v h hs hk
      ((scopedLookup_type s (some key) k).trans hw) hf hc]

theorem ResolveByWithScope_scoped_hit (env : Env) (s : State) (token : String) (target : Value)
    (k : String) (reg : ServiceRegistration) (w : Value) (hkind : target.kind = Kind.ptr)
    (hreg : s.lookup (RegRef.token token) = some reg) (hs : reg.Scope = Scoped)
    (hk : k ≠ "") (ht : token ≠ "") (hw : scopedGet s.c.scopedTokens k token = some w) :
    ResolveByWithScope env s token target k = assignByToken env s w target.elem := by
  rw [ResolveByWithScope_eq env s token target k reg hkind hreg,
    getInstance_scoped_hit env s _ reg _ _ _ w hs hk ((scopedLookup_token s _ token k ht).trans hw)]

theorem ResolveByWithScope_scoped_miss (env : Env) (s : State) (token : String)
    (target : Value) (k : String) (reg : ServiceRegistration) (f : ServiceFactory) (v : Value)
    (h : Heap) (hkind : target.kind = Kind.ptr)
    (hreg : s.lookup (RegRef.token token) = some reg) (hs : reg.Scope = Scoped)
    (hk : k ≠ "") (ht : token ≠ "") (hw : scopedGet s.c.scopedTokens k token = none)
    (hf : reg.Factory = some f) (hc : f.call env s.heap = some (v, h)) :
    ResolveByWithScope env s token target k =
      assignByToken env ((s.afterCall f h).scopedStore target.typeOf token k v) v
        target.elem := by
  rw [ResolveByWithScope_eq env s token target k reg hkind hreg,
    getInstance_scoped_miss env s _ reg _ _ _ f v h hs hk
      ((scopedLookup_token s _ token k ht).trans hw) hf hc]

/-- Scoped caching of a type-keyed registration under one scope key. -/
theorem scoped_caching_type (env : Env) (s : State) (f : ServiceFactory) (v : Value)
    (h : Heap) (key typ0 typ : GoType) (a0 a : Nat) (k : String) (rest : List Op)
    (hcall : f.call env s.heap = some (v, h)) (hk : k ≠ "")
    (hk0 : ResolvesKey key typ0) (hkey : ResolvesKey key typ)
    (hrest : ∀ op ∈ rest, op.resolvesType key = true ∧ op.scopeKey = k) :
    let s0 := RegisterFactory s (some key) f Scoped
    let first := ResolveWithScope env s0 (Value.pointer typ0 (some a0)) k
    let s1 := run env first.2 rest
    let later := ResolveWithScope env s1 (Value.pointer typ (some a)) k
    (scopedGet s.c.scopedInstances k (some key) = none →
      first = assignInstance env
        ((s0.afterCall f h).scopedStore (some key) "" k v) v typ0 a0 key ∧
      first.2.calls = s.calls ++ [f] ∧
      later = assignInstance env s1 v typ a key ∧
      later.2.calls = s.calls ++ [f]) ∧
    (∀ w, scopedGet s.c.scopedInstances k (some key) = some w →
      first = assignInstance env s0 w typ0 a0 key ∧
      later = assignInstance env s1 w typ a key ∧
      later.2.calls = s.calls) := by
  intro s0 first s1 later
  have hreg0 := RegisterFactory_lookup s (some key) f Scoped
  constructor
  · intro hnone
    have e1 : first = assignInstance env
        ((s0.afterCall f h).scopedStore (some key) "" k v) v typ0 a0 key :=
      ResolveWithScope_scoped_miss env s0 key typ0 a0 k _ f v h hk0 hreg0 rfl hk hnone rfl hcall
    have ho := assignInstance_heapOnly env
      ((s0.afterCall f h).scopedStore (some key) "" k v) v typ0 a0 key
    rw [← e1] at ho
    have hc1 : first.2.calls = s.calls ++ [f] := by
      rw [ho.2.1]; simp [State.scopedStore, State.afterCall, s0, RegisterFactory]
    have hl1 : first.2.lookup (RegRef.type (some key)) =
        some { Instance := Value.nil, Factory := some f, Scope := Scoped } := by
      rw [heapOnly_lookup ho, scopedStore_lookup, afterCall_lookup]; exact hreg0
    have hw1 : scopedGet first.2.c.scopedInstances k (some key) = some v := by
      rw [ho.1]; exact scopedStore_type_get _ _ _ _
    have hrun := run_scoped_type env key k _ v rfl hk rest first.2 hrest hl1 hw1
    have e2 : later = assignInstance env s1 v typ a key :=
      ResolveWithScope_scoped_hit env s1 key typ a k _ v hkey hrun.1 rfl hk hrun.2.1
    refine ⟨e1, hc1, e2, ?_⟩
    rw [e2, (assignInstance_heapOnly env s1 v typ a key).2.1]
    exact hrun.2.2.trans hc1
  · intro w hw
    have e1 : first = assignInstance env s0 w typ0 a0 key :=
      ResolveWithScope_scoped_hit env s0 key typ0 a0 k _ w hk0 hreg0 rfl hk hw
    have ho := assignInstance_heapOnly env s0 w typ0 a0 key
    rw [← e1] at ho
    have hl1 : first.2.lookup (RegRef.type (some key)) =
        some { Instance := Value.nil, Factory := some f, Scope := Scoped } := by
      rw [heapOnly_lookup ho]; exact hreg0
    have hw1 : scopedGet first.2.c.scopedInstances k (some key) = some w := by
      rw [ho.1]; exact hw
    have hrun := run_scoped_type env key k _ w rfl hk rest first.2 hrest hl1 hw1
    have e2 : later = assignInstance env s1 w typ a key :=
      ResolveWithScope_scoped_hit env s1 key typ a k _ w hkey hrun.1 rfl hk hrun.2.1
    refine ⟨e1, e2, ?_⟩
    rw [e2, (assignInstance_heapOnly env s1 w typ a key).2.1, hrun.2.2, ho.2.1]
    rfl

/-- Scoped caching of a token-keyed registration (non-empty token) under one
scope key. -/
theorem scoped_caching_token (env : Env) (s : State) (f : ServiceFactory) (v : Value)
    (h : Heap) (token : String) (target0 target : Value) (k : String) (rest : List Op)
    (hcall : f.call env s.heap = some (v, h)) (hk : k ≠ "") (ht : token ≠ "")
    (hk0 : target0.kind = Kind.ptr) (hkind : target.kind = Kind.ptr)
    (hrest : ∀ op ∈ rest, op.resolvesToken token = true ∧ op.scopeKey = k) :
    let s0 := BindFactory s token f Scoped
    let first := ResolveByWithScope env s0 token target0 k
    let s1 := run env first.2 rest
    let later := ResolveByWithScope env s1 token target k
    (scopedGet s.c.scopedTokens k token = none →
      first = assignByToken env
        ((s0.afterCall f h).scopedStore target0.typeOf token k v) v target0.elem ∧
      first.2.calls = s.calls ++ [f] ∧
      later = assignByToken env s1 v target.elem ∧
      later.2.calls = s.calls ++ [f]) ∧
    (∀ w, scopedGet s.c.scopedTokens k token = some w →
      first = assignByToken env s0 w target0.elem ∧
      later = assignByToken env s1 w target.elem ∧
      later.2.calls = s.calls) := by
  intro s0 first s1 later
  have hreg0 := BindFactory_lookup s token f Scoped
  constructor
  · intro hnone
    have e1 : first = assignByToken env
        ((s0.afterCall f h).scopedStore target0.typeOf token k v) v target0.elem :=
      ResolveByWithScope_scoped_miss env s0 token target0 k _ f v h hk0 hreg0 rfl hk ht hnone
        rfl hcall
    have ho := assignByToken_heapOnly env
      ((s0.afterCall f h).scopedStore target0.typeOf token k v) v target0.elem
    rw [← e1] at ho
    have hc1 : first.2.calls = s.calls ++ [f] := by
      rw [ho.2.1]; simp [State.scopedStore, State.afterCall, s0, BindFactory, ht]
    have hl1 : first.2.lookup (RegRef.token token) =
        some { Instance := Value.nil, Factory := some f, Scope := Scoped } := by
      rw [heapOnly_lookup ho, scopedStore_lookup, afterCall_lookup]; exact hreg0
    have hw1 : scopedGet first.2.c.scopedTokens k token = some v := by
      rw [ho.1]; exact scopedStore_token_get _ _ _ _ _ ht
    have hrun := run_scoped_token env token k _ v rfl hk ht rest first.2 hrest hl1 hw1
    have e2 : later = assignByToken env s1 v target.elem :=
      ResolveByWithScope_scoped_hit env s1 token target k _ v hkind hrun.1 rfl hk ht hrun.2.1
    refine ⟨e1, hc1, e2, ?_⟩
    rw [e2, (assignByToken_heapOnly env s1 v target.elem).2.1]
    exact hrun.2.2.trans hc1
  · intro w hw
    have e1 : first = assignByToken env s0 w target0.elem :=
      ResolveByWithScope_scoped_hit env s0 token target0 k _ w hk0 hreg0 rfl hk ht hw
    have ho := assignByToken_heapOnly env s0 w target0.elem
    rw [← e1] at ho
    have hl1 : first.2.lookup (RegRef.token token) =
        some { Instance := Value.nil, Factory := some f, Scope := Scoped } := by
      rw [heapOnly_lookup ho]; exact hreg0
    have hw1 : scopedGet first.2.c.scopedTokens k token = some w := by
      rw [ho.1]; exact hw
    have hrun := run_scoped_token env token k _ w rfl hk ht rest first.2 hrest hl1 hw1
    have e2 : later = assignByToken env s1 w target.elem :=
      ResolveByWithScope_scoped_hit env s1 token target k _ w hkind hrun.1 rfl hk ht hrun.2.1
    refine ⟨e1, e2, ?_⟩
    rw [e2, (assignByToken_heapOnly env s1 w target.elem).2.1, hrun.2.2, ho.2.1]
    rfl

/-- C3 (as stated, refuted). With the empty token the scope cache is keyed by the
type of the target, not by the token: two resolutions of the Scoped factory
bound to the token "" under the same scope key "req-1", one into a
`**TestService` target and one into a `*TestService` target, both succeed and
invoke the factory twice.  Moreover a Scoped factory registered while the scope
already holds a cached instance for the key is not invoked at all: after one
resolution under "req-1" and a new `RegisterFactory` of the factory number 2,
the next resolution under "req-1" succeeds and the trace still holds the single
invocation of the factory number 0. -/
theorem scoped_empty_token_not_cached :
    (ResolveByWithScope demoEnv (BindFactory demoState "" (ServiceFactory.closure 0) Scoped)
      "" demoTarget "req-1").1 = Result.ok () ∧
    (ResolveByWithScope demoEnv
      (ResolveByWithScope demoEnv (BindFactory demoState "" (ServiceFactory.closure 0) Scoped)
        "" demoTarget "req-1").2 "" demoStructTarget "req-1").1 = Result.ok () ∧
    (run demoEnv (BindFactory demoState "" (ServiceFactory.closure 0) Scoped)
      [Op.resolveByWithScope "" demoTarget "req-1",
       Op.resolveByWithScope "" demoStructTarget "req-1"]).calls =
      [ServiceFactory.closure 0, ServiceFactory.closure 0] ∧
    (ResolveWithScope demoEnv
      (RegisterFactory
        (ResolveWithScope demoEnv
          (RegisterFactory demoState (some testServicePtr) (ServiceFactory.closure 0) Scoped)
          demoTarget "req-1").2
        (some testServicePtr) (ServiceFactory.closure 2) Scoped)
      demoTarget2 "req-1") =
      (Result.ok (),
        (RegisterFactory
          (ResolveWithScope demoEnv
            (RegisterFactory demoState (some testServicePtr) (ServiceFactory.closure 0) Scoped)
            demoTarget "req-1").2
          (some testServicePtr) (ServiceFactory.closure 2) Scoped).setVar 5
          (Value.pointer (GoType.struct "TestService") (some 6))) ∧
    (ResolveWithScope demoEnv
      (RegisterFactory
        (ResolveWithScope demoEnv
          (RegisterFactory demoState (some testServicePtr) (ServiceFactory.closure 0) Scoped)
          demoTarget "req-1").2
        (some testServicePtr) (ServiceFactory.closure 2) Scoped)
      demoTarget2 "req-1").2.calls = [ServiceFactory.closure 0] := by
  decide

theorem getInstance_scoped_instance (env : Env) (s : State) (ref : RegRef)
    (reg : ServiceRegistration) (st : Option GoType) (tok sk : String)
    (hs : reg.Scope = Scoped) (hk : sk ≠ "") (hl : s.scopedLookup st tok sk = none)
    (hf : reg.Factory = none) (hi : reg.Instance ≠ Value.nil) :
    getInstance env s ref reg st tok sk = (Result.ok reg.Instance, s) := by
  unfold getInstance
  rw [if_neg (by rw [hs]; decide), if_neg (by rw [hs]; decide), if_pos hs, if_neg hk]
  simp only [hl, hf]
  rw [if_pos hi]

theorem RegisterScoped_lookup (s : State) (service : Value) (scope : ServiceScope) :
    (RegisterScoped s service scope).lookup (RegRef.type service.typeOf) =
      some { Instance := service, Factory := none, Scope := scope } := by
  simp [RegisterScoped, State.lookup, mapGet_mapSet_self]

theorem BindScoped_lookup (s : State) (token : String) (service : Value)
    (scope : ServiceScope) :
    (BindScoped s token service scope).lookup (RegRef.token token) =
      some { Instance := service, Factory := none, Scope := scope } := by
  simp [BindScoped, State.lookup, mapGet_mapSet_self]

/-- Two scope keys with a type-keyed Scoped factory: one invocation per key. -/
theorem scope_isolation_type (env : Env) (s : State) (f : ServiceFactory) (v1 v2 : Value)
    (h1 h2 : Heap) (key typ1 typ2 : GoType) (a1 a2 : Nat) (k1 k2 : String)
    (hk1 : k1 ≠ "") (hk2 : k2 ≠ "") (hne : k1 ≠ k2)
    (ht1 : ResolvesKey key typ1) (ht2 : ResolvesKey key typ2)
    (hn1 : scopedGet s.c.scopedInstances k1 (some key) = none)
    (hn2 : scopedGet s.c.scopedInstances k2 (some key) = none)
    (hc1 : f.call env s.heap = some (v1, h1))
    (hc2 : f.call env (ResolveWithScope env (RegisterFactory s (some key) f Scoped)
      (Value.pointer typ1 (some a1)) k1).2.heap = some (v2, h2)) :
    let s0 := RegisterFactory s (some key) f Scoped
    let r1 := ResolveWithScope env s0 (Value.pointer typ1 (some a1)) k1
    let r2 := ResolveWithScope env r1.2 (Value.pointer typ2 (some a2)) k2
    r1 = assignInstance env ((s0.afterCall f h1).scopedStore (some key) "" k1 v1) v1 typ1 a1
      key ∧
    r2 = assignInstance env ((r1.2.afterCall f h2).scopedStore (some key) "" k2 v2) v2 typ2 a2
      key ∧
    r2.2.calls = s.calls ++ [f, f] := by
  intro s0 r1 r2
  have hreg0 := RegisterFactory_lookup s (some key) f Scoped
  have e1 : r1 = assignInstance env ((s0.afterCall f h1).scopedStore (some key) "" k1 v1) v1
      typ1 a1 key :=
    ResolveWithScope_scoped_miss env s0 key typ1 a1 k1 _ f v1 h1 ht1 hreg0 rfl hk1 hn1 rfl hc1
  have ho := assignInstance_heapOnly env
    ((s0.afterCall f h1).scopedStore (some key) "" k1 v1) v1 typ1 a1 key
  rw [← e1] at ho
  have hl1 : r1.2.lookup (RegRef.type (some key)) =
      some { Instance := Value.nil, Factory := some f, Scope := Scoped } := by
    rw [heapOnly_lookup ho, scopedStore_lookup, afterCall_lookup]; exact hreg0
  have hcalls1 : r1.2.calls = s.calls ++ [f] := by
    rw [ho.2.1]; simp [State.scopedStore, State.afterCall, s0, RegisterFactory]
  have hn2' : scopedGet r1.2.c.scopedInstances k2 (some key) = none := by
    rw [ho.1]
    simp only [State.scopedStore, if_neg (show ¬ ("" : String) ≠ "" by simp)]
    rw [scopedGet_scopedSet_other _ _ _ _ _ _ (Or.inl (Ne.symm hne))]
    exact hn2
  have e2 : r2 = assignInstance env ((r1.2.afterCall f h2).scopedStore (some key) "" k2 v2) v2
      typ2 a2 key :=
    ResolveWithScope_scoped_miss env r1.2 key typ2 a2 k2 _ f v2 h2 ht2 hl1 rfl hk2 hn2' rfl hc2
  refine ⟨e1, e2, ?_⟩
  rw [e2, (assignInstance_heapOnly env _ v2 typ2 a2 key).2.1]
  simp [State.scopedStore, State.afterCall, hcalls1]

/-- A Scoped registration made from an instance returns that instance under
every scope key that holds no cached entry, and caches nothing. -/
theorem scope_shared_instance (env : Env) (s : State) (elem : GoType) (pa : Option Nat)
    (scope : String) (a : Nat)
    (hk : scope ≠ "")
    (hn : scopedGet s.c.scopedInstances scope (some (GoType.ptr elem)) = none) :
    let p := Value.pointer elem pa
    let s0 := RegisterScoped s p Scoped
    ResolveWithScope env s0 (Value.pointer (GoType.ptr elem) (some a)) scope =
      (Result.ok (), s0.setVar a p) := by
  intro p s0
  have hreg0 : s0.lookup (RegRef.type (some (GoType.ptr elem))) =
      some { Instance := p, Factory := none, Scope := Scoped } := RegisterScoped_lookup s p Scoped
  rw [ResolveWithScope_eq env s0 (GoType.ptr elem) (GoType.ptr elem) a scope _
      (Or.inl ⟨rfl, rfl⟩) hreg0,
    getInstance_scoped_instance env s0 _ _ _ _ _ rfl hk
      ((scopedLookup_type s0 _ scope).trans hn) rfl (by simp [p])]
  exact assignInstance_pointer env s0 elem pa a _

/-- Two scope keys with a token-keyed Scoped factory: one invocation per key. -/
theorem scope_isolation_token (env : Env) (s : State) (f : ServiceFactory) (v1 v2 : Value)
    (h1 h2 : Heap) (token : String) (target1 target2 : Value) (k1 k2 : String)
    (hk1 : k1 ≠ "") (hk2 : k2 ≠ "") (hne : k1 ≠ k2) (ht : token ≠ "")
    (ht1 : target1.kind = Kind.ptr) (ht2 : target2.kind = Kind.ptr)
    (hn1 : scopedGet s.c.scopedTokens k1 token = none)
    (hn2 : scopedGet s.c.scopedTokens k2 token = none)
    (hc1 : f.call env s.heap = some (v1, h1))
    (hc2 : f.call env (ResolveByWithScope env (BindFactory s token f Scoped) token target1
      k1).2.heap = some (v2, h2)) :
    let s0 := BindFactory s token f Scoped
    let r1 := ResolveByWithScope env s0 token target1 k1
    let r2 := ResolveByWithScope env r1.2 token target2 k2
    r1 = assignByToken env ((s0.afterCall f h1).scopedStore target1.typeOf token k1 v1) v1
      target1.elem ∧
    r2 = assignByToken env ((r1.2.afterCall f h2).scopedStore target2.typeOf token k2 v2) v2
      target2.elem ∧
    r2.2.calls = s.calls ++ [f, f] := by
  intro s0 r1 r2
  have hreg0 := BindFactory_lookup s token f Scoped
  have e1 : r1 = assignByToken env ((s0.afterCall f h1).scopedStore target1.typeOf token k1 v1)
      v1 target1.elem :=
    ResolveByWithScope_scoped_miss env s0 token target1 k1 _ f v1 h1 ht1 hreg0 rfl hk1 ht hn1
      rfl hc1
  have ho := assignByToken_heapOnly env
    ((s0.afterCall f h1).scopedStore target1.typeOf token k1 v1) v1 target1.elem
  rw [← e1] at ho
  have hl1 : r1.2.lookup (RegRef.token token) =
      some { Instance := Value.nil, Factory := some f, Scope := Scoped } := by
    rw [heapOnly_lookup ho, scopedStore_lookup, afterCall_lookup]; exact hreg0
  have hcalls1 : r1.2.calls = s.calls ++ [f] := by
    rw [ho.2.1]; simp [State.scopedStore, State.afterCall, s0, BindFactory, ht]
  have hn2' : scopedGet r1.2.c.scopedTokens k2 token = none := by
    rw [ho.1]
    simp only [State.scopedStore, if_pos ht]
    rw [scopedGet_scopedSet_other _ _ _ _ _ _ (Or.inl (Ne.symm hne))]
    exact hn2
  have e2 : r2 = assignByToken env ((r1.2.afterCall f h2).scopedStore target2.typeOf token k2
      v2) v2 target2.elem :=
    ResolveByWithScope_scoped_miss env r1.2 token target2 k2 _ f v2 h2 ht2 hl1 rfl hk2 ht hn2'
      rfl hc2
  refine ⟨e1, e2, ?_⟩
  rw [e2, (assignByToken_heapOnly env _ v2 target2.elem).2.1]
  simp [State.scopedStore, State.afterCall, hcalls1, ht]

/-- C4 (as stated, refuted). A Scoped registration made from an instance
(`RegisterScoped(service, Scoped)`) yields the same instance under two distinct
scope keys: both resolutions succeed and both targets receive the registered
pointer. -/
theorem scope_isolation_shared_instance :
    (ResolveWithScope demoEnv (RegisterScoped demoState demoService Scoped) demoTarget
      "req-1").1 = Result.ok () ∧
    (ResolveWithScope demoEnv
      (ResolveWithScope demoEnv (RegisterScoped demoState demoService Scoped) demoTarget
        "req-1").2 demoTarget2 "req-2").1 = Result.ok () ∧
    (ResolveWithScope demoEnv
      (ResolveWithScope demoEnv (RegisterScoped demoState demoService Scoped) demoTarget
        "req-1").2 demoTarget2 "req-2").2.heap.read 1 = some demoService ∧
    (ResolveWithScope demoEnv
      (ResolveWithScope demoEnv (RegisterScoped demoState demoService Scoped) demoTarget
        "req-1").2 demoTarget2 "req-2").2.heap.read 5 = some demoService := by
  decide

theorem ClearScope_scopedLookup (s : State) (k : String) (st : Option GoType) (tok : String) :
    (ClearScope s k).scopedLookup st tok k = none := by
  unfold State.scopedLookup scopedGet ClearScope
  split <;> simp [mapGet_mapDelete_self]

theorem ClearScope_lookup (s : State) (k : String) (R : RegRef) :
    (ClearScope s k).lookup R = s.lookup R := by
  cases R <;> rfl

theorem scopedSet_get_empty {κ : Type} [DecidableEq κ] (m : List (String × List (κ × Value)))
    (sk : String) (key : κ) (v : Value) (hsk : sk ≠ "") :
    mapGet (scopedSet m sk key v) "" = mapGet m "" := by
  unfold scopedSet
  split <;> exact mapGet_mapSet_other _ _ _ _ (Ne.symm hsk)

theorem scopedStore_noEmptyScope (s : State) (st : Option GoType) (tok sk : String)
    (v : Value) (hsk : sk ≠ "") (h : NoEmptyScope s) :
    NoEmptyScope (s.scopedStore st tok sk v) := by
  unfold State.scopedStore
  split
  · exact ⟨h.1, (scopedSet_get_empty _ sk tok v hsk).trans h.2⟩
  · exact ⟨(scopedSet_get_empty _ sk st v hsk).trans h.1, h.2⟩

theorem noEmptyFrame (env : Env) :
    Frame env (fun s s1 => NoEmptyScope s → NoEmptyScope s1) where
  refl := fun s h => h
  trans := fun h1 h2 h => h2 (h1 h)
  resolve := fun s ref reg st tok sk _ hs => by
    rcases getInstance_state env s ref reg st tok sk with h | ⟨f, inst, h, _, _, _, e⟩ |
      ⟨f, h, _, e⟩ | ⟨f, inst, h, hsk, _, e⟩
    · rw [h]; exact hs
    · rw [e]; cases ref <;> exact hs
    · rw [e]; exact hs
    · rw [e]; exact scopedStore_noEmptyScope _ st tok sk inst hsk hs
  heapOnly := fun s s1 h hs => by
    unfold NoEmptyScope
    rw [h.1]; exact hs
  alloc := fun s v hs => hs
  call := fun s body args hs => hs
  drain := fun s hs => hs

theorem step_noEmptyScope (env : Env) (s : State) (op : Op) (h : NoEmptyScope s) :
    NoEmptyScope (step env s op) := by
  cases op with
  | resolveWithScope target sk => exact ResolveWithScope_frame (noEmptyFrame env) s target sk h
  | resolveByWithScope token target sk =>
    exact ResolveByWithScope_frame (noEmptyFrame env) s token target sk h
  | autowireWithScope target sk =>
    exact AutowireWithScope_frame (noEmptyFrame env) s target sk h
  | autowireAll => exact AutowireAll_frame (noEmptyFrame env) s h
  | invoke fn => exact Invoke_frame (noEmptyFrame env) s fn h
  | clearScope sk =>
    by_cases hsk : sk = ""
    · subst hsk
      exact ⟨mapGet_mapDelete_self _ _, mapGet_mapDelete_self _ _⟩
    · exact ⟨(mapGet_mapDelete_other _ _ _ (Ne.symm hsk)).trans h.1,
        (mapGet_mapDelete_other _ _ _ (Ne.symm hsk)).trans h.2⟩
  | _ => exact h

theorem run_noEmptyScope (env : Env) (ops : List Op) :
    ∀ s : State, NoEmptyScope s → NoEmptyScope (run env s ops) := by
  induction ops with
  | nil => intro s h; exact h
  | cons op rest ih => intro s h; exact ih _ (step_noEmptyScope env s op h)

theorem cached_scope_nonempty {κ : Type} [DecidableEq κ]
    (m : List (String × List (κ × Value))) (k : String) (key : κ) (old : Value)
    (hm : mapGet m "" = none) (hold : scopedGet m k key = some old) : k ≠ "" := by
  intro hk
  subst hk
  unfold scopedGet at hold
  rw [hm] at hold
  cases hold

theorem getInstance_scoped_empty (env : Env) (s : State) (ref : RegRef)
    (reg : ServiceRegistration) (st : Option GoType) (tok : String)
    (hs : reg.Scope = Scoped) :
    getInstance env s ref reg st tok "" = (Result.error Error.scopeKeyRequired, s) := by
  unfold getInstance
  rw [if_neg (by rw [hs]; decide), if_neg (by rw [hs]; decide), if_pos hs, if_pos rfl]

theorem Resolve_scoped (env : Env) (s : State) (key typ : GoType) (a : Nat)
    (reg : ServiceRegistration) (hkey : ResolvesKey key typ)
    (hreg : s.lookup (RegRef.type (some key)) = some reg) (hs : reg.Scope = Scoped) :
    Resolve env s (Value.pointer typ (some a)) = (Result.error Error.scopeKeyRequired, s) := by
  unfold Resolve
  rw [ResolveWithScope_eq env s key typ a "" reg hkey hreg,
    getInstance_scoped_empty env s _ reg _ _ hs]

theorem resolveField_scoped (env : Env) (s : State) (field : StructField)
    (reg : ServiceRegistration) (hreg : s.lookup field.ref = some reg)
    (hs : reg.Scope = Scoped) :
    resolveField env s field "" = (Result.error Error.scopeKeyRequired, s) := by
  unfold resolveField
  unfold StructField.ref at hreg
  by_cases ht : field.inject = "type"
  · rw [if_pos ht] at hreg
    have hreg' : mapGet s.c.typeServices (some field.Typ) = some reg := hreg
    rw [if_pos ht]
    simp only [hreg']
    exact getInstance_scoped_empty env s _ reg _ _ hs
  · rw [if_neg ht] at hreg
    have hreg' : mapGet s.c.tokenServices field.inject = some reg := hreg
    rw [if_neg ht]
    simp only [hreg']
    exact getInstance_scoped_empty env s _ reg _ _ hs

theorem autowireFields_scoped (env : Env) (addr : Nat) (R : RegRef)
    (reg : ServiceRegistration) (hs : reg.Scope = Scoped) (fields : List StructField) :
    ∀ (i : Nat) (s : State),
      (∃ field ∈ fields, field.inject ≠ "" ∧ field.canSet = true ∧ field.ref = R) →
      s.lookup R = some reg →
      (autowireFields env "" addr fields i s).1 ≠ Result.ok () := by
  induction fields with
  | nil => intro i s h; obtain ⟨f, hf, _⟩ := h; cases hf
  | cons field rest ih =>
    intro i s hex hreg
    unfold autowireFields
    by_cases hhead : field.inject ≠ "" ∧ field.canSet = true ∧ field.ref = R
    · obtain ⟨h1, h2, h3⟩ := hhead
      rw [if_neg h1, if_neg (by simp [h2])]
      rw [resolveField_scoped env s field reg (h3 ▸ hreg) hs]
      simp
    · have hrest : ∃ f ∈ rest, f.inject ≠ "" ∧ f.canSet = true ∧ f.ref = R := by
        obtain ⟨f, hf, hp⟩ := hex
        rcases List.mem_cons.mp hf with e | e
        · subst e; exact absurd hp hhead
        · exact ⟨f, e, hp⟩
      by_cases h1 : field.inject = ""
      · rw [if_pos h1]; exact ih _ _ hrest hreg
      · rw [if_neg h1]
        by_cases h2 : (!field.canSet) = true
        · rw [if_pos h2]; exact ih _ _ hrest hreg
        · rw [if_neg h2]
          have hg := resolveField_frame (regFrame env R) s field ""
          cases hgi : resolveField env s field "" with
          | mk r s1 =>
            rw [hgi] at hg
            cases r with
            | error e => simp
            | panicked => simp
            | ok inst =>
              simp only
              have ha := assignField_heapOnly env s1 field addr i inst
              cases hai : assignField env s1 field addr i inst with
              | mk r2 s2 =>
                rw [hai] at ha
                cases r2 with
                | error e => simp
                | panicked => simp
                | ok u =>
                  have hreg1 : s1.lookup R = some reg :=
                    regStep_pinned hg hreg (Or.inr (by rw [hs]; decide))
                  have hreg2 : s2.lookup R = some reg := by
                    have := heapOnly_lookup ha R
                    simp only at this
                    rw [this]; exact hreg1
                  exact ih _ _ hrest hreg2

theorem Autowire_scoped (env : Env) (s : State) (name : String) (addr : Nat)
    (field : StructField) (reg : ServiceRegistration) (hf : field ∈ env.fields name)
    (h1 : field.inject ≠ "") (h2 : field.canSet = true)
    (hreg : s.lookup field.ref = some reg) (hs : reg.Scope = Scoped) :
    (Autowire env s (Value.pointer (GoType.struct name) (some addr))).1 ≠ Result.ok () := by
  unfold Autowire AutowireWithScope
  rw [if_neg (by simp [Value.kind, Value.typeOf, Value.elem, Ref.kind, GoType.kind])]
  simp only [Value.elem]
  exact autowireFields_scoped env addr field.ref reg hs _ 0 s ⟨field, hf, h1, h2, rfl⟩ hreg

theorem invokeArgs_scoped (env : Env) (key : GoType) (reg : ServiceRegistration)
    (hs : reg.Scope = Scoped) (argTypes : List GoType) :
    ∀ (i : Nat) (s : State),
      (∃ argType ∈ argTypes, ResolvesKey key argType) →
      s.lookup (RegRef.type (some key)) = some reg →
      ∀ addrs, (invokeArgs env argTypes i s).1 ≠ Result.ok addrs := by
  induction argTypes with
  | nil => intro i s h; obtain ⟨f, hf, _⟩ := h; cases hf
  | cons argType rest ih =>
    intro i s hex hreg addrs
    unfold invokeArgs
    simp only
    have hreg0 : State.lookup { s with heap := (reflectNew env argType s.heap).2 }
        (RegRef.type (some key)) = some reg := hreg
    by_cases hhead : ResolvesKey key argType
    · have e := Resolve_scoped env { s with heap := (reflectNew env argType s.heap).2 } key
        argType (newVar env argType s.heap).1 reg hhead hreg0 hs
      have e' : Resolve env { s with heap := (reflectNew env argType s.heap).2 }
          (reflectNew env argType s.heap).1 =
          (Result.error Error.scopeKeyRequired,
            { s with heap := (reflectNew env argType s.heap).2 }) := e
      rw [e']
      simp
    · have hrest : ∃ t ∈ rest, ResolvesKey key t := by
        obtain ⟨t, ht, hp⟩ := hex
        rcases List.mem_cons.mp ht with e | e
        · subst e; exact absurd hp hhead
        · exact ⟨t, e, hp⟩
      have hg : RegStep
          (State.lookup { s with heap := (reflectNew env argType s.heap).2 }
            (RegRef.type (some key)))
          ((Resolve env { s with heap := (reflectNew env argType s.heap).2 }
            (reflectNew env argType s.heap).1).2.lookup (RegRef.type (some key))) :=
        ResolveWithScope_frame (regFrame env (RegRef.type (some key))) _ _ ""
      cases hgi : Resolve env { s with heap := (reflectNew env argType s.heap).2 }
          (reflectNew env argType s.heap).1 with
      | mk r s1 =>
        rw [hgi] at hg
        cases r with
        | error e => simp
        | panicked => simp
        | ok u =>
          simp only
          have hreg1 : s1.lookup (RegRef.type (some key)) = some reg :=
            regStep_pinned hg hreg0 (Or.inr (by rw [hs]; decide))
          have h2 := ih (i + 1) s1 hrest hreg1
          cases hia : invokeArgs env rest (i + 1) s1 with
          | mk r2 s2 =>
            cases r2 with
            | error e => simp
            | panicked => simp
            | ok as =>
              rw [hia] at h2
              exact absurd rfl (h2 as)

theorem Invoke_scoped (env : Env) (s : State) (sig : String) (code : Option Nat)
    (argType key : GoType) (reg : ServiceRegistration) (hin : argType ∈ env.funcIn sig)
    (hkey : ResolvesKey key argType)
    (hreg : s.lookup (RegRef.type (some key)) = some reg) (hs : reg.Scope = Scoped) :
    (Invoke env s (Value.func sig code)).1.1 = [] ∧
    (Invoke env s (Value.func sig code)).1.2 ≠ Result.ok () := by
  have h := invokeArgs_scoped env key reg hs (env.funcIn sig) 0 s ⟨argType, hin, hkey⟩ hreg
  unfold Invoke
  rw [if_neg (by simp [Value.kind, Value.typeOf, GoType.kind])]
  simp only
  cases hia : invokeArgs env (env.funcIn sig) 0 s with
  | mk r s1 =>
    cases r with
    | error e => simp
    | panicked => simp
    | ok addrs =>
      rw [hia] at h
      exact absurd rfl (h addrs)


/-- C6. Missing scope key: for a Scoped registration, whatever it holds, the
resolver called with the empty scope key returns the error "scope key required
for scoped service" and leaves the whole state (registries, scope stores, memory,
trace of factory invocations) unchanged.  Hence `Resolve` and `ResolveBy` on a
Scoped registration return an error without changing the state, `Autowire`
never succeeds on a struct with a settable tagged field whose dependency is
Scoped, and `Invoke` never calls a function one of whose parameters resolves to
a Scoped registration. -/
theorem missing_scope_key (env : Env) (s : State) :
    (∀ (ref : RegRef) (reg : ServiceRegistration) (st : Option GoType) (tok : String),
      reg.Scope = Scoped →
      getInstance env s ref reg st tok "" = (Result.error Error.scopeKeyRequired, s)) ∧
    (∀ (key typ : GoType) (a : Nat) (reg : ServiceRegistration),
      ResolvesKey key typ → s.lookup (RegRef.type (some key)) = some reg →
      reg.Scope = Scoped →
      Resolve env s (Value.pointer typ (some a)) = (Result.error Error.scopeKeyRequired, s)) ∧
    (∀ (token : String) (target : Value) (reg : ServiceRegistration),
      s.lookup (RegRef.token token) = some reg → reg.Scope = Scoped →
      ResolveBy env s token target =
        (Result.error (if target.kind = Kind.ptr then Error.scopeKeyRequired
          else Error.targetMustBePointer), s)) ∧
    (∀ (name : String) (addr : Nat) (field : StructField) (reg : ServiceRegistration),
      field ∈ env.fields name → field.inject ≠ "" → field.canSet = true →
      s.lookup field.ref = some reg → reg.Scope = Scoped →
      (Autowire env s (Value.pointer (GoType.struct name) (some addr))).1 ≠ Result.ok ()) ∧
    (∀ (sig : String) (code : Option Nat) (argType key : GoType) (reg : ServiceRegistration),
      argType ∈ env.funcIn sig → ResolvesKey key argType →
      s.lookup (RegRef.type (some key)) = some reg → reg.Scope = Scoped →
      (Invoke env s (Value.func sig code)).1.1 = [] ∧
      (Invoke env s (Value.func sig code)).1.2 ≠ Result.ok ()) := by
  refine ⟨fun ref reg st tok hs => getInstance_scoped_empty env s ref reg st tok hs,
    fun key typ a reg hkey hreg hs => Resolve_scoped env s key typ a reg hkey hreg hs, ?_,
    fun name addr field reg hf h1 h2 hreg hs =>
      Autowire_scoped env s name addr field reg hf h1 h2 hreg hs,
    fun sig code argType key reg hin hkey hreg hs =>
      Invoke_scoped env s sig code argType key reg hin hkey hreg hs⟩
  intro token target reg hreg hs
  have hreg' : mapGet s.c.tokenServices token = some reg := hreg
  by_cases hk : target.kind = Kind.ptr
  · rw [if_pos hk]
    unfold ResolveBy
    rw [ResolveByWithScope_eq env s token target "" reg hk hreg,
      getInstance_scoped_empty env s _ reg _ _ hs]
  · rw [if_neg hk]
    unfold ResolveBy ResolveByWithScope
    simp only [hreg']
    rw [if_pos hk]

theorem missing_scope_key_witness :
    Resolve demoEnv
      (RegisterScopedFactory demoState (some testServicePtr) (ServiceFactory.closure 0))
      demoTarget =
      (Result.error Error.scopeKeyRequired,
        RegisterScopedFactory demoState (some testServicePtr) (ServiceFactory.closure 0)) ∧
    (Autowire demoEnv
      (RegisterScopedFactory demoState (some testServicePtr) (ServiceFactory.closure 0))
      demoConsumer).1 ≠ Result.ok () ∧
    (Invoke demoEnv
      (RegisterScopedFactory demoState (some testServicePtr) (ServiceFactory.closure 0))
      demoFunc).1.2 ≠ Result.ok () :=
  have h := missing_scope_key demoEnv
    (RegisterScopedFactory demoState (some testServicePtr) (ServiceFactory.closure 0))
  ⟨h.2.1 testServicePtr testServicePtr 1
      { Instance := Value.nil, Factory := some (ServiceFactory.closure 0), Scope := Scoped }
      (by decide) (by decide) (by decide),
    h.2.2.2.1 "Consumer" 4
      { Name := "Svc", Typ := testServicePtr, inject := "type", canSet := true }
      { Instance := Value.nil, Factory := some (ServiceFactory.closure 0), Scope := Scoped }
      (by decide) (by decide) (by decide) (by decide) (by decide),
    (h.2.2.2.2 "func(*TestService) string" (some 0) testServicePtr testServicePtr
      { Instance := Value.nil, Factory := some (ServiceFactory.closure 0), Scope := Scoped }
      (by decide) (by decide) (by decide) (by decide)).2⟩

theorem getInstance_transient_none (env : Env) (s : State) (ref : RegRef)
    (reg : ServiceRegistration) (st : Option GoType) (tok sk : String)
    (hs : reg.Scope = Transient) (hf : reg.Factory = none) :
    getInstance env s ref reg st tok sk = (Result.error Error.noFactoryForTransient, s) := by
  unfold getInstance
  rw [if_neg (by rw [hs]; decide), if_pos hs]
  simp only [hf]

theorem getInstance_transient_some (env : Env) (s : State) (ref : RegRef)
    (reg : ServiceRegistration) (st : Option GoType) (tok sk : String) (f : ServiceFactory)
    (v : Value) (h : Heap) (hs : reg.Scope = Transient) (hf : reg.Factory = some f)
    (hc : f.call env s.heap = some (v, h)) :
    getInstance env s ref reg st tok sk = (Result.ok v, s.afterCall f h) := by
  unfold getInstance
  rw [if_neg (by rw [hs]; decide), if_pos hs]
  simp only [hf, hc]

theorem getInstance_transient_panic (env : Env) (s : State) (ref : RegRef)
    (reg : ServiceRegistration) (st : Option GoType) (tok sk : String) (f : ServiceFactory)
    (hs : reg.Scope = Transient) (hf : reg.Factory = some f)
    (hc : f.call env s.heap = none) :
    getInstance env s ref reg st tok sk = (Result.panicked, s.afterCall f s.heap) := by
  unfold getInstance
  rw [if_neg (by rw [hs]; decide), if_pos hs]
  simp only [hf, hc]

theorem getInstance_transient_c (env : Env) (s : State) (ref : RegRef)
    (reg : ServiceRegistration) (st : Option GoType) (tok sk : String)
    (hs : reg.Scope = Transient) : (getInstance env s ref reg st tok sk).2.c = s.c := by
  cases hf : reg.Factory with
  | none => rw [getInstance_transient_none env s ref reg st tok sk hs hf]
  | some f =>
    cases hc : f.call env s.heap with
    | none => rw [getInstance_transient_panic env s ref reg st tok sk f hs hf hc]; rfl
    | some p =>
      obtain ⟨v, h⟩ := p
      rw [getInstance_transient_some env s ref reg st tok sk f v h hs hf hc]; rfl

theorem call_next_le (env : Env) (hmono : EnvMonotone env) (f : ServiceFactory) (h0 h : Heap)
    (v : Value) (hc : f.call env h0 = some (v, h)) : h0.next ≤ h.next := by
  cases f with
  | closure id =>
    simp only [ServiceFactory.call, Option.some.injEq] at hc
    have := hmono.1 id h0
    rw [hc] at this
    exact this
  | newOf prototype =>
    simp only [ServiceFactory.call] at hc
    by_cases hk : prototype.kind = Kind.ptr
    · rw [if_pos hk] at hc
      cases he : prototype.elem with
      | zero => rw [he] at hc; cases hc
      | var t a =>
        rw [he] at hc
        simp only [reflectNew, Option.some.injEq, Prod.mk.injEq] at hc
        rw [← hc.2]; exact newVar_next_le env _ _
    · rw [if_neg hk] at hc
      cases ht : prototype.typeOf with
      | none => rw [ht] at hc; cases hc
      | some t =>
        rw [ht] at hc
        simp only [reflectNew, Option.some.injEq, Prod.mk.injEq] at hc
        rw [← hc.2]; exact newVar_next_le env _ _

theorem nextFrame (env : Env) (hmono : EnvMonotone env) :
    Frame env (fun s s1 => s.heap.next ≤ s1.heap.next) where
  refl := fun s => Nat.le_refl _
  trans := fun h1 h2 => Nat.le_trans h1 h2
  resolve := fun s ref reg st tok sk _ => by
    rcases getInstance_state env s ref reg st tok sk with h | ⟨f, inst, h, _, _, hc, e⟩ |
      ⟨f, h, hc, e⟩ | ⟨f, inst, h, _, hc, e⟩
    · rw [h]
    · rw [e]
      have := call_next_le env hmono f _ _ _ hc
      cases ref <;> exact this
    · rw [e]
      rcases hc with rfl | ⟨inst, hc⟩
      · exact Nat.le_refl _
      · exact call_next_le env hmono f _ _ _ hc
    · rw [e]
      have := call_next_le env hmono f _ _ _ hc
      unfold State.scopedStore
      split <;> exact this
  heapOnly := fun s s1 h => by rw [h.2.2]
  alloc := fun s v => by simp [Heap.alloc]
  call := fun s body args => hmono.2 body args s.heap
  drain := fun s => Nat.le_refl _

theorem step_next_le (env : Env) (hmono : EnvMonotone env) (s : State) (op : Op) :
    s.heap.next ≤ (step env s op).heap.next := by
  cases op with
  | resolveWithScope target sk => exact ResolveWithScope_frame (nextFrame env hmono) s target sk
  | resolveByWithScope token target sk =>
    exact ResolveByWithScope_frame (nextFrame env hmono) s token target sk
  | autowireWithScope target sk =>
    exact AutowireWithScope_frame (nextFrame env hmono) s target sk
  | autowireAll => exact AutowireAll_frame (nextFrame env hmono) s
  | invoke fn => exact Invoke_frame (nextFrame env hmono) s fn
  | _ => exact Nat.le_refl _

theorem run_next_le (env : Env) (hmono : EnvMonotone env) (ops : List Op) :
    ∀ s : State, s.heap.next ≤ (run env s ops).heap.next := by
  induction ops with
  | nil => intro s; exact Nat.le_refl _
  | cons op rest ih =>
    intro s
    exact Nat.le_trans (step_next_le env hmono s op) (ih (step env s op))

theorem RegisterTransient_lookup (s : State) (prototype : Value) :
    (RegisterTransient s prototype).lookup (RegRef.type prototype.typeOf) =
      some { Instance := Value.nil, Factory := some (ServiceFactory.newOf prototype),
             Scope := Transient } := by
  simp [RegisterTransient, RegisterTransientFactory, RegisterFactory, State.lookup,
    mapGet_mapSet_self]

/-- One resolution of a prototype registration of `*T` into a `**T` target. -/
theorem Resolve_prototype (env : Env) (s : State) (T : String) (pa a : Nat)
    (hreg : s.lookup (RegRef.type (some (GoType.ptr (GoType.struct T)))) =
      some { Instance := Value.nil,
             Factory := some (ServiceFactory.newOf (Value.pointer (GoType.struct T) (some pa))),
             Scope := Transient }) :
    Resolve env s (Value.pointer (GoType.ptr (GoType.struct T)) (some a)) =
      (Result.ok (),
        ((s.afterCall (ServiceFactory.newOf (Value.pointer (GoType.struct T) (some pa)))
            (newVar env (GoType.struct T) s.heap).2).setVar a
          (Value.pointer (GoType.struct T) (some (newVar env (GoType.struct T) s.heap).1)))) := by
  unfold Resolve
  rw [ResolveWithScope_eq env s (GoType.ptr (GoType.struct T)) (GoType.ptr (GoType.struct T))
      a "" _ (Or.inl ⟨rfl, rfl⟩) hreg,
    getInstance_transient_some env s _ _ _ _ _
      (ServiceFactory.newOf (Value.pointer (GoType.struct T) (some pa)))
      (Value.pointer (GoType.struct T) (some (newVar env (GoType.struct T) s.heap).1))
      (newVar env (GoType.struct T) s.heap).2 rfl rfl
      (by simp [ServiceFactory.call, Value.kind, Value.typeOf, GoType.kind, Value.elem,
        reflectNew])]
  exact assignInstance_pointer env _ _ _ a _


theorem demoEnv_monotone : EnvMonotone demoEnv := by
  constructor
  · intro id h
    simp only [demoEnv]
    split
    · simp [Heap.alloc]
    · split <;> exact Nat.le_refl _
  · intro body args h
    exact Nat.le_refl _

theorem heap_read_write_self (h : Heap) (a : Nat) (v : Value) : (h.write a v).read a = some v := by
  simp [Heap.write, Heap.read, mapGet_mapSet_self]

theorem heap_read_write_other (h : Heap) (a b : Nat) (v : Value) (hne : b ≠ a) :
    (h.write a v).read b = h.read b := by
  simp [Heap.write, Heap.read, mapGet_mapSet_other _ _ _ _ hne]

theorem heap_read_alloc (h : Heap) (v : Value) : (h.alloc v).2.read h.next = some v := by
  simp [Heap.alloc, Heap.read, mapGet_mapSet_self]

theorem ResolveWithScope_unregistered (env : Env) (s : State) (key typ : GoType) (a : Nat)
    (sk : String) (hkey : ResolvesKey key typ)
    (hreg : s.lookup (RegRef.type (some key)) = none) :
    ResolveWithScope env s (Value.pointer typ (some a)) sk =
      (Result.error (Error.noRegisteredServiceForType key), s) := by
  have hreg' : mapGet s.c.typeServices (some key) = none := hreg
  rw [ResolveWithScope_resolveType env s key typ a sk hkey]
  unfold resolveType
  simp only [hreg']

/-- C9. Missing registration: resolving by type with a well-shaped target whose
key has no registration returns the error "no registered service for type ...",
and resolving by a token that has no registration returns the error "no
registered service for token ..."; in both cases the whole state (type
registry, token registry, scope stores, pending-autowire list, the memory holding
the target, trace of factory invocations) is unchanged. -/
theorem missing_registration (env : Env) (s : State) :
    (∀ (key typ : GoType) (a : Nat) (sk : String),
      ResolvesKey key typ → s.lookup (RegRef.type (some key)) = none →
      ResolveWithScope env s (Value.pointer typ (some a)) sk =
        (Result.error (Error.noRegisteredServiceForType key), s)) ∧
    (∀ (token : String) (target : Value) (sk : String),
      s.lookup (RegRef.token token) = none →
      ResolveByWithScope env s token target sk =
        (Result.error (Error.noRegisteredServiceForToken token), s)) := by
  refine ⟨fun key typ a sk hkey hreg =>
    ResolveWithScope_unregistered env s key typ a sk hkey hreg, ?_⟩
  intro token target sk hreg
  have hreg' : mapGet s.c.tokenServices token = none := hreg
  unfold ResolveByWithScope
  simp only [hreg']

theorem missing_registration_witness :
    ResolveWithScope demoEnv (Register demoState demoService) demoOtherTarget "req-1" =
      (Result.error (Error.noRegisteredServiceForType (GoType.ptr (GoType.struct "Other"))),
        Register demoState demoService) ∧
    ResolveByWithScope demoEnv (Register demoState demoService) "svc" demoTarget "" =
      (Result.error (Error.noRegisteredServiceForToken "svc"), Register demoState demoService) :=
  have h := missing_registration demoEnv (Register demoState demoService)
  ⟨h.1 (GoType.ptr (GoType.struct "Other")) (GoType.ptr (GoType.struct "Other")) 3 "req-1"
      (by decide) (by decide),
    h.2 "svc" demoTarget "" (by decide)⟩

theorem lookup_type_other (s : State) (key : Option GoType) (reg : ServiceRegistration)
    (R : RegRef) (hR : R ≠ RegRef.type key) :
    State.lookup { s with c := { s.c with typeServices := mapSet s.c.typeServices key reg } } R =
      s.lookup R := by
  cases R with
  | type k =>
    have hk : k ≠ key := fun e => hR (by rw [e])
    simp [State.lookup, mapGet_mapSet_other _ _ _ _ hk]
  | token t => rfl

theorem lookup_token_other (s : State) (token : String) (reg : ServiceRegistration)
    (R : RegRef) (hR : R ≠ RegRef.token token) :
    State.lookup { s with c := { s.c with tokenServices := mapSet s.c.tokenServices token reg } }
      R = s.lookup R := by
  cases R with
  | type k => rfl
  | token t =>
    have hk : t ≠ token := fun e => hR (by rw [e])
    simp [State.lookup, mapGet_mapSet_other _ _ _ _ hk]

theorem assignInstance_struct (env : Env) (s : State) (T : String) (pa a : Nat)
    (targetType : GoType) (v : Value) (hv : s.heap.read pa = some v) :
    assignInstance env s (Value.pointer (GoType.struct T) (some pa)) (GoType.struct T) a
        targetType = (Result.ok (), s.setVar a v) := by
  simp [assignInstance, GoType.kind, Value.kind, Value.typeOf, Value.elem, assignableTo, hv]

/-- C12. Pointer/struct resolution: after `Register(p)` of a pointer `p` of type
`*T` to a struct (and any operations that do not register `*T` again), a
resolution into a pointer-to-pointer target (`**T`) succeeds and stores `p` in
the pointed-to variable, and, `p` pointing to the value `v`, a resolution into a
pointer-to-struct target (`*T`) succeeds and stores the copy `v` in the
pointed-to struct; both targets are looked up under the same pointer-form key
`*T`. -/
theorem pointer_struct_resolution (env : Env) (s : State) (T : String) (pa : Option Nat)
    (a : Nat) (sk : String) (ops : List Op)
    (hops : ∀ op ∈ ops,
      op.registers (RegRef.type (some (GoType.ptr (GoType.struct T)))) = false) :
    let p := Value.pointer (GoType.struct T) pa
    let s1 := run env (Register s p) ops
    ResolveWithScope env s1 (Value.pointer (GoType.ptr (GoType.struct T)) (some a)) sk =
      (Result.ok (), s1.setVar a p) ∧
    (∀ src v, pa = some src → s1.heap.read src = some v →
      ResolveWithScope env s1 (Value.pointer (GoType.struct T) (some a)) sk =
        (Result.ok (), s1.setVar a v)) ∧
    ResolveWithScope env s1 (Value.pointer (GoType.ptr (GoType.struct T)) (some a)) sk =
      resolveType env s1 (GoType.ptr (GoType.struct T)) a (GoType.ptr (GoType.struct T)) sk ∧
    ResolveWithScope env s1 (Value.pointer (GoType.struct T) (some a)) sk =
      resolveType env s1 (GoType.struct T) a (GoType.ptr (GoType.struct T)) sk := by
  intro p s1
  have hreg : (Register s p).lookup (RegRef.type (some (GoType.ptr (GoType.struct T)))) =
      some { Instance := p, Factory := none, Scope := Singleton } := Register_lookup s p
  have hp : p ≠ Value.nil := by simp [p]
  have hpin := run_pinned env _ ops _ _ hops hreg (Or.inl hp)
  have hk1 : ResolvesKey (GoType.ptr (GoType.struct T)) (GoType.ptr (GoType.struct T)) :=
    Or.inl ⟨rfl, rfl⟩
  have hk2 : ResolvesKey (GoType.ptr (GoType.struct T)) (GoType.struct T) :=
    Or.inr ⟨rfl, rfl⟩
  refine ⟨?_, ?_, ResolveWithScope_resolveType env s1 _ _ a sk hk1,
    ResolveWithScope_resolveType env s1 _ _ a sk hk2⟩
  · rw [ResolveWithScope_cached env s1 _ _ a sk _ hk1 hpin rfl hp]
    exact assignInstance_pointer env s1 _ pa a _
  · intro src v hsrc hv
    rw [ResolveWithScope_cached env s1 _ _ a sk _ hk2 hpin rfl hp]
    simp only [p, hsrc]
    exact assignInstance_struct env s1 T src a _ v hv

theorem pointer_struct_resolution_witness :
    ResolveWithScope demoEnv (Register demoState demoService) demoTarget "" =
      (Result.ok (), (Register demoState demoService).setVar 1 demoService) ∧
    ResolveWithScope demoEnv (Register demoState demoService) demoStructTarget "" =
      (Result.ok (), (Register demoState demoService).setVar 2
        (Value.structV "TestService" [Value.basic "string" 1])) :=
  have h := pointer_struct_resolution demoEnv demoState "TestService" (some 0) 1 "" []
    (by decide)
  have h2 := pointer_struct_resolution demoEnv demoState "TestService" (some 0) 2 "" []
    (by decide)
  ⟨h.1, h2.2.1 0 _ rfl (by decide)⟩

/-- C13 (as stated, refuted). A struct value is registered under its own struct
type, not under the pointer type: after `Register(v)` of a `TestService` value
the key `TestService` holds the registration, the key `*TestService` holds none,
and `Resolve` into a `**TestService` target and into a `*TestService` target both
fail with "no registered service for type *TestService". -/
theorem struct_value_key_not_found :
    (Register demoState (Value.structV "TestService" [Value.basic "string" 1])).lookup
      (RegRef.type (some (GoType.struct "TestService"))) =
      some { Instance := Value.structV "TestService" [Value.basic "string" 1],
             Factory := none, Scope := Singleton } ∧
    (Register demoState (Value.structV "TestService" [Value.basic "string" 1])).lookup
      (RegRef.type (some testServicePtr)) = none ∧
    (Resolve demoEnv (Register demoState (Value.structV "TestService" [Value.basic "string" 1]))
      demoTarget).1 = Result.error (Error.noRegisteredServiceForType testServicePtr) ∧
    (Resolve demoEnv (Register demoState (Value.structV "TestService" [Value.basic "string" 1]))
      demoStructTarget).1 = Result.error (Error.noRegisteredServiceForType testServicePtr) := by
  decide

/-- C13 (amended). Type keys are not canonicalized at registration: `Register`
stores a struct value of type `T` under the key `T` and a pointer of type `*T`
under the key `*T`, and registering the struct value leaves the slot of `*T`
unchanged.  Resolution canonicalizes the target only: a target of type `*T` and
a target of type `**T` are both looked up under `*T`, so after `Register(v)` with
`v` a struct value of type `T` such a `Resolve` fails with "no registered
service for type *T" unless `*T` was registered separately. -/
theorem key_canonicalization (env : Env) (s : State) (T : String) (fields : List Value) :
    (Register s (Value.structV T fields)).lookup (RegRef.type (some (GoType.struct T))) =
      some { Instance := Value.structV T fields, Factory := none, Scope := Singleton } ∧
    (∀ pa, (Register s (Value.pointer (GoType.struct T) pa)).lookup
        (RegRef.type (some (GoType.ptr (GoType.struct T)))) =
      some { Instance := Value.pointer (GoType.struct T) pa, Factory := none,
             Scope := Singleton }) ∧
    (Register s (Value.structV T fields)).lookup
        (RegRef.type (some (GoType.ptr (GoType.struct T)))) =
      s.lookup (RegRef.type (some (GoType.ptr (GoType.struct T)))) ∧
    (∀ (typ : GoType) (a : Nat) (sk : String),
      typ = GoType.struct T ∨ typ = GoType.ptr (GoType.struct T) →
      ResolveWithScope env (Register s (Value.structV T fields))
          (Value.pointer typ (some a)) sk =
        resolveType env (Register s (Value.structV T fields)) typ a
          (GoType.ptr (GoType.struct T)) sk) ∧
    (∀ (typ : GoType) (a : Nat) (sk : String),
      typ = GoType.struct T ∨ typ = GoType.ptr (GoType.struct T) →
      s.lookup (RegRef.type (some (GoType.ptr (GoType.struct T)))) = none →
      ResolveWithScope env (Register s (Value.structV T fields))
          (Value.pointer typ (some a)) sk =
        (Result.error (Error.noRegisteredServiceForType (GoType.ptr (GoType.struct T))),
          Register s (Value.structV T fields))) := by
  have hother : (Register s (Value.structV T fields)).lookup
        (RegRef.type (some (GoType.ptr (GoType.struct T)))) =
      s.lookup (RegRef.type (some (GoType.ptr (GoType.struct T)))) :=
    lookup_type_other s _ _ _ (by simp [Value.typeOf])
  have hkey : ∀ typ, typ = GoType.struct T ∨ typ = GoType.ptr (GoType.struct T) →
      ResolvesKey (GoType.ptr (GoType.struct T)) typ := by
    intro typ h
    rcases h with rfl | rfl
    · exact Or.inr ⟨rfl, rfl⟩
    · exact Or.inl ⟨rfl, rfl⟩
  refine ⟨Register_lookup s _, fun pa => Register_lookup s _, hother, ?_, ?_⟩
  · intro typ a sk h
    exact ResolveWithScope_resolveType env _ _ typ a sk (hkey typ h)
  · intro typ a sk h hnone
    exact ResolveWithScope_unregistered env _ _ typ a sk (hkey typ h) (hother.trans hnone)

theorem key_canonicalization_witness :
    ResolveWithScope demoEnv
      (Register demoState (Value.structV "TestService" [Value.basic "string" 1]))
      demoStructTarget "" =
      (Result.error (Error.noRegisteredServiceForType testServicePtr),
        Register demoState (Value.structV "TestService" [Value.basic "string" 1])) :=
  (key_canonicalization demoEnv demoState "TestService" [Value.basic "string" 1]).2.2.2.2
    (GoType.struct "TestService") 2 "" (Or.inl rfl) (by decide)

theorem getInstance_error_shape (env : Env) (s : State) (ref : RegRef)
    (reg : ServiceRegistration) (st : Option GoType) (tok sk : String) (e : Error)
    (h : (getInstance env s ref reg st tok sk).1 = Result.error e) :
    e.isTargetShape = false := by
  unfold getInstance at h
  split_ifs at h <;> (repeat' split at h) <;> simp at h <;> subst h <;> rfl

theorem assignInstance_error_shape (env : Env) (s : State) (inst : Value) (typ : GoType)
    (addr : Nat) (targetType : GoType) (e : Error)
    (hk : typ.kind = Kind.ptr ∨ typ.kind = Kind.struct)
    (h : (assignInstance env s inst typ addr targetType).1 = Result.error e) :
    e.isTargetShape = false := by
  unfold assignInstance at h
  split_ifs at h <;> (repeat' split at h) <;> simp at h <;> (try subst h) <;>
    first | rfl | (rcases hk with hk | hk <;> contradiction)

theorem resolveType_error_shape (env : Env) (s : State) (typ : GoType) (addr : Nat)
    (targetType : GoType) (sk : String) (e : Error)
    (hk : typ.kind = Kind.ptr ∨ typ.kind = Kind.struct)
    (h : (resolveType env s typ addr targetType sk).1 = Result.error e) :
    e.isTargetShape = false := by
  unfold resolveType at h
  cases hreg : mapGet s.c.typeServices (some targetType) with
  | none =>
    simp only [hreg] at h
    injection h with h
    subst h
    rfl
  | some reg =>
    simp only [hreg] at h
    cases hg : getInstance env s (RegRef.type (some targetType)) reg (some targetType) "" sk with
    | mk r s1 =>
      rw [hg] at h
      cases r with
      | ok inst => exact assignInstance_error_shape env s1 inst typ addr targetType e hk h
      | error e1 =>
        simp only at h
        injection h with h
        subst h
        exact getInstance_error_shape env s _ reg _ _ sk e1 (by rw [hg])
      | panicked => simp at h

/-- C14. Target shape: `ResolveWithScope` returns a target-shape error if and
only if the target is not a pointer, or is a pointer whose pointee is neither a
struct nor a pointer (a nil pointer included); in that case the state (registry,
scope stores, memory and the trace of factory calls) is unchanged, whatever is
registered. -/
theorem target_shape (env : Env) (s : State) (target : Value) (sk : String) :
    ((∃ e, (ResolveWithScope env s target sk).1 = Result.error e ∧ e.isTargetShape = true) ↔
      (target.kind ≠ Kind.ptr ∨
        (target.elem.kind ≠ Kind.struct ∧ target.elem.kind ≠ Kind.ptr))) ∧
    ((target.kind ≠ Kind.ptr ∨
        (target.elem.kind ≠ Kind.struct ∧ target.elem.kind ≠ Kind.ptr)) →
      (ResolveWithScope env s target sk).2 = s) := by
  by_cases hp : target.kind ≠ Kind.ptr
  · have hr : ResolveWithScope env s target sk = (Result.error Error.targetMustBePointer, s) := by
      unfold ResolveWithScope
      rw [if_pos hp]
    rw [hr]
    exact ⟨⟨fun _ => Or.inl hp, fun _ => ⟨_, rfl, rfl⟩⟩, fun _ => rfl⟩
  · cases he : target.elem with
    | zero =>
      have hr : ResolveWithScope env s target sk =
          (Result.error Error.targetMustBePointerToStructOrPointer, s) := by
        unfold ResolveWithScope
        rw [if_neg hp]
        simp only [he]
      rw [hr]
      have hz : Ref.zero.kind ≠ Kind.struct ∧ Ref.zero.kind ≠ Kind.ptr := by
        simp [Ref.kind]
      exact ⟨⟨fun _ => Or.inr hz, fun _ => ⟨_, rfl, rfl⟩⟩, fun _ => rfl⟩
    | var typ addr =>
      by_cases h1 : typ.kind = Kind.ptr
      · have hr : ResolveWithScope env s target sk = resolveType env s typ addr typ sk := by
          unfold ResolveWithScope
          rw [if_neg hp]
          simp only [he, if_pos h1]
        rw [hr]
        have hno : ¬ (target.kind ≠ Kind.ptr ∨
            ((Ref.var typ addr).kind ≠ Kind.struct ∧ (Ref.var typ addr).kind ≠ Kind.ptr)) := by
          intro h
          rcases h with h | h
          · exact hp h
          · exact h.2 h1
        refine ⟨⟨?_, fun h => absurd h hno⟩, fun h => absurd h hno⟩
        rintro ⟨e, h2, h3⟩
        rw [resolveType_error_shape env s typ addr typ sk e (Or.inl h1) h2] at h3
        cases h3
      · by_cases h2 : typ.kind = Kind.struct
        · have hr : ResolveWithScope env s target sk =
              resolveType env s typ addr (GoType.ptr typ) sk := by
            unfold ResolveWithScope
            rw [if_neg hp]
            simp only [he, if_neg h1, if_pos h2]
          rw [hr]
          have hno : ¬ (target.kind ≠ Kind.ptr ∨
              ((Ref.var typ addr).kind ≠ Kind.struct ∧
                (Ref.var typ addr).kind ≠ Kind.ptr)) := by
            intro h
            rcases h with h | h
            · exact hp h
            · exact h.1 h2
          refine ⟨⟨?_, fun h => absurd h hno⟩, fun h => absurd h hno⟩
          rintro ⟨e, h3, h4⟩
          rw [resolveType_error_shape env s typ addr _ sk e (Or.inr h2) h3] at h4
          cases h4
        · have hr : ResolveWithScope env s target sk =
              (Result.error Error.targetMustBePointerToStructOrPointer, s) := by
            unfold ResolveWithScope
            rw [if_neg hp]
            simp only [he, if_neg h1, if_neg h2]
          rw [hr]
          have hz : (Ref.var typ addr).kind ≠ Kind.struct ∧
              (Ref.var typ addr).kind ≠ Kind.ptr := ⟨h2, h1⟩
          exact ⟨⟨fun _ => Or.inr hz, fun _ => ⟨_, rfl, rfl⟩⟩, fun _ => rfl⟩

theorem target_shape_witness :
    (ResolveWithScope demoEnv (Register demoState demoService)
      (Value.pointer (GoType.basic "string") (some 1)) "").2 = Register demoState demoService ∧
    (ResolveWithScope demoEnv
      (RegisterFactory demoState (some testServicePtr) (ServiceFactory.closure 0) Transient)
      (Value.pointer testServicePtr none) "").2 =
      RegisterFactory demoState (some testServicePtr) (ServiceFactory.closure 0) Transient :=
  ⟨(target_shape demoEnv (Register demoState demoService)
      (Value.pointer (GoType.basic "string") (some 1)) "").2 (by decide),
    (target_shape demoEnv
      (RegisterFactory demoState (some testServicePtr) (ServiceFactory.closure 0) Transient)
      (Value.pointer testServicePtr none) "").2 (by decide)⟩

/-- C15 (the code diverges). A type mismatch can abort instead of being reported:
`Resolve` into a `**TestService` target panics when the Singleton factory yields
nil; `Resolve` into an `Other` struct target panics when the factory registered
for `*Other` yields a `*TestService`; `ResolveBy` into a `**TestService` target
panics when the factory bound to the token yields nil; `Autowire` panics when
the factory registered for the struct-typed field yields nil.  On its own path
`ResolveBy` reports the same struct mismatch as an error and leaves the target
as it was. -/
theorem type_mismatch_panics :
    (Resolve wireEnv
      (RegisterFactory wireState (some testServicePtr) (ServiceFactory.closure 1) Singleton)
      wirePtrTarget).1 = Result.panicked ∧
    (Resolve wireEnv
      (RegisterFactory wireState (some (GoType.ptr (GoType.struct "Other")))
        (ServiceFactory.closure 0) Transient)
      wireOtherTarget).1 = Result.panicked ∧
    (ResolveBy wireEnv
      (BindFactory wireState "svc" (ServiceFactory.closure 1) Singleton) "svc"
      wirePtrTarget).1 = Result.panicked ∧
    (Autowire wireEnv
      (RegisterFactory wireState (some (GoType.struct "TestService"))
        (ServiceFactory.closure 1) Transient)
      wireValueHolder).1 = Result.panicked ∧
    (ResolveBy wireEnv
      (BindFactory wireState "svc" (ServiceFactory.closure 0) Transient) "svc"
      wireOtherTarget).1 =
      Result.error (Error.typeMismatchAssign (GoType.struct "TestService")
        (GoType.struct "Other")) ∧
    (ResolveBy wireEnv
      (BindFactory wireState "svc" (ServiceFactory.closure 0) Transient) "svc"
      wireOtherTarget).2.heap.read 3 = wireState.heap.read 3 := by
  decide

/-- C17 (the code diverges). With the pointer `p` of type `*TestService`
registered by `Register`, autowiring a target whose field tagged "type" is
declared as the struct `TestService` fails with "missing dependency for type
TestService" and leaves the state as it was, although `Resolve` into a
`TestService` struct target finds the same registration and stores the copy, and
autowiring a field declared as `*TestService` succeeds with the field set to
`p`. -/
theorem autowire_struct_field_missing :
    Autowire wireEnv (Register wireState demoService) wireValueHolder =
      (Result.error (Error.missingDependencyForType (GoType.struct "TestService")),
        Register wireState demoService) ∧
    (Resolve wireEnv (Register wireState demoService) wireStructTarget).1 = Result.ok () ∧
    (Resolve wireEnv (Register wireState demoService) wireStructTarget).2.heap.read 5 =
      some (Value.structV "TestService" [Value.basic "string" 1]) ∧
    (Autowire wireEnv (Bind (Register wireState demoService) "tok" demoService)
      wireHolder).1 = Result.ok () ∧
    (Autowire wireEnv (Bind (Register wireState demoService) "tok" demoService)
      wireHolder).2.heap.field 1 1 = some demoService := by
  decide

theorem getInstance_withTokens (env : Env) (s : State) (key : Option GoType)
    (reg : ServiceRegistration) (st : Option GoType) (sk : String)
    (ts : List (String × ServiceRegistration)) (sts : List (String × List (String × Value))) :
    getInstance env (s.withTokens ts sts) (RegRef.type key) reg st "" sk =
      ((getInstance env s (RegRef.type key) reg st "" sk).1,
        (getInstance env s (RegRef.type key) reg st "" sk).2.withTokens ts sts) := by
  unfold getInstance
  have hh : (s.withTokens ts sts).heap = s.heap := rfl
  have hl : (s.withTokens ts sts).scopedLookup st "" sk = s.scopedLookup st "" sk := rfl
  rw [hh, hl]
  split_ifs <;> (repeat' split) <;> rfl

theorem getInstance_withTypes (env : Env) (s : State) (token : String)
    (reg : ServiceRegistration) (st : Option GoType) (sk : String) (ht : token ≠ "")
    (tys : List (Option GoType × ServiceRegistration))
    (sis : List (String × List (Option GoType × Value))) :
    getInstance env (s.withTypes tys sis) (RegRef.token token) reg st token sk =
      ((getInstance env s (RegRef.token token) reg st token sk).1,
        (getInstance env s (RegRef.token token) reg st token sk).2.withTypes tys sis) := by
  unfold getInstance
  have hh : (s.withTypes tys sis).heap = s.heap := rfl
  have hl : (s.withTypes tys sis).scopedLookup st token sk = s.scopedLookup st token sk := by
    simp [State.scopedLookup, ht, State.withTypes]
  have hst : ∀ (f : ServiceFactory) (h : Heap) (v : Value),
      ((s.withTypes tys sis).afterCall f h).scopedStore st token sk v =
        ((s.afterCall f h).scopedStore st token sk v).withTypes tys sis := by
    intro f h v
    simp [State.scopedStore, ht, State.withTypes, State.afterCall]
  rw [hh, hl]
  split_ifs <;> (repeat' split) <;> first | rfl | exact congrArg _ (hst _ _ _)

theorem assignInstance_withTokens (env : Env) (s : State) (inst : Value) (typ : GoType)
    (addr : Nat) (targetType : GoType)
    (ts : List (String × ServiceRegistration)) (sts : List (String × List (String × Value))) :
    assignInstance env (s.withTokens ts sts) inst typ addr targetType =
      ((assignInstance env s inst typ addr targetType).1,
        (assignInstance env s inst typ addr targetType).2.withTokens ts sts) := by
  unfold assignInstance
  have hh : (s.withTokens ts sts).heap = s.heap := rfl
  rw [hh]
  split_ifs <;> (repeat' split) <;> rfl

theorem assignByToken_withTypes (env : Env) (s : State) (inst : Value) (elem : Ref)
    (tys : List (Option GoType × ServiceRegistration))
    (sis : List (String × List (Option GoType × Value))) :
    assignByToken env (s.withTypes tys sis) inst elem =
      ((assignByToken env s inst elem).1,
        (assignByToken env s inst elem).2.withTypes tys sis) := by
  unfold assignByToken
  have hh : (s.withTypes tys sis).heap = s.heap := rfl
  rw [hh]
  cases elem with
  | zero => rfl
  | var typ addr =>
    simp only
    split_ifs <;> (repeat' split) <;> rfl

/-- Resolution by type neither reads nor writes the token-keyed entries. -/
theorem ResolveWithScope_withTokens (env : Env) (s : State) (target : Value) (sk : String)
    (ts : List (String × ServiceRegistration)) (sts : List (String × List (String × Value))) :
    ResolveWithScope env (s.withTokens ts sts) target sk =
      ((ResolveWithScope env s target sk).1,
        (ResolveWithScope env s target sk).2.withTokens ts sts) := by
  have hrt : ∀ typ addr targetType,
      resolveType env (s.withTokens ts sts) typ addr targetType sk =
        ((resolveType env s typ addr targetType sk).1,
          (resolveType env s typ addr targetType sk).2.withTokens ts sts) := by
    intro typ addr targetType
    unfold resolveType
    have hm : (s.withTokens ts sts).c.typeServices = s.c.typeServices := rfl
    rw [hm]
    cases hreg : mapGet s.c.typeServices (some targetType) with
    | none => rfl
    | some reg =>
      simp only
      rw [getInstance_withTokens]
      cases hg : getInstance env s (RegRef.type (some targetType)) reg (some targetType) "" sk with
      | mk r s1 =>
        cases r with
        | ok inst => exact assignInstance_withTokens env s1 inst typ addr targetType ts sts
        | error e => rfl
        | panicked => rfl
  unfold ResolveWithScope
  by_cases hp : target.kind ≠ Kind.ptr
  · rw [if_pos hp, if_pos hp]
  · rw [if_neg hp, if_neg hp]
    cases target.elem with
    | zero => rfl
    | var typ addr =>
      simp only
      split_ifs
      · exact hrt _ _ _
      · exact hrt _ _ _
      · rfl

/-- Resolution by a non-empty token neither reads nor writes the type-keyed
entries. -/
theorem ResolveByWithScope_withTypes (env : Env) (s : State) (token : String)
    (target : Value) (sk : String) (ht : token ≠ "")
    (tys : List (Option GoType × ServiceRegistration))
    (sis : List (String × List (Option GoType × Value))) :
    ResolveByWithScope env (s.withTypes tys sis) token target sk =
      ((ResolveByWithScope env s token target sk).1,
        (ResolveByWithScope env s token target sk).2.withTypes tys sis) := by
  unfold ResolveByWithScope
  have hm : (s.withTypes tys sis).c.tokenServices = s.c.tokenServices := rfl
  rw [hm]
  cases hreg : mapGet s.c.tokenServices token with
  | none => rfl
  | some reg =>
    simp only
    by_cases hp : target.kind ≠ Kind.ptr
    · rw [if_pos hp, if_pos hp]
    · rw [if_neg hp, if_neg hp, getInstance_withTypes env s token reg _ sk ht]
      cases hg : getInstance env s (RegRef.token token) reg target.typeOf token sk with
      | mk r s1 =>
        cases r with
        | ok inst => exact assignByToken_withTypes env s1 inst target.elem tys sis
        | error e => rfl
        | panicked => rfl

theorem withTypes_self (s : State) : s.withTypes s.c.typeServices s.c.scopedInstances = s := rfl

theorem withTokens_self (s : State) : s.withTokens s.c.tokenServices s.c.scopedTokens = s := rfl

/-- C11 (as stated, refuted). The empty token collides with the type keys.  With
a Scoped factory bound to the token "" and another Scoped factory registered for
`*TestService`, a resolution by type under "req-1" stores the instance of the
type's factory (address 0); after a resolution by the token "" under "req-1"
into a `TestService` target, the same resolution by type stores the instance
made by the token's factory (address 6) and the type's factory is never called.
Conversely a resolution by the token "" stores the value made by the token's
factory, and after a resolution by type under the same scope key it stores the
value of the type's instance. -/
theorem empty_token_collides_with_type :
    (ResolveWithScope demoEnv
      (RegisterFactory (BindFactory demoState "" (ServiceFactory.closure 0) Scoped)
        (some testServicePtr) (ServiceFactory.closure 2) Scoped)
      demoTarget "req-1").2.heap.read 1 = some demoService ∧
    (ResolveWithScope demoEnv
      (ResolveByWithScope demoEnv
        (RegisterFactory (BindFactory demoState "" (ServiceFactory.closure 0) Scoped)
          (some testServicePtr) (ServiceFactory.closure 2) Scoped)
        "" demoStructTarget "req-1").2
      demoTarget "req-1").2.heap.read 1 =
      some (Value.pointer (GoType.struct "TestService") (some 6)) ∧
    (ResolveWithScope demoEnv
      (ResolveByWithScope demoEnv
        (RegisterFactory (BindFactory demoState "" (ServiceFactory.closure 0) Scoped)
          (some testServicePtr) (ServiceFactory.closure 2) Scoped)
        "" demoStructTarget "req-1").2
      demoTarget "req-1").2.calls = [ServiceFactory.closure 0] ∧
    (ResolveByWithScope demoEnv
      (RegisterFactory (BindFactory demoState "" (ServiceFactory.closure 0) Scoped)
        (some testServicePtr) (ServiceFactory.closure 2) Scoped)
      "" demoStructTarget "req-1").2.heap.read 2 =
      some (Value.structV "TestService" [Value.basic "string" 7]) ∧
    (ResolveByWithScope demoEnv
      (ResolveWithScope demoEnv
        (RegisterFactory (BindFactory demoState "" (ServiceFactory.closure 0) Scoped)
          (some testServicePtr) (ServiceFactory.closure 2) Scoped)
        demoTarget "req-1").2
      "" demoStructTarget "req-1").2.heap.read 2 =
      some (Value.structV "TestService" [Value.basic "string" 1]) := by
  decide

/-- C11 (amended). Namespace separation for non-empty tokens: for every state,
every non-empty token `t` and every target, (1) binding `t` changes neither the
result of a later resolution by type nor the state it leaves, the token registry
apart; (2) a resolution by `t` leaves the type registry and the type-keyed scope
store as they were; (3) a resolution by type has the same result whatever the
token registry and the token-keyed scope store hold, and leaves them as they
were; and symmetrically (4) registering by type changes neither the result of a
later resolution by `t` nor the state it leaves, the type registry apart; (5) a
resolution by type leaves the token registry and the token-keyed scope store as
they were; (6) a resolution by `t` has the same result whatever the type
registry and the type-keyed scope store hold, and leaves them as they were. -/
theorem namespace_separation (env : Env) (s : State) (token : String) (ht : token ≠ "")
    (target : Value) (sk : String) :
    (∀ service scope,
      ResolveWithScope env (BindScoped s token service scope) target sk =
        ((ResolveWithScope env s target sk).1,
          (ResolveWithScope env s target sk).2.withTokens
            (BindScoped s token service scope).c.tokenServices s.c.scopedTokens)) ∧
    (∀ factory scope,
      ResolveWithScope env (BindFactory s token factory scope) target sk =
        ((ResolveWithScope env s target sk).1,
          (ResolveWithScope env s target sk).2.withTokens
            (BindFactory s token factory scope).c.tokenServices s.c.scopedTokens)) ∧
    (∀ target2 sk2,
      (ResolveByWithScope env s token target2 sk2).2.c.typeServices = s.c.typeServices ∧
      (ResolveByWithScope env s token target2 sk2).2.c.scopedInstances =
        s.c.scopedInstances) ∧
    (∀ ts sts,
      ResolveWithScope env (s.withTokens ts sts) target sk =
        ((ResolveWithScope env s target sk).1,
          (ResolveWithScope env s target sk).2.withTokens ts sts)) ∧
    (∀ service scope,
      ResolveByWithScope env (RegisterScoped s service scope) token target sk =
        ((ResolveByWithScope env s token target sk).1,
          (ResolveByWithScope env s token target sk).2.withTypes
            (RegisterScoped s service scope).c.typeServices s.c.scopedInstances)) ∧
    (∀ serviceType factory scope,
      ResolveByWithScope env (RegisterFactory s serviceType factory scope) token target sk =
        ((ResolveByWithScope env s token target sk).1,
          (ResolveByWithScope env s token target sk).2.withTypes
            (RegisterFactory s serviceType factory scope).c.typeServices
            s.c.scopedInstances)) ∧
    (∀ target2 sk2,
      (ResolveWithScope env s target2 sk2).2.c.tokenServices = s.c.tokenServices ∧
      (ResolveWithScope env s target2 sk2).2.c.scopedTokens = s.c.scopedTokens) ∧
    (∀ tys sis,
      ResolveByWithScope env (s.withTypes tys sis) token target sk =
        ((ResolveByWithScope env s token target sk).1,
          (ResolveByWithScope env s token target sk).2.withTypes tys sis)) := by
  refine ⟨?_, ?_, ?_, ?_, ?_, ?_, ?_, ?_⟩
  · intro service scope
    exact ResolveWithScope_withTokens env s target sk _ _
  · intro factory scope
    exact ResolveWithScope_withTokens env s target sk _ _
  · intro target2 sk2
    have h := ResolveByWithScope_withTypes env s token target2 sk2 ht
      s.c.typeServices s.c.scopedInstances
    rw [withTypes_self] at h
    have h2 := congrArg Prod.snd h
    simp only at h2
    constructor
    · rw [h2]; rfl
    · rw [h2]; rfl
  · intro ts sts
    exact ResolveWithScope_withTokens env s target sk ts sts
  · intro service scope
    exact ResolveByWithScope_withTypes env s token target sk ht _ _
  · intro serviceType factory scope
    exact ResolveByWithScope_withTypes env s token target sk ht _ _
  · intro target2 sk2
    have h := ResolveWithScope_withTokens env s target2 sk2
      s.c.tokenServices s.c.scopedTokens
    rw [withTokens_self] at h
    have h2 := congrArg Prod.snd h
    simp only at h2
    constructor
    · rw [h2]; rfl
    · rw [h2]; rfl
  · intro tys sis
    exact ResolveByWithScope_withTypes env s token target sk ht tys sis

theorem namespace_separation_witness :
    ResolveWithScope demoEnv
      (BindFactory
        (RegisterFactory demoState (some testServicePtr) (ServiceFactory.closure 2) Scoped)
        "svc" (ServiceFactory.closure 0) Scoped) demoTarget "req-1" =
      ((ResolveWithScope demoEnv
          (RegisterFactory demoState (some testServicePtr) (ServiceFactory.closure 2) Scoped)
          demoTarget "req-1").1,
        (ResolveWithScope demoEnv
          (RegisterFactory demoState (some testServicePtr) (ServiceFactory.closure 2) Scoped)
          demoTarget "req-1").2.withTokens
          (BindFactory
            (RegisterFactory demoState (some testServicePtr) (ServiceFactory.closure 2) Scoped)
            "svc" (ServiceFactory.closure 0) Scoped).c.tokenServices
          (RegisterFactory demoState (some testServicePtr) (ServiceFactory.closure 2)
            Scoped).c.scopedTokens) :=
  (namespace_separation demoEnv
    (RegisterFactory demoState (some testServicePtr) (ServiceFactory.closure 2) Scoped)
    "svc" (by decide) demoTarget "req-1").2.1 (ServiceFactory.closure 0) Scoped

theorem getInstance_pending (env : Env) (s : State) (ref : RegRef)
    (reg : ServiceRegistration) (st : Option GoType) (tok sk : String) :
    (getInstance env s ref reg st tok sk).2.c.pendingAutowire = s.c.pendingAutowire := by
  have hset : ∀ (s0 : State) inst,
      (s0.setInstance ref reg inst).c.pendingAutowire = s0.c.pendingAutowire := by
    intro s0 inst
    cases ref <;> rfl
  have hstore : ∀ (s0 : State) inst,
      (s0.scopedStore st tok sk inst).c.pendingAutowire = s0.c.pendingAutowire := by
    intro s0 inst
    unfold State.scopedStore
    split_ifs <;> rfl
  rcases getInstance_state env s ref reg st tok sk with h | ⟨f, inst, h, _, _, _, h2⟩ |
    ⟨f, h, _, h2⟩ | ⟨f, inst, h, _, _, h2⟩
  · rw [h]
  · rw [h2, hset]; rfl
  · rw [h2]; rfl
  · rw [h2, hstore]; rfl

theorem resolveField_pending (env : Env) (s : State) (field : StructField) (sk : String) :
    (resolveField env s field sk).2.c.pendingAutowire = s.c.pendingAutowire := by
  unfold resolveField
  split_ifs
  · cases hreg : mapGet s.c.typeServices (some field.Typ) with
    | none => rfl
    | some reg => exact getInstance_pending env s _ reg _ _ sk
  · cases hreg : mapGet s.c.tokenServices field.inject with
    | none => rfl
    | some reg => exact getInstance_pending env s _ reg _ _ sk

theorem autowireFields_pending (env : Env) (sk : String) (addr : Nat)
    (fields : List StructField) :
    ∀ (i : Nat) (s : State),
      (autowireFields env sk addr fields i s).2.c.pendingAutowire = s.c.pendingAutowire := by
  induction fields with
  | nil => intro i s; rfl
  | cons field rest ih =>
    intro i s
    unfold autowireFields
    by_cases h1 : field.inject = ""
    · rw [if_pos h1]; exact ih _ _
    · rw [if_neg h1]
      by_cases h2 : (!field.canSet) = true
      · rw [if_pos h2]; exact ih _ _
      · rw [if_neg h2]
        have hg := resolveField_pending env s field sk
        cases hgi : resolveField env s field sk with
        | mk r s1 =>
          rw [hgi] at hg
          cases r with
          | error e => exact hg
          | panicked => exact hg
          | ok inst =>
            simp only
            have ha := (assignField_heapOnly env s1 field addr i inst).1
            cases hai : assignField env s1 field addr i inst with
            | mk r2 s2 =>
              rw [hai] at ha
              simp only at ha
              cases r2 with
              | ok u => simp only; rw [ih, ha]; exact hg
              | error e => simp only; rw [ha]; exact hg
              | panicked => simp only; rw [ha]; exact hg

/-- Autowiring leaves the pending list as it was. -/
theorem AutowireWithScope_pending (env : Env) (s : State) (target : Value) (sk : String) :
    (AutowireWithScope env s target sk).2.c.pendingAutowire = s.c.pendingAutowire := by
  unfold AutowireWithScope
  split
  · rfl
  · split
    · exact autowireFields_pending env sk _ _ 0 s
    · rfl

theorem run_wireOps_cons (env : Env) (s : State) (component : Value) (rest : List Value) :
    run env s (wireOps (component :: rest)) =
      run env (Autowire env s component).2 (wireOps rest) := rfl

theorem run_wireOps_pending (env : Env) (components : List Value) :
    ∀ s : State, (run env s (wireOps components)).c.pendingAutowire = s.c.pendingAutowire := by
  induction components with
  | nil => intro s; rfl
  | cons component rest ih =>
    intro s
    rw [run_wireOps_cons, ih]
    exact AutowireWithScope_pending env s component ""

/-- The loop of `AutowireAll` over components that can each be autowired in turn
returns no error, in the state after the autowirings in order. -/
theorem autowireAllLoop_ok (env : Env) (components : List Value) :
    ∀ s : State,
      (∀ j component, components[j]? = some component →
        (Autowire env (run env s (wireOps (components.take j))) component).1 = Result.ok ()) →
      autowireAllLoop env components s = (Result.ok (), run env s (wireOps components)) := by
  induction components with
  | nil => intro s _; rfl
  | cons component rest ih =>
    intro s hall
    have h0 : (Autowire env s component).1 = Result.ok () := hall 0 component (by simp)
    unfold autowireAllLoop
    cases ha : Autowire env s component with
    | mk r s1 =>
      rw [ha] at h0
      simp only at h0
      subst h0
      simp only
      rw [run_wireOps_cons, ha]
      apply ih
      intro j x hx
      have := hall (j + 1) x (by simpa using hx)
      rw [List.take_succ_cons, run_wireOps_cons, ha] at this
      exact this

/-- The loop of `AutowireAll` stops at the first component whose autowiring
fails, in the state that autowiring left, and wraps its error with the type of
the component. -/
theorem autowireAllLoop_fail (env : Env) (pre : List Value) (component : Value)
    (post : List Value) (e : Error) (sf : State) :
    ∀ s : State,
      (∀ j x, pre[j]? = some x →
        (Autowire env (run env s (wireOps (pre.take j))) x).1 = Result.ok ()) →
      Autowire env (run env s (wireOps pre)) component = (Result.error e, sf) →
      autowireAllLoop env (pre ++ component :: post) s =
        (Result.error (Error.failedToAutowire component.typeOf e), sf) := by
  induction pre with
  | nil =>
    intro s _ hf
    have hf2 : Autowire env s component = (Result.error e, sf) := hf
    simp only [List.nil_append]
    unfold autowireAllLoop
    rw [hf2]
  | cons x rest ih =>
    intro s hall hf
    have h0 : (Autowire env s x).1 = Result.ok () := hall 0 x (by simp)
    simp only [List.cons_append]
    unfold autowireAllLoop
    cases ha : Autowire env s x with
    | mk r s1 =>
      rw [ha] at h0
      simp only at h0
      subst h0
      simp only
      apply ih
      · intro j y hy
        have := hall (j + 1) y (by simpa using hy)
        rw [List.take_succ_cons, run_wireOps_cons, ha] at this
        exact this
      · rw [run_wireOps_cons, ha] at hf
        exact hf

/-- C19. Deferred autowiring: `AddForAutowiring` only appends the component to
the end of the pending list (registrations, scope stores, memory and the trace
of factory calls are as before, so nothing is resolved), and the registration
calls leave the pending list alone; if every pending entry can be autowired in
turn, `AutowireAll` returns no error, its effect is that of autowiring the
entries in insertion order, and the pending list is empty afterwards. -/
theorem deferred_autowiring (env : Env) (s : State)
    (hall : ∀ j component, s.c.pendingAutowire[j]? = some component →
      (Autowire env (run env s (wireOps (s.c.pendingAutowire.take j))) component).1 =
        Result.ok ()) :
    (∀ component,
      (AddForAutowiring s component).c.pendingAutowire = s.c.pendingAutowire ++ [component] ∧
      (AddForAutowiring s component).c.typeServices = s.c.typeServices ∧
      (AddForAutowiring s component).c.tokenServices = s.c.tokenServices ∧
      (AddForAutowiring s component).c.scopedInstances = s.c.scopedInstances ∧
      (AddForAutowiring s component).c.scopedTokens = s.c.scopedTokens ∧
      (AddForAutowiring s component).heap = s.heap ∧
      (AddForAutowiring s component).calls = s.calls) ∧
    (∀ service scope serviceType factory token,
      (RegisterScoped s service scope).c.pendingAutowire = s.c.pendingAutowire ∧
      (RegisterFactory s serviceType factory scope).c.pendingAutowire = s.c.pendingAutowire ∧
      (BindScoped s token service scope).c.pendingAutowire = s.c.pendingAutowire ∧
      (BindFactory s token factory scope).c.pendingAutowire = s.c.pendingAutowire) ∧
    (AutowireAll env s).1 = Result.ok () ∧
    (AutowireAll env s).2.c.pendingAutowire = [] ∧
    (AutowireAll env s).2 =
      { run env s (wireOps s.c.pendingAutowire) with
        c := { (run env s (wireOps s.c.pendingAutowire)).c with pendingAutowire := [] } } := by
  have hloop := autowireAllLoop_ok env s.c.pendingAutowire s hall
  have hres : AutowireAll env s = (Result.ok (),
      { run env s (wireOps s.c.pendingAutowire) with
        c := { (run env s (wireOps s.c.pendingAutowire)).c with pendingAutowire := [] } }) := by
    unfold AutowireAll
    rw [hloop]
  refine ⟨fun component => ⟨rfl, rfl, rfl, rfl, rfl, rfl, rfl⟩,
    fun service scope serviceType factory token => ⟨rfl, rfl, rfl, rfl⟩, ?_, ?_, ?_⟩
  · rw [hres]
  · rw [hres]
  · rw [hres]

theorem deferred_autowiring_witness :
    (AutowireAll wireEnv
      (Bind (Register (AddForAutowiring wireState wireHolder) demoService) "tok"
        demoService)).1 = Result.ok () ∧
    (AutowireAll wireEnv
      (Bind (Register (AddForAutowiring wireState wireHolder) demoService) "tok"
        demoService)).2.c.pendingAutowire = [] ∧
    (AutowireAll wireEnv
      (Bind (Register (AddForAutowiring wireState wireHolder) demoService) "tok"
        demoService)).2.heap.read 1 =
      some (Value.structV "Holder"
        [Value.pointer (GoType.struct "TestService") none, demoService,
         Value.basic "string" 5, demoService]) :=
  have h := deferred_autowiring wireEnv
    (Bind (Register (AddForAutowiring wireState wireHolder) demoService) "tok" demoService)
    (by
      intro j component hj
      have hpend : (Bind (Register (AddForAutowiring wireState wireHolder) demoService)
          "tok" demoService).c.pendingAutowire = [wireHolder] := by decide
      rw [hpend] at hj ⊢
      cases j with
      | zero =>
        have hc : wireHolder = component := by simpa using hj
        subst hc
        decide
      | succ j => simp at hj)
  ⟨h.2.2.1, h.2.2.2.1, by rw [h.2.2.2.2]; decide⟩

theorem AutowireWithScope_struct (env : Env) (s : State) (name : String) (addr : Nat)
    (sk : String) :
    AutowireWithScope env s (Value.pointer (GoType.struct name) (some addr)) sk =
      autowireFields env sk addr (env.fields name) 0 s := by
  unfold AutowireWithScope
  rw [if_neg (by simp [Value.kind, Value.typeOf, GoType.kind, Value.elem, Ref.kind])]
  rfl

theorem autowireFields_cons (env : Env) (sk : String) (addr : Nat) (field : StructField)
    (rest : List StructField) (i : Nat) (s : State) :
    autowireFields env sk addr (field :: rest) i s =
      if field.inject = "" then autowireFields env sk addr rest (i + 1) s
      else if !field.canSet then autowireFields env sk addr rest (i + 1) s
      else
        match resolveField env s field sk with
        | (Result.error e, s1) => (Result.error e, s1)
        | (Result.panicked, s1) => (Result.panicked, s1)
        | (Result.ok inst, s1) =>
          match assignField env s1 field addr i inst with
          | (Result.ok (), s2) => autowireFields env sk addr rest (i + 1) s2
          | (Result.error e, s2) => (Result.error e, s2)
          | (Result.panicked, s2) => (Result.panicked, s2) := by
  rw [autowireFields]

theorem autowireFields_append (env : Env) (sk : String) (addr : Nat)
    (fs1 fs2 : List StructField) :
    ∀ (i : Nat) (s : State),
      autowireFields env sk addr (fs1 ++ fs2) i s =
        match autowireFields env sk addr fs1 i s with
        | (Result.ok (), s1) => autowireFields env sk addr fs2 (i + fs1.length) s1
        | (Result.error e, s1) => (Result.error e, s1)
        | (Result.panicked, s1) => (Result.panicked, s1) := by
  induction fs1 with
  | nil => intro i s; rfl
  | cons field rest ih =>
    intro i s
    have hlen : i + (field :: rest).length = i + 1 + rest.length := by
      simp only [List.length_cons]; omega
    rw [hlen]
    simp only [List.cons_append, autowireFields_cons]
    by_cases h1 : field.inject = ""
    · simp only [if_pos h1]; exact ih _ _
    · simp only [if_neg h1]
      by_cases h2 : (!field.canSet) = true
      · simp only [if_pos h2]; exact ih _ _
      · simp only [if_neg h2]
        cases hgi : resolveField env s field sk with
        | mk r s1 =>
          cases r with
          | error e => rfl
          | panicked => rfl
          | ok inst =>
            simp only
            cases hai : assignField env s1 field addr i inst with
            | mk r2 s2 =>
              cases r2 with
              | ok u => exact ih _ _
              | error e => rfl
              | panicked => rfl

theorem listSet_length {α : Type} (l : List α) : ∀ (i : Nat) (v : α),
    (listSet l i v).length = l.length := by
  induction l with
  | nil => intro i v; rfl
  | cons x xs ih =>
    intro i v
    cases i with
    | zero => rfl
    | succ i => simp [listSet, ih]

theorem listSet_get_self {α : Type} (l : List α) : ∀ (i : Nat) (v : α), i < l.length →
    (listSet l i v)[i]? = some v := by
  induction l with
  | nil => intro i v h; simp at h
  | cons x xs ih =>
    intro i v h
    cases i with
    | zero => simp [listSet]
    | succ i =>
      simp only [listSet, List.getElem?_cons_succ]
      exact ih i v (by simpa using h)

theorem listSet_get_other {α : Type} (l : List α) : ∀ (i j : Nat) (v : α), j ≠ i →
    (listSet l i v)[j]? = l[j]? := by
  induction l with
  | nil => intro i j v h; rfl
  | cons x xs ih =>
    intro i j v h
    cases i with
    | zero =>
      cases j with
      | zero => exact absurd rfl h
      | succ j => simp [listSet]
    | succ i =>
      cases j with
      | zero => simp [listSet]
      | succ j =>
        simp only [listSet, List.getElem?_cons_succ]
        exact ih i j v (fun e => h (by rw [e]))

theorem setField_next (h h2 : Heap) (a i : Nat) (v : Value)
    (hs : h.setField a i v = some h2) : h2.next = h.next := by
  unfold Heap.setField at hs
  split at hs
  · split_ifs at hs
    injection hs with hs
    rw [← hs]
    rfl
  · cases hs

theorem setField_field_self (h h2 : Heap) (a i : Nat) (v : Value)
    (hs : h.setField a i v = some h2) : h2.field a i = some v := by
  unfold Heap.setField at hs
  split at hs
  · rename_i name fields hr
    split_ifs at hs with hlt
    injection hs with hs
    rw [← hs]
    unfold Heap.field
    rw [heap_read_write_self]
    exact listSet_get_self fields i v hlt
  · cases hs

theorem setField_field_other (h h2 : Heap) (a i j : Nat) (v : Value)
    (hs : h.setField a i v = some h2) (hj : j ≠ i) : h2.field a j = h.field a j := by
  unfold Heap.setField at hs
  split at hs
  · rename_i name fields hr
    split_ifs at hs with hlt
    injection hs with hs
    rw [← hs]
    unfold Heap.field
    rw [heap_read_write_self, hr]
    exact listSet_get_other fields i j v hj
  · cases hs

theorem setField_read_some (h h2 : Heap) (a i : Nat) (v : Value)
    (hs : h.setField a i v = some h2) : ∀ b, b ≠ a → h2.read b = h.read b := by
  intro b hb
  unfold Heap.setField at hs
  split at hs
  · split_ifs at hs
    injection hs with hs
    rw [← hs]
    exact heap_read_write_other h a b _ hb
  · cases hs

theorem setFieldVar_ok (s s2 : State) (addr i : Nat) (v : Value)
    (h : s.setFieldVar addr i v = (Result.ok (), s2)) :
    s.heap.setField addr i v = some s2.heap ∧ s2.c = s.c ∧ s2.calls = s.calls := by
  unfold State.setFieldVar at h
  cases hs : s.heap.setField addr i v with
  | none => rw [hs] at h; simp at h
  | some heap =>
    rw [hs] at h
    simp only [Prod.mk.injEq, true_and] at h
    subst h
    exact ⟨rfl, rfl, rfl⟩

theorem setFieldVar_state (s : State) (addr i : Nat) (v : Value) :
    (s.setFieldVar addr i v).1 = Result.ok () ∨ (s.setFieldVar addr i v).2 = s := by
  unfold State.setFieldVar
  cases s.heap.setField addr i v with
  | none => exact Or.inr rfl
  | some heap => exact Or.inl rfl

theorem assignField_direct (env : Env) (s s2 : State) (field : StructField) (addr i : Nat)
    (inst : Value) (t : GoType) (hi : inst.kind ≠ Kind.ptr) (ht : inst.typeOf = some t)
    (hk : field.Typ.kind ≠ Kind.ptr)
    (h : assignField env s field addr i inst = (Result.ok (), s2)) :
    s.setFieldVar addr i inst = (Result.ok (), s2) := by
  unfold assignField at h
  rw [if_neg hk, if_neg hi, ht] at h
  simp only at h
  by_cases ha : (!assignableTo env t field.Typ) = true
  · rw [if_pos ha] at h
    simp at h
  · rw [if_neg ha] at h
    exact h

/-- A successful assignment to a field stores the wired value in that field and
changes nothing else. -/
theorem assignField_ok (env : Env) (s s2 : State) (field : StructField) (addr i : Nat)
    (inst : Value) (h : assignField env s field addr i inst = (Result.ok (), s2)) :
    ∃ v, wiredValue s.heap field inst = some v ∧
      s.heap.setField addr i v = some s2.heap ∧ s2.c = s.c ∧ s2.calls = s.calls := by
  by_cases hk : field.Typ.kind = Kind.ptr
  · unfold assignField at h
    unfold wiredValue
    rw [if_pos hk] at h
    rw [if_pos hk]
    by_cases hi : inst.kind = Kind.ptr
    · rw [if_pos hi] at h
      cases ht : inst.typeOf with
      | none => rw [ht] at h; simp at h
      | some instType =>
        rw [ht] at h
        simp only at h
        by_cases ha : (!assignableTo env instType field.Typ) = true
        · rw [if_pos ha] at h
          simp at h
        · rw [if_neg ha] at h
          exact ⟨inst, rfl, setFieldVar_ok s s2 addr i inst h⟩
    · rw [if_neg hi] at h
      simp at h
  · cases inst with
    | nil =>
      unfold assignField at h
      rw [if_neg hk] at h
      simp [Value.kind, Value.typeOf] at h
    | pointer elem a =>
      unfold assignField at h
      rw [if_neg hk] at h
      have hk2 : (Value.pointer elem a).kind = Kind.ptr := rfl
      rw [if_pos hk2] at h
      cases a with
      | none => simp [Value.elem] at h
      | some src =>
        have he : (Value.pointer elem (some src)).elem = Ref.var elem src := rfl
        rw [he] at h
        simp only at h
        by_cases ha : (!assignableTo env elem field.Typ) = true
        · rw [if_pos ha] at h
          simp at h
        · rw [if_neg ha] at h
          cases hr : s.heap.read src with
          | none => rw [hr] at h; simp at h
          | some v =>
            rw [hr] at h
            refine ⟨v, ?_, setFieldVar_ok s s2 addr i v h⟩
            unfold wiredValue
            rw [if_neg hk]
            exact hr
    | structV name fields =>
      refine ⟨Value.structV name fields, ?_, setFieldVar_ok s s2 addr i _
        (assignField_direct env s s2 field addr i (Value.structV name fields) (GoType.struct name)
          (by simp [Value.kind, Value.typeOf, GoType.kind]) rfl hk h)⟩
      unfold wiredValue
      rw [if_neg hk]
    | basic name data =>
      refine ⟨Value.basic name data, ?_, setFieldVar_ok s s2 addr i _
        (assignField_direct env s s2 field addr i (Value.basic name data) (GoType.basic name)
          (by simp [Value.kind, Value.typeOf, GoType.kind]) rfl hk h)⟩
      unfold wiredValue
      rw [if_neg hk]
    | func sig code =>
      refine ⟨Value.func sig code, ?_, setFieldVar_ok s s2 addr i _
        (assignField_direct env s s2 field addr i (Value.func sig code) (GoType.func sig)
          (by simp [Value.kind, Value.typeOf, GoType.kind]) rfl hk h)⟩
      unfold wiredValue
      rw [if_neg hk]

/-- An assignment to a field that does not succeed leaves the state as it was. -/
theorem assignField_state (env : Env) (s : State) (field : StructField) (addr i : Nat)
    (inst : Value) :
    (assignField env s field addr i inst).1 = Result.ok () ∨
      (assignField env s field addr i inst).2 = s := by
  unfold assignField
  split_ifs <;> (repeat' split) <;>
    first
    | exact Or.inr rfl
    | exact setFieldVar_state s addr i _

theorem call_keeps (env : Env) (addr : Nat) (hk : KeepsVar env addr) (f : ServiceFactory)
    (h h2 : Heap) (inst : Value) (hc : f.call env h = some (inst, h2)) (ha : addr < h.next) :
    h2.read addr = h.read addr ∧ addr < h2.next := by
  have halloc : ∀ t, (reflectNew env t h).2.read addr = h.read addr ∧
      addr < (reflectNew env t h).2.next := by
    intro t
    constructor
    · exact newVar_read env t h addr ha
    · exact Nat.lt_of_lt_of_le ha (newVar_next_le env t h)
  cases f with
  | closure id =>
    simp only [ServiceFactory.call, Option.some.injEq] at hc
    have := hk id h ha
    rw [hc] at this
    exact this
  | newOf prototype =>
    simp only [ServiceFactory.call] at hc
    split_ifs at hc
    · split at hc
      · injection hc with hc
        have := halloc ‹GoType›
        rw [hc] at this
        exact this
      · cases hc
    · split at hc
      · injection hc with hc
        have := halloc ‹GoType›
        rw [hc] at this
        exact this
      · cases hc

theorem getInstance_keeps (env : Env) (addr : Nat) (hk : KeepsVar env addr) (s : State)
    (ref : RegRef) (reg : ServiceRegistration) (st : Option GoType) (tok sk : String)
    (ha : addr < s.heap.next) :
    (getInstance env s ref reg st tok sk).2.heap.read addr = s.heap.read addr ∧
      addr < (getInstance env s ref reg st tok sk).2.heap.next := by
  have hset : ∀ (s0 : State) inst, (s0.setInstance ref reg inst).heap = s0.heap := by
    intro s0 inst
    cases ref <;> rfl
  have hstore : ∀ (s0 : State) inst, (s0.scopedStore st tok sk inst).heap = s0.heap := by
    intro s0 inst
    unfold State.scopedStore
    split_ifs <;> rfl
  rcases getInstance_state env s ref reg st tok sk with h | ⟨f, inst, h, _, _, hc, h2⟩ |
    ⟨f, h, hc, h2⟩ | ⟨f, inst, h, _, hc, h2⟩
  · rw [h]; exact ⟨rfl, ha⟩
  · rw [h2, hset]; exact call_keeps env addr hk f s.heap h inst hc ha
  · rw [h2]
    rcases hc with hc | ⟨inst, hc⟩
    · rw [hc]; exact ⟨rfl, ha⟩
    · exact call_keeps env addr hk f s.heap h inst hc ha
  · rw [h2, hstore]; exact call_keeps env addr hk f s.heap h inst hc ha

theorem resolveField_keeps (env : Env) (addr : Nat) (hk : KeepsVar env addr) (s : State)
    (field : StructField) (sk : String) (ha : addr < s.heap.next) :
    (resolveField env s field sk).2.heap.read addr = s.heap.read addr ∧
      addr < (resolveField env s field sk).2.heap.next := by
  unfold resolveField
  split_ifs
  · cases hreg : mapGet s.c.typeServices (some field.Typ) with
    | none => exact ⟨rfl, ha⟩
    | some reg => exact getInstance_keeps env addr hk s _ reg _ _ sk ha
  · cases hreg : mapGet s.c.tokenServices field.inject with
    | none => exact ⟨rfl, ha⟩
    | some reg => exact getInstance_keeps env addr hk s _ reg _ _ sk ha

theorem field_of_read (h h2 : Heap) (addr : Nat) (hr : h2.read addr = h.read addr) (j : Nat) :
    h2.field addr j = h.field addr j := by
  unfold Heap.field
  rw [hr]

/-- The loop over the fields keeps the target struct allocated and leaves every
field alone that is outside the range it walks, untagged, or not settable. -/
theorem autowireFields_untouched (env : Env) (sk : String) (addr : Nat)
    (hk : KeepsVar env addr) (fs : List StructField) :
    ∀ (i : Nat) (s : State), addr < s.heap.next →
      addr < (autowireFields env sk addr fs i s).2.heap.next ∧
      ∀ j, (∀ k f, fs[k]? = some f → j = i + k → f.inject = "" ∨ f.canSet = false) →
        (autowireFields env sk addr fs i s).2.heap.field addr j = s.heap.field addr j := by
  induction fs with
  | nil => intro i s ha; exact ⟨ha, fun j _ => rfl⟩
  | cons f rest ih =>
    intro i s ha
    have hrest : ∀ j, (∀ k g, (f :: rest)[k]? = some g → j = i + k →
        g.inject = "" ∨ g.canSet = false) →
        ∀ k g, rest[k]? = some g → j = i + 1 + k → g.inject = "" ∨ g.canSet = false := by
      intro j hj k g hg hjk
      exact hj (k + 1) g (by simpa using hg) (by omega)
    rw [autowireFields_cons]
    by_cases h1 : f.inject = ""
    · rw [if_pos h1]
      exact ⟨(ih (i + 1) s ha).1, fun j hj => (ih (i + 1) s ha).2 j (hrest j hj)⟩
    · rw [if_neg h1]
      by_cases h2 : (!f.canSet) = true
      · rw [if_pos h2]
        exact ⟨(ih (i + 1) s ha).1, fun j hj => (ih (i + 1) s ha).2 j (hrest j hj)⟩
      · rw [if_neg h2]
        have hset : f.canSet = true := by simpa using h2
        have hne : ∀ j, (∀ k g, (f :: rest)[k]? = some g → j = i + k →
            g.inject = "" ∨ g.canSet = false) → j ≠ i := by
          intro j hj e
          rcases hj 0 f (by simp) (by omega) with h | h
          · exact h1 h
          · rw [hset] at h; cases h
        have hg := resolveField_keeps env addr hk s f sk ha
        cases hgi : resolveField env s f sk with
        | mk r s1 =>
          rw [hgi] at hg
          simp only at hg
          cases r with
          | error e => exact ⟨hg.2, fun j _ => field_of_read _ _ addr hg.1 j⟩
          | panicked => exact ⟨hg.2, fun j _ => field_of_read _ _ addr hg.1 j⟩
          | ok inst =>
            simp only
            cases hai : assignField env s1 f addr i inst with
            | mk r2 s2 =>
              cases r2 with
              | ok u =>
                simp only
                obtain ⟨v, _, hsf, _, _⟩ := assignField_ok env s1 s2 f addr i inst hai
                have hn2 : addr < s2.heap.next := by
                  rw [setField_next _ _ _ _ _ hsf]; exact hg.2
                refine ⟨(ih (i + 1) s2 hn2).1, fun j hj => ?_⟩
                rw [(ih (i + 1) s2 hn2).2 j (hrest j hj),
                  setField_field_other _ _ _ _ _ _ hsf (hne j hj)]
                exact field_of_read _ _ addr hg.1 j
              | error e =>
                simp only
                have hst := assignField_state env s1 f addr i inst
                rw [hai] at hst
                simp only [reduceCtorEq, false_or] at hst
                rw [hst]
                exact ⟨hg.2, fun j _ => field_of_read _ _ addr hg.1 j⟩
              | panicked =>
                simp only
                have hst := assignField_state env s1 f addr i inst
                rw [hai] at hst
                simp only [reduceCtorEq, false_or] at hst
                rw [hst]
                exact ⟨hg.2, fun j _ => field_of_read _ _ addr hg.1 j⟩

theorem list_split_at {α : Type} (l : List α) (k : Nat) (x : α) (h : l[k]? = some x) :
    l = l.take k ++ x :: l.drop (k + 1) ∧ (l.take k).length = k := by
  have hlt : k < l.length := by
    rcases Nat.lt_or_ge k l.length with h1 | h1
    · exact h1
    · rw [List.getElem?_eq_none h1] at h; cases h
  have hx : l[k] = x := by
    rw [List.getElem?_eq_getElem hlt] at h
    injection h
  constructor
  · rw [← hx, ← List.drop_eq_getElem_cons hlt, List.take_append_drop]
  · rw [List.length_take]; omega

theorem resolveField_ok (env : Env) (s s1 : State) (f : StructField) (sk : String)
    (inst : Value) (h : resolveField env s f sk = (Result.ok inst, s1)) :
    ∃ reg, s.lookup f.ref = some reg ∧
      getInstance env s f.ref reg (some f.Typ) (if f.inject = "type" then "" else f.inject)
        sk = (Result.ok inst, s1) := by
  unfold resolveField at h
  unfold StructField.ref
  by_cases ht : f.inject = "type"
  · rw [if_pos ht] at h
    simp only [if_pos ht]
    cases hreg : mapGet s.c.typeServices (some f.Typ) with
    | none => rw [hreg] at h; simp at h
    | some reg =>
      rw [hreg] at h
      exact ⟨reg, hreg, h⟩
  · rw [if_neg ht] at h
    simp only [if_neg ht]
    cases hreg : mapGet s.c.tokenServices f.inject with
    | none => rw [hreg] at h; simp at h
    | some reg =>
      rw [hreg] at h
      exact ⟨reg, hreg, h⟩

/-- After a successful run of the loop every tagged settable field holds the
wired value of the instance resolved for it, in the state the fields before it
left. -/
theorem autowireFields_wired (env : Env) (sk : String) (addr : Nat) (hk : KeepsVar env addr)
    (fs : List StructField) (i : Nat) (s s' : State) (ha : addr < s.heap.next)
    (hok : autowireFields env sk addr fs i s = (Result.ok (), s'))
    (k : Nat) (f : StructField) (hf : fs[k]? = some f) (h1 : f.inject ≠ "")
    (h2 : f.canSet = true) :
    ∃ s0 inst s1 v, autowireFields env sk addr (fs.take k) i s = (Result.ok (), s0) ∧
      resolveField env s0 f sk = (Result.ok inst, s1) ∧
      wiredValue s1.heap f inst = some v ∧ s'.heap.field addr (i + k) = some v := by
  obtain ⟨hsplit, hlen⟩ := list_split_at fs k f hf
  have hok2 : autowireFields env sk addr (fs.take k ++ f :: fs.drop (k + 1)) i s =
      (Result.ok (), s') := by
    rw [← hsplit]; exact hok
  rw [autowireFields_append, hlen] at hok2
  have hpk := autowireFields_untouched env sk addr hk (fs.take k) i s ha
  cases hpre : autowireFields env sk addr (fs.take k) i s with
  | mk r s0 =>
    rw [hpre] at hok2 hpk
    cases r with
    | error e => simp at hok2
    | panicked => simp at hok2
    | ok u =>
      simp only at hok2 hpk
      have hns : ¬ ((!f.canSet) = true) := by simp [h2]
      rw [autowireFields_cons, if_neg h1, if_neg hns] at hok2
      have hg := resolveField_keeps env addr hk s0 f sk hpk.1
      cases hres : resolveField env s0 f sk with
      | mk r1 s1 =>
        rw [hres] at hok2 hg
        cases r1 with
        | error e => simp at hok2
        | panicked => simp at hok2
        | ok inst =>
          simp only at hok2 hg
          cases hai : assignField env s1 f addr (i + k) inst with
          | mk r2 s2 =>
            rw [hai] at hok2
            cases r2 with
            | error e => simp at hok2
            | panicked => simp at hok2
            | ok u2 =>
              simp only at hok2
              obtain ⟨v, hw, hsf, _, _⟩ := assignField_ok env s1 s2 f addr (i + k) inst hai
              have hn2 : addr < s2.heap.next := by
                rw [setField_next _ _ _ _ _ hsf]; exact hg.2
              have hrest := autowireFields_untouched env sk addr hk (fs.drop (k + 1))
                (i + k + 1) s2 hn2
              rw [hok2] at hrest
              refine ⟨s0, inst, s1, v, rfl, hres, hw, ?_⟩
              rw [hrest.2 (i + k) (fun k2 g _ hj => absurd hj (by omega))]
              exact setField_field_self _ _ _ _ _ hsf

/-- The loop stops at the first tagged settable field whose resolution or
assignment returns an error: it returns that error in the state the resolution
of that field left, and the target struct is as the fields before it left it. -/
theorem autowireFields_fail (env : Env) (sk : String) (addr : Nat) (hk : KeepsVar env addr)
    (fs : List StructField) (i : Nat) (s : State) (ha : addr < s.heap.next)
    (k : Nat) (f : StructField) (hf : fs[k]? = some f) (h1 : f.inject ≠ "")
    (h2 : f.canSet = true) (s0 sf : State) (e : Error)
    (hpre : autowireFields env sk addr (fs.take k) i s = (Result.ok (), s0))
    (hfail : resolveField env s0 f sk = (Result.error e, sf) ∨
      ∃ inst s1, resolveField env s0 f sk = (Result.ok inst, s1) ∧
        assignField env s1 f addr (i + k) inst = (Result.error e, sf)) :
    autowireFields env sk addr fs i s = (Result.error e, sf) ∧
    sf = (resolveField env s0 f sk).2 ∧
    sf.heap.read addr = s0.heap.read addr := by
  obtain ⟨hsplit, hlen⟩ := list_split_at fs k f hf
  have hpk := autowireFields_untouched env sk addr hk (fs.take k) i s ha
  rw [hpre] at hpk
  simp only at hpk
  have hg := resolveField_keeps env addr hk s0 f sk hpk.1
  have hns : ¬ ((!f.canSet) = true) := by simp [h2]
  have hrun : autowireFields env sk addr (fs.take k ++ f :: fs.drop (k + 1)) i s =
      (Result.error e, sf) ∧ sf = (resolveField env s0 f sk).2 := by
    rw [autowireFields_append, hlen, hpre]
    simp only
    rw [autowireFields_cons, if_neg h1, if_neg hns]
    rcases hfail with hr | ⟨inst, s1, hr, hasg⟩
    · rw [hr]
      exact ⟨rfl, rfl⟩
    · rw [hr]
      simp only
      rw [hasg]
      have hst := assignField_state env s1 f addr (i + k) inst
      rw [hasg] at hst
      simp only [reduceCtorEq, false_or] at hst
      exact ⟨rfl, hst⟩
  rw [← hsplit] at hrun
  refine ⟨hrun.1, hrun.2, ?_⟩
  rw [hrun.2]
  exact hg.1

theorem wireEnv_keepsVar (addr : Nat) : KeepsVar wireEnv addr := by
  intro id h ha
  simp only [wireEnv, demoEnv]
  split_ifs
  · constructor
    · simp only [Heap.alloc, Heap.read]
      exact mapGet_mapSet_other _ _ _ _ (Nat.ne_of_lt ha)
    · simp only [Heap.alloc]
      omega
  · exact ⟨rfl, ha⟩
  · exact ⟨rfl, ha⟩

theorem getElem_lt_length {α : Type} (l : List α) (n : Nat) (x : α) (h : l[n]? = some x) :
    n < l.length := by
  rcases Nat.lt_or_ge n l.length with h1 | h1
  · exact h1
  · rw [List.getElem?_eq_none h1] at h; cases h

theorem take_getElem {α : Type} (l : List α) : ∀ (k j : Nat), j < k →
    (l.take k)[j]? = l[j]? := by
  induction l with
  | nil => intro k j _; simp
  | cons x xs ih =>
    intro k j h
    cases k with
    | zero => omega
    | succ k =>
      cases j with
      | zero => simp
      | succ j =>
        simp only [List.take_succ_cons, List.getElem?_cons_succ]
        exact ih k j (by omega)

theorem take_take_le {α : Type} (l : List α) (j k : Nat) (h : j ≤ k) :
    (l.take k).take j = l.take j := by
  rw [List.take_take, Nat.min_eq_left h]

/-- C16 (as stated, refuted). A tagged field that cannot be set is skipped: with
`*TestService` registered and the token "tok" bound, `Autowire` of a `Holder`
succeeds, the token registry resolves the tag "tok" of the unexported field
`hidden` to the bound service, the exported field `Tok` with the same tag holds
that service, and `hidden` still holds the nil pointer it had before.  Moreover
a factory that writes the target struct changes fields behind the back of
`Autowire`: with the token "tok" bound to a factory of `scribbleEnv`, `Autowire`
of the `Holder` succeeds, the untagged field `Plain` held 5 before the call and
holds 9 after it, and the field `Svc`, wired before the factory ran, holds nil. -/
theorem unsettable_token_field_not_wired :
    (Autowire wireEnv (Bind (Register wireState demoService) "tok" demoService)
      wireHolder).1 = Result.ok () ∧
    (wireEnv.fields "Holder")[0]? =
      some { Name := "hidden", Typ := testServicePtr, inject := "tok", canSet := false } ∧
    (resolveField wireEnv (Bind (Register wireState demoService) "tok" demoService)
      { Name := "hidden", Typ := testServicePtr, inject := "tok", canSet := false } "").1 =
      Result.ok demoService ∧
    (Autowire wireEnv (Bind (Register wireState demoService) "tok" demoService)
      wireHolder).2.heap.field 1 3 = some demoService ∧
    (Autowire wireEnv (Bind (Register wireState demoService) "tok" demoService)
      wireHolder).2.heap.field 1 0 =
      some (Value.pointer (GoType.struct "TestService") none) ∧
    (Autowire scribbleEnv
      (BindFactory (Register wireState demoService) "tok" (ServiceFactory.closure 0) Singleton)
      wireHolder).1 = Result.ok () ∧
    (BindFactory (Register wireState demoService) "tok" (ServiceFactory.closure 0)
      Singleton).heap.field 1 2 = some (Value.basic "string" 5) ∧
    (Autowire scribbleEnv
      (BindFactory (Register wireState demoService) "tok" (ServiceFactory.closure 0) Singleton)
      wireHolder).2.heap.field 1 2 = some (Value.basic "string" 9) ∧
    (Autowire scribbleEnv
      (BindFactory (Register wireState demoService) "tok" (ServiceFactory.closure 0) Singleton)
      wireHolder).2.heap.field 1 1 =
      some (Value.pointer (GoType.struct "TestService") none) := by
  decide

/-- C16 (amended). Autowire tag selectivity: provided that no factory of the
application writes the target struct, for every pointer-to-struct target on
which `AutowireWithScope` succeeds, every field without an inject tag and every
field that cannot be set keeps exactly the value it had before the call, and
every settable field with a non-empty tag holds the wired value of the instance
that `getInstance` produced for it, in the state the fields before it left, from
the type registry under the field's declared type when the tag is "type" and
from the token registry under the tag otherwise; the wired value is the instance
itself for a pointer field and the value a pointer instance points to for any
other field. -/
theorem autowire_tag_selectivity (env : Env) (s : State) (name : String) (addr : Nat)
    (sk : String) (hk : KeepsVar env addr) (ha : addr < s.heap.next)
    (hok : (AutowireWithScope env s (Value.pointer (GoType.struct name) (some addr)) sk).1 =
      Result.ok ())
    (j : Nat) (f : StructField) (hf : (env.fields name)[j]? = some f) :
    ((f.inject = "" ∨ f.canSet = false) →
      (AutowireWithScope env s (Value.pointer (GoType.struct name) (some addr))
        sk).2.heap.field addr j = s.heap.field addr j) ∧
    (f.inject ≠ "" → f.canSet = true →
      ∃ s0 reg inst s1 v,
        autowireFields env sk addr ((env.fields name).take j) 0 s = (Result.ok (), s0) ∧
        s0.lookup f.ref = some reg ∧
        getInstance env s0 f.ref reg (some f.Typ)
          (if f.inject = "type" then "" else f.inject) sk = (Result.ok inst, s1) ∧
        wiredValue s1.heap f inst = some v ∧
        (AutowireWithScope env s (Value.pointer (GoType.struct name) (some addr))
          sk).2.heap.field addr j = some v) := by
  rw [AutowireWithScope_struct] at hok ⊢
  constructor
  · intro hskip
    refine (autowireFields_untouched env sk addr hk (env.fields name) 0 s ha).2 j ?_
    intro k g hg hjk
    have hkj : k = j := by omega
    rw [hkj, hf] at hg
    injection hg with hg
    rw [← hg]
    exact hskip
  · intro h1 h2
    have hrun : autowireFields env sk addr (env.fields name) 0 s =
        (Result.ok (), (autowireFields env sk addr (env.fields name) 0 s).2) := by
      rw [← hok]
    obtain ⟨s0, inst, s1, v, hpre, hres, hw, hfield⟩ :=
      autowireFields_wired env sk addr hk (env.fields name) 0 s _ ha hrun j f hf h1 h2
    obtain ⟨reg, hreg, hget⟩ := resolveField_ok env s0 s1 f sk inst hres
    rw [Nat.zero_add] at hfield
    exact ⟨s0, reg, inst, s1, v, hpre, hreg, hget, hw, hfield⟩

theorem autowire_tag_selectivity_witness :
    (AutowireWithScope wireEnv (Bind (Register wireState demoService) "tok" demoService)
      (Value.pointer (GoType.struct "Holder") (some 1)) "").2.heap.field 1 2 =
      (Bind (Register wireState demoService) "tok" demoService).heap.field 1 2 ∧
    ∃ s0 reg inst s1 v,
      autowireFields wireEnv "" 1 ((wireEnv.fields "Holder").take 1) 0
        (Bind (Register wireState demoService) "tok" demoService) = (Result.ok (), s0) ∧
      s0.lookup (RegRef.type (some testServicePtr)) = some reg ∧
      getInstance wireEnv s0 (RegRef.type (some testServicePtr)) reg (some testServicePtr) ""
        "" = (Result.ok inst, s1) ∧
      wiredValue s1.heap
        { Name := "Svc", Typ := testServicePtr, inject := "type", canSet := true } inst =
        some v ∧
      (AutowireWithScope wireEnv (Bind (Register wireState demoService) "tok" demoService)
        (Value.pointer (GoType.struct "Holder") (some 1)) "").2.heap.field 1 1 = some v :=
  ⟨(autowire_tag_selectivity wireEnv (Bind (Register wireState demoService) "tok" demoService)
      "Holder" 1 "" (wireEnv_keepsVar 1) (by decide) (by decide) 2
      { Name := "Plain", Typ := GoType.basic "string", inject := "", canSet := true }
      (by decide)).1 (Or.inl rfl),
    (autowire_tag_selectivity wireEnv (Bind (Register wireState demoService) "tok" demoService)
      "Holder" 1 "" (wireEnv_keepsVar 1) (by decide) (by decide) 1
      { Name := "Svc", Typ := testServicePtr, inject := "type", canSet := true }
      (by decide)).2 (by decide) rfl⟩

/-- C18 (as stated, refuted). An annotated field before the failing one need not
hold its resolved instance: with only the token "tok" bound, `Autowire` of a
`Holder` fails at the field `Svc` with "missing dependency for type
*TestService"; the field `hidden` declared before it is tagged "tok", which the
token registry resolves to the bound service, yet `hidden` cannot be set and
still holds the nil pointer it had before.  Moreover a factory that writes the
target struct changes the fields from the failing one on: with `*TestService`
registered with a factory of `scribbleEnv` and no token bound, `Autowire` of the
`Holder` fails at the field `Tok` with "missing dependency for token tok", and
`Tok`, which held nil before the call, holds the service the factory wrote. -/
theorem unsettable_field_before_failure :
    (Autowire wireEnv (Bind wireState "tok" demoService) wireHolder).1 =
      Result.error (Error.missingDependencyForType testServicePtr) ∧
    (wireEnv.fields "Holder")[0]? =
      some { Name := "hidden", Typ := testServicePtr, inject := "tok", canSet := false } ∧
    (wireEnv.fields "Holder")[1]? =
      some { Name := "Svc", Typ := testServicePtr, inject := "type", canSet := true } ∧
    (resolveField wireEnv (Bind wireState "tok" demoService)
      { Name := "hidden", Typ := testServicePtr, inject := "tok", canSet := false } "").1 =
      Result.ok demoService ∧
    (Autowire wireEnv (Bind wireState "tok" demoService) wireHolder).2.heap.field 1 0 =
      some (Value.pointer (GoType.struct "TestService") none) ∧
    (Autowire scribbleEnv
      (RegisterFactory wireState (some testServicePtr) (ServiceFactory.closure 0) Singleton)
      wireHolder).1 = Result.error (Error.missingDependencyForToken "tok") ∧
    (RegisterFactory wireState (some testServicePtr) (ServiceFactory.closure 0)
      Singleton).heap.field 1 3 = some (Value.pointer (GoType.struct "TestService") none) ∧
    (Autowire scribbleEnv
      (RegisterFactory wireState (some testServicePtr) (ServiceFactory.closure 0) Singleton)
      wireHolder).2.heap.field 1 3 = some demoService := by
  decide

/-- C18 (amended). Autowire fail-fast: provided that no factory of the
application writes the target struct, for every target struct, if field `k` is
tagged and settable, the fields before it are autowired without failure, and the
resolution of field `k` or the assignment to it returns an error, then
`AutowireWithScope` returns that error in the state the resolution of field `k`
left (no later field is resolved and no factory for a later field is called);
field `k` and every field after it keep their original values, every untagged
or unsettable field before `k` keeps its original value, and every tagged
settable field before `k` holds the wired value of the instance resolved for
it. -/
theorem autowire_fail_fast (env : Env) (s : State) (name : String) (addr : Nat) (sk : String)
    (hk : KeepsVar env addr) (ha : addr < s.heap.next)
    (k : Nat) (f : StructField) (hf : (env.fields name)[k]? = some f)
    (h1 : f.inject ≠ "") (h2 : f.canSet = true) (s0 sf : State) (e : Error)
    (hpre : autowireFields env sk addr ((env.fields name).take k) 0 s = (Result.ok (), s0))
    (hfail : resolveField env s0 f sk = (Result.error e, sf) ∨
      ∃ inst s1, resolveField env s0 f sk = (Result.ok inst, s1) ∧
        assignField env s1 f addr k inst = (Result.error e, sf)) :
    AutowireWithScope env s (Value.pointer (GoType.struct name) (some addr)) sk =
      (Result.error e, sf) ∧
    sf = (resolveField env s0 f sk).2 ∧
    (∀ j, k ≤ j → sf.heap.field addr j = s.heap.field addr j) ∧
    (∀ j g, j < k → (env.fields name)[j]? = some g →
      ((g.inject = "" ∨ g.canSet = false) → sf.heap.field addr j = s.heap.field addr j) ∧
      (g.inject ≠ "" → g.canSet = true →
        ∃ sj reg inst s1 v,
          autowireFields env sk addr ((env.fields name).take j) 0 s = (Result.ok (), sj) ∧
          sj.lookup g.ref = some reg ∧
          getInstance env sj g.ref reg (some g.Typ)
            (if g.inject = "type" then "" else g.inject) sk = (Result.ok inst, s1) ∧
          wiredValue s1.heap g inst = some v ∧
          sf.heap.field addr j = some v)) := by
  have hfail2 : resolveField env s0 f sk = (Result.error e, sf) ∨
      ∃ inst s1, resolveField env s0 f sk = (Result.ok inst, s1) ∧
        assignField env s1 f addr (0 + k) inst = (Result.error e, sf) := by
    rw [Nat.zero_add]; exact hfail
  obtain ⟨hrun, hsf, hread⟩ := autowireFields_fail env sk addr hk (env.fields name) 0 s ha
    k f hf h1 h2 s0 sf e hpre hfail2
  have hpk := autowireFields_untouched env sk addr hk ((env.fields name).take k) 0 s ha
  rw [hpre] at hpk
  simp only at hpk
  have hlen : ∀ k2 g, ((env.fields name).take k)[k2]? = some g → k2 < k := by
    intro k2 g hg
    have := getElem_lt_length _ _ _ hg
    rw [List.length_take] at this
    omega
  refine ⟨?_, hsf, ?_, ?_⟩
  · rw [AutowireWithScope_struct]; exact hrun
  · intro j hj
    rw [field_of_read _ _ addr hread j]
    exact hpk.2 j (fun k2 g hg hjk => absurd (hlen k2 g hg) (by omega))
  · intro j g hj hg
    constructor
    · intro hskip
      rw [field_of_read _ _ addr hread j]
      refine hpk.2 j ?_
      intro k2 g2 hg2 hjk
      have hkj : k2 = j := by omega
      rw [hkj, take_getElem _ k j hj, hg] at hg2
      injection hg2 with hg2
      rw [← hg2]
      exact hskip
    · intro hg1 hg2
      have hgt : ((env.fields name).take k)[j]? = some g := by
        rw [take_getElem _ k j hj]; exact hg
      obtain ⟨sj, inst, s1, v, hprej, hres, hw, hfield⟩ :=
        autowireFields_wired env sk addr hk ((env.fields name).take k) 0 s s0 ha hpre j g hgt
          hg1 hg2
      obtain ⟨reg, hreg, hget⟩ := resolveField_ok env sj s1 g sk inst hres
      rw [take_take_le _ j k (Nat.le_of_lt hj)] at hprej
      rw [Nat.zero_add] at hfield
      refine ⟨sj, reg, inst, s1, v, hprej, hreg, hget, hw, ?_⟩
      rw [field_of_read _ _ addr hread j]
      exact hfield

theorem autowire_fail_fast_witness :
    AutowireWithScope wireEnv (Register wireState demoService)
      (Value.pointer (GoType.struct "Holder") (some 1)) "" =
      (Result.error (Error.missingDependencyForToken "tok"),
        (autowireFields wireEnv "" 1 ((wireEnv.fields "Holder").take 3) 0
          (Register wireState demoService)).2) ∧
    (autowireFields wireEnv "" 1 ((wireEnv.fields "Holder").take 3) 0
      (Register wireState demoService)).2.heap.field 1 3 =
      (Register wireState demoService).heap.field 1 3 :=
  have h := autowire_fail_fast wireEnv (Register wireState demoService) "Holder" 1 ""
    (wireEnv_keepsVar 1) (by decide) 3
    { Name := "Tok", Typ := testServicePtr, inject := "tok", canSet := true } (by decide)
    (by decide) rfl
    (autowireFields wireEnv "" 1 ((wireEnv.fields "Holder").take 3) 0
      (Register wireState demoService)).2
    (autowireFields wireEnv "" 1 ((wireEnv.fields "Holder").take 3) 0
      (Register wireState demoService)).2
    (Error.missingDependencyForToken "tok") (by decide) (Or.inl (by decide))
  ⟨h.1, h.2.2.1 3 (Nat.le_refl 3)⟩

/-- C25. Await returns the task's outcome: the promise `Async` returns is not
resolved, and `Await` on it blocks until the goroutine has closed `done`, which
it does last; when the task returns `(result, err)`, `Await` returns exactly
that pair; when the task panics with `r`, `Await` returns the zero result and
the error "panic in Async task: r"; when the task never ends, `Await` blocks. -/
theorem await_returns_outcome {α ε : Type} (zero : α) :
    (Async zero : Promise α ε).Await = none ∧
    (∀ (result : α) (err : Option ε),
      ((Async zero : Promise α ε).goroutine (TaskOutcome.returned result err)).Await =
        some (result, err.map AsyncError.task)) ∧
    (∀ r : String,
      ((Async zero : Promise α ε).goroutine (TaskOutcome.panics r)).Await =
        some (zero, some (AsyncError.panicInAsyncTask r))) ∧
    ((Async zero : Promise α ε).goroutine TaskOutcome.never).Await = none ∧
    (∀ (outcome : TaskOutcome α ε) (p1 : Promise α ε) (inFlight : Option String),
      (Async zero : Promise α ε).runTask outcome = some (p1, inFlight) →
        p1.Await = none ∧ (p1.recovered inFlight).Await = none) := by
  refine ⟨rfl, fun _ _ => rfl, fun _ => rfl, rfl, ?_⟩
  intro outcome p1 inFlight h
  cases outcome with
  | returned result err =>
    simp only [Promise.runTask, Async, Option.some.injEq, Prod.mk.injEq] at h
    obtain ⟨h1, h2⟩ := h
    subst h1 h2
    exact ⟨rfl, rfl⟩
  | panics r =>
    simp only [Promise.runTask, Async, Option.some.injEq, Prod.mk.injEq] at h
    obtain ⟨h1, h2⟩ := h
    subst h1 h2
    exact ⟨rfl, rfl⟩
  | never => simp [Promise.runTask] at h

theorem await_returns_outcome_witness :
    ((Async "" : Promise String String).goroutine (TaskOutcome.returned "done" none)).Await =
      some ("done", none) ∧
    ((Async "" : Promise String String).runTask (TaskOutcome.returned "done" none)).map
      (fun r => r.1.Await) = some none :=
  ⟨(await_returns_outcome (ε := String) "").2.1 "done" none,
    by
      have h := (await_returns_outcome (ε := String) "").2.2.2.2
        (TaskOutcome.returned "done" none) _ _ rfl
      exact congrArg some h.1⟩

/-- C26 (the code diverges). Two goroutines that resolve the same
factory-registered Singleton under the shared read lock can both find a nil
`Instance` before either stores its result: with the statements interleaved one
by one the factory runs twice and the goroutines receive different instances
(addresses 6 and 7); when the first goroutine finishes before the second starts,
the factory runs once and both receive the same instance. -/
theorem concurrent_first_resolution_races :
    (concRun demoEnv raceStart [0, 1, 0, 1, 0, 1, 0, 1, 0, 1]).threads =
      [Pc.done (Value.pointer (GoType.struct "TestService") (some 6)),
       Pc.done (Value.pointer (GoType.struct "TestService") (some 7))] ∧
    (concRun demoEnv raceStart [0, 1, 0, 1, 0, 1, 0, 1, 0, 1]).shared.calls =
      [ServiceFactory.closure 0, ServiceFactory.closure 0] ∧
    (concRun demoEnv raceStart [0, 1]).shared.readers = 2 ∧
    (concRun demoEnv raceStart [0, 0, 0, 0, 0, 1, 1, 1]).threads =
      [Pc.done (Value.pointer (GoType.struct "TestService") (some 6)),
       Pc.done (Value.pointer (GoType.struct "TestService") (some 6))] ∧
    (concRun demoEnv raceStart [0, 0, 0, 0, 0, 1, 1, 1]).shared.calls =
      [ServiceFactory.closure 0] := by
  decide

/-- C23 (the code diverges). A function whose declared last result type
implements `error` without being a pointer or an interface (`func() Errno`)
makes `Invoke` panic in `last.IsNil()` after the call, instead of returning the
error with the result list; for a last result of type `error` the non-nil value
is returned as the error with the full result list, and a nil value gives the
full result list and no error. -/
theorem invoke_error_surfacing_panics :
    (Invoke invokeEnv demoState (Value.func "func() Errno" (some 1))).1 =
      ([Value.basic "Errno" 13], Result.panicked) ∧
    (Invoke invokeEnv demoState (Value.func "func() error" (some 1))).1 =
      ([Value.basic "Errno" 13], Result.error (Error.returned (Value.basic "Errno" 13))) ∧
    (Invoke invokeEnv demoState (Value.func "func() error" (some 2))).1 =
      ([Value.nil], Result.ok ()) := by
  decide

/-- A goroutine that runs alone through the first resolution of a Singleton does
what `getInstance` does: one factory call, the result stored on the
registration and returned, the read lock released. -/
theorem thread_alone_first (env : Env) (s : State) (ref : RegRef) (reg : ServiceRegistration)
    (st : Option GoType) (tok sk : String) (f : ServiceFactory) (v : Value) (h : Heap)
    (hs : reg.Scope = Singleton) (hi : reg.Instance = Value.nil) (hf : reg.Factory = some f)
    (hc : f.call env s.heap = some (v, h)) :
    (concRun env
      { shared := { reg := reg, readers := 0, writer := false, heap := s.heap,
                    calls := s.calls },
        threads := [Pc.start] } [0, 0, 0, 0, 0]) =
      { shared := { reg := { reg with Instance := v }, readers := 0, writer := false,
                    heap := (getInstance env s ref reg st tok sk).2.heap,
                    calls := (getInstance env s ref reg st tok sk).2.calls },
        threads := [Pc.done v] } ∧
    (getInstance env s ref reg st tok sk).1 = Result.ok v := by
  rw [getInstance_singleton_first env s ref reg st tok sk f v h hs hi hf hc]
  have hheap : ((s.afterCall f h).setInstance ref reg v).heap = h := by cases ref <;> rfl
  have hcalls : ((s.afterCall f h).setInstance ref reg v).calls = s.calls ++ [f] := by
    cases ref <;> rfl
  refine ⟨?_, rfl⟩
  simp only [hheap, hcalls]
  simp [concRun, concStep, threadStep, listSet, hi, hf, hc]

/-- A goroutine that runs alone through a resolution of a Singleton that has
its instance returns that instance without calling the factory. -/
theorem thread_alone_cached (env : Env) (sh : Shared) (hw : sh.writer = false)
    (hi : sh.reg.Instance ≠ Value.nil) :
    concRun env { shared := sh, threads := [Pc.start] } [0, 0, 0] =
      { shared := sh, threads := [Pc.done sh.reg.Instance] } := by
  cases sh with
  | mk reg readers writer heap calls =>
    simp only at hw hi
    subst hw
    simp [concRun, concStep, threadStep, listSet, hi]

theorem initLoop_eq (env : Env) (modules : List Module) :
    ∀ (b : Boot) (initErrors : List String),
      (initLoop env modules b initErrors).1 =
        { s := run env b.s (initOps modules),
          registered := b.registered ++ initNames modules,
          mounted := b.mounted ++ initNames modules } ∧
      (initLoop env modules b initErrors).2.length =
        initErrors.length + (modules.filter Module.hookFails).length := by
  induction modules with
  | nil =>
    intro b initErrors
    simp [initLoop, initOps, initNames, run]
  | cons module rest ih =>
    intro b initErrors
    cases hh : module.onModuleInit with
    | none =>
      have hf : module.hookFails = false := by simp [Module.hookFails, hh]
      simp only [initLoop, hh, initOps, initNames, hf, List.filter_cons]
      rw [(ih _ _).1, (ih _ _).2]
      simp [run_append, List.append_assoc]
    | some r =>
      cases r with
      | none =>
        have hf : module.hookFails = false := by simp [Module.hookFails, hh]
        simp only [initLoop, hh, initOps, initNames, hf, List.filter_cons]
        rw [(ih _ _).1, (ih _ _).2]
        simp [run_append, List.append_assoc]
      | some err =>
        have hf : module.hookFails = true := by simp [Module.hookFails, hh]
        simp only [initLoop, hh, initOps, initNames, hf, List.filter_cons]
        rw [(ih _ _).1, (ih _ _).2]
        simp
        omega

/-- C30. The result of `InitModules` depends only on the init hooks: it returns
the error "failed to initialize n modules" if and only if the hook of at least
one module fails, `n` being the number of such modules; in every case exactly
the modules whose hook does not fail are registered and mounted, in order; when
a hook fails the container is as the `Register` calls of the other modules left
it (`AutowireAll` is not run); when no hook fails the container is as
`AutowireAll` left it and the result is nil whenever `AutowireAll` returns, also
when it returns an error. -/
theorem init_modules_result (env : Env) (modules : List Module) (b : Boot) :
    ((∃ n, (InitModules env modules b).1 = InitResult.failedToInitialize n) ↔
      ∃ module ∈ modules, module.hookFails = true) ∧
    ((∃ module ∈ modules, module.hookFails = true) →
      (InitModules env modules b).1 =
        InitResult.failedToInitialize (modules.filter Module.hookFails).length ∧
      (InitModules env modules b).2.s = run env b.s (initOps modules)) ∧
    (InitModules env modules b).2.registered = b.registered ++ initNames modules ∧
    (InitModules env modules b).2.mounted = b.mounted ++ initNames modules ∧
    ((∀ module ∈ modules, module.hookFails = false) →
      (InitModules env modules b).2.s = (AutowireAll env (run env b.s (initOps modules))).2 ∧
      ((AutowireAll env (run env b.s (initOps modules))).1 ≠ Result.panicked →
        (InitModules env modules b).1 = InitResult.nil) ∧
      (∀ e, (AutowireAll env (run env b.s (initOps modules))).1 = Result.error e →
        (InitModules env modules b).1 = InitResult.nil)) := by
  have hl := initLoop_eq env modules b []
  have hlen : (initLoop env modules b []).2.length =
      (modules.filter Module.hookFails).length := by
    rw [hl.2]; simp
  have hpos : (0 < (modules.filter Module.hookFails).length) ↔
      ∃ module ∈ modules, module.hookFails = true := by
    rw [List.length_pos_iff_exists_mem]
    constructor
    · rintro ⟨m, hm⟩
      rw [List.mem_filter] at hm
      exact ⟨m, hm.1, hm.2⟩
    · rintro ⟨m, hm, hf⟩
      exact ⟨m, List.mem_filter.2 ⟨hm, hf⟩⟩
  have hall : (∀ module ∈ modules, module.hookFails = false) →
      ¬ ∃ module ∈ modules, module.hookFails = true := by
    rintro h ⟨m, hm, hf⟩
    rw [h m hm] at hf
    cases hf
  by_cases hex : ∃ module ∈ modules, module.hookFails = true
  · have h0 : (modules.filter Module.hookFails).length > 0 := hpos.2 hex
    have hr : InitModules env modules b =
        (InitResult.failedToInitialize (modules.filter Module.hookFails).length,
          (initLoop env modules b []).1) := by
      unfold InitModules
      simp only [hlen, if_pos h0]
    refine ⟨⟨fun _ => hex, fun _ => ⟨_, by rw [hr]⟩⟩, fun _ => ⟨by rw [hr], by rw [hr, hl.1]⟩,
      by rw [hr, hl.1], by rw [hr, hl.1], fun h => absurd hex (hall h)⟩
  · have h0 : ¬ (modules.filter Module.hookFails).length > 0 := fun h => hex (hpos.1 h)
    cases ha : AutowireAll env (run env b.s (initOps modules)) with
    | mk r s1 =>
      cases r with
      | ok u =>
        have hr : InitModules env modules b = (InitResult.nil,
            { s := s1, registered := b.registered ++ initNames modules,
              mounted := b.mounted ++ initNames modules }) := by
          unfold InitModules
          simp only [hlen, if_neg h0, hl.1, ha]
        refine ⟨⟨?_, fun h => absurd h hex⟩, fun h => absurd h hex, by rw [hr], by rw [hr],
          fun _ => ⟨by rw [hr], fun _ => by rw [hr], fun _ _ => by rw [hr]⟩⟩
        rintro ⟨n, hn⟩
        rw [hr] at hn
        cases hn
      | error e =>
        have hr : InitModules env modules b = (InitResult.nil,
            { s := s1, registered := b.registered ++ initNames modules,
              mounted := b.mounted ++ initNames modules }) := by
          unfold InitModules
          simp only [hlen, if_neg h0, hl.1, ha]
        refine ⟨⟨?_, fun h => absurd h hex⟩, fun h => absurd h hex, by rw [hr], by rw [hr],
          fun _ => ⟨by rw [hr], fun _ => by rw [hr], fun _ _ => by rw [hr]⟩⟩
        rintro ⟨n, hn⟩
        rw [hr] at hn
        cases hn
      | panicked =>
        have hr : InitModules env modules b = (InitResult.panicked,
            { s := s1, registered := b.registered ++ initNames modules,
              mounted := b.mounted ++ initNames modules }) := by
          unfold InitModules
          simp only [hlen, if_neg h0, hl.1, ha]
        refine ⟨⟨?_, fun h => absurd h hex⟩, fun h => absurd h hex, by rw [hr], by rw [hr],
          fun _ => ⟨by rw [hr], fun h => absurd rfl h, fun e he => by cases he⟩⟩
        rintro ⟨n, hn⟩
        rw [hr] at hn
        cases hn

theorem init_modules_result_witness :
    (InitModules demoEnv
      [{ name := "A", onModuleInit := some (some "boom"),
         register := [Op.registerScoped demoService Singleton] },
       { name := "B", onModuleInit := none, register := [Op.addForAutowiring demoConsumer] }]
      { s := demoState, registered := [], mounted := [] }).1 =
      InitResult.failedToInitialize 1 ∧
    (InitModules demoEnv
      [{ name := "B", onModuleInit := none, register := [Op.addForAutowiring demoConsumer] }]
      { s := demoState, registered := [], mounted := [] }).1 = InitResult.nil :=
  ⟨((init_modules_result demoEnv
      [{ name := "A", onModuleInit := some (some "boom"),
         register := [Op.registerScoped demoService Singleton] },
       { name := "B", onModuleInit := none, register := [Op.addForAutowiring demoConsumer] }]
      { s := demoState, registered := [], mounted := [] }).2.1
      ⟨_, List.mem_cons_self _ _, rfl⟩).1,
    ((init_modules_result demoEnv
      [{ name := "B", onModuleInit := none, register := [Op.addForAutowiring demoConsumer] }]
      { s := demoState, registered := [], mounted := [] }).2.2.2.2
      (by intro m hm; simp only [List.mem_singleton] at hm; subst hm; rfl)).2.2
      (Error.failedToAutowire (some (GoType.ptr (GoType.struct "Consumer")))
        (Error.missingDependencyForType testServicePtr)) (by decide)⟩

theorem assignInstance_calls (env : Env) (s : State) (inst : Value) (typ : GoType)
    (addr : Nat) (targetType : GoType) :
    (assignInstance env s inst typ addr targetType).2.calls = s.calls :=
  (assignInstance_heapOnly env s inst typ addr targetType).2.1

theorem assignByToken_calls (env : Env) (s : State) (inst : Value) (elem : Ref) :
    (assignByToken env s inst elem).2.calls = s.calls :=
  (assignByToken_heapOnly env s inst elem).2.1

/-- An assignment by token that does not succeed leaves the state as it was. -/
theorem assignByToken_state (env : Env) (s : State) (inst : Value) (elem : Ref) :
    (assignByToken env s inst elem).1 = Result.ok () ∨
      (assignByToken env s inst elem).2 = s := by
  unfold assignByToken
  cases elem with
  | zero => exact Or.inr rfl
  | var typ addr =>
    simp only
    split_ifs <;> (repeat' split) <;>
      first
      | exact Or.inr rfl
      | exact Or.inl rfl

/-- C27 (as stated, refuted). A Singleton factory that returns nil is not
cached by a failed call: with such a factory bound to "svc", `ResolveBy` into an
`int` target fails with "unsupported target type: int" after calling the
factory, the registration still holds a nil instance, and the next resolution
of "svc" calls the factory again. -/
theorem failed_resolve_nil_not_cached :
    (ResolveByWithScope demoEnv
      (BindFactory demoIntState "svc" (ServiceFactory.closure 1) Singleton) "svc"
      demoIntTarget "").1 = Result.error (Error.unsupportedTargetType (GoType.basic "int")) ∧
    (ResolveByWithScope demoEnv
      (BindFactory demoIntState "svc" (ServiceFactory.closure 1) Singleton) "svc"
      demoIntTarget "").2.calls = [ServiceFactory.closure 1] ∧
    (ResolveByWithScope demoEnv
      (BindFactory demoIntState "svc" (ServiceFactory.closure 1) Singleton) "svc"
      demoIntTarget "").2.lookup (RegRef.token "svc") =
      some { Instance := Value.nil, Factory := some (ServiceFactory.closure 1),
             Scope := Singleton } ∧
    (ResolveByWithScope demoEnv
      (ResolveByWithScope demoEnv
        (BindFactory demoIntState "svc" (ServiceFactory.closure 1) Singleton) "svc"
        demoIntTarget "").2 "svc" demoIntTarget "").2.calls =
      [ServiceFactory.closure 1, ServiceFactory.closure 1] := by
  decide

theorem heapOnly_pending {s s1 : State} (h : HeapOnly s s1) :
    s1.c.pendingAutowire = s.c.pendingAutowire := by
  rw [h.1]

theorem ResolveWithScope_pending (env : Env) (s : State) (target : Value) (sk : String) :
    (ResolveWithScope env s target sk).2.c.pendingAutowire = s.c.pendingAutowire := by
  have hrt : ∀ typ addr targetType,
      (resolveType env s typ addr targetType sk).2.c.pendingAutowire =
        s.c.pendingAutowire := by
    intro typ addr targetType
    unfold resolveType
    cases hreg : mapGet s.c.typeServices (some targetType) with
    | none => rfl
    | some reg =>
      simp only
      have hg := getInstance_pending env s (RegRef.type (some targetType)) reg
        (some targetType) "" sk
      cases hgi : getInstance env s (RegRef.type (some targetType)) reg (some targetType) ""
          sk with
      | mk r s1 =>
        rw [hgi] at hg
        cases r with
        | ok inst =>
          simp only
          rw [heapOnly_pending (assignInstance_heapOnly env s1 inst typ addr targetType)]
          exact hg
        | error e => exact hg
        | panicked => exact hg
  unfold ResolveWithScope
  by_cases hp : target.kind ≠ Kind.ptr
  · rw [if_pos hp]
  · rw [if_neg hp]
    cases target.elem with
    | zero => rfl
    | var typ addr =>
      simp only
      split_ifs
      · exact hrt _ _ _
      · exact hrt _ _ _
      · rfl

theorem ResolveByWithScope_pending (env : Env) (s : State) (token : String) (target : Value)
    (sk : String) :
    (ResolveByWithScope env s token target sk).2.c.pendingAutowire = s.c.pendingAutowire := by
  unfold ResolveByWithScope
  cases hreg : mapGet s.c.tokenServices token with
  | none => rfl
  | some reg =>
    simp only
    by_cases hp : target.kind ≠ Kind.ptr
    · rw [if_pos hp]
    · rw [if_neg hp]
      have hg := getInstance_pending env s (RegRef.token token) reg target.typeOf token sk
      cases hgi : getInstance env s (RegRef.token token) reg target.typeOf token sk with
      | mk r s1 =>
        rw [hgi] at hg
        cases r with
        | ok inst =>
          simp only
          rw [heapOnly_pending (assignByToken_heapOnly env s1 inst target.elem)]
          exact hg
        | error e => exact hg
        | panicked => exact hg

theorem invokeArgs_pending (env : Env) (argTypes : List GoType) :
    ∀ (i : Nat) (s : State),
      (invokeArgs env argTypes i s).2.c.pendingAutowire = s.c.pendingAutowire := by
  induction argTypes with
  | nil => intro i s; rfl
  | cons argType rest ih =>
    intro i s
    unfold invokeArgs
    simp only
    have hg : (Resolve env { s with heap := (reflectNew env argType s.heap).2 }
          (reflectNew env argType s.heap).1).2.c.pendingAutowire = s.c.pendingAutowire :=
      ResolveWithScope_pending env _ _ ""
    cases hgi : Resolve env { s with heap := (reflectNew env argType s.heap).2 }
        (reflectNew env argType s.heap).1 with
    | mk r s1 =>
      rw [hgi] at hg
      cases r with
      | error e => exact hg
      | panicked => exact hg
      | ok u =>
        simp only
        have h2 := ih (i + 1) s1
        cases hia : invokeArgs env rest (i + 1) s1 with
        | mk r2 s2 =>
          rw [hia] at h2
          cases r2 <;> exact h2.trans hg

theorem Invoke_pending (env : Env) (s : State) (fn : Value) :
    (Invoke env s fn).2.c.pendingAutowire = s.c.pendingAutowire := by
  unfold Invoke
  by_cases hk : fn.kind ≠ Kind.func
  · rw [if_pos hk]
  · rw [if_neg hk]
    cases fn with
    | func sig code =>
      simp only
      have hg := invokeArgs_pending env (env.funcIn sig) 0 s
      cases hia : invokeArgs env (env.funcIn sig) 0 s with
      | mk r s1 =>
        rw [hia] at hg
        cases r with
        | error e => exact hg
        | panicked => exact hg
        | ok addrs =>
          simp only
          cases code with
          | none => exact hg
          | some body =>
            cases readArgs s1.heap addrs with
            | none => exact hg
            | some args => exact hg
    | nil => rfl
    | pointer _ _ => rfl
    | structV _ _ => rfl
    | basic _ _ => rfl

theorem autowireAllLoop_pending (env : Env) (components : List Value) :
    ∀ s : State,
      (autowireAllLoop env components s).2.c.pendingAutowire = s.c.pendingAutowire := by
  induction components with
  | nil => intro s; rfl
  | cons component rest ih =>
    intro s
    unfold autowireAllLoop
    have ha : (Autowire env s component).2.c.pendingAutowire = s.c.pendingAutowire :=
      AutowireWithScope_pending env s component ""
    cases hai : Autowire env s component with
    | mk r s1 =>
      rw [hai] at ha
      cases r with
      | ok u => simp only; rw [ih]; exact ha
      | error e => exact ha
      | panicked => exact ha

/-- Autowiring a component that is not a pointer to a struct returns "target must
be a pointer to a struct" in every state, and leaves the state as it was. -/
theorem Autowire_not_struct (env : Env) (s : State) (component : Value)
    (hc : component.kind ≠ Kind.ptr ∨ component.elem.kind ≠ Kind.struct) :
    Autowire env s component = (Result.error Error.targetMustBePointerToStruct, s) := by
  unfold Autowire AutowireWithScope
  rw [if_pos hc]

/-- The loop of `AutowireAll` over a list that holds a component that is not a
pointer to a struct does not succeed. -/
theorem autowireAllLoop_poisoned (env : Env) (component : Value)
    (hc : component.kind ≠ Kind.ptr ∨ component.elem.kind ≠ Kind.struct)
    (components : List Value) :
    ∀ s : State, component ∈ components →
      (autowireAllLoop env components s).1 ≠ Result.ok () := by
  induction components with
  | nil => intro s h; cases h
  | cons x rest ih =>
    intro s hmem
    unfold autowireAllLoop
    cases hai : Autowire env s x with
    | mk r s1 =>
      cases r with
      | ok u =>
        simp only
        rcases List.mem_cons.1 hmem with h | h
        · rw [← h, Autowire_not_struct env s component hc] at hai
          cases hai
        · exact ih s1 h
      | error e => simp
      | panicked => simp

/-- With a component that is not a pointer to a struct on the pending list,
`AutowireAll` does not succeed and leaves the pending list as it was. -/
theorem AutowireAll_poisoned (env : Env) (s : State) (component : Value)
    (hc : component.kind ≠ Kind.ptr ∨ component.elem.kind ≠ Kind.struct)
    (hmem : component ∈ s.c.pendingAutowire) :
    (AutowireAll env s).1 ≠ Result.ok () ∧
      (AutowireAll env s).2.c.pendingAutowire = s.c.pendingAutowire := by
  have hl := autowireAllLoop_poisoned env component hc s.c.pendingAutowire s hmem
  have hp := autowireAllLoop_pending env s.c.pendingAutowire s
  unfold AutowireAll
  cases hloop : autowireAllLoop env s.c.pendingAutowire s with
  | mk r s1 =>
    rw [hloop] at hl hp
    cases r with
    | ok u => exact absurd rfl hl
    | error e => exact ⟨by simp, hp⟩
    | panicked => exact ⟨by simp, hp⟩

theorem step_poisoned (env : Env) (s : State) (op : Op) (component : Value)
    (hc : component.kind ≠ Kind.ptr ∨ component.elem.kind ≠ Kind.struct)
    (hmem : component ∈ s.c.pendingAutowire) :
    component ∈ (step env s op).c.pendingAutowire := by
  cases op with
  | registerScoped service scope => exact hmem
  | registerFactory serviceType factory scope => exact hmem
  | registerTransient prototype => exact hmem
  | bindScoped token service scope => exact hmem
  | bindFactory token factory scope => exact hmem
  | bindTransient token prototype => exact hmem
  | resolveWithScope target sk =>
    simp only [step]; rw [ResolveWithScope_pending]; exact hmem
  | resolveByWithScope token target sk =>
    simp only [step]; rw [ResolveByWithScope_pending]; exact hmem
  | autowireWithScope target sk =>
    simp only [step]; rw [AutowireWithScope_pending]; exact hmem
  | clearScope sk => exact hmem
  | addForAutowiring x =>
    simp only [step, AddForAutowiring]
    exact List.mem_append_left _ hmem
  | autowireAll =>
    simp only [step]; rw [(AutowireAll_poisoned env s component hc hmem).2]; exact hmem
  | invoke fn =>
    simp only [step]; rw [Invoke_pending]; exact hmem

theorem run_poisoned (env : Env) (component : Value)
    (hc : component.kind ≠ Kind.ptr ∨ component.elem.kind ≠ Kind.struct) (ops : List Op) :
    ∀ s : State, component ∈ s.c.pendingAutowire →
      component ∈ (run env s ops).c.pendingAutowire := by
  induction ops with
  | nil => intro s h; exact h
  | cons op rest ih =>
    intro s h
    exact ih (step env s op) (step_poisoned env s op component hc h)

theorem registerComponents_pending (components : List Value) :
    ∀ s : State, (registerComponents s components).c.pendingAutowire = s.c.pendingAutowire := by
  induction components with
  | nil => intro s; rfl
  | cons c rest ih =>
    intro s
    have h := ih (Register s c)
    exact h

theorem registerComponents_append (s : State) (a b : List Value) :
    registerComponents s (a ++ b) = registerComponents (registerComponents s a) b := by
  simp [registerComponents, List.foldl_append]

theorem registerComponents_lookup_other (key : Option GoType) (components : List Value) :
    ∀ s : State, (∀ c ∈ components, c.typeOf ≠ key) →
      (registerComponents s components).lookup (RegRef.type key) =
        s.lookup (RegRef.type key) := by
  induction components with
  | nil => intro s _; rfl
  | cons c rest ih =>
    intro s h
    have h1 : (registerComponents (Register s c) rest).lookup (RegRef.type key) =
        (Register s c).lookup (RegRef.type key) :=
      ih (Register s c) (fun x hx => h x (List.mem_cons_of_mem _ hx))
    have h2 : (Register s c).lookup (RegRef.type key) = s.lookup (RegRef.type key) :=
      lookup_type_other s _ _ _ (by
        intro e
        injection e with e
        exact h c (List.mem_cons_self _ _) e.symm)
    exact h1.trans h2

/-- After the first loop the slot of a runtime type holds the last component of
that type. -/
theorem registerComponents_lookup_last (s : State) (pre : List Value) (c : Value)
    (post : List Value) (hpost : ∀ x ∈ post, x.typeOf ≠ c.typeOf) :
    (registerComponents s (pre ++ c :: post)).lookup (RegRef.type c.typeOf) =
      some { Instance := c, Factory := none, Scope := Singleton } := by
  rw [registerComponents_append]
  have h1 : registerComponents (registerComponents s pre) (c :: post) =
      registerComponents (Register (registerComponents s pre) c) post := rfl
  rw [h1, registerComponents_lookup_other c.typeOf post _ hpost]
  exact Register_lookup _ c

theorem last_of_type (t : Option GoType) (components : List Value) :
    (∃ c ∈ components, c.typeOf = t) →
      ∃ pre c post, components = pre ++ c :: post ∧ c.typeOf = t ∧
        ∀ x ∈ post, x.typeOf ≠ t := by
  induction components with
  | nil => rintro ⟨c, hc, _⟩; cases hc
  | cons x rest ih =>
    intro hex
    by_cases hrest : ∃ c ∈ rest, c.typeOf = t
    · obtain ⟨pre, c, post, h1, h2, h3⟩ := ih hrest
      exact ⟨x :: pre, c, post, by rw [h1]; rfl, h2, h3⟩
    · obtain ⟨c, hc, hct⟩ := hex
      rcases List.mem_cons.1 hc with h | h
      · subst h
        exact ⟨[], c, rest, rfl, hct, fun y hy e => hrest ⟨y, hy, e⟩⟩
      · exact absurd ⟨c, h, hct⟩ hrest

theorem autowireOrDefer_cons_ok (env : Env) (s s1 : State) (c : Value) (rest : List Value)
    (h : Autowire env s c = (Result.ok (), s1)) :
    autowireOrDefer env (c :: rest) s = autowireOrDefer env rest s1 := by
  rw [autowireOrDefer, h]

theorem autowireOrDefer_cons_error (env : Env) (s s1 : State) (c : Value) (rest : List Value)
    (e : Error) (h : Autowire env s c = (Result.error e, s1)) :
    autowireOrDefer env (c :: rest) s = autowireOrDefer env rest (AddForAutowiring s1 c) := by
  rw [autowireOrDefer, h]

theorem autowireOrDefer_cons_panicked (env : Env) (s s1 : State) (c : Value)
    (rest : List Value) (h : Autowire env s c = (Result.panicked, s1)) :
    autowireOrDefer env (c :: rest) s = (Result.panicked, s1) := by
  rw [autowireOrDefer, h]

theorem autowireOrDefer_regStep (env : Env) (R : RegRef) (components : List Value) :
    ∀ s : State, RegStep (s.lookup R) ((autowireOrDefer env components s).2.lookup R) := by
  induction components with
  | nil => intro s; exact regStep_refl _
  | cons c rest ih =>
    intro s
    have ha : RegStep (s.lookup R) ((Autowire env s c).2.lookup R) :=
      AutowireWithScope_frame (regFrame env R) s c ""
    cases hai : Autowire env s c with
    | mk r s1 =>
      rw [hai] at ha
      cases r with
      | ok u =>
        rw [autowireOrDefer_cons_ok env s s1 c _ hai]
        exact regStep_trans ha (ih s1)
      | error e =>
        rw [autowireOrDefer_cons_error env s s1 c _ e hai]
        have h2 := ih (AddForAutowiring s1 c)
        have h3 : (AddForAutowiring s1 c).lookup R = s1.lookup R := by cases R <;> rfl
        rw [h3] at h2
        exact regStep_trans ha h2
      | panicked =>
        rw [autowireOrDefer_cons_panicked env s s1 c _ hai]
        exact ha

theorem autowireOrDefer_single (env : Env) (s : State) (c : Value) :
    ((Autowire env s c).1 = Result.ok () →
      autowireOrDefer env [c] s = (Result.ok (), (Autowire env s c).2)) ∧
    (∀ e, (Autowire env s c).1 = Result.error e →
      autowireOrDefer env [c] s = (Result.ok (), AddForAutowiring (Autowire env s c).2 c)) ∧
    ((Autowire env s c).1 = Result.panicked →
      autowireOrDefer env [c] s = (Result.panicked, (Autowire env s c).2)) := by
  cases hai : Autowire env s c with
  | mk r s1 =>
    cases r with
    | ok u =>
      refine ⟨fun _ => ?_, fun e he => ?_, fun he => ?_⟩
      · rw [autowireOrDefer_cons_ok env s s1 c [] hai]; rfl
      · cases he
      · cases he
    | error e =>
      refine ⟨fun he => ?_, fun e2 _ => ?_, fun he => ?_⟩
      · cases he
      · rw [autowireOrDefer_cons_error env s s1 c [] e hai]; rfl
      · cases he
    | panicked =>
      refine ⟨fun he => ?_, fun e he => ?_, fun _ => ?_⟩
      · cases he
      · cases he
      · rw [autowireOrDefer_cons_panicked env s s1 c [] hai]

theorem autowireOrDefer_append (env : Env) (a b : List Value) :
    ∀ s : State,
      ((autowireOrDefer env a s).1 = Result.ok () →
        autowireOrDefer env (a ++ b) s = autowireOrDefer env b (autowireOrDefer env a s).2) ∧
      ((autowireOrDefer env (a ++ b) s).1 = Result.ok () →
        (autowireOrDefer env a s).1 = Result.ok ()) := by
  induction a with
  | nil => intro s; exact ⟨fun _ => rfl, fun _ => rfl⟩
  | cons c rest ih =>
    intro s
    simp only [List.cons_append]
    cases hai : Autowire env s c with
    | mk r s1 =>
      cases r with
      | ok u =>
        rw [autowireOrDefer_cons_ok env s s1 c _ hai, autowireOrDefer_cons_ok env s s1 c _ hai]
        exact ih s1
      | error e =>
        rw [autowireOrDefer_cons_error env s s1 c _ e hai,
          autowireOrDefer_cons_error env s s1 c _ e hai]
        exact ih (AddForAutowiring s1 c)
      | panicked =>
        rw [autowireOrDefer_cons_panicked env s s1 c _ hai,
          autowireOrDefer_cons_panicked env s s1 c _ hai]
        exact ⟨fun h => (by cases h), fun h => (by cases h)⟩

theorem take_succ_of_get {α : Type} (l : List α) (n : Nat) (x : α) (h : l[n]? = some x) :
    l.take (n + 1) = l.take n ++ [x] := by
  rw [List.take_succ, h]
  rfl

theorem filterMap_single_none {α β : Type} (f : α → Option β) (a : α) (h : f a = none) :
    List.filterMap f [a] = [] := by
  simp [List.filterMap_cons, h]

theorem filterMap_single_some {α β : Type} (f : α → Option β) (a : α) (b : β)
    (h : f a = some b) : List.filterMap f [a] = [b] := by
  simp [List.filterMap_cons, h]

theorem deferredAt_eq (env : Env) (s : State) (components : List Value) (j : Nat) (c : Value)
    (hc : components[j]? = some c) :
    deferredAt env s components j =
      if (Autowire env (stateBefore env s components j) c).1 = Result.ok () then none
      else some c := by
  unfold deferredAt
  rw [hc]

/-- The pending list after the first `n` components of the second loop. -/
theorem autowireOrDefer_prefix_pending (env : Env) (s : State) (components : List Value) :
    ∀ n, n ≤ components.length →
      (autowireOrDefer env (components.take n) (registerComponents s components)).1 =
        Result.ok () →
      (stateBefore env s components n).c.pendingAutowire =
        s.c.pendingAutowire ++ (List.range n).filterMap (deferredAt env s components) := by
  intro n
  induction n with
  | zero =>
    intro _ _
    simp only [stateBefore, List.take_zero, autowireOrDefer, List.range_zero,
      List.filterMap_nil, List.append_nil]
    exact registerComponents_pending components s
  | succ n ih =>
    intro hn hok
    have hlt : n < components.length := hn
    have hc : components[n]? = some components[n] := List.getElem?_eq_getElem hlt
    have htake := take_succ_of_get components n _ hc
    rw [htake] at hok
    have hpre := (autowireOrDefer_append env (components.take n) [components[n]]
      (registerComponents s components)).2 hok
    have hih := ih (Nat.le_of_lt hlt) hpre
    have happ := (autowireOrDefer_append env (components.take n) [components[n]]
      (registerComponents s components)).1 hpre
    have hst : stateBefore env s components (n + 1) =
        (autowireOrDefer env [components[n]] (stateBefore env s components n)).2 := by
      unfold stateBefore
      rw [htake, happ]
    rw [happ] at hok
    have hsn : (autowireOrDefer env (components.take n) (registerComponents s components)).2 =
        stateBefore env s components n := rfl
    rw [hsn] at hok
    have hsingle := autowireOrDefer_single env (stateBefore env s components n) components[n]
    have hpa := AutowireWithScope_pending env (stateBefore env s components n) components[n] ""
    rw [List.range_succ, List.filterMap_append, ← List.append_assoc, ← hih, hst]
    have hd := deferredAt_eq env s components n _ hc
    cases hr : (Autowire env (stateBefore env s components n) components[n]).1 with
    | ok u =>
      rw [hr, if_pos rfl] at hd
      rw [hsingle.1 hr, filterMap_single_none _ n hd, List.append_nil]
      exact hpa
    | error e =>
      rw [hr, if_neg (by simp)] at hd
      rw [hsingle.2.1 e hr, filterMap_single_some _ n _ hd]
      simp only [AddForAutowiring]
      rw [← hpa]
      rfl
    | panicked =>
      rw [hsingle.2.2 hr] at hok
      cases hok

/-- When `RegisterModuleComponents` returns, the pending list is the old list
followed by the components whose immediate `Autowire` did not succeed. -/
theorem RegisterModuleComponents_pending (env : Env) (s : State) (components : List Value)
    (hok : (RegisterModuleComponents env s components).1 = Result.ok ()) :
    (RegisterModuleComponents env s components).2.c.pendingAutowire =
      s.c.pendingAutowire ++ deferredComponents env s components := by
  have h := autowireOrDefer_prefix_pending env s components components.length (Nat.le_refl _)
    (by rw [List.take_length]; exact hok)
  unfold stateBefore at h
  rw [List.take_length] at h
  exact h

theorem deferredComponents_mem (env : Env) (s : State) (components : List Value) (j : Nat)
    (c : Value) (hc : components[j]? = some c)
    (hfail : (Autowire env (stateBefore env s components j) c).1 ≠ Result.ok ()) :
    c ∈ deferredComponents env s components := by
  unfold deferredComponents
  rw [List.mem_filterMap]
  refine ⟨j, List.mem_range.2 (getElem_lt_length _ _ _ hc), ?_⟩
  rw [deferredAt_eq env s components j c hc, if_neg hfail]

theorem mem_getElem {α : Type} (l : List α) (x : α) (h : x ∈ l) : ∃ j : Nat, l[j]? = some x := by
  induction l with
  | nil => cases h
  | cons y rest ih =>
    rcases List.mem_cons.1 h with h1 | h1
    · exact ⟨0, by simp [h1]⟩
    · obtain ⟨j, hj⟩ := ih h1
      exact ⟨j + 1, by simpa using hj⟩

/-- C29. A component that is not a pointer to a struct poisons the pending list:
`AddForAutowiring` places it on the list, and so does `RegisterModuleComponents`
whenever it returns (its immediate `Autowire` fails); once it is on the list it
stays there whatever operations follow, registrations included, and every
`AutowireAll` from then on does not succeed and leaves the pending list as it
was, hence never empty. -/
theorem poisoned_pending_list (env : Env) (s : State) (component : Value)
    (hc : component.kind ≠ Kind.ptr ∨ component.elem.kind ≠ Kind.struct) :
    component ∈ (AddForAutowiring s component).c.pendingAutowire ∧
    (∀ components, component ∈ components →
      (RegisterModuleComponents env s components).1 = Result.ok () →
      component ∈ (RegisterModuleComponents env s components).2.c.pendingAutowire) ∧
    (∀ (s0 : State) (ops : List Op), component ∈ s0.c.pendingAutowire →
      component ∈ (run env s0 ops).c.pendingAutowire ∧
      (AutowireAll env (run env s0 ops)).1 ≠ Result.ok () ∧
      (AutowireAll env (run env s0 ops)).2.c.pendingAutowire =
        (run env s0 ops).c.pendingAutowire ∧
      (AutowireAll env (run env s0 ops)).2.c.pendingAutowire ≠ []) := by
  refine ⟨?_, ?_, ?_⟩
  · simp [AddForAutowiring]
  · intro components hmem hok
    rw [RegisterModuleComponents_pending env s components hok]
    obtain ⟨j, hj⟩ := mem_getElem components component hmem
    refine List.mem_append_right _ (deferredComponents_mem env s components j component hj ?_)
    rw [Autowire_not_struct env _ component hc]
    simp
  · intro s0 ops hmem
    have hrun := run_poisoned env component hc ops s0 hmem
    have hall := AutowireAll_poisoned env (run env s0 ops) component hc hrun
    refine ⟨hrun, hall.1, hall.2, ?_⟩
    rw [hall.2]
    exact List.ne_nil_of_mem hrun

theorem poisoned_pending_list_witness :
    Value.basic "string" 3 ∈
      (RegisterModuleComponents demoEnv demoState
        [Value.basic "string" 3, demoConsumer, demoService]).2.c.pendingAutowire ∧
    (AutowireAll demoEnv
      (run demoEnv
        (RegisterModuleComponents demoEnv demoState
          [Value.basic "string" 3, demoConsumer, demoService]).2
        [Op.registerScoped (Value.basic "string" 4) Singleton, Op.autowireAll])).1 ≠
      Result.ok () :=
  have h := poisoned_pending_list demoEnv demoState (Value.basic "string" 3) (by decide)
  have h1 := h.2.1 [Value.basic "string" 3, demoConsumer, demoService] (by simp) (by decide)
  ⟨h1, (h.2.2 _ [Op.registerScoped (Value.basic "string" 4) Singleton, Op.autowireAll] h1).2.1⟩

theorem typeOf_ptr_kind (inst : Value) (t : GoType) (ht : inst.typeOf = some t)
    (hk : t.kind = Kind.ptr) : inst.kind = Kind.ptr := by
  unfold Value.kind
  rw [ht]
  exact hk

theorem assignableTo_self (env : Env) (t : GoType) : assignableTo env t t = true := by
  simp [assignableTo]

/-- The loop over the fields succeeds when the target struct is in memory and
every tagged settable field is a pointer field tagged "type" whose type holds a
Singleton registration with an instance of that type. -/
theorem autowireFields_singletons (env : Env) (sk : String) (addr : Nat) (name : String)
    (fs : List StructField) :
    ∀ (i : Nat) (s : State) (vals : List Value),
      s.heap.read addr = some (Value.structV name vals) → i + fs.length ≤ vals.length →
      (∀ f ∈ fs, f.inject ≠ "" → f.canSet = true →
        f.inject = "type" ∧ f.Typ.kind = Kind.ptr ∧
        ∃ reg, s.lookup (RegRef.type (some f.Typ)) = some reg ∧ reg.Scope = Singleton ∧
          reg.Instance.typeOf = some f.Typ) →
      (autowireFields env sk addr fs i s).1 = Result.ok () := by
  induction fs with
  | nil => intro i s vals _ _ _; rfl
  | cons f rest ih =>
    intro i s vals hread hlen hdeps
    have hlen2 : i + 1 + rest.length ≤ vals.length := by
      simp only [List.length_cons] at hlen; omega
    have hrest : ∀ g ∈ rest, g.inject ≠ "" → g.canSet = true →
        g.inject = "type" ∧ g.Typ.kind = Kind.ptr ∧
        ∃ reg, s.lookup (RegRef.type (some g.Typ)) = some reg ∧ reg.Scope = Singleton ∧
          reg.Instance.typeOf = some g.Typ :=
      fun g hg => hdeps g (List.mem_cons_of_mem _ hg)
    rw [autowireFields_cons]
    by_cases h1 : f.inject = ""
    · rw [if_pos h1]; exact ih (i + 1) s vals hread hlen2 hrest
    · rw [if_neg h1]
      by_cases h2 : (!f.canSet) = true
      · rw [if_pos h2]; exact ih (i + 1) s vals hread hlen2 hrest
      · rw [if_neg h2]
        have hset : f.canSet = true := by simpa using h2
        obtain ⟨htag, hkind, reg, hreg, hscope, hinst⟩ :=
          hdeps f (List.mem_cons_self _ _) h1 hset
        have hne : reg.Instance ≠ Value.nil := by
          intro e; rw [e] at hinst; cases hinst
        have hreg' : mapGet s.c.typeServices (some f.Typ) = some reg := hreg
        have hres : resolveField env s f sk = (Result.ok reg.Instance, s) := by
          unfold resolveField
          rw [if_pos htag, hreg']
          exact getInstance_cached env s _ reg _ _ sk hscope hne
        have hlt : i < vals.length := by
          simp only [List.length_cons] at hlen; omega
        have hsf : s.heap.setField addr i reg.Instance =
            some (s.heap.write addr (Value.structV name (listSet vals i reg.Instance))) := by
          unfold Heap.setField
          rw [hread]
          simp only [if_pos hlt]
        have hassign : assignField env s f addr i reg.Instance =
            (Result.ok (), s.setVar addr (Value.structV name (listSet vals i reg.Instance))) := by
          unfold assignField
          rw [if_pos hkind, if_pos (typeOf_ptr_kind _ _ hinst hkind), hinst]
          simp only [assignableTo_self, Bool.not_true, Bool.false_eq_true, if_false]
          unfold State.setFieldVar
          rw [hsf]
          rfl
        rw [hres]
        simp only
        rw [hassign]
        simp only
        refine ih (i + 1) _ (listSet vals i reg.Instance) (heap_read_write_self _ _ _) ?_ hrest
        rw [listSet_length]
        exact hlen2

/-- Autowire of a component succeeds when the component is in memory and each of
its tagged settable fields is a pointer field tagged "type" whose type holds a
Singleton registration with an instance of that type. -/
theorem Autowire_singletons (env : Env) (s : State) (name : String) (addr : Nat)
    (vals : List Value) (hread : s.heap.read addr = some (Value.structV name vals))
    (hlen : (env.fields name).length ≤ vals.length)
    (hdeps : ∀ f ∈ env.fields name, f.inject ≠ "" → f.canSet = true →
      f.inject = "type" ∧ f.Typ.kind = Kind.ptr ∧
      ∃ reg, s.lookup (RegRef.type (some f.Typ)) = some reg ∧ reg.Scope = Singleton ∧
        reg.Instance.typeOf = some f.Typ) :
    (Autowire env s (Value.pointer (GoType.struct name) (some addr))).1 = Result.ok () := by
  unfold Autowire
  rw [AutowireWithScope_struct]
  exact autowireFields_singletons env "" addr name (env.fields name) 0 s vals hread
    (by omega) hdeps

/-- In the state in which a component is autowired, the slot of a runtime type
of the components holds the last component of that type, and a Singleton that
was registered with its instance under another type is still in its slot. -/
theorem stateBefore_lookup (env : Env) (s : State) (components : List Value) (j : Nat)
    (t : GoType)
    (h : (∃ c ∈ components, c.typeOf = some t) ∨
      ∃ reg, s.lookup (RegRef.type (some t)) = some reg ∧ reg.Scope = Singleton ∧
        reg.Instance.typeOf = some t) :
    ∃ reg, (stateBefore env s components j).lookup (RegRef.type (some t)) = some reg ∧
      reg.Scope = Singleton ∧ reg.Instance.typeOf = some t := by
  have h0 : ∃ reg, (registerComponents s components).lookup (RegRef.type (some t)) = some reg ∧
      reg.Scope = Singleton ∧ reg.Instance.typeOf = some t := by
    by_cases hex : ∃ c ∈ components, c.typeOf = some t
    · obtain ⟨pre, c, post, hsplit, hct, hpost⟩ := last_of_type (some t) components hex
      refine ⟨{ Instance := c, Factory := none, Scope := Singleton }, ?_, rfl, hct⟩
      rw [hsplit, ← hct]
      exact registerComponents_lookup_last s pre c post (by rw [hct]; exact hpost)
    · rcases h with h | ⟨reg, hreg, hs, hi⟩
      · exact absurd h hex
      · refine ⟨reg, ?_, hs, hi⟩
        rw [registerComponents_lookup_other (some t) components s
          (fun c hc e => hex ⟨c, hc, e⟩)]
        exact hreg
  obtain ⟨reg, hreg, hs, hi⟩ := h0
  refine ⟨reg, ?_, hs, hi⟩
  have hne : reg.Instance ≠ Value.nil := by
    intro e; rw [e] at hi; cases hi
  exact regStep_pinned (autowireOrDefer_regStep env _ (components.take j) _) hreg (Or.inl hne)

/-- C21 (as stated, refuted). A component whose tagged dependency is already
registered need not be wired immediately, and a component need not hold the slot
of its runtime type: with `*TestService` registered as a Scoped factory,
`RegisterModuleComponents` of a `Consumer` returns with the `Consumer` on the
pending list (its `Autowire` fails for want of a scope key); and of two
components of type `*TestService` only the second is in the registry
afterwards. -/
theorem module_components_not_all_wired :
    (RegisterModuleComponents demoEnv
      (RegisterFactory demoState (some testServicePtr) (ServiceFactory.closure 0) Scoped)
      [demoConsumer]).1 = Result.ok () ∧
    (RegisterModuleComponents demoEnv
      (RegisterFactory demoState (some testServicePtr) (ServiceFactory.closure 0) Scoped)
      [demoConsumer]).2.lookup (RegRef.type (some testServicePtr)) =
      some { Instance := Value.nil, Factory := some (ServiceFactory.closure 0),
             Scope := Scoped } ∧
    (Autowire demoEnv
      (Register
        (RegisterFactory demoState (some testServicePtr) (ServiceFactory.closure 0) Scoped)
        demoConsumer) demoConsumer).1 = Result.error Error.scopeKeyRequired ∧
    (RegisterModuleComponents demoEnv
      (RegisterFactory demoState (some testServicePtr) (ServiceFactory.closure 0) Scoped)
      [demoConsumer]).2.c.pendingAutowire = [demoConsumer] ∧
    (RegisterModuleComponents demoEnv demoState
      [demoService, Value.pointer (GoType.struct "TestService") (some 2)]).2.lookup
      (RegRef.type (some testServicePtr)) =
      some { Instance := Value.pointer (GoType.struct "TestService") (some 2),
             Factory := none, Scope := Singleton } := by
  decide

/-- C21 (amended). RegisterModuleComponents: after the call the slot of the
runtime type of a component holds, as a Singleton instance, the last component
of that type in argument order (each component when their types differ); when
the call returns, the pending list is the old list followed by exactly the
components whose immediate `Autowire` did not succeed, in argument order; and
because all components are registered before any is autowired, a component that
points to a struct in memory, each of whose tagged settable fields is a pointer
field tagged "type" with the runtime type of a component of the list (or of a
Singleton instance registered before), is autowired successfully at its turn and
not deferred, whatever its position in the list. -/
theorem register_module_components (env : Env) (s : State) (components : List Value) :
    (∀ pre c post, components = pre ++ c :: post → c ≠ Value.nil →
      (∀ x ∈ post, x.typeOf ≠ c.typeOf) →
      (RegisterModuleComponents env s components).2.lookup (RegRef.type c.typeOf) =
        some { Instance := c, Factory := none, Scope := Singleton }) ∧
    ((RegisterModuleComponents env s components).1 = Result.ok () →
      (RegisterModuleComponents env s components).2.c.pendingAutowire =
        s.c.pendingAutowire ++ deferredComponents env s components) ∧
    (∀ (j : Nat) (name : String) (addr : Nat) (vals : List Value),
      components[j]? = some (Value.pointer (GoType.struct name) (some addr)) →
      (stateBefore env s components j).heap.read addr = some (Value.structV name vals) →
      (env.fields name).length ≤ vals.length →
      (∀ f ∈ env.fields name, f.inject ≠ "" → f.canSet = true →
        f.inject = "type" ∧ f.Typ.kind = Kind.ptr ∧
        ((∃ c ∈ components, c.typeOf = some f.Typ) ∨
          ∃ reg, s.lookup (RegRef.type (some f.Typ)) = some reg ∧ reg.Scope = Singleton ∧
            reg.Instance.typeOf = some f.Typ)) →
      (Autowire env (stateBefore env s components j)
        (Value.pointer (GoType.struct name) (some addr))).1 = Result.ok () ∧
      deferredAt env s components j = none) := by
  refine ⟨?_, RegisterModuleComponents_pending env s components, ?_⟩
  · intro pre c post hsplit hc hpost
    have h0 : (registerComponents s components).lookup (RegRef.type c.typeOf) =
        some { Instance := c, Factory := none, Scope := Singleton } := by
      rw [hsplit]; exact registerComponents_lookup_last s pre c post hpost
    exact regStep_pinned (autowireOrDefer_regStep env _ components _) h0 (Or.inl hc)
  · intro j name addr vals hj hread hlen hdeps
    have hok : (Autowire env (stateBefore env s components j)
        (Value.pointer (GoType.struct name) (some addr))).1 = Result.ok () := by
      refine Autowire_singletons env _ name addr vals hread hlen ?_
      intro f hf h1 h2
      obtain ⟨htag, hkind, hdep⟩ := hdeps f hf h1 h2
      exact ⟨htag, hkind, stateBefore_lookup env s components j f.Typ hdep⟩
    refine ⟨hok, ?_⟩
    rw [deferredAt_eq env s components j _ hj, if_pos hok]

theorem register_module_components_witness :
    (Autowire demoEnv (stateBefore demoEnv demoState [demoConsumer, demoService] 0)
      (Value.pointer (GoType.struct "Consumer") (some 4))).1 = Result.ok () ∧
    (RegisterModuleComponents demoEnv demoState [demoConsumer, demoService]).2.lookup
      (RegRef.type (some testServicePtr)) =
      some { Instance := demoService, Factory := none, Scope := Singleton } ∧
    (RegisterModuleComponents demoEnv demoState
      [demoConsumer, demoService]).2.c.pendingAutowire =
      demoState.c.pendingAutowire ++
        deferredComponents demoEnv demoState [demoConsumer, demoService] :=
  have h := register_module_components demoEnv demoState [demoConsumer, demoService]
  ⟨(h.2.2 0 "Consumer" 4 [Value.pointer (GoType.struct "TestService") none] rfl (by decide)
      (by decide)
      (by
        intro f hf h1 h2
        have hf2 : f = StructField.mk "Svc" testServicePtr "type" true := by
          simpa [demoEnv] using hf
        subst hf2
        exact ⟨rfl, rfl, Or.inl ⟨demoService, by simp, rfl⟩⟩)).1,
    h.1 [demoConsumer] demoService [] rfl (by decide) (by simp),
    h.2.1 (by decide)⟩

theorem invokeArgs_cons_error (env : Env) (t : GoType) (rest : List GoType) (i : Nat)
    (s s1 : State) (e : Error)
    (h : Resolve env { s with heap := (reflectNew env t s.heap).2 } (reflectNew env t s.heap).1 =
      (Result.error e, s1)) :
    invokeArgs env (t :: rest) i s = (Result.error (Error.failedToResolveArgument i t e), s1) := by
  rw [invokeArgs]
  simp only [h]

theorem invokeArgs_cons_ok (env : Env) (t : GoType) (rest : List GoType) (i : Nat)
    (s s1 s2 : State) (r : Result (List Nat))
    (h : Resolve env { s with heap := (reflectNew env t s.heap).2 } (reflectNew env t s.heap).1 =
      (Result.ok (), s1))
    (h2 : invokeArgs env rest (i + 1) s1 = (r, s2)) :
    invokeArgs env (t :: rest) i s =
      (match r with
        | Result.ok addrs => Result.ok ((newVar env t s.heap).1 :: addrs)
        | Result.error e => Result.error e
        | Result.panicked => Result.panicked, s2) := by
  rw [invokeArgs]
  simp only [h, h2]
  cases r <;> rfl

theorem invokeArgs_append_error (env : Env) (pre rest : List GoType) (e : Error) (s1 : State) :
    ∀ (i : Nat) (s s0 : State) (addrs : List Nat),
      invokeArgs env pre i s = (Result.ok addrs, s0) →
      invokeArgs env rest (i + pre.length) s0 = (Result.error e, s1) →
      invokeArgs env (pre ++ rest) i s = (Result.error e, s1) := by
  induction pre with
  | nil =>
    intro i s s0 addrs h1 h2
    simp only [invokeArgs, Prod.mk.injEq] at h1
    rw [← h1.2] at h2
    simpa using h2
  | cons t pre ih =>
    intro i s s0 addrs h1 h2
    simp only [List.cons_append]
    cases hr : Resolve env { s with heap := (reflectNew env t s.heap).2 }
        (reflectNew env t s.heap).1 with
    | mk r sr =>
      cases r with
      | error e2 =>
        rw [invokeArgs_cons_error env t pre i s sr e2 hr] at h1
        cases h1
      | panicked =>
        rw [invokeArgs] at h1
        simp only [hr] at h1
        cases h1
      | ok u =>
        cases hi : invokeArgs env pre (i + 1) sr with
        | mk r2 s2 =>
          rw [invokeArgs_cons_ok env t pre i s sr s2 r2 hr hi] at h1
          cases r2 with
          | error e2 => cases h1
          | panicked => cases h1
          | ok addrs2 =>
            simp only [Prod.mk.injEq] at h1
            have hs : s2 = s0 := h1.2
            subst hs
            have hlen : i + (t :: pre).length = i + 1 + pre.length := by
              simp only [List.length_cons]; omega
            rw [hlen] at h2
            have h3 := ih (i + 1) sr s2 addrs2 hi h2
            rw [invokeArgs_cons_ok env t (pre ++ rest) i s sr s1 (Result.error e) hr h3]

theorem Invoke_not_func (env : Env) (s : State) (fn : Value) (hk : fn.kind ≠ Kind.func) :
    Invoke env s fn = (([], Result.error Error.argumentMustBeFunction), s) := by
  unfold Invoke
  rw [if_pos hk]

theorem Invoke_args_error (env : Env) (s s1 : State) (sig : String) (code : Option Nat)
    (e : Error) (h : invokeArgs env (env.funcIn sig) 0 s = (Result.error e, s1)) :
    Invoke env s (Value.func sig code) = (([], Result.error e), s1) := by
  unfold Invoke
  rw [if_neg (by simp [Value.kind, Value.typeOf, GoType.kind])]
  simp only [h]

theorem Invoke_call (env : Env) (s s1 : State) (sig : String) (body : Nat)
    (addrs : List Nat) (args : List Value)
    (h : invokeArgs env (env.funcIn sig) 0 s = (Result.ok addrs, s1))
    (hargs : readArgs s1.heap addrs = some args) :
    Invoke env s (Value.func sig (some body)) =
      (((env.funcs body args s1.heap).1, resultError env sig (env.funcs body args s1.heap).1),
        { s1 with heap := (env.funcs body args s1.heap).2 }) := by
  unfold Invoke
  rw [if_neg (by simp [Value.kind, Value.typeOf, GoType.kind])]
  simp only [h, hargs]

/-- C24. Invoke aborts before the call: for an input that is not a function
`Invoke` returns no results and "argument must be a function" with the state
unchanged; when the parameters before parameter number `pre.length` resolve and
the resolution of that parameter returns an error, `Invoke` returns no results
and that error wrapped with the index and the type of the parameter, in the
state that failed resolution left (the function is not called); and when every
parameter resolves, `Invoke` calls the function on the resolved arguments and
returns its results. -/
theorem invoke_aborts_before_call (env : Env) (s : State) :
    (∀ fn : Value, fn.kind ≠ Kind.func →
      Invoke env s fn = (([], Result.error Error.argumentMustBeFunction), s)) ∧
    (∀ (sig : String) (code : Option Nat) (pre : List GoType) (t : GoType)
      (post : List GoType) (addrs : List Nat) (s0 s1 : State) (e : Error),
      env.funcIn sig = pre ++ t :: post →
      invokeArgs env pre 0 s = (Result.ok addrs, s0) →
      Resolve env { s0 with heap := (reflectNew env t s0.heap).2 }
        (reflectNew env t s0.heap).1 = (Result.error e, s1) →
      Invoke env s (Value.func sig code) =
        (([], Result.error (Error.failedToResolveArgument pre.length t e)), s1)) ∧
    (∀ (sig : String) (body : Nat) (addrs : List Nat) (s1 : State) (args : List Value),
      invokeArgs env (env.funcIn sig) 0 s = (Result.ok addrs, s1) →
      readArgs s1.heap addrs = some args →
      Invoke env s (Value.func sig (some body)) =
        (((env.funcs body args s1.heap).1,
          resultError env sig (env.funcs body args s1.heap).1),
          { s1 with heap := (env.funcs body args s1.heap).2 })) := by
  refine ⟨fun fn hk => Invoke_not_func env s fn hk, ?_, ?_⟩
  · intro sig code pre t post addrs s0 s1 e hin hpre hfail
    have h1 := invokeArgs_cons_error env t post (0 + pre.length) s0 s1 e hfail
    have h2 := invokeArgs_append_error env pre (t :: post) _ s1 0 s s0 addrs hpre h1
    rw [← hin, Nat.zero_add] at h2
    exact Invoke_args_error env s s1 sig code _ h2
  · intro sig body addrs s1 args h hargs
    exact Invoke_call env s s1 sig body addrs args h hargs

theorem invoke_aborts_before_call_witness :
    Invoke invokeEnv demoState (Value.func "func(*TestService) string" (some 0)) =
      (([], Result.error (Error.failedToResolveArgument 0 testServicePtr
        (Error.noRegisteredServiceForType testServicePtr))),
        { demoState with heap := (reflectNew invokeEnv testServicePtr demoState.heap).2 }) ∧
    Invoke invokeEnv demoState (Value.basic "string" 1) =
      (([], Result.error Error.argumentMustBeFunction), demoState) :=
  ⟨(invoke_aborts_before_call invokeEnv demoState).2.1 "func(*TestService) string" (some 0) []
      testServicePtr [] [] demoState _ _ rfl rfl (by decide),
    (invoke_aborts_before_call invokeEnv demoState).1 (Value.basic "string" 1) (by decide)⟩

theorem assignInstance_typed (env : Env) (s : State) (inst : Value) (t : GoType) (addr : Nat)
    (targetType : GoType) (hk : t.kind = Kind.ptr) (hi : inst.typeOf = some t) :
    assignInstance env s inst t addr targetType = (Result.ok (), s.setVar addr inst) := by
  unfold assignInstance
  rw [if_pos hk, hi]
  simp only [assignableTo_self, Bool.not_true, Bool.false_eq_true, if_false]

/-- The argument loop of `Invoke` over parameter types that each hold a
Singleton instance of that type: every parameter resolves, no factory is called,
the registry is unchanged, and the argument variables hold the instances. -/
theorem invokeArgs_singletons (env : Env) (types : List GoType) :
    ∀ (insts : List Value) (i : Nat) (s : State),
      List.Forall₂ (fun t inst => t.kind = Kind.ptr ∧ inst.typeOf = some t ∧
        ∃ reg, mapGet s.c.typeServices (some t) = some reg ∧ reg.Scope = Singleton ∧
          reg.Instance = inst) types insts →
      ∃ addrs s1, invokeArgs env types i s = (Result.ok addrs, s1) ∧ s1.c = s.c ∧
        s1.calls = s.calls ∧ readArgs s1.heap addrs = some insts ∧
        (∀ a, a < s.heap.next → s1.heap.read a = s.heap.read a) ∧
        s.heap.next ≤ s1.heap.next := by
  induction types with
  | nil =>
    intro insts i s h
    cases h
    exact ⟨[], s, rfl, rfl, rfl, rfl, fun _ _ => rfl, Nat.le_refl _⟩
  | cons t rest ih =>
    intro insts i s h
    cases h with
    | cons hhead htail =>
      rename_i inst insts2
      obtain ⟨hk, hi, reg, hreg, hs, hinst⟩ := hhead
      have hne : reg.Instance ≠ Value.nil := by
        intro e; rw [hinst] at e; rw [e] at hi; cases hi
      have hz := zeroSized_of_ptr env t hk
      have hrn := reflectNew_sized env t s.heap hz
      have hnv : (newVar env t s.heap).1 = s.heap.next := by
        rw [newVar_sized env t s.heap hz]; rfl
      have hres : Resolve env { s with heap := (reflectNew env t s.heap).2 }
          (reflectNew env t s.heap).1 =
          (Result.ok (),
            State.setVar { s with heap := (s.heap.alloc (zeroValue env t)).2 } s.heap.next
              inst) := by
        rw [hrn]
        have hc := ResolveWithScope_cached env
          { s with heap := (s.heap.alloc (zeroValue env t)).2 }
          t t s.heap.next "" reg (Or.inl ⟨hk, rfl⟩) hreg hs hne
        unfold Resolve
        rw [hc, hinst]
        exact assignInstance_typed env _ inst t _ t hk hi
      have htail2 : List.Forall₂ (fun t inst => t.kind = Kind.ptr ∧ inst.typeOf = some t ∧
          ∃ reg, mapGet
            (State.setVar { s with heap := (s.heap.alloc (zeroValue env t)).2 } s.heap.next
              inst).c.typeServices (some t) = some reg ∧ reg.Scope = Singleton ∧
            reg.Instance = inst) rest insts2 := htail
      obtain ⟨addrs, s1, hrun, hc1, hcalls1, hread1, hkeep1, hnext1⟩ :=
        ih insts2 (i + 1)
          (State.setVar { s with heap := (s.heap.alloc (zeroValue env t)).2 } s.heap.next inst)
          htail2
      have hnext2 : (State.setVar { s with heap := (s.heap.alloc (zeroValue env t)).2 }
          s.heap.next inst).heap.next = s.heap.next + 1 := rfl
      have hcell : s1.heap.read s.heap.next = some inst := by
        rw [hkeep1 s.heap.next (by rw [hnext2]; omega)]
        exact heap_read_write_self _ _ _
      refine ⟨s.heap.next :: addrs, s1, ?_, hc1, hcalls1, ?_, ?_, ?_⟩
      · rw [invokeArgs_cons_ok env t rest i s _ s1 (Result.ok addrs) hres hrun, hnv]
      · simp only [readArgs, hcell, hread1]
      · intro a ha
        rw [hkeep1 a (by rw [hnext2]; omega)]
        have h1 : (State.setVar { s with heap := (s.heap.alloc (zeroValue env t)).2 }
            s.heap.next inst).heap.read a = (s.heap.alloc (zeroValue env t)).2.read a :=
          heap_read_write_other _ _ _ _ (Nat.ne_of_lt ha)
        rw [h1]
        simp only [Heap.alloc, Heap.read]
        exact mapGet_mapSet_other _ _ _ _ (Nat.ne_of_lt ha)
      · rw [hnext2] at hnext1
        omega

theorem resultError_ok (env : Env) (sig : String) (results : List Value) :
    (results = [] → resultError env sig results = Result.ok ()) ∧
    (env.funcOut sig = [] → resultError env sig results = Result.ok ()) ∧
    (∀ t, (env.funcOut sig).getLast? = some t → env.implementsError t = false →
      resultError env sig results = Result.ok ()) ∧
    (∀ t last, (env.funcOut sig).getLast? = some t → results.getLast? = some last →
      isNilResult t last = some true → resultError env sig results = Result.ok ()) := by
  refine ⟨?_, ?_, ?_, ?_⟩
  · intro h
    subst h
    simp [resultError]
  · intro h
    unfold resultError
    rw [h]
    cases results.getLast? <;> rfl
  · intro t ht hi
    unfold resultError
    rw [ht]
    cases results.getLast? with
    | none => rfl
    | some last => simp [hi]
  · intro t last ht hl hn
    unfold resultError
    rw [ht, hl]
    simp only [hn]
    split_ifs <;> rfl

/-- C22. Invoke argument binding: for a function each of whose parameter types
is a pointer type that holds a Singleton registration with an instance of that
type, `Invoke` resolves every parameter without calling a factory and with the
registry unchanged, calls the function once, on the list whose entry at each
position is the instance registered for the parameter type declared at that
position, and returns the complete list of the results of that call, with the
error computed from the last result: no error when there is no result, when the
last result type does not implement `error`, or when the last result is nil. -/
theorem invoke_argument_binding (env : Env) (s : State) (sig : String) (body : Nat)
    (insts : List Value)
    (hargs : List.Forall₂ (fun t inst => t.kind = Kind.ptr ∧ inst.typeOf = some t ∧
      ∃ reg, s.lookup (RegRef.type (some t)) = some reg ∧ reg.Scope = Singleton ∧
        reg.Instance = inst) (env.funcIn sig) insts) :
    Invoke env s (Value.func sig (some body)) =
      (((env.funcs body insts (invokeArgs env (env.funcIn sig) 0 s).2.heap).1,
        resultError env sig
          (env.funcs body insts (invokeArgs env (env.funcIn sig) 0 s).2.heap).1),
        { (invokeArgs env (env.funcIn sig) 0 s).2 with
          heap := (env.funcs body insts (invokeArgs env (env.funcIn sig) 0 s).2.heap).2 }) ∧
    (invokeArgs env (env.funcIn sig) 0 s).2.c = s.c ∧
    (invokeArgs env (env.funcIn sig) 0 s).2.calls = s.calls ∧
    (∀ a, a < s.heap.next →
      (invokeArgs env (env.funcIn sig) 0 s).2.heap.read a = s.heap.read a) ∧
    (∀ results : List Value,
      (results = [] → resultError env sig results = Result.ok ()) ∧
      (env.funcOut sig = [] → resultError env sig results = Result.ok ()) ∧
      (∀ t, (env.funcOut sig).getLast? = some t → env.implementsError t = false →
        resultError env sig results = Result.ok ()) ∧
      (∀ t last, (env.funcOut sig).getLast? = some t → results.getLast? = some last →
        isNilResult t last = some true → resultError env sig results = Result.ok ())) := by
  obtain ⟨addrs, s1, hrun, hc, hcalls, hread, hkeep, _⟩ :=
    invokeArgs_singletons env (env.funcIn sig) insts 0 s hargs
  rw [hrun]
  exact ⟨Invoke_call env s s1 sig body addrs insts hrun hread, hc, hcalls, hkeep,
    fun results => resultError_ok env sig results⟩

theorem invoke_argument_binding_witness :
    (Invoke invokeEnv (Register demoState demoService)
      (Value.func "func(*TestService) string" (some 0))).1 =
      ([Value.basic "string" 1001], Result.ok ()) ∧
    (invokeArgs invokeEnv (invokeEnv.funcIn "func(*TestService) string") 0
      (Register demoState demoService)).2.calls = (Register demoState demoService).calls := by
  have h := invoke_argument_binding invokeEnv (Register demoState demoService)
    "func(*TestService) string" 0 [demoService]
    (List.Forall₂.cons ⟨rfl, rfl, _, Register_lookup demoState demoService, rfl, rfl⟩
      List.Forall₂.nil)
  refine ⟨?_, h.2.2.1⟩
  rw [h.1]
  decide

/-! ## What an assignment delivers to the target -/

theorem assignByToken_typed (env : Env) (s : State) (inst : Value) (t : GoType) (addr : Nat)
    (hk : t.kind = Kind.ptr) (hi : inst.typeOf = some t) :
    assignByToken env s inst (Ref.var t addr) = (Result.ok (), s.setVar addr inst) := by
  unfold assignByToken
  simp only [if_pos hk, hi, assignableTo_self, Bool.not_true, Bool.false_eq_true, if_false]

theorem delivers_setVar (s : State) (addr : Nat) (x : Value) :
    Delivers (Result.ok (), s.setVar addr x) addr x := ⟨rfl, setVar_read s addr x⟩

/-- An assignment by type of an instance of the pointer type of the target
variable stores the instance in the variable. -/
theorem assignInstance_delivers (env : Env) (s : State) (inst : Value) (t : GoType)
    (addr : Nat) (targetType : GoType) (hk : t.kind = Kind.ptr) (hi : inst.typeOf = some t) :
    Delivers (assignInstance env s inst t addr targetType) addr inst := by
  rw [assignInstance_typed env s inst t addr targetType hk hi]
  exact delivers_setVar s addr inst

/-- An assignment by token of an instance of the pointer type of the target
variable stores the instance in the variable. -/
theorem assignByToken_delivers (env : Env) (s : State) (inst : Value) (t : GoType)
    (addr : Nat) (hk : t.kind = Kind.ptr) (hi : inst.typeOf = some t) :
    Delivers (assignByToken env s inst (Ref.var t addr)) addr inst := by
  rw [assignByToken_typed env s inst t addr hk hi]
  exact delivers_setVar s addr inst

/-! ## The scope store keeps its entries -/

theorem getInstance_store (env : Env) (s : State) (ref : RegRef)
    (reg : ServiceRegistration) (st : Option GoType) (tok sk : String) :
    ((getInstance env s ref reg st tok sk).2.c.scopedInstances = s.c.scopedInstances ∧
      (getInstance env s ref reg st tok sk).2.c.scopedTokens = s.c.scopedTokens) ∨
    (∃ f inst h, s.scopedLookup st tok sk = none ∧
      (getInstance env s ref reg st tok sk).2 = (s.afterCall f h).scopedStore st tok sk inst) := by
  unfold getInstance
  by_cases h1 : reg.Scope = Singleton
  · simp only [h1, if_true]
    by_cases h2 : reg.Instance = Value.nil
    · simp only [h2, ne_eq, not_true_eq_false, if_false]
      cases hf : reg.Factory with
      | none => exact Or.inl ⟨rfl, rfl⟩
      | some f =>
        cases hc : f.call env s.heap with
        | none => simp only [hc]; exact Or.inl ⟨rfl, rfl⟩
        | some p =>
          obtain ⟨inst, h⟩ := p
          simp only [hc]
          cases ref <;> exact Or.inl ⟨rfl, rfl⟩
    · simp only [ne_eq, h2, not_false_eq_true, if_true]
      exact Or.inl ⟨trivial, trivial⟩
  · simp only [h1, if_false]
    by_cases h3 : reg.Scope = Transient
    · simp only [h3, if_true]
      cases hf : reg.Factory with
      | none => exact Or.inl ⟨rfl, rfl⟩
      | some f =>
        cases hc : f.call env s.heap with
        | none => simp only [hc]; exact Or.inl ⟨rfl, rfl⟩
        | some p => simp only [hc]; exact Or.inl ⟨rfl, rfl⟩
    · simp only [h3, if_false]
      by_cases h4 : reg.Scope = Scoped
      · simp only [h4, if_true]
        by_cases h5 : sk = ""
        · simp only [h5, if_true]
          exact Or.inl ⟨trivial, trivial⟩
        · simp only [h5, if_false]
          cases hl : s.scopedLookup st tok sk with
          | some inst => exact Or.inl ⟨rfl, rfl⟩
          | none =>
            cases hf : reg.Factory with
            | none =>
              by_cases h6 : reg.Instance = Value.nil
              · simp [h6]
              · simp [h6]
            | some f =>
              cases hc : f.call env s.heap with
              | none => simp only [hc]; exact Or.inl ⟨rfl, rfl⟩
              | some p =>
                obtain ⟨inst, h⟩ := p
                simp only [hc]
                exact Or.inr ⟨f, inst, h, trivial, rfl⟩
      · simp only [h4, if_false]
        exact Or.inl ⟨trivial, trivial⟩

theorem scopedLookup_congr (s s1 : State) (hi : s1.c.scopedInstances = s.c.scopedInstances)
    (ht : s1.c.scopedTokens = s.c.scopedTokens) (st : Option GoType) (tok sk : String) :
    s1.scopedLookup st tok sk = s.scopedLookup st tok sk := by
  unfold State.scopedLookup
  rw [hi, ht]

/-- A store into the scope store after a miss leaves every entry it holds. -/
theorem scopedStore_keeps (s : State) (st st0 : Option GoType) (tok tok0 sk k : String)
    (inst w : Value) (hmiss : s.scopedLookup st tok sk = none)
    (hw : s.scopedLookup st0 tok0 k = some w) :
    (s.scopedStore st tok sk inst).scopedLookup st0 tok0 k = some w := by
  unfold State.scopedLookup at hmiss hw ⊢
  unfold State.scopedStore
  by_cases ht : tok ≠ ""
  · rw [if_pos ht] at hmiss ⊢
    by_cases ht0 : tok0 ≠ ""
    · rw [if_pos ht0] at hw ⊢
      simp only
      rw [scopedGet_scopedSet_other]
      · exact hw
      · by_contra hcon
        have h1 : k = sk := by
          by_contra h; exact hcon (Or.inl h)
        have h2 : tok0 = tok := by
          by_contra h; exact hcon (Or.inr h)
        rw [h1, h2, hmiss] at hw
        cases hw
    · rw [if_neg ht0] at hw ⊢
      exact hw
  · rw [if_neg ht] at hmiss ⊢
    by_cases ht0 : tok0 ≠ ""
    · rw [if_pos ht0] at hw ⊢
      exact hw
    · rw [if_neg ht0] at hw ⊢
      simp only
      rw [scopedGet_scopedSet_other]
      · exact hw
      · by_contra hcon
        have h1 : k = sk := by
          by_contra h; exact hcon (Or.inl h)
        have h2 : st0 = st := by
          by_contra h; exact hcon (Or.inr h)
        rw [h1, h2, hmiss] at hw
        cases hw

theorem getInstance_keeps_cache (env : Env) (s : State) (ref : RegRef)
    (reg : ServiceRegistration) (st st0 : Option GoType) (tok tok0 sk k : String) (w : Value)
    (hw : s.scopedLookup st0 tok0 k = some w) :
    (getInstance env s ref reg st tok sk).2.scopedLookup st0 tok0 k = some w := by
  rcases getInstance_store env s ref reg st tok sk with ⟨hi, ht⟩ | ⟨f, inst, h, hmiss, e⟩
  · rw [scopedLookup_congr _ _ hi ht]; exact hw
  · rw [e]
    exact scopedStore_keeps (s.afterCall f h) st st0 tok tok0 sk k inst w hmiss hw

/-- A cached entry of the scope store is kept by every primitive effect of the
resolution operations. -/
theorem cacheFrame (env : Env) (st0 : Option GoType) (tok0 k : String) (w : Value) :
    Frame env (fun s s1 => s.scopedLookup st0 tok0 k = some w →
      s1.scopedLookup st0 tok0 k = some w) where
  refl := fun s h => h
  trans := fun h1 h2 h => h2 (h1 h)
  resolve := fun s ref reg st tok sk _ hw =>
    getInstance_keeps_cache env s ref reg st st0 tok tok0 sk k w hw
  heapOnly := fun s s1 h hw => by
    rw [scopedLookup_congr s s1 (by rw [h.1]) (by rw [h.1])]; exact hw
  alloc := fun s v hw => hw
  call := fun s body args hw => hw
  drain := fun s hw => hw

theorem ClearScope_keeps_other (s : State) (st0 : Option GoType) (tok0 k k2 : String)
    (hne : k2 ≠ k) :
    (ClearScope s k2).scopedLookup st0 tok0 k = s.scopedLookup st0 tok0 k := by
  unfold State.scopedLookup ClearScope scopedGet
  simp only [mapGet_mapDelete_other _ _ _ (Ne.symm hne)]

/-- Every operation other than `ClearScope(k)` keeps the entries cached under
the scope key `k`. -/
theorem step_keeps_cache (env : Env) (s : State) (op : Op) (st0 : Option GoType)
    (tok0 k : String) (w : Value) (hop : op ≠ Op.clearScope k)
    (hw : s.scopedLookup st0 tok0 k = some w) :
    (step env s op).scopedLookup st0 tok0 k = some w := by
  cases op with
  | registerScoped service scope => exact hw
  | registerFactory serviceType factory scope => exact hw
  | registerTransient prototype => exact hw
  | bindScoped token service scope => exact hw
  | bindFactory token factory scope => exact hw
  | bindTransient token prototype => exact hw
  | resolveWithScope target sk =>
    exact ResolveWithScope_frame (cacheFrame env st0 tok0 k w) s target sk hw
  | resolveByWithScope token target sk =>
    exact ResolveByWithScope_frame (cacheFrame env st0 tok0 k w) s token target sk hw
  | autowireWithScope target sk =>
    exact AutowireWithScope_frame (cacheFrame env st0 tok0 k w) s target sk hw
  | clearScope sk =>
    have hne : sk ≠ k := fun e => hop (by rw [e])
    simp only [step]
    rw [ClearScope_keeps_other s st0 tok0 k sk hne]
    exact hw
  | addForAutowiring component => exact hw
  | autowireAll => exact AutowireAll_frame (cacheFrame env st0 tok0 k w) s hw
  | invoke fn => exact Invoke_frame (cacheFrame env st0 tok0 k w) s fn hw

theorem run_keeps_cache (env : Env) (st0 : Option GoType) (tok0 k : String) (w : Value)
    (ops : List Op) : ∀ s : State, (∀ op ∈ ops, op ≠ Op.clearScope k) →
      s.scopedLookup st0 tok0 k = some w →
      (run env s ops).scopedLookup st0 tok0 k = some w := by
  induction ops with
  | nil => intro s _ hw; exact hw
  | cons op rest ih =>
    intro s hops hw
    exact ih (step env s op) (fun o ho => hops o (List.mem_cons_of_mem _ ho))
      (step_keeps_cache env s op st0 tok0 k w (hops op (List.mem_cons_self _ _)) hw)

/-! ## Singleton and Scoped lifetimes: caching, isolation and teardown -/

/-- C2 (amended). Lazy singleton creation: for a Singleton registration made with
a factory (`RegisterFactory` by type, `BindFactory` by token) whose first
invocation returns a non-nil instance `v`, the first resolution invokes the
factory and stores `v` in the registration; over any further resolutions of that
registration the factory is not invoked again (the trace holds exactly one
invocation), and every resolution returns `v`: it is the assignment of `v` to
its target, and for a target variable of the pointer type of `v` it returns the
nil error and leaves `v` in the variable. -/
theorem lazy_singleton_creation (env : Env) (s : State) (f : ServiceFactory) (v : Value)
    (h : Heap) (hcall : f.call env s.heap = some (v, h)) (hv : v ≠ Value.nil) :
    (∀ (key typ0 typ : GoType) (a0 a : Nat) (sk0 sk : String) (rest : List Op),
      ResolvesKey key typ0 → ResolvesKey key typ →
      (∀ op ∈ rest, op.resolvesType key = true) →
      let s0 := RegisterFactory s (some key) f Singleton
      let first := ResolveWithScope env s0 (Value.pointer typ0 (some a0)) sk0
      let s1 := run env first.2 rest
      let later := ResolveWithScope env s1 (Value.pointer typ (some a)) sk
      first.2.calls = s.calls ++ [f] ∧
      s1.calls = s.calls ++ [f] ∧
      later.2.calls = s.calls ++ [f] ∧
      s1.lookup (RegRef.type (some key)) =
        some { Instance := v, Factory := some f, Scope := Singleton } ∧
      first = assignInstance env
          ((s0.afterCall f h).setInstance (RegRef.type (some key))
            { Instance := Value.nil, Factory := some f, Scope := Singleton } v) v typ0 a0 key ∧
      later = assignInstance env s1 v typ a key ∧
      (typ0.kind = Kind.ptr → v.typeOf = some typ0 → Delivers first a0 v) ∧
      (typ.kind = Kind.ptr → v.typeOf = some typ → Delivers later a v)) ∧
    (∀ (token : String) (target0 target : Value) (sk0 sk : String) (rest : List Op),
      target0.kind = Kind.ptr → target.kind = Kind.ptr →
      (∀ op ∈ rest, op.resolvesToken token = true) →
      let s0 := BindFactory s token f Singleton
      let first := ResolveByWithScope env s0 token target0 sk0
      let s1 := run env first.2 rest
      let later := ResolveByWithScope env s1 token target sk
      first.2.calls = s.calls ++ [f] ∧
      s1.calls = s.calls ++ [f] ∧
      later.2.calls = s.calls ++ [f] ∧
      s1.lookup (RegRef.token token) =
        some { Instance := v, Factory := some f, Scope := Singleton } ∧
      first = assignByToken env
          ((s0.afterCall f h).setInstance (RegRef.token token)
            { Instance := Value.nil, Factory := some f, Scope := Singleton } v) v
          target0.elem ∧
      later = assignByToken env s1 v target.elem ∧
      (∀ typ0 a0, target0 = Value.pointer typ0 (some a0) → typ0.kind = Kind.ptr →
        v.typeOf = some typ0 → Delivers first a0 v) ∧
      (∀ typ a, target = Value.pointer typ (some a) → typ.kind = Kind.ptr →
        v.typeOf = some typ → Delivers later a v)) := by
  constructor
  · intro key typ0 typ a0 a sk0 sk rest hk0 hk hrest
    obtain ⟨e1, hc1, hc2, hl, e2, hc3⟩ :=
      lazy_singleton_type env s f v h key typ0 typ a0 a sk0 sk rest hcall hv hk0 hk hrest
    refine ⟨hc1, hc2, hc3, hl, e1, e2, ?_, ?_⟩
    · intro hp ht
      rw [e1]
      exact assignInstance_delivers env _ v typ0 a0 key hp ht
    · intro hp ht
      rw [e2]
      exact assignInstance_delivers env _ v typ a key hp ht
  · intro token target0 target sk0 sk rest hk0 hk hrest
    obtain ⟨e1, hc1, hc2, hl, e2, hc3⟩ :=
      lazy_singleton_token env s f v h token target0 target sk0 sk rest hcall hv hk0 hk hrest
    refine ⟨hc1, hc2, hc3, hl, e1, e2, ?_, ?_⟩
    · intro typ0 a0 htarget hp ht
      rw [e1, htarget]
      exact assignByToken_delivers env _ v typ0 a0 hp ht
    · intro typ a htarget hp ht
      rw [e2, htarget]
      exact assignByToken_delivers env _ v typ a hp ht

theorem lazy_singleton_creation_witness :
    Delivers
      (ResolveWithScope demoEnv
        (run demoEnv
          (ResolveWithScope demoEnv
            (RegisterFactory demoState (some testServicePtr) (ServiceFactory.closure 0)
              Singleton)
            demoTarget "").2
          [Op.resolveWithScope demoStructTarget "", Op.resolveWithScope demoTarget2 "x"])
        demoTarget2 "") 5 (Value.pointer (GoType.struct "TestService") (some 6)) ∧
    Delivers
      (ResolveWithScope demoEnv
        (RegisterFactory demoState (some testServicePtr) (ServiceFactory.closure 0) Singleton)
        demoTarget "") 1 (Value.pointer (GoType.struct "TestService") (some 6)) ∧
    (ResolveWithScope demoEnv
      (run demoEnv
        (ResolveWithScope demoEnv
          (RegisterFactory demoState (some testServicePtr) (ServiceFactory.closure 0) Singleton)
          demoTarget "").2
        [Op.resolveWithScope demoStructTarget "", Op.resolveWithScope demoTarget2 "x"])
      demoTarget2 "").2.calls = [ServiceFactory.closure 0] ∧
    Delivers
      (ResolveByWithScope demoEnv
        (ResolveByWithScope demoEnv
          (BindFactory demoState "svc" (ServiceFactory.closure 0) Singleton) "svc" demoTarget
          "").2
        "svc" demoTarget2 "") 5 (Value.pointer (GoType.struct "TestService") (some 6)) :=
  have h2 := (lazy_singleton_creation demoEnv demoState (ServiceFactory.closure 0)
      (Value.pointer (GoType.struct "TestService") (some 6))
      (demoHeap.alloc (Value.structV "TestService" [Value.basic "string" 7])).2
      (by decide) (by decide)).2
    "svc" demoTarget demoTarget2 "" "" [] (by decide) (by decide) (by simp)
  have h := (lazy_singleton_creation demoEnv demoState (ServiceFactory.closure 0)
      (Value.pointer (GoType.struct "TestService") (some 6))
      (demoHeap.alloc (Value.structV "TestService" [Value.basic "string" 7])).2
      (by decide) (by decide)).1
    testServicePtr testServicePtr testServicePtr 1 5 "" ""
    [Op.resolveWithScope demoStructTarget "", Op.resolveWithScope demoTarget2 "x"]
    (by decide) (by decide) (by decide)
  ⟨h.2.2.2.2.2.2.2 rfl rfl, h.2.2.2.2.2.2.1 rfl rfl, h.2.2.1,
    h2.2.2.2.2.2.2.2 testServicePtr 5 rfl rfl rfl⟩

/-- C3 (amended). Scoped caching: for a Scoped registration with a factory, by
type or by a non-empty token, and a non-empty scope key `k` that holds no cached
instance for the service, the first resolution under `k` invokes the factory
once and caches its result `v`; whatever operations follow, other than
`ClearScope(k)` and a new registration of the key, a resolution of the service
under `k` invokes no factory and returns `v`: it is the assignment of `v` to its
target, and for a target variable of the pointer type of `v` it returns the nil
error and leaves `v` in the variable.  When the operations in between are
resolutions of the service under `k` only, the trace holds exactly the one
invocation. -/
theorem scoped_caching (env : Env) (s : State) (f : ServiceFactory) (v : Value) (h : Heap)
    (k : String) (hcall : f.call env s.heap = some (v, h)) (hk : k ≠ "") :
    (∀ (key typ0 typ : GoType) (a0 a : Nat) (ops : List Op),
      ResolvesKey key typ0 → ResolvesKey key typ →
      scopedGet s.c.scopedInstances k (some key) = none →
      (∀ op ∈ ops, op ≠ Op.clearScope k ∧
        op.registers (RegRef.type (some key)) = false) →
      let s0 := RegisterFactory s (some key) f Scoped
      let first := ResolveWithScope env s0 (Value.pointer typ0 (some a0)) k
      let s1 := run env first.2 ops
      let later := ResolveWithScope env s1 (Value.pointer typ (some a)) k
      first.2.calls = s.calls ++ [f] ∧
      later.2.calls = s1.calls ∧
      ((∀ op ∈ ops, op.resolvesType key = true ∧ op.scopeKey = k) →
        later.2.calls = s.calls ++ [f]) ∧
      first = assignInstance env
        ((s0.afterCall f h).scopedStore (some key) "" k v) v typ0 a0 key ∧
      later = assignInstance env s1 v typ a key ∧
      (typ0.kind = Kind.ptr → v.typeOf = some typ0 → Delivers first a0 v) ∧
      (typ.kind = Kind.ptr → v.typeOf = some typ → Delivers later a v)) ∧
    (∀ (token : String) (target0 target : Value) (ops : List Op),
      token ≠ "" → target0.kind = Kind.ptr → target.kind = Kind.ptr →
      scopedGet s.c.scopedTokens k token = none →
      (∀ op ∈ ops, op ≠ Op.clearScope k ∧ op.registers (RegRef.token token) = false) →
      let s0 := BindFactory s token f Scoped
      let first := ResolveByWithScope env s0 token target0 k
      let s1 := run env first.2 ops
      let later := ResolveByWithScope env s1 token target k
      first.2.calls = s.calls ++ [f] ∧
      later.2.calls = s1.calls ∧
      ((∀ op ∈ ops, op.resolvesToken token = true ∧ op.scopeKey = k) →
        later.2.calls = s.calls ++ [f]) ∧
      first = assignByToken env
        ((s0.afterCall f h).scopedStore target0.typeOf token k v) v target0.elem ∧
      later = assignByToken env s1 v target.elem ∧
      (∀ typ0 a0, target0 = Value.pointer typ0 (some a0) → typ0.kind = Kind.ptr →
        v.typeOf = some typ0 → Delivers first a0 v) ∧
      (∀ typ a, target = Value.pointer typ (some a) → typ.kind = Kind.ptr →
        v.typeOf = some typ → Delivers later a v)) := by
  constructor
  · intro key typ0 typ a0 a ops hk0 hkey hnone hops s0 first s1 later
    have hreg0 := RegisterFactory_lookup s (some key) f Scoped
    have e1 : first = assignInstance env
        ((s0.afterCall f h).scopedStore (some key) "" k v) v typ0 a0 key :=
      ResolveWithScope_scoped_miss env s0 key typ0 a0 k _ f v h hk0 hreg0 rfl hk hnone rfl hcall
    have ho := assignInstance_heapOnly env
      ((s0.afterCall f h).scopedStore (some key) "" k v) v typ0 a0 key
    rw [← e1] at ho
    have hc1 : first.2.calls = s.calls ++ [f] := by
      rw [ho.2.1]; simp [State.scopedStore, State.afterCall, s0, RegisterFactory]
    have hl1 : first.2.lookup (RegRef.type (some key)) =
        some { Instance := Value.nil, Factory := some f, Scope := Scoped } := by
      rw [heapOnly_lookup ho, scopedStore_lookup, afterCall_lookup]; exact hreg0
    have hw1 : first.2.scopedLookup (some key) "" k = some v := by
      rw [scopedLookup_type, ho.1]; exact scopedStore_type_get _ _ _ _
    have hcache : s1.scopedLookup (some key) "" k = some v :=
      run_keeps_cache env (some key) "" k v ops first.2 (fun op hop => (hops op hop).1) hw1
    have hreg1 : s1.lookup (RegRef.type (some key)) =
        some { Instance := Value.nil, Factory := some f, Scope := Scoped } :=
      run_pinned env (RegRef.type (some key)) ops first.2 _ (fun op hop => (hops op hop).2) hl1
        (Or.inr (by simp))
    have e2 : later = assignInstance env s1 v typ a key :=
      ResolveWithScope_scoped_hit env s1 key typ a k _ v hkey hreg1 rfl hk
        ((scopedLookup_type s1 (some key) k).symm.trans hcache)
    refine ⟨hc1, ?_, ?_, e1, e2, ?_, ?_⟩
    · rw [e2, assignInstance_calls]
    · intro hres
      exact ((scoped_caching_type env s f v h key typ0 typ a0 a k ops hcall hk hk0 hkey
        hres).1 hnone).2.2.2
    · intro hp ht
      rw [e1]
      exact assignInstance_delivers env _ v typ0 a0 key hp ht
    · intro hp ht
      rw [e2]
      exact assignInstance_delivers env _ v typ a key hp ht
  · intro token target0 target ops htok hk0 hkind hnone hops s0 first s1 later
    have hreg0 := BindFactory_lookup s token f Scoped
    have e1 : first = assignByToken env
        ((s0.afterCall f h).scopedStore target0.typeOf token k v) v target0.elem :=
      ResolveByWithScope_scoped_miss env s0 token target0 k _ f v h hk0 hreg0 rfl hk htok hnone
        rfl hcall
    have ho := assignByToken_heapOnly env
      ((s0.afterCall f h).scopedStore target0.typeOf token k v) v target0.elem
    rw [← e1] at ho
    have hc1 : first.2.calls = s.calls ++ [f] := by
      rw [ho.2.1]; simp [State.scopedStore, State.afterCall, s0, BindFactory, htok]
    have hl1 : first.2.lookup (RegRef.token token) =
        some { Instance := Value.nil, Factory := some f, Scope := Scoped } := by
      rw [heapOnly_lookup ho, scopedStore_lookup, afterCall_lookup]; exact hreg0
    have hw1 : first.2.scopedLookup target.typeOf token k = some v := by
      rw [scopedLookup_token _ _ token k htok, ho.1]
      exact scopedStore_token_get _ _ _ _ _ htok
    have hcache : s1.scopedLookup target.typeOf token k = some v :=
      run_keeps_cache env target.typeOf token k v ops first.2 (fun op hop => (hops op hop).1)
        hw1
    have hreg1 : s1.lookup (RegRef.token token) =
        some { Instance := Value.nil, Factory := some f, Scope := Scoped } :=
      run_pinned env (RegRef.token token) ops first.2 _ (fun op hop => (hops op hop).2) hl1
        (Or.inr (by simp))
    have e2 : later = assignByToken env s1 v target.elem :=
      ResolveByWithScope_scoped_hit env s1 token target k _ v hkind hreg1 rfl hk htok
        ((scopedLookup_token s1 target.typeOf token k htok).symm.trans hcache)
    refine ⟨hc1, ?_, ?_, e1, e2, ?_, ?_⟩
    · rw [e2, assignByToken_calls]
    · intro hres
      exact ((scoped_caching_token env s f v h token target0 target k ops hcall hk htok hk0
        hkind hres).1 hnone).2.2.2
    · intro typ0 a0 htarget hp ht
      rw [e1, htarget]
      exact assignByToken_delivers env _ v typ0 a0 hp ht
    · intro typ a htarget hp ht
      rw [e2, htarget]
      exact assignByToken_delivers env _ v typ a hp ht

theorem scoped_caching_witness :
    Delivers
      (ResolveWithScope demoEnv
        (run demoEnv
          (ResolveWithScope demoEnv
            (RegisterFactory demoState (some testServicePtr) (ServiceFactory.closure 0) Scoped)
            demoTarget "req-1").2
          [Op.resolveWithScope demoTarget "req-2", Op.clearScope "req-2",
           Op.bindFactory "svc" (ServiceFactory.closure 0) Scoped,
           Op.resolveByWithScope "svc" demoTarget "req-1", Op.invoke demoFunc])
        demoTarget2 "req-1") 5 (Value.pointer (GoType.struct "TestService") (some 6)) ∧
    Delivers
      (ResolveByWithScope demoEnv
        (run demoEnv
          (ResolveByWithScope demoEnv
            (BindFactory demoState "svc" (ServiceFactory.closure 0) Scoped)
            "svc" demoTarget "req-1").2
          [Op.resolveByWithScope "svc" demoTarget "req-2", Op.clearScope "req-2"])
        "svc" demoTarget2 "req-1") 5 (Value.pointer (GoType.struct "TestService") (some 6)) ∧
    (ResolveByWithScope demoEnv
      (run demoEnv
        (ResolveByWithScope demoEnv
          (BindFactory demoState "svc" (ServiceFactory.closure 0) Scoped)
          "svc" demoTarget "req-1").2
        [Op.resolveByWithScope "svc" demoStructTarget "req-1"])
      "svc" demoTarget2 "req-1").2.calls = [ServiceFactory.closure 0] :=
  have h := scoped_caching demoEnv demoState (ServiceFactory.closure 0)
      (Value.pointer (GoType.struct "TestService") (some 6))
      (demoHeap.alloc (Value.structV "TestService" [Value.basic "string" 7])).2
      "req-1" (by decide) (by decide)
  ⟨(h.1 testServicePtr testServicePtr testServicePtr 1 5
      [Op.resolveWithScope demoTarget "req-2", Op.clearScope "req-2",
       Op.bindFactory "svc" (ServiceFactory.closure 0) Scoped,
       Op.resolveByWithScope "svc" demoTarget "req-1", Op.invoke demoFunc]
      (by decide) (by decide) (by decide) (by decide)).2.2.2.2.2.2 rfl rfl,
    (h.2 "svc" demoTarget demoTarget2
      [Op.resolveByWithScope "svc" demoTarget "req-2", Op.clearScope "req-2"]
      (by decide) (by decide) (by decide) (by decide) (by decide)).2.2.2.2.2.2
      testServicePtr 5 rfl rfl rfl,
    (h.2 "svc" demoTarget demoTarget2 [Op.resolveByWithScope "svc" demoStructTarget "req-1"]
      (by decide) (by decide) (by decide) (by decide) (by decide)).2.2.1 (by decide)⟩

/-- C28. Re-registration does not invalidate scoped caches: when scope `k` holds
a cached instance `w` for a type key (or for a non-empty token) and the key is
registered again with another Scoped factory, then whatever operations follow,
other than `ClearScope(k)`, as long as the key is registered as Scoped (which it
is when none of the operations registers the key again), a resolution of the key
under `k` invokes no factory and returns `w`: it is the assignment of `w` to its
target, and for a target variable of the pointer type of `w` it returns the nil
error and leaves `w` in the variable.  A scope key that holds no entry for the
key gets the result of the new factory, and so does `k` itself after
`ClearScope(k)`. -/
theorem reregistration_keeps_scoped_cache (env : Env) (s : State) (f2 : ServiceFactory)
    (k : String) (w : Value) (hk : k ≠ "") :
    (∀ (key typ : GoType) (a : Nat) (ops : List Op), ResolvesKey key typ →
      scopedGet s.c.scopedInstances k (some key) = some w →
      (∀ op ∈ ops, op ≠ Op.clearScope k) →
      let s0 := RegisterFactory s (some key) f2 Scoped
      let s1 := run env s0 ops
      let later := ResolveWithScope env s1 (Value.pointer typ (some a)) k
      ((∀ op ∈ ops, op.registers (RegRef.type (some key)) = false) →
        s1.lookup (RegRef.type (some key)) =
          some { Instance := Value.nil, Factory := some f2, Scope := Scoped }) ∧
      (∀ reg, s1.lookup (RegRef.type (some key)) = some reg → reg.Scope = Scoped →
        later = assignInstance env s1 w typ a key ∧
        later.2.calls = s1.calls ∧
        (typ.kind = Kind.ptr → w.typeOf = some typ → Delivers later a w)) ∧
      (∀ k2 v h, k2 ≠ "" → scopedGet s.c.scopedInstances k2 (some key) = none →
        f2.call env s.heap = some (v, h) →
        ResolveWithScope env s0 (Value.pointer typ (some a)) k2 =
          assignInstance env ((s0.afterCall f2 h).scopedStore (some key) "" k2 v) v typ a
            key ∧
        (ResolveWithScope env s0 (Value.pointer typ (some a)) k2).2.calls =
          s.calls ++ [f2] ∧
        (typ.kind = Kind.ptr → v.typeOf = some typ →
          Delivers (ResolveWithScope env s0 (Value.pointer typ (some a)) k2) a v)) ∧
      (∀ reg f v h, s1.lookup (RegRef.type (some key)) = some reg → reg.Scope = Scoped →
        reg.Factory = some f → f.call env s1.heap = some (v, h) →
        ResolveWithScope env (ClearScope s1 k) (Value.pointer typ (some a)) k =
          assignInstance env (((ClearScope s1 k).afterCall f h).scopedStore (some key) "" k v)
            v typ a key ∧
        (ResolveWithScope env (ClearScope s1 k) (Value.pointer typ (some a)) k).2.calls =
          s1.calls ++ [f] ∧
        (typ.kind = Kind.ptr → v.typeOf = some typ →
          Delivers (ResolveWithScope env (ClearScope s1 k) (Value.pointer typ (some a)) k)
            a v))) ∧
    (∀ (token : String) (typ : GoType) (a : Nat) (ops : List Op), token ≠ "" →
      scopedGet s.c.scopedTokens k token = some w →
      (∀ op ∈ ops, op ≠ Op.clearScope k) →
      let target := Value.pointer typ (some a)
      let s0 := BindFactory s token f2 Scoped
      let s1 := run env s0 ops
      let later := ResolveByWithScope env s1 token target k
      ((∀ op ∈ ops, op.registers (RegRef.token token) = false) →
        s1.lookup (RegRef.token token) =
          some { Instance := Value.nil, Factory := some f2, Scope := Scoped }) ∧
      (∀ reg, s1.lookup (RegRef.token token) = some reg → reg.Scope = Scoped →
        later = assignByToken env s1 w target.elem ∧
        later.2.calls = s1.calls ∧
        (typ.kind = Kind.ptr → w.typeOf = some typ → Delivers later a w)) ∧
      (∀ k2 v h, k2 ≠ "" → scopedGet s.c.scopedTokens k2 token = none →
        f2.call env s.heap = some (v, h) →
        ResolveByWithScope env s0 token target k2 =
          assignByToken env ((s0.afterCall f2 h).scopedStore target.typeOf token k2 v) v
            target.elem ∧
        (ResolveByWithScope env s0 token target k2).2.calls = s.calls ++ [f2] ∧
        (typ.kind = Kind.ptr → v.typeOf = some typ →
          Delivers (ResolveByWithScope env s0 token target k2) a v)) ∧
      (∀ reg f v h, s1.lookup (RegRef.token token) = some reg → reg.Scope = Scoped →
        reg.Factory = some f → f.call env s1.heap = some (v, h) →
        ResolveByWithScope env (ClearScope s1 k) token target k =
          assignByToken env
            (((ClearScope s1 k).afterCall f h).scopedStore target.typeOf token k v) v
            target.elem ∧
        (ResolveByWithScope env (ClearScope s1 k) token target k).2.calls =
          s1.calls ++ [f] ∧
        (typ.kind = Kind.ptr → v.typeOf = some typ →
          Delivers (ResolveByWithScope env (ClearScope s1 k) token target k) a v))) := by
  constructor
  · intro key typ a ops hkey hw hops s0 s1 later
    have hreg : s0.lookup (RegRef.type (some key)) =
        some { Instance := Value.nil, Factory := some f2, Scope := Scoped } :=
      RegisterFactory_lookup s (some key) f2 Scoped
    have hw0 : s0.scopedLookup (some key) "" k = some w :=
      (scopedLookup_type s0 (some key) k).trans hw
    have hcache : s1.scopedLookup (some key) "" k = some w :=
      run_keeps_cache env (some key) "" k w ops s0 hops hw0
    refine ⟨?_, ?_, ?_, ?_⟩
    · intro hnoreg
      exact run_pinned env (RegRef.type (some key)) ops s0 _ hnoreg hreg (Or.inr (by simp))
    · intro reg hreg1 hs
      have hhit : later = assignInstance env s1 w typ a key :=
        ResolveWithScope_scoped_hit env s1 key typ a k reg w hkey hreg1 hs hk
          ((scopedLookup_type s1 (some key) k).symm.trans hcache)
      refine ⟨hhit, ?_, ?_⟩
      · rw [hhit, assignInstance_calls]
      · intro hp ht
        rw [hhit]
        exact assignInstance_delivers env _ w typ a key hp ht
    · intro k2 v h hk2 hnone hcall
      have e := ResolveWithScope_scoped_miss env s0 key typ a k2 _ f2 v h hkey hreg rfl hk2
        hnone rfl hcall
      refine ⟨e, ?_, ?_⟩
      · rw [e, assignInstance_calls]
        simp [State.scopedStore, State.afterCall, s0, RegisterFactory]
      · intro hp ht
        rw [e]
        exact assignInstance_delivers env _ v typ a key hp ht
    · intro reg f v h hreg1 hs hf hcall
      have hregc := (ClearScope_lookup s1 k (RegRef.type (some key))).trans hreg1
      have hnone : scopedGet (ClearScope s1 k).c.scopedInstances k (some key) = none := by
        rw [← scopedLookup_type]; exact ClearScope_scopedLookup _ k _ _
      have e := ResolveWithScope_scoped_miss env (ClearScope s1 k) key typ a k reg f v h hkey
        hregc hs hk hnone hf hcall
      refine ⟨e, ?_, ?_⟩
      · rw [e, assignInstance_calls]
        simp [State.scopedStore, State.afterCall, ClearScope]
      · intro hp ht
        rw [e]
        exact assignInstance_delivers env _ v typ a key hp ht
  · intro token typ a ops ht hw hops target s0 s1 later
    have hkind : target.kind = Kind.ptr := rfl
    have helem : target.elem = Ref.var typ a := rfl
    have hreg : s0.lookup (RegRef.token token) =
        some { Instance := Value.nil, Factory := some f2, Scope := Scoped } :=
      BindFactory_lookup s token f2 Scoped
    have hw0 : s0.scopedLookup target.typeOf token k = some w :=
      (scopedLookup_token s0 target.typeOf token k ht).trans hw
    have hcache : s1.scopedLookup target.typeOf token k = some w :=
      run_keeps_cache env target.typeOf token k w ops s0 hops hw0
    refine ⟨?_, ?_, ?_, ?_⟩
    · intro hnoreg
      exact run_pinned env (RegRef.token token) ops s0 _ hnoreg hreg (Or.inr (by simp))
    · intro reg hreg1 hs
      have hhit : later = assignByToken env s1 w target.elem :=
        ResolveByWithScope_scoped_hit env s1 token target k reg w hkind hreg1 hs hk ht
          ((scopedLookup_token s1 target.typeOf token k ht).symm.trans hcache)
      refine ⟨hhit, ?_, ?_⟩
      · rw [hhit, assignByToken_calls]
      · intro hp hty
        rw [hhit, helem]
        exact assignByToken_delivers env _ w typ a hp hty
    · intro k2 v h hk2 hnone hcall
      have e := ResolveByWithScope_scoped_miss env s0 token target k2 _ f2 v h hkind hreg rfl
        hk2 ht hnone rfl hcall
      refine ⟨e, ?_, ?_⟩
      · rw [e, assignByToken_calls]
        simp [State.scopedStore, State.afterCall, s0, BindFactory, ht]
      · intro hp hty
        rw [e, helem]
        exact assignByToken_delivers env _ v typ a hp hty
    · intro reg f v h hreg1 hs hf hcall
      have hregc := (ClearScope_lookup s1 k (RegRef.token token)).trans hreg1
      have hnone : scopedGet (ClearScope s1 k).c.scopedTokens k token = none := by
        rw [← scopedLookup_token _ target.typeOf token k ht]
        exact ClearScope_scopedLookup _ k _ _
      have e := ResolveByWithScope_scoped_miss env (ClearScope s1 k) token target k reg f v h
        hkind hregc hs hk ht hnone hf hcall
      refine ⟨e, ?_, ?_⟩
      · rw [e, assignByToken_calls]
        simp [State.scopedStore, State.afterCall, ClearScope, ht]
      · intro hp hty
        rw [e, helem]
        exact assignByToken_delivers env _ v typ a hp hty

theorem reregistration_keeps_scoped_cache_witness :
    Delivers
      (ResolveWithScope demoEnv
        (run demoEnv
          (RegisterFactory
            (ResolveWithScope demoEnv
              (RegisterFactory demoState (some testServicePtr) (ServiceFactory.closure 2)
                Scoped)
              demoTarget "req-1").2
            (some testServicePtr) (ServiceFactory.closure 0) Scoped)
          [Op.resolveWithScope demoTarget "req-2", Op.clearScope "req-2",
           Op.registerFactory (some testServicePtr) (ServiceFactory.closure 1) Scoped,
           Op.resolveWithScope demoTarget "req-3", Op.invoke demoFunc])
        demoTarget2 "req-1") 5 demoService ∧
    Delivers
      (ResolveWithScope demoEnv
        (RegisterFactory
          (ResolveWithScope demoEnv
            (RegisterFactory demoState (some testServicePtr) (ServiceFactory.closure 2) Scoped)
            demoTarget "req-1").2
          (some testServicePtr) (ServiceFactory.closure 0) Scoped)
        demoTarget2 "req-2") 5 (Value.pointer (GoType.struct "TestService") (some 6)) ∧
    Delivers
      (ResolveByWithScope demoEnv
        (run demoEnv
          (BindFactory
            (ResolveByWithScope demoEnv
              (BindFactory demoState "svc" (ServiceFactory.closure 2) Scoped) "svc"
              demoTarget "req-1").2
            "svc" (ServiceFactory.closure 0) Scoped)
          [Op.resolveByWithScope "svc" demoTarget "req-2", Op.clearScope "req-2"])
        "svc" demoTarget2 "req-1") 5 demoService :=
  have h := (reregistration_keeps_scoped_cache demoEnv
    (ResolveWithScope demoEnv
      (RegisterFactory demoState (some testServicePtr) (ServiceFactory.closure 2) Scoped)
      demoTarget "req-1").2
    (ServiceFactory.closure 0) "req-1" demoService (by decide)).1
    testServicePtr testServicePtr 5
    [Op.resolveWithScope demoTarget "req-2", Op.clearScope "req-2",
     Op.registerFactory (some testServicePtr) (ServiceFactory.closure 1) Scoped,
     Op.resolveWithScope demoTarget "req-3", Op.invoke demoFunc]
    (by decide) (by decide) (by decide)
  have h2 := (reregistration_keeps_scoped_cache demoEnv
    (ResolveByWithScope demoEnv
      (BindFactory demoState "svc" (ServiceFactory.closure 2) Scoped) "svc"
      demoTarget "req-1").2
    (ServiceFactory.closure 0) "req-1" demoService (by decide)).2
    "svc" testServicePtr 5
    [Op.resolveByWithScope "svc" demoTarget "req-2", Op.clearScope "req-2"]
    (by decide) (by decide) (by decide)
  ⟨(h.2.1 { Instance := Value.nil, Factory := some (ServiceFactory.closure 1), Scope := Scoped }
      (by decide) rfl).2.2 rfl rfl,
    (h.2.2.1 "req-2" (Value.pointer (GoType.struct "TestService") (some 6)) _
      (by decide) (by decide) rfl).2.2 rfl rfl,
    (h2.2.1 _ (h2.1 (by decide)) rfl).2.2 rfl rfl⟩

/-- C5. Scope teardown: `ClearScope(k)` leaves the registries, the pending list,
the memory and the trace unchanged, removes scope `k` from both scope stores and
leaves every other scope's cached instances unchanged.  Consequently, for a
non-empty `k`, the next resolution (by type or by token) of a Scoped registration
with a factory under `k` invokes the factory again and returns its new result,
whatever instance was cached before the clear: it is the assignment of the new
result to the target, and for a target variable of the pointer type of the
result it returns the nil error and leaves the new result in the variable.  The
key `k` is non-empty whenever an instance was cached under it: in every state
reached from a new container no instance is cached under the empty scope key. -/
theorem scope_teardown (env : Env) (s : State) (k : String) :
    (ClearScope s k).c.typeServices = s.c.typeServices ∧
    (ClearScope s k).c.tokenServices = s.c.tokenServices ∧
    (ClearScope s k).c.pendingAutowire = s.c.pendingAutowire ∧
    (ClearScope s k).c.processing = s.c.processing ∧
    (ClearScope s k).heap = s.heap ∧
    (ClearScope s k).calls = s.calls ∧
    mapGet (ClearScope s k).c.scopedInstances k = none ∧
    mapGet (ClearScope s k).c.scopedTokens k = none ∧
    (∀ k1, k1 ≠ k →
      mapGet (ClearScope s k).c.scopedInstances k1 = mapGet s.c.scopedInstances k1 ∧
      mapGet (ClearScope s k).c.scopedTokens k1 = mapGet s.c.scopedTokens k1) ∧
    (∀ (key typ : GoType) (a : Nat) (reg : ServiceRegistration) (f : ServiceFactory)
      (v : Value) (h : Heap),
      k ≠ "" → ResolvesKey key typ → s.lookup (RegRef.type (some key)) = some reg →
      reg.Scope = Scoped → reg.Factory = some f → f.call env s.heap = some (v, h) →
      ResolveWithScope env (ClearScope s k) (Value.pointer typ (some a)) k =
        assignInstance env (((ClearScope s k).afterCall f h).scopedStore (some key) "" k v) v
          typ a key ∧
      (ResolveWithScope env (ClearScope s k) (Value.pointer typ (some a)) k).2.calls =
        s.calls ++ [f] ∧
      (typ.kind = Kind.ptr → v.typeOf = some typ →
        Delivers (ResolveWithScope env (ClearScope s k) (Value.pointer typ (some a)) k) a v)) ∧
    (∀ (token : String) (target : Value) (reg : ServiceRegistration) (f : ServiceFactory)
      (v : Value) (h : Heap),
      k ≠ "" → target.kind = Kind.ptr → s.lookup (RegRef.token token) = some reg →
      reg.Scope = Scoped → reg.Factory = some f → f.call env s.heap = some (v, h) →
      ResolveByWithScope env (ClearScope s k) token target k =
        assignByToken env (((ClearScope s k).afterCall f h).scopedStore target.typeOf token k v)
          v target.elem ∧
      (ResolveByWithScope env (ClearScope s k) token target k).2.calls = s.calls ++ [f] ∧
      (∀ typ a, target = Value.pointer typ (some a) → typ.kind = Kind.ptr →
        v.typeOf = some typ →
        Delivers (ResolveByWithScope env (ClearScope s k) token target k) a v)) ∧
    (∀ (s0 : State) (ops : List Op), s0.c = NewContainer → NoEmptyScope (run env s0 ops)) ∧
    (NoEmptyScope s →
      (∀ key old, scopedGet s.c.scopedInstances k key = some old → k ≠ "") ∧
      (∀ token old, scopedGet s.c.scopedTokens k token = some old → k ≠ "")) := by
  refine ⟨rfl, rfl, rfl, rfl, rfl, rfl, mapGet_mapDelete_self _ _, mapGet_mapDelete_self _ _,
    fun k1 hk1 => ⟨mapGet_mapDelete_other _ _ _ hk1, mapGet_mapDelete_other _ _ _ hk1⟩, ?_, ?_,
    fun s0 ops h0 => run_noEmptyScope env ops s0 (by unfold NoEmptyScope; rw [h0]; exact ⟨rfl, rfl⟩),
    fun hinv => ⟨fun key old hold => cached_scope_nonempty _ k key old hinv.1 hold,
      fun token old hold => cached_scope_nonempty _ k token old hinv.2 hold⟩⟩
  · intro key typ a reg f v h hk hkey hreg hs hf hc
    have e : ResolveWithScope env (ClearScope s k) (Value.pointer typ (some a)) k =
        assignInstance env (((ClearScope s k).afterCall f h).scopedStore (some key) "" k v) v
          typ a key := by
      rw [ResolveWithScope_eq env (ClearScope s k) key typ a k reg hkey
          ((ClearScope_lookup s k _).trans hreg),
        getInstance_scoped_miss env (ClearScope s k) _ reg _ _ _ f v h hs hk
          (ClearScope_scopedLookup s k _ _) hf hc]
    refine ⟨e, ?_, ?_⟩
    · rw [e, (assignInstance_heapOnly env _ v typ a key).2.1]
      simp [State.scopedStore, State.afterCall, ClearScope]
    · intro hp ht
      rw [e]
      exact assignInstance_delivers env _ v typ a key hp ht
  · intro token target reg f v h hk hkind hreg hs hf hc
    have e : ResolveByWithScope env (ClearScope s k) token target k =
        assignByToken env (((ClearScope s k).afterCall f h).scopedStore target.typeOf token k v)
          v target.elem := by
      rw [ResolveByWithScope_eq env (ClearScope s k) token target k reg hkind
          ((ClearScope_lookup s k _).trans hreg),
        getInstance_scoped_miss env (ClearScope s k) _ reg _ _ _ f v h hs hk
          (ClearScope_scopedLookup s k _ _) hf hc]
    refine ⟨e, ?_, ?_⟩
    · rw [e, (assignByToken_heapOnly env _ v target.elem).2.1]
      unfold State.scopedStore
      split <;> rfl
    · intro typ a htarget hp ht
      rw [e, htarget]
      exact assignByToken_delivers env _ v typ a hp ht

theorem scope_teardown_witness :
    Delivers
      (ResolveWithScope demoEnv
        (ClearScope
          (ResolveWithScope demoEnv
            (RegisterFactory demoState (some testServicePtr) (ServiceFactory.closure 0) Scoped)
            demoTarget "req-1").2 "req-1")
        demoTarget2 "req-1") 5 (Value.pointer (GoType.struct "TestService") (some 7)) ∧
    (ResolveWithScope demoEnv
      (ClearScope
        (ResolveWithScope demoEnv
          (RegisterFactory demoState (some testServicePtr) (ServiceFactory.closure 0) Scoped)
          demoTarget "req-1").2 "req-1")
      demoTarget2 "req-1").2.calls = [ServiceFactory.closure 0, ServiceFactory.closure 0] ∧
    Delivers
      (ResolveByWithScope demoEnv
        (ClearScope
          (ResolveByWithScope demoEnv
            (BindFactory demoState "svc" (ServiceFactory.closure 0) Scoped) "svc"
            demoTarget "req-1").2 "req-1")
        "svc" demoTarget2 "req-1") 5 (Value.pointer (GoType.struct "TestService") (some 7)) ∧
    (ResolveByWithScope demoEnv
      (BindFactory demoState "svc" (ServiceFactory.closure 0) Scoped) "svc"
      demoTarget "req-1").2.heap.read 1 =
      some (Value.pointer (GoType.struct "TestService") (some 6)) :=
  have h := (scope_teardown demoEnv
      (ResolveWithScope demoEnv
        (RegisterFactory demoState (some testServicePtr) (ServiceFactory.closure 0) Scoped)
        demoTarget "req-1").2 "req-1").2.2.2.2.2.2.2.2.2.1
      testServicePtr testServicePtr 5
      { Instance := Value.nil, Factory := some (ServiceFactory.closure 0), Scope := Scoped }
      (ServiceFactory.closure 0)
      (Value.pointer (GoType.struct "TestService") (some 7)) _
      (by decide) (by decide) (by decide) (by decide) (by decide) rfl
  have h2 := (scope_teardown demoEnv
      (ResolveByWithScope demoEnv
        (BindFactory demoState "svc" (ServiceFactory.closure 0) Scoped) "svc"
        demoTarget "req-1").2 "req-1").2.2.2.2.2.2.2.2.2.2.1
      "svc" demoTarget2
      { Instance := Value.nil, Factory := some (ServiceFactory.closure 0), Scope := Scoped }
      (ServiceFactory.closure 0)
      (Value.pointer (GoType.struct "TestService") (some 7)) _
      (by decide) (by decide) (by decide) (by decide) (by decide) rfl
  ⟨h.2.2 rfl rfl, h.2.1, h2.2.2 testServicePtr 5 rfl rfl rfl, by decide⟩

/-- C10. Last write wins: a registration call is a total state update (it cannot
fail); whatever was registered before under the key, afterwards the slot holds
exactly the new registration (instance, factory and lifetime), every other slot
of both registries is unchanged, and so are the scope stores, the pending list
and the memory.  A Singleton resolution that follows `Register(p)` stores the
new `p` in a pointer-to-pointer target, and one that follows `Bind(token, v)`
returns the new `v`, whatever the old registration was: it is the assignment of
`v` to the target, and for a target variable of the pointer type of `v` it
returns the nil error and leaves `v` in the variable. -/
theorem last_write_wins (env : Env) (s : State) :
    (∀ (service : Value) (scope : ServiceScope),
      (RegisterScoped s service scope).lookup (RegRef.type service.typeOf) =
        some { Instance := service, Factory := none, Scope := scope } ∧
      (∀ R, R ≠ RegRef.type service.typeOf →
        (RegisterScoped s service scope).lookup R = s.lookup R) ∧
      (RegisterScoped s service scope).c.scopedInstances = s.c.scopedInstances ∧
      (RegisterScoped s service scope).c.scopedTokens = s.c.scopedTokens ∧
      (RegisterScoped s service scope).c.pendingAutowire = s.c.pendingAutowire ∧
      (RegisterScoped s service scope).heap = s.heap) ∧
    (∀ (serviceType : Option GoType) (factory : ServiceFactory) (scope : ServiceScope),
      (RegisterFactory s serviceType factory scope).lookup (RegRef.type serviceType) =
        some { Instance := Value.nil, Factory := some factory, Scope := scope } ∧
      (∀ R, R ≠ RegRef.type serviceType →
        (RegisterFactory s serviceType factory scope).lookup R = s.lookup R) ∧
      (RegisterFactory s serviceType factory scope).c.scopedInstances = s.c.scopedInstances ∧
      (RegisterFactory s serviceType factory scope).c.scopedTokens = s.c.scopedTokens ∧
      (RegisterFactory s serviceType factory scope).c.pendingAutowire = s.c.pendingAutowire ∧
      (RegisterFactory s serviceType factory scope).heap = s.heap) ∧
    (∀ (token : String) (service : Value) (scope : ServiceScope),
      (BindScoped s token service scope).lookup (RegRef.token token) =
        some { Instance := service, Factory := none, Scope := scope } ∧
      (∀ R, R ≠ RegRef.token token → (BindScoped s token service scope).lookup R = s.lookup R) ∧
      (BindScoped s token service scope).c.scopedInstances = s.c.scopedInstances ∧
      (BindScoped s token service scope).c.scopedTokens = s.c.scopedTokens ∧
      (BindScoped s token service scope).c.pendingAutowire = s.c.pendingAutowire ∧
      (BindScoped s token service scope).heap = s.heap) ∧
    (∀ (token : String) (factory : ServiceFactory) (scope : ServiceScope),
      (BindFactory s token factory scope).lookup (RegRef.token token) =
        some { Instance := Value.nil, Factory := some factory, Scope := scope } ∧
      (∀ R, R ≠ RegRef.token token → (BindFactory s token factory scope).lookup R = s.lookup R) ∧
      (BindFactory s token factory scope).c.scopedInstances = s.c.scopedInstances ∧
      (BindFactory s token factory scope).c.scopedTokens = s.c.scopedTokens ∧
      (BindFactory s token factory scope).c.pendingAutowire = s.c.pendingAutowire ∧
      (BindFactory s token factory scope).heap = s.heap) ∧
    (∀ (elem : GoType) (pa : Option Nat) (a : Nat) (sk : String),
      ResolveWithScope env (Register s (Value.pointer elem pa))
          (Value.pointer (GoType.ptr elem) (some a)) sk =
        (Result.ok (), (Register s (Value.pointer elem pa)).setVar a (Value.pointer elem pa))) ∧
    (∀ (token : String) (service target : Value) (sk : String),
      service ≠ Value.nil → target.kind = Kind.ptr →
      ResolveByWithScope env (Bind s token service) token target sk =
        assignByToken env (Bind s token service) service target.elem ∧
      (∀ typ a, target = Value.pointer typ (some a) → typ.kind = Kind.ptr →
        service.typeOf = some typ →
        ResolveByWithScope env (Bind s token service) token target sk =
          (Result.ok (), (Bind s token service).setVar a service) ∧
        Delivers (ResolveByWithScope env (Bind s token service) token target sk) a
          service)) := by
  refine ⟨?_, ?_, ?_, ?_, ?_, ?_⟩
  · intro service scope
    exact ⟨RegisterScoped_lookup s service scope,
      fun R hR => lookup_type_other s _ _ R hR, rfl, rfl, rfl, rfl⟩
  · intro serviceType factory scope
    exact ⟨RegisterFactory_lookup s serviceType factory scope,
      fun R hR => lookup_type_other s _ _ R hR, rfl, rfl, rfl, rfl⟩
  · intro token service scope
    exact ⟨BindScoped_lookup s token service scope,
      fun R hR => lookup_token_other s _ _ R hR, rfl, rfl, rfl, rfl⟩
  · intro token factory scope
    exact ⟨BindFactory_lookup s token factory scope,
      fun R hR => lookup_token_other s _ _ R hR, rfl, rfl, rfl, rfl⟩
  · intro elem pa a sk
    have hreg := Register_lookup s (Value.pointer elem pa)
    rw [ResolveWithScope_cached env _ (GoType.ptr elem) (GoType.ptr elem) a sk _
      (Or.inl ⟨rfl, rfl⟩) hreg rfl (by simp)]
    exact assignInstance_pointer env _ elem pa a _
  · intro token service target sk hne hkind
    have hreg : (Bind s token service).lookup (RegRef.token token) =
        some { Instance := service, Factory := none, Scope := Singleton } :=
      BindScoped_lookup s token service Singleton
    have e := ResolveByWithScope_cached env _ token target sk _ hkind hreg rfl hne
    refine ⟨e, ?_⟩
    intro typ a htarget hp ht
    have e2 : ResolveByWithScope env (Bind s token service) token target sk =
        (Result.ok (), (Bind s token service).setVar a service) := by
      rw [e, htarget]
      exact assignByToken_typed env _ service typ a hp ht
    refine ⟨e2, ?_⟩
    rw [e2]
    exact delivers_setVar _ a service

theorem last_write_wins_witness :
    ResolveWithScope demoEnv
      (Register (Register demoState (Value.pointer (GoType.struct "TestService") (some 2)))
        demoService) demoTarget "" =
      (Result.ok (),
        (Register (Register demoState (Value.pointer (GoType.struct "TestService") (some 2)))
          demoService).setVar 1 demoService) ∧
    (Register
      (RegisterFactory demoState (some testServicePtr) (ServiceFactory.closure 0) Scoped)
      demoService).lookup (RegRef.type (some testServicePtr)) =
      some { Instance := demoService, Factory := none, Scope := Singleton } ∧
    (Register (Bind demoState "svc" demoService) demoService).lookup (RegRef.token "svc") =
      (Bind demoState "svc" demoService).lookup (RegRef.token "svc") ∧
    Delivers
      (ResolveByWithScope demoEnv
        (Bind (Bind demoState "svc" (Value.pointer (GoType.struct "TestService") (some 2)))
          "svc" demoService) "svc" demoTarget "") 1 demoService ∧
    Delivers
      (ResolveWithScope demoEnv
        (Register (Register demoState (Value.pointer (GoType.struct "TestService") (some 2)))
          demoService) demoTarget "") 1 demoService :=
  ⟨(last_write_wins demoEnv
      (Register demoState (Value.pointer (GoType.struct "TestService") (some 2)))).2.2.2.2.1
      (GoType.struct "TestService") (some 0) 1 "",
    ((last_write_wins demoEnv
      (RegisterFactory demoState (some testServicePtr) (ServiceFactory.closure 0) Scoped)).1
      demoService Singleton).1,
    ((last_write_wins demoEnv (Bind demoState "svc" demoService)).1
      demoService Singleton).2.1 (RegRef.token "svc") (by decide),
    (((last_write_wins demoEnv
      (Bind demoState "svc" (Value.pointer (GoType.struct "TestService") (some 2)))).2.2.2.2.2
      "svc" demoService demoTarget "" (by decide) (by decide)).2
      testServicePtr 1 rfl rfl rfl).2,
    by decide⟩

/-- C27 (amended). `ResolveByWithScope` is not atomic on assignment failure: for
a token bound to a factory and a pointer target, the instance is produced before
the target's shape and assignability are checked.  For a Singleton whose factory
returns a non-nil instance `v`, and for a Scoped registration with a non-empty
token under a non-empty scope key that holds no instance yet, the call is the
assignment of `v` in the state in which the factory has been called once and `v`
is cached; when the assignment returns an error the call leaves exactly that
state, and a later resolution of the token (under the same scope key, for
Scoped) returns `v` without another factory call: it is the assignment of `v`
to its target, and for a target variable of the pointer type of `v` it returns
the nil error and leaves `v` in the variable. -/
theorem resolve_by_not_atomic (env : Env) (s : State) (f : ServiceFactory) (v : Value)
    (h : Heap) (token : String) (target0 target : Value) (sk0 sk : String)
    (hcall : f.call env s.heap = some (v, h))
    (hk0 : target0.kind = Kind.ptr) (hk : target.kind = Kind.ptr) :
    (v ≠ Value.nil →
      ResolveByWithScope env (BindFactory s token f Singleton) token target0 sk0 =
        assignByToken env
          (((BindFactory s token f Singleton).afterCall f h).setInstance (RegRef.token token)
            { Instance := Value.nil, Factory := some f, Scope := Singleton } v) v
          target0.elem ∧
      (∀ e, (ResolveByWithScope env (BindFactory s token f Singleton) token target0 sk0).1 =
          Result.error e →
        (ResolveByWithScope env (BindFactory s token f Singleton) token target0 sk0).2 =
          ((BindFactory s token f Singleton).afterCall f h).setInstance (RegRef.token token)
            { Instance := Value.nil, Factory := some f, Scope := Singleton } v) ∧
      (ResolveByWithScope env (BindFactory s token f Singleton) token target0 sk0).2.calls =
        s.calls ++ [f] ∧
      (ResolveByWithScope env (BindFactory s token f Singleton) token target0
          sk0).2.lookup (RegRef.token token) =
        some { Instance := v, Factory := some f, Scope := Singleton } ∧
      ResolveByWithScope env
          (ResolveByWithScope env (BindFactory s token f Singleton) token target0 sk0).2
          token target sk =
        assignByToken env
          (ResolveByWithScope env (BindFactory s token f Singleton) token target0 sk0).2 v
          target.elem ∧
      (ResolveByWithScope env
          (ResolveByWithScope env (BindFactory s token f Singleton) token target0 sk0).2
          token target sk).2.calls = s.calls ++ [f] ∧
      (∀ typ a, target = Value.pointer typ (some a) → typ.kind = Kind.ptr →
        v.typeOf = some typ →
        Delivers
          (ResolveByWithScope env
            (ResolveByWithScope env (BindFactory s token f Singleton) token target0 sk0).2
            token target sk) a v)) ∧
    (sk0 ≠ "" → token ≠ "" → scopedGet s.c.scopedTokens sk0 token = none →
      ResolveByWithScope env (BindFactory s token f Scoped) token target0 sk0 =
        assignByToken env
          (((BindFactory s token f Scoped).afterCall f h).scopedStore target0.typeOf token
            sk0 v) v target0.elem ∧
      (∀ e, (ResolveByWithScope env (BindFactory s token f Scoped) token target0 sk0).1 =
          Result.error e →
        (ResolveByWithScope env (BindFactory s token f Scoped) token target0 sk0).2 =
          ((BindFactory s token f Scoped).afterCall f h).scopedStore target0.typeOf token
            sk0 v) ∧
      (ResolveByWithScope env (BindFactory s token f Scoped) token target0 sk0).2.calls =
        s.calls ++ [f] ∧
      scopedGet
        (ResolveByWithScope env (BindFactory s token f Scoped) token target0
          sk0).2.c.scopedTokens sk0 token = some v ∧
      ResolveByWithScope env
          (ResolveByWithScope env (BindFactory s token f Scoped) token target0 sk0).2
          token target sk0 =
        assignByToken env
          (ResolveByWithScope env (BindFactory s token f Scoped) token target0 sk0).2 v
          target.elem ∧
      (ResolveByWithScope env
          (ResolveByWithScope env (BindFactory s token f Scoped) token target0 sk0).2
          token target sk0).2.calls = s.calls ++ [f] ∧
      (∀ typ a, target = Value.pointer typ (some a) → typ.kind = Kind.ptr →
        v.typeOf = some typ →
        Delivers
          (ResolveByWithScope env
            (ResolveByWithScope env (BindFactory s token f Scoped) token target0 sk0).2
            token target sk0) a v)) := by
  have hstate : ∀ (s0 : State) (e : Error),
      (assignByToken env s0 v target0.elem).1 = Result.error e →
      (assignByToken env s0 v target0.elem).2 = s0 := by
    intro s0 e he
    rcases assignByToken_state env s0 v target0.elem with h1 | h1
    · rw [he] at h1; cases h1
    · exact h1
  constructor
  · intro hv
    obtain ⟨h1, h2, _, h4, h5, h6⟩ := lazy_singleton_token env s f v h token target0 target
      sk0 sk [] hcall hv hk0 hk (by simp)
    refine ⟨h1, ?_, h2, h4, h5, h6, ?_⟩
    · intro e he
      rw [h1] at he ⊢
      exact hstate _ e he
    · intro typ a htarget hp ht
      have h5b : ResolveByWithScope env
          (ResolveByWithScope env (BindFactory s token f Singleton) token target0 sk0).2
          token target sk =
          assignByToken env
            (ResolveByWithScope env (BindFactory s token f Singleton) token target0 sk0).2 v
            target.elem := h5
      rw [h5b, htarget]
      exact assignByToken_delivers env _ v typ a hp ht
  · intro hsk ht hnone
    obtain ⟨h1, h2, h3, h4⟩ := (scoped_caching_token env s f v h token target0 target sk0 []
      hcall hsk ht hk0 hk (by simp)).1 hnone
    refine ⟨h1, ?_, h2, ?_, h3, h4, ?_⟩
    · intro e he
      rw [h1] at he ⊢
      exact hstate _ e he
    · have hc : (ResolveByWithScope env (BindFactory s token f Scoped) token target0 sk0).2.c =
          (((BindFactory s token f Scoped).afterCall f h).scopedStore target0.typeOf token
            sk0 v).c := by
        rw [h1]; exact (assignByToken_heapOnly env _ v target0.elem).1
      rw [hc]
      exact scopedStore_token_get _ _ token sk0 v ht
    · intro typ a htarget hp hty
      have h3b : ResolveByWithScope env
          (ResolveByWithScope env (BindFactory s token f Scoped) token target0 sk0).2
          token target sk0 =
          assignByToken env
            (ResolveByWithScope env (BindFactory s token f Scoped) token target0 sk0).2 v
            target.elem := h3
      rw [h3b, htarget]
      exact assignByToken_delivers env _ v typ a hp hty

theorem resolve_by_not_atomic_witness :
    (ResolveByWithScope demoEnv (BindFactory demoState "svc" (ServiceFactory.closure 0) Singleton)
      "svc" demoOtherTarget "").1 =
      Result.error (Error.typeMismatchAssign testServicePtr (GoType.ptr (GoType.struct "Other"))) ∧
    (ResolveByWithScope demoEnv (BindFactory demoState "svc" (ServiceFactory.closure 0) Singleton)
      "svc" demoOtherTarget "").2.calls = [ServiceFactory.closure 0] ∧
    Delivers
      (ResolveByWithScope demoEnv
        (ResolveByWithScope demoEnv
          (BindFactory demoState "svc" (ServiceFactory.closure 0) Singleton) "svc"
          demoOtherTarget "").2 "svc" demoTarget "") 1
      (Value.pointer (GoType.struct "TestService") (some 6)) ∧
    (ResolveByWithScope demoEnv
      (ResolveByWithScope demoEnv
        (BindFactory demoState "svc" (ServiceFactory.closure 0) Singleton) "svc"
        demoOtherTarget "").2 "svc" demoTarget "").2.calls = [ServiceFactory.closure 0] ∧
    Delivers
      (ResolveByWithScope demoEnv
        (ResolveByWithScope demoEnv
          (BindFactory demoState "svc" (ServiceFactory.closure 0) Scoped) "svc"
          demoOtherTarget "req-1").2 "svc" demoTarget "req-1") 1
      (Value.pointer (GoType.struct "TestService") (some 6)) :=
  have h := (resolve_by_not_atomic demoEnv demoState (ServiceFactory.closure 0)
    (Value.pointer (GoType.struct "TestService") (some 6))
    (demoHeap.alloc (Value.structV "TestService" [Value.basic "string" 7])).2 "svc"
    demoOtherTarget demoTarget "" "" (by decide) (by decide) (by decide)).1 (by decide)
  have h2 := (resolve_by_not_atomic demoEnv demoState (ServiceFactory.closure 0)
    (Value.pointer (GoType.struct "TestService") (some 6))
    (demoHeap.alloc (Value.structV "TestService" [Value.basic "string" 7])).2 "svc"
    demoOtherTarget demoTarget "req-1" "" (by decide) (by decide) (by decide)).2
    (by decide) (by decide) (by decide)
  ⟨by decide, h.2.2.1, h.2.2.2.2.2.2 testServicePtr 1 rfl rfl rfl, h.2.2.2.2.2.1,
    h2.2.2.2.2.2.2 testServicePtr 1 rfl rfl rfl⟩

theorem resolvesKey_ptr {key typ : GoType} (h : ResolvesKey key typ) (hp : typ.kind = Kind.ptr) :
    key = typ := by
  rcases h with ⟨_, e⟩ | ⟨hs, _⟩
  · exact e
  · rw [hp] at hs; cases hs

/-- C4 (amended). Scope isolation: for a Scoped registration with a factory, by
type or by a non-empty token, and two distinct non-empty scope keys `k1`, `k2`
holding no cached instance of the service, resolving under `k1` and then under
`k2` invokes the factory once for each key and returns the results `v1`, `v2` of
these two separate invocations: each resolution is the assignment of its result
to its target, and for a target variable of the pointer type of the result it
returns the nil error and leaves the result in the variable.  A Scoped
registration made from a non-nil instance (`RegisterScoped` by type, `BindScoped`
by any token) invokes nothing and returns that one registered instance under
both keys. -/
theorem scope_isolation (env : Env) (s : State) (k1 k2 : String)
    (hk1 : k1 ≠ "") (hk2 : k2 ≠ "") (hne : k1 ≠ k2) :
    (∀ (key typ1 typ2 : GoType) (a1 a2 : Nat) (f : ServiceFactory) (v1 v2 : Value)
      (h1 h2 : Heap),
      ResolvesKey key typ1 → ResolvesKey key typ2 →
      scopedGet s.c.scopedInstances k1 (some key) = none →
      scopedGet s.c.scopedInstances k2 (some key) = none →
      f.call env s.heap = some (v1, h1) →
      f.call env (ResolveWithScope env (RegisterFactory s (some key) f Scoped)
        (Value.pointer typ1 (some a1)) k1).2.heap = some (v2, h2) →
      let s0 := RegisterFactory s (some key) f Scoped
      let r1 := ResolveWithScope env s0 (Value.pointer typ1 (some a1)) k1
      let r2 := ResolveWithScope env r1.2 (Value.pointer typ2 (some a2)) k2
      r1 = assignInstance env ((s0.afterCall f h1).scopedStore (some key) "" k1 v1) v1 typ1
        a1 key ∧
      r2 = assignInstance env ((r1.2.afterCall f h2).scopedStore (some key) "" k2 v2) v2 typ2
        a2 key ∧
      r2.2.calls = s.calls ++ [f, f] ∧
      (typ1.kind = Kind.ptr → v1.typeOf = some typ1 → Delivers r1 a1 v1) ∧
      (typ2.kind = Kind.ptr → v2.typeOf = some typ2 → Delivers r2 a2 v2)) ∧
    (∀ (token : String) (target1 target2 : Value) (f : ServiceFactory) (v1 v2 : Value)
      (h1 h2 : Heap),
      token ≠ "" → target1.kind = Kind.ptr → target2.kind = Kind.ptr →
      scopedGet s.c.scopedTokens k1 token = none →
      scopedGet s.c.scopedTokens k2 token = none →
      f.call env s.heap = some (v1, h1) →
      f.call env (ResolveByWithScope env (BindFactory s token f Scoped) token target1
        k1).2.heap = some (v2, h2) →
      let s0 := BindFactory s token f Scoped
      let r1 := ResolveByWithScope env s0 token target1 k1
      let r2 := ResolveByWithScope env r1.2 token target2 k2
      r1 = assignByToken env ((s0.afterCall f h1).scopedStore target1.typeOf token k1 v1) v1
        target1.elem ∧
      r2 = assignByToken env ((r1.2.afterCall f h2).scopedStore target2.typeOf token k2 v2) v2
        target2.elem ∧
      r2.2.calls = s.calls ++ [f, f] ∧
      (∀ typ a, target1 = Value.pointer typ (some a) → typ.kind = Kind.ptr →
        v1.typeOf = some typ → Delivers r1 a v1) ∧
      (∀ typ a, target2 = Value.pointer typ (some a) → typ.kind = Kind.ptr →
        v2.typeOf = some typ → Delivers r2 a v2)) ∧
    (∀ (p : Value) (key typ1 typ2 : GoType) (a1 a2 : Nat),
      p.typeOf = some key → ResolvesKey key typ1 → ResolvesKey key typ2 →
      scopedGet s.c.scopedInstances k1 (some key) = none →
      scopedGet s.c.scopedInstances k2 (some key) = none →
      let s0 := RegisterScoped s p Scoped
      let r1 := ResolveWithScope env s0 (Value.pointer typ1 (some a1)) k1
      let r2 := ResolveWithScope env r1.2 (Value.pointer typ2 (some a2)) k2
      r1 = assignInstance env s0 p typ1 a1 key ∧
      r2 = assignInstance env r1.2 p typ2 a2 key ∧
      r2.2.calls = s.calls ∧
      (typ1.kind = Kind.ptr → Delivers r1 a1 p) ∧
      (typ2.kind = Kind.ptr → Delivers r2 a2 p)) ∧
    (∀ (token : String) (p target1 target2 : Value),
      p ≠ Value.nil → target1.kind = Kind.ptr → target2.kind = Kind.ptr →
      s.scopedLookup target1.typeOf token k1 = none →
      s.scopedLookup target2.typeOf token k2 = none →
      let s0 := BindScoped s token p Scoped
      let r1 := ResolveByWithScope env s0 token target1 k1
      let r2 := ResolveByWithScope env r1.2 token target2 k2
      r1 = assignByToken env s0 p target1.elem ∧
      r2 = assignByToken env r1.2 p target2.elem ∧
      r2.2.calls = s.calls ∧
      (∀ typ a, target1 = Value.pointer typ (some a) → typ.kind = Kind.ptr →
        p.typeOf = some typ → Delivers r1 a p) ∧
      (∀ typ a, target2 = Value.pointer typ (some a) → typ.kind = Kind.ptr →
        p.typeOf = some typ → Delivers r2 a p)) := by
  refine ⟨?_, ?_, ?_, ?_⟩
  · intro key typ1 typ2 a1 a2 f v1 v2 h1 h2 ht1 ht2 hn1 hn2 hc1 hc2
    obtain ⟨e1, e2, hc⟩ := scope_isolation_type env s f v1 v2 h1 h2 key typ1 typ2 a1 a2 k1 k2
      hk1 hk2 hne ht1 ht2 hn1 hn2 hc1 hc2
    refine ⟨e1, e2, hc, ?_, ?_⟩
    · intro hp ht
      rw [e1]
      exact assignInstance_delivers env _ v1 typ1 a1 key hp ht
    · intro hp ht
      rw [e2]
      exact assignInstance_delivers env _ v2 typ2 a2 key hp ht
  · intro token target1 target2 f v1 v2 h1 h2 ht ht1 ht2 hn1 hn2 hc1 hc2
    obtain ⟨e1, e2, hc⟩ := scope_isolation_token env s f v1 v2 h1 h2 token target1 target2 k1
      k2 hk1 hk2 hne ht ht1 ht2 hn1 hn2 hc1 hc2
    refine ⟨e1, e2, hc, ?_, ?_⟩
    · intro typ a htarget hp hty
      rw [e1, htarget]
      exact assignByToken_delivers env _ v1 typ a hp hty
    · intro typ a htarget hp hty
      rw [e2, htarget]
      exact assignByToken_delivers env _ v2 typ a hp hty
  · intro p key typ1 typ2 a1 a2 hty ht1 ht2 hn1 hn2 s0 r1 r2
    have hpn : p ≠ Value.nil := by
      intro e; rw [e] at hty; cases hty
    have hreg0 : s0.lookup (RegRef.type (some key)) =
        some { Instance := p, Factory := none, Scope := Scoped } := by
      have h := RegisterScoped_lookup s p Scoped
      rw [hty] at h
      exact h
    have e1 : r1 = assignInstance env s0 p typ1 a1 key := by
      simp only [r1]
      rw [ResolveWithScope_eq env s0 key typ1 a1 k1 _ ht1 hreg0,
        getInstance_scoped_instance env s0 _ _ _ _ _ rfl hk1
          ((scopedLookup_type s0 _ k1).trans hn1) rfl hpn]
    have ho := assignInstance_heapOnly env s0 p typ1 a1 key
    rw [← e1] at ho
    have hreg1 : r1.2.lookup (RegRef.type (some key)) =
        some { Instance := p, Factory := none, Scope := Scoped } := by
      rw [heapOnly_lookup ho]; exact hreg0
    have hn2b : scopedGet r1.2.c.scopedInstances k2 (some key) = none := by
      rw [ho.1]; exact hn2
    have e2 : r2 = assignInstance env r1.2 p typ2 a2 key := by
      simp only [r2]
      rw [ResolveWithScope_eq env r1.2 key typ2 a2 k2 _ ht2 hreg1,
        getInstance_scoped_instance env r1.2 _ _ _ _ _ rfl hk2
          ((scopedLookup_type r1.2 _ k2).trans hn2b) rfl hpn]
    refine ⟨e1, e2, ?_, ?_, ?_⟩
    · rw [e2, assignInstance_calls, ho.2.1]; rfl
    · intro hp
      rw [e1]
      exact assignInstance_delivers env _ p typ1 a1 key hp
        (by rw [hty, resolvesKey_ptr ht1 hp])
    · intro hp
      rw [e2]
      exact assignInstance_delivers env _ p typ2 a2 key hp
        (by rw [hty, resolvesKey_ptr ht2 hp])
  · intro token p target1 target2 hpn ht1 ht2 hn1 hn2 s0 r1 r2
    have hreg0 : s0.lookup (RegRef.token token) =
        some { Instance := p, Factory := none, Scope := Scoped } :=
      BindScoped_lookup s token p Scoped
    have e1 : r1 = assignByToken env s0 p target1.elem := by
      simp only [r1]
      rw [ResolveByWithScope_eq env s0 token target1 k1 _ ht1 hreg0,
        getInstance_scoped_instance env s0 _ _ _ _ _ rfl hk1 hn1 rfl hpn]
    have ho := assignByToken_heapOnly env s0 p target1.elem
    rw [← e1] at ho
    have hreg1 : r1.2.lookup (RegRef.token token) =
        some { Instance := p, Factory := none, Scope := Scoped } := by
      rw [heapOnly_lookup ho]; exact hreg0
    have hn2b : r1.2.scopedLookup target2.typeOf token k2 = none := by
      rw [scopedLookup_congr s r1.2 (by rw [ho.1]; rfl) (by rw [ho.1]; rfl)]; exact hn2
    have e2 : r2 = assignByToken env r1.2 p target2.elem := by
      simp only [r2]
      rw [ResolveByWithScope_eq env r1.2 token target2 k2 _ ht2 hreg1,
        getInstance_scoped_instance env r1.2 _ _ _ _ _ rfl hk2 hn2b rfl hpn]
    refine ⟨e1, e2, ?_, ?_, ?_⟩
    · rw [e2, assignByToken_calls, ho.2.1]; rfl
    · intro typ a htarget hp hty
      rw [e1, htarget]
      exact assignByToken_delivers env _ p typ a hp hty
    · intro typ a htarget hp hty
      rw [e2, htarget]
      exact assignByToken_delivers env _ p typ a hp hty

theorem scope_isolation_witness :
    Delivers
      (ResolveWithScope demoEnv
        (RegisterFactory demoState (some testServicePtr) (ServiceFactory.closure 0) Scoped)
        demoTarget "req-1") 1 (Value.pointer (GoType.struct "TestService") (some 6)) ∧
    Delivers
      (ResolveWithScope demoEnv
        (ResolveWithScope demoEnv
          (RegisterFactory demoState (some testServicePtr) (ServiceFactory.closure 0) Scoped)
          demoTarget "req-1").2 demoTarget2 "req-2") 5
      (Value.pointer (GoType.struct "TestService") (some 7)) ∧
    (ResolveWithScope demoEnv
      (ResolveWithScope demoEnv
        (RegisterFactory demoState (some testServicePtr) (ServiceFactory.closure 0) Scoped)
        demoTarget "req-1").2 demoTarget2 "req-2").2.calls =
      [ServiceFactory.closure 0, ServiceFactory.closure 0] ∧
    Delivers
      (ResolveByWithScope demoEnv
        (ResolveByWithScope demoEnv (BindScoped demoState "svc" demoService Scoped) "svc"
          demoTarget "req-1").2 "svc" demoTarget2 "req-2") 5 demoService :=
  have h := (scope_isolation demoEnv demoState "req-1" "req-2" (by decide) (by decide)
    (by decide)).1
    testServicePtr testServicePtr testServicePtr 1 5
    (ServiceFactory.closure 0)
    (Value.pointer (GoType.struct "TestService") (some 6))
    (Value.pointer (GoType.struct "TestService") (some 7)) _ _
    (by decide) (by decide) (by decide) (by decide) rfl rfl
  have h2 := (scope_isolation demoEnv demoState "req-1" "req-2" (by decide) (by decide)
    (by decide)).2.2.2 "svc" demoService demoTarget demoTarget2
    (by decide) (by decide) (by decide) (by decide) (by decide)
  ⟨h.2.2.2.1 rfl rfl, h.2.2.2.2 rfl rfl, h.2.2.1, h2.2.2.2.2 testServicePtr 5 rfl rfl rfl⟩

/-! ## Transient registrations -/

/-- C7 (as stated, refuted). A Transient registration with a factory need not
resolve: the factory that `RegisterTransient` and `BindTransient` build around a
nil prototype panics when it is called.  After `RegisterTransient` of a nil
`*TestService` the registration of `*TestService` holds a factory, and `Resolve`
into a `**TestService` target panics; after `BindTransient("svc", nil)` the
token holds a factory and `ResolveBy` panics. -/
theorem transient_nil_prototype_panics :
    (RegisterTransient demoState
      (Value.pointer (GoType.struct "TestService") none)).lookup
        (RegRef.type (some testServicePtr)) =
      some { Instance := Value.nil,
             Factory := some (ServiceFactory.newOf
               (Value.pointer (GoType.struct "TestService") none)),
             Scope := Transient } ∧
    (Resolve demoEnv
      (RegisterTransient demoState (Value.pointer (GoType.struct "TestService") none))
      demoTarget).1 = Result.panicked ∧
    (BindTransient demoState "svc" Value.nil).lookup (RegRef.token "svc") =
      some { Instance := Value.nil, Factory := some (ServiceFactory.newOf Value.nil),
             Scope := Transient } ∧
    (ResolveBy demoEnv (BindTransient demoState "svc" Value.nil) "svc" demoTarget).1 =
      Result.panicked := by
  decide

/-- Resolution by type of a Transient registration. -/
theorem ResolveWithScope_transient (env : Env) (s : State) (key typ : GoType) (a : Nat)
    (sk : String) (reg : ServiceRegistration) (hkey : ResolvesKey key typ)
    (hreg : s.lookup (RegRef.type (some key)) = some reg) (hs : reg.Scope = Transient) :
    (reg.Factory = none →
      ResolveWithScope env s (Value.pointer typ (some a)) sk =
        (Result.error Error.noFactoryForTransient, s)) ∧
    (∀ f, reg.Factory = some f → f.call env s.heap = none →
      ResolveWithScope env s (Value.pointer typ (some a)) sk =
        (Result.panicked, s.afterCall f s.heap)) ∧
    (∀ f v h, reg.Factory = some f → f.call env s.heap = some (v, h) →
      ResolveWithScope env s (Value.pointer typ (some a)) sk =
        assignInstance env (s.afterCall f h) v typ a key) := by
  refine ⟨?_, ?_, ?_⟩
  · intro hf
    rw [ResolveWithScope_eq env s key typ a sk reg hkey hreg,
      getInstance_transient_none env s _ reg _ _ _ hs hf]
  · intro f hf hc
    rw [ResolveWithScope_eq env s key typ a sk reg hkey hreg,
      getInstance_transient_panic env s _ reg _ _ _ f hs hf hc]
  · intro f v h hf hc
    rw [ResolveWithScope_eq env s key typ a sk reg hkey hreg,
      getInstance_transient_some env s _ reg _ _ _ f v h hs hf hc]

/-- Resolution by token of a Transient registration. -/
theorem ResolveByWithScope_transient (env : Env) (s : State) (token : String) (target : Value)
    (sk : String) (reg : ServiceRegistration) (hk : target.kind = Kind.ptr)
    (hreg : s.lookup (RegRef.token token) = some reg) (hs : reg.Scope = Transient) :
    (reg.Factory = none →
      ResolveByWithScope env s token target sk =
        (Result.error Error.noFactoryForTransient, s)) ∧
    (∀ f, reg.Factory = some f → f.call env s.heap = none →
      ResolveByWithScope env s token target sk = (Result.panicked, s.afterCall f s.heap)) ∧
    (∀ f v h, reg.Factory = some f → f.call env s.heap = some (v, h) →
      ResolveByWithScope env s token target sk =
        assignByToken env (s.afterCall f h) v target.elem) := by
  refine ⟨?_, ?_, ?_⟩
  · intro hf
    rw [ResolveByWithScope_eq env s token target sk reg hk hreg,
      getInstance_transient_none env s _ reg _ _ _ hs hf]
  · intro f hf hc
    rw [ResolveByWithScope_eq env s token target sk reg hk hreg,
      getInstance_transient_panic env s _ reg _ _ _ f hs hf hc]
  · intro f v h hf hc
    rw [ResolveByWithScope_eq env s token target sk reg hk hreg,
      getInstance_transient_some env s _ reg _ _ _ f v h hs hf hc]

/-- C7 (amended). Transient resolution: for a Transient registration the resolver
returns an instance if and only if the registration has a factory and the call
of the factory returns (the factory built around a nil prototype panics).
Without a factory every resolution fails with "no factory registered for
transient service" and changes nothing; with a factory whose call returns `v`,
the resolver invokes it exactly once and returns `v`, and `ResolveWithScope` and
`ResolveByWithScope` are the assignment of `v` to the target: they succeed if
and only if that assignment does, and for a target variable of the pointer type
of `v` they return the nil error and leave `v` in the variable.  No resolution
changes the registries or the scope stores.  In particular a Transient
registration made from an instance (`RegisterScoped` or `BindScoped` with
`Transient`) fails with that error on every resolution, leaving the state
unchanged. -/
theorem transient_resolution (env : Env) (s : State) :
    (∀ (ref : RegRef) (reg : ServiceRegistration) (st : Option GoType) (tok sk : String),
      reg.Scope = Transient →
      (reg.Factory = none →
        getInstance env s ref reg st tok sk = (Result.error Error.noFactoryForTransient, s)) ∧
      (∀ f, reg.Factory = some f → f.call env s.heap = none →
        getInstance env s ref reg st tok sk = (Result.panicked, s.afterCall f s.heap)) ∧
      (∀ f v h, reg.Factory = some f → f.call env s.heap = some (v, h) →
        getInstance env s ref reg st tok sk = (Result.ok v, s.afterCall f h) ∧
        (getInstance env s ref reg st tok sk).2.calls = s.calls ++ [f]) ∧
      ((∃ v, (getInstance env s ref reg st tok sk).1 = Result.ok v) ↔
        ∃ f, reg.Factory = some f ∧ (f.call env s.heap).isSome = true) ∧
      (getInstance env s ref reg st tok sk).2.c = s.c) ∧
    (∀ (key typ : GoType) (a : Nat) (sk : String) (reg : ServiceRegistration),
      ResolvesKey key typ → s.lookup (RegRef.type (some key)) = some reg →
      reg.Scope = Transient →
      let r := ResolveWithScope env s (Value.pointer typ (some a)) sk
      (reg.Factory = none → r = (Result.error Error.noFactoryForTransient, s)) ∧
      (∀ f v h, reg.Factory = some f → f.call env s.heap = some (v, h) →
        r = assignInstance env (s.afterCall f h) v typ a key ∧
        r.2.calls = s.calls ++ [f] ∧
        (typ.kind = Kind.ptr → v.typeOf = some typ → Delivers r a v)) ∧
      (r.1 = Result.ok () ↔
        ∃ f v h, reg.Factory = some f ∧ f.call env s.heap = some (v, h) ∧
          (assignInstance env (s.afterCall f h) v typ a key).1 = Result.ok ()) ∧
      r.2.c = s.c) ∧
    (∀ (token : String) (target : Value) (sk : String) (reg : ServiceRegistration),
      target.kind = Kind.ptr → s.lookup (RegRef.token token) = some reg →
      reg.Scope = Transient →
      let r := ResolveByWithScope env s token target sk
      (reg.Factory = none → r = (Result.error Error.noFactoryForTransient, s)) ∧
      (∀ f v h, reg.Factory = some f → f.call env s.heap = some (v, h) →
        r = assignByToken env (s.afterCall f h) v target.elem ∧
        r.2.calls = s.calls ++ [f] ∧
        (∀ typ a, target = Value.pointer typ (some a) → typ.kind = Kind.ptr →
          v.typeOf = some typ → Delivers r a v)) ∧
      (r.1 = Result.ok () ↔
        ∃ f v h, reg.Factory = some f ∧ f.call env s.heap = some (v, h) ∧
          (assignByToken env (s.afterCall f h) v target.elem).1 = Result.ok ()) ∧
      r.2.c = s.c) ∧
    (∀ (service : Value) (key typ : GoType) (a : Nat) (sk : String) (ops : List Op),
      service.typeOf = some key → ResolvesKey key typ →
      (∀ op ∈ ops, op.registers (RegRef.type (some key)) = false) →
      let s1 := run env (RegisterScoped s service Transient) ops
      ResolveWithScope env s1 (Value.pointer typ (some a)) sk =
        (Result.error Error.noFactoryForTransient, s1)) ∧
    (∀ (token : String) (service target : Value) (sk : String) (ops : List Op),
      target.kind = Kind.ptr →
      (∀ op ∈ ops, op.registers (RegRef.token token) = false) →
      let s1 := run env (BindScoped s token service Transient) ops
      ResolveByWithScope env s1 token target sk =
        (Result.error Error.noFactoryForTransient, s1)) := by
  refine ⟨?_, ?_, ?_, ?_, ?_⟩
  · intro ref reg st tok sk hs
    refine ⟨fun hf => getInstance_transient_none env s ref reg st tok sk hs hf,
      fun f hf hc => getInstance_transient_panic env s ref reg st tok sk f hs hf hc, ?_, ?_,
      getInstance_transient_c env s ref reg st tok sk hs⟩
    · intro f v h hf hc
      have e := getInstance_transient_some env s ref reg st tok sk f v h hs hf hc
      exact ⟨e, by rw [e]; rfl⟩
    · constructor
      · rintro ⟨v, hv⟩
        cases hf : reg.Factory with
        | none =>
          rw [getInstance_transient_none env s ref reg st tok sk hs hf] at hv
          cases hv
        | some f =>
          refine ⟨f, rfl, ?_⟩
          cases hc : f.call env s.heap with
          | none =>
            rw [getInstance_transient_panic env s ref reg st tok sk f hs hf hc] at hv
            cases hv
          | some p => rfl
      · rintro ⟨f, hf, hsome⟩
        cases hc : f.call env s.heap with
        | none => rw [hc] at hsome; cases hsome
        | some p =>
          obtain ⟨v, h⟩ := p
          exact ⟨v, by rw [getInstance_transient_some env s ref reg st tok sk f v h hs hf hc]⟩
  · intro key typ a sk reg hkey hreg hs r
    obtain ⟨hnone, hpanic, hsome⟩ := ResolveWithScope_transient env s key typ a sk reg hkey hreg hs
    refine ⟨hnone, ?_, ?_, ?_⟩
    · intro f v h hf hc
      have e : r = assignInstance env (s.afterCall f h) v typ a key := hsome f v h hf hc
      refine ⟨e, ?_, ?_⟩
      · rw [e, assignInstance_calls]; rfl
      · intro hp ht
        rw [e]
        exact assignInstance_delivers env _ v typ a key hp ht
    · constructor
      · intro hok
        cases hf : reg.Factory with
        | none =>
          have e : r = (Result.error Error.noFactoryForTransient, s) := hnone hf
          rw [e] at hok; cases hok
        | some f =>
          cases hc : f.call env s.heap with
          | none =>
            have e : r = (Result.panicked, s.afterCall f s.heap) := hpanic f hf hc
            rw [e] at hok; cases hok
          | some p =>
            obtain ⟨v, h⟩ := p
            have e : r = assignInstance env (s.afterCall f h) v typ a key := hsome f v h hf hc
            exact ⟨f, v, h, rfl, hc, by rw [← e]; exact hok⟩
      · rintro ⟨f, v, h, hf, hc, hok⟩
        have e : r = assignInstance env (s.afterCall f h) v typ a key := hsome f v h hf hc
        rw [e]; exact hok
    · cases hf : reg.Factory with
      | none =>
        have e : r = (Result.error Error.noFactoryForTransient, s) := hnone hf
        rw [e]
      | some f =>
        cases hc : f.call env s.heap with
        | none =>
          have e : r = (Result.panicked, s.afterCall f s.heap) := hpanic f hf hc
          rw [e]; rfl
        | some p =>
          obtain ⟨v, h⟩ := p
          have e : r = assignInstance env (s.afterCall f h) v typ a key := hsome f v h hf hc
          rw [e, (assignInstance_heapOnly env _ v typ a key).1]; rfl
  · intro token target sk reg hk hreg hs r
    obtain ⟨hnone, hpanic, hsome⟩ :=
      ResolveByWithScope_transient env s token target sk reg hk hreg hs
    refine ⟨hnone, ?_, ?_, ?_⟩
    · intro f v h hf hc
      have e : r = assignByToken env (s.afterCall f h) v target.elem := hsome f v h hf hc
      refine ⟨e, ?_, ?_⟩
      · rw [e, assignByToken_calls]; rfl
      · intro typ a htarget hp ht
        rw [e, htarget]
        exact assignByToken_delivers env _ v typ a hp ht
    · constructor
      · intro hok
        cases hf : reg.Factory with
        | none =>
          have e : r = (Result.error Error.noFactoryForTransient, s) := hnone hf
          rw [e] at hok; cases hok
        | some f =>
          cases hc : f.call env s.heap with
          | none =>
            have e : r = (Result.panicked, s.afterCall f s.heap) := hpanic f hf hc
            rw [e] at hok; cases hok
          | some p =>
            obtain ⟨v, h⟩ := p
            have e : r = assignByToken env (s.afterCall f h) v target.elem :=
              hsome f v h hf hc
            exact ⟨f, v, h, rfl, hc, by rw [← e]; exact hok⟩
      · rintro ⟨f, v, h, hf, hc, hok⟩
        have e : r = assignByToken env (s.afterCall f h) v target.elem := hsome f v h hf hc
        rw [e]; exact hok
    · cases hf : reg.Factory with
      | none =>
        have e : r = (Result.error Error.noFactoryForTransient, s) := hnone hf
        rw [e]
      | some f =>
        cases hc : f.call env s.heap with
        | none =>
          have e : r = (Result.panicked, s.afterCall f s.heap) := hpanic f hf hc
          rw [e]; rfl
        | some p =>
          obtain ⟨v, h⟩ := p
          have e : r = assignByToken env (s.afterCall f h) v target.elem := hsome f v h hf hc
          rw [e, (assignByToken_heapOnly env _ v target.elem).1]; rfl
  · intro service key typ a sk ops hty hkey hops s1
    have hreg0 : (RegisterScoped s service Transient).lookup (RegRef.type (some key)) =
        some { Instance := service, Factory := none, Scope := Transient } := by
      rw [← hty]; exact RegisterScoped_lookup s service Transient
    have hpin := run_pinned env _ ops _ _ hops hreg0 (Or.inr (by simp))
    rw [ResolveWithScope_eq env s1 key typ a sk _ hkey hpin,
      getInstance_transient_none env s1 _ _ _ _ _ rfl rfl]
  · intro token service target sk ops hkind hops s1
    have hreg0 := BindScoped_lookup s token service Transient
    have hpin := run_pinned env _ ops _ _ hops hreg0 (Or.inr (by simp))
    rw [ResolveByWithScope_eq env s1 token target sk _ hkind hpin,
      getInstance_transient_none env s1 _ _ _ _ _ rfl rfl]

theorem transient_resolution_witness :
    ResolveWithScope demoEnv
      (run demoEnv (RegisterScoped demoState demoService Transient)
        [Op.resolveWithScope demoTarget "", Op.invoke demoFunc])
      demoTarget2 "" =
      (Result.error Error.noFactoryForTransient,
        run demoEnv (RegisterScoped demoState demoService Transient)
          [Op.resolveWithScope demoTarget "", Op.invoke demoFunc]) ∧
    Delivers
      (ResolveWithScope demoEnv
        (RegisterFactory demoState (some testServicePtr) (ServiceFactory.closure 0) Transient)
        demoTarget "") 1 (Value.pointer (GoType.struct "TestService") (some 6)) ∧
    (ResolveWithScope demoEnv
      (RegisterFactory demoState (some testServicePtr) (ServiceFactory.closure 0) Transient)
      demoTarget "").2.calls = [ServiceFactory.closure 0] ∧
    Delivers
      (ResolveByWithScope demoEnv
        (BindFactory demoState "svc" (ServiceFactory.closure 0) Transient) "svc"
        demoTarget "") 1 (Value.pointer (GoType.struct "TestService") (some 6)) :=
  have h := ((transient_resolution demoEnv
      (RegisterFactory demoState (some testServicePtr) (ServiceFactory.closure 0)
        Transient)).2.1
    testServicePtr testServicePtr 1 ""
    { Instance := Value.nil, Factory := some (ServiceFactory.closure 0), Scope := Transient }
    (by decide) (by decide) (by decide)).2.1 (ServiceFactory.closure 0)
    (Value.pointer (GoType.struct "TestService") (some 6)) _ rfl rfl
  have h2 := ((transient_resolution demoEnv
      (BindFactory demoState "svc" (ServiceFactory.closure 0) Transient)).2.2.1
    "svc" demoTarget ""
    { Instance := Value.nil, Factory := some (ServiceFactory.closure 0), Scope := Transient }
    (by decide) (by decide) (by decide)).2.1 (ServiceFactory.closure 0)
    (Value.pointer (GoType.struct "TestService") (some 6)) _ rfl rfl
  ⟨(transient_resolution demoEnv demoState).2.2.2.1 demoService testServicePtr testServicePtr 5
      "" [Op.resolveWithScope demoTarget "", Op.invoke demoFunc] (by decide) (by decide)
      (by decide),
    h.2.2 rfl rfl, h.2.1, h2.2.2 testServicePtr 1 rfl rfl rfl⟩

/-- C8 (as stated, refuted). For a struct type without fields the resolved
instances are not distinct: every allocation of size zero returns the same
address.  After `RegisterTransient` of a pointer to an `Other`, two resolutions
into two `**Other` targets both succeed and both targets receive the same
pointer. -/
theorem transient_zero_size_not_distinct :
    (Resolve demoEnv (RegisterTransient otherState otherProto) otherTarget1).1 =
      Result.ok () ∧
    (Resolve demoEnv
      (Resolve demoEnv (RegisterTransient otherState otherProto) otherTarget1).2
      otherTarget2).1 = Result.ok () ∧
    (Resolve demoEnv
      (Resolve demoEnv (RegisterTransient otherState otherProto) otherTarget1).2
      otherTarget2).2.heap.read 1 = some (Value.pointer (GoType.struct "Other") (some 3)) ∧
    (Resolve demoEnv
      (Resolve demoEnv (RegisterTransient otherState otherProto) otherTarget1).2
      otherTarget2).2.heap.read 2 = some (Value.pointer (GoType.struct "Other") (some 3)) ∧
    (Resolve demoEnv
      (Resolve demoEnv (RegisterTransient otherState otherProto) otherTarget1).2
      otherTarget2).2.calls =
      [ServiceFactory.newOf otherProto, ServiceFactory.newOf otherProto] := by
  decide

/-- C8 (amended). Transient freshness: after `RegisterTransient(p)` of a pointer
`p` to a struct of a type `T` of non-zero size (and any operations that do not
register `*T` again), every `Resolve` into a `**T` target succeeds and stores in
the target a pointer to a newly allocated variable holding the zero value of
`T`: the new address is the next free one, so the instance differs from `p` and
from the instance of every earlier resolution, and neither the instance nor the
new variable depends on what the memory holds at `p`. -/
theorem transient_freshness (env : Env) (hmono : EnvMonotone env) (s : State) (T : String)
    (pa a1 a2 : Nat) (ops1 ops2 : List Op) (hpa : pa < s.heap.next)
    (hz : (zeroValue env (GoType.struct T)).zeroSized = false)
    (h1 : ∀ op ∈ ops1, op.registers (RegRef.type (some (GoType.ptr (GoType.struct T)))) = false)
    (h2 : ∀ op ∈ ops2, op.registers (RegRef.type (some (GoType.ptr (GoType.struct T)))) = false) :
    let p := Value.pointer (GoType.struct T) (some pa)
    let s1 := run env (RegisterTransient s p) ops1
    let r1 := Resolve env s1 (Value.pointer (GoType.ptr (GoType.struct T)) (some a1))
    let s2 := run env r1.2 ops2
    let r2 := Resolve env s2 (Value.pointer (GoType.ptr (GoType.struct T)) (some a2))
    let q1 := Value.pointer (GoType.struct T) (some s1.heap.next)
    let q2 := Value.pointer (GoType.struct T) (some s2.heap.next)
    r1.1 = Result.ok () ∧
    r1.2.heap = (s1.heap.alloc (zeroValue env (GoType.struct T))).2.write a1 q1 ∧
    r2.1 = Result.ok () ∧
    r2.2.heap = (s2.heap.alloc (zeroValue env (GoType.struct T))).2.write a2 q2 ∧
    (a1 < s1.heap.next → r1.2.heap.read a1 = some q1 ∧
      r1.2.heap.read s1.heap.next = some (zeroValue env (GoType.struct T))) ∧
    (a2 < s2.heap.next → r2.2.heap.read a2 = some q2 ∧
      r2.2.heap.read s2.heap.next = some (zeroValue env (GoType.struct T))) ∧
    q1 ≠ p ∧ q2 ≠ p ∧ q2 ≠ q1 := by
  intro p s1 r1 s2 r2 q1 q2
  have hreg0 : (RegisterTransient s p).lookup
      (RegRef.type (some (GoType.ptr (GoType.struct T)))) =
      some { Instance := Value.nil, Factory := some (ServiceFactory.newOf p),
             Scope := Transient } := RegisterTransient_lookup s p
  have hpin1 := run_pinned env _ ops1 _ _ h1 hreg0 (Or.inr (by simp))
  have e1 : r1 = (Result.ok (),
      ((s1.afterCall (ServiceFactory.newOf p)
          (s1.heap.alloc (zeroValue env (GoType.struct T))).2).setVar a1 q1)) := by
    have h := Resolve_prototype env s1 T pa a1 hpin1
    rw [newVar_sized env _ _ hz] at h
    exact h
  have hpin1' : r1.2.lookup (RegRef.type (some (GoType.ptr (GoType.struct T)))) =
      some { Instance := Value.nil, Factory := some (ServiceFactory.newOf p),
             Scope := Transient } := by
    rw [e1]; simpa using hpin1
  have hpin2 := run_pinned env _ ops2 _ _ h2 hpin1' (Or.inr (by simp))
  have e2 : r2 = (Result.ok (),
      ((s2.afterCall (ServiceFactory.newOf p)
          (s2.heap.alloc (zeroValue env (GoType.struct T))).2).setVar a2 q2)) := by
    have h := Resolve_prototype env s2 T pa a2 hpin2
    rw [newVar_sized env _ _ hz] at h
    exact h
  have hn1 : s.heap.next ≤ s1.heap.next := run_next_le env hmono ops1 (RegisterTransient s p)
  have hn2 : s1.heap.next + 1 ≤ s2.heap.next := by
    have hr : r1.2.heap.next = s1.heap.next + 1 := by rw [e1]; rfl
    have h3 : r1.2.heap.next ≤ s2.heap.next := run_next_le env hmono ops2 r1.2
    rw [hr] at h3
    exact h3
  have hread : ∀ (s0 : State) (a : Nat) (q : Value), a < s0.heap.next →
      ((s0.heap.alloc (zeroValue env (GoType.struct T))).2.write a q).read a = some q ∧
      ((s0.heap.alloc (zeroValue env (GoType.struct T))).2.write a q).read s0.heap.next =
        some (zeroValue env (GoType.struct T)) := by
    intro s0 a q ha
    refine ⟨heap_read_write_self _ _ _, ?_⟩
    rw [heap_read_write_other _ _ _ _ (Nat.ne_of_gt ha)]
    exact heap_read_alloc _ _
  refine ⟨by rw [e1], by rw [e1]; rfl, by rw [e2], by rw [e2]; rfl, ?_, ?_, ?_, ?_, ?_⟩
  · intro ha
    have hh : r1.2.heap = (s1.heap.alloc (zeroValue env (GoType.struct T))).2.write a1 q1 := by
      rw [e1]; rfl
    rw [hh]
    exact hread s1 a1 q1 ha
  · intro ha
    have hh : r2.2.heap = (s2.heap.alloc (zeroValue env (GoType.struct T))).2.write a2 q2 := by
      rw [e2]; rfl
    rw [hh]
    exact hread s2 a2 q2 ha
  · intro h
    simp only [q1, p, Value.pointer.injEq, Option.some.injEq, true_and] at h
    omega
  · intro h
    simp only [q2, p, Value.pointer.injEq, Option.some.injEq, true_and] at h
    omega
  · intro h
    simp only [q1, q2, Value.pointer.injEq, Option.some.injEq, true_and] at h
    omega

theorem transient_freshness_witness :
    (Resolve demoEnv (RegisterTransient demoState demoService) demoTarget).1 = Result.ok () ∧
    (Resolve demoEnv (RegisterTransient demoState demoService) demoTarget).2.heap.read 1 =
      some (Value.pointer (GoType.struct "TestService") (some 6)) ∧
    (Resolve demoEnv (RegisterTransient demoState demoService) demoTarget).2.heap.read 6 =
      some (Value.structV "TestService" [Value.basic "string" 0]) :=
  have h := transient_freshness demoEnv demoEnv_monotone demoState "TestService" 0 1 5 [] []
    (by decide) (by decide) (by decide) (by decide)
  ⟨h.1, (h.2.2.2.2.1 (by decide)).1, (h.2.2.2.2.1 (by decide)).2⟩

/-! ## Retrying `AutowireAll` -/

theorem setFieldVar_read_other (s : State) (addr1 i : Nat) (v : Value) (addr : Nat)
    (hne : addr ≠ addr1) :
    (s.setFieldVar addr1 i v).2.heap.read addr = s.heap.read addr ∧
      (s.setFieldVar addr1 i v).2.heap.next = s.heap.next := by
  unfold State.setFieldVar
  cases hs : s.heap.setField addr1 i v with
  | none => exact ⟨rfl, rfl⟩
  | some heap =>
    refine ⟨?_, setField_next _ _ _ _ _ hs⟩
    unfold Heap.setField at hs
    split at hs
    · split_ifs at hs
      injection hs with hs
      rw [← hs]
      exact heap_read_write_other _ _ _ _ hne
    · cases hs

theorem assignField_read_other (env : Env) (s : State) (field : StructField) (addr1 i : Nat)
    (inst : Value) (addr : Nat) (hne : addr ≠ addr1) :
    (assignField env s field addr1 i inst).2.heap.read addr = s.heap.read addr ∧
      (assignField env s field addr1 i inst).2.heap.next = s.heap.next := by
  unfold assignField
  split_ifs <;> (repeat' split) <;>
    first
    | exact ⟨rfl, rfl⟩
    | exact setFieldVar_read_other s addr1 i _ addr hne

/-- Autowiring the struct at `addr1` leaves every other allocated variable that
no factory writes as it was. -/
theorem autowireFields_other (env : Env) (sk : String) (addr1 addr : Nat)
    (hk : KeepsVar env addr) (hne : addr ≠ addr1) (fs : List StructField) :
    ∀ (i : Nat) (s : State), addr < s.heap.next →
      (autowireFields env sk addr1 fs i s).2.heap.read addr = s.heap.read addr ∧
      addr < (autowireFields env sk addr1 fs i s).2.heap.next := by
  induction fs with
  | nil => intro i s ha; exact ⟨rfl, ha⟩
  | cons f rest ih =>
    intro i s ha
    rw [autowireFields_cons]
    by_cases h1 : f.inject = ""
    · rw [if_pos h1]; exact ih (i + 1) s ha
    · rw [if_neg h1]
      by_cases h2 : (!f.canSet) = true
      · rw [if_pos h2]; exact ih (i + 1) s ha
      · rw [if_neg h2]
        have hg := resolveField_keeps env addr hk s f sk ha
        cases hgi : resolveField env s f sk with
        | mk r s1 =>
          rw [hgi] at hg
          simp only at hg
          cases r with
          | error e => exact hg
          | panicked => exact hg
          | ok inst =>
            simp only
            have hao := assignField_read_other env s1 f addr1 i inst addr hne
            cases hai : assignField env s1 f addr1 i inst with
            | mk r2 s2 =>
              rw [hai] at hao
              simp only at hao
              have hn2 : addr < s2.heap.next := by rw [hao.2]; exact hg.2
              cases r2 with
              | ok u =>
                simp only
                have h3 := ih (i + 1) s2 hn2
                exact ⟨by rw [h3.1, hao.1, hg.1], h3.2⟩
              | error e => exact ⟨by simp only; rw [hao.1, hg.1], hn2⟩
              | panicked => exact ⟨by simp only; rw [hao.1, hg.1], hn2⟩

/-- An allocated variable that no factory writes stays allocated through
`Autowire`, and keeps its contents when the component is not a pointer to it. -/
theorem Autowire_other (env : Env) (s : State) (x : Value) (addr : Nat)
    (hk : KeepsVar env addr) (ha : addr < s.heap.next) :
    addr < (Autowire env s x).2.heap.next ∧
    ((∀ t, x.elem ≠ Ref.var t addr) →
      (Autowire env s x).2.heap.read addr = s.heap.read addr) := by
  unfold Autowire AutowireWithScope
  split_ifs
  · exact ⟨ha, fun _ => rfl⟩
  · cases he : x.elem with
    | zero => exact ⟨ha, fun _ => rfl⟩
    | var t a1 =>
      cases t with
      | struct name =>
        simp only
        by_cases hne : addr = a1
        · subst hne
          refine ⟨(autowireFields_untouched env "" addr hk (env.fields name) 0 s ha).1, ?_⟩
          intro hx
          exact absurd rfl (hx (GoType.struct name))
        · exact ⟨(autowireFields_other env "" a1 addr hk hne (env.fields name) 0 s ha).2,
            fun _ => (autowireFields_other env "" a1 addr hk hne (env.fields name) 0 s ha).1⟩
      | ptr elem => exact ⟨ha, fun _ => rfl⟩
      | iface name => exact ⟨ha, fun _ => rfl⟩
      | func sig => exact ⟨ha, fun _ => rfl⟩
      | basic name => exact ⟨ha, fun _ => rfl⟩

theorem run_wireOps_other (env : Env) (addr : Nat) (hk : KeepsVar env addr)
    (components : List Value) :
    ∀ s : State, addr < s.heap.next →
      addr < (run env s (wireOps components)).heap.next ∧
      ((∀ y ∈ components, ∀ t, y.elem ≠ Ref.var t addr) →
        (run env s (wireOps components)).heap.read addr = s.heap.read addr) := by
  induction components with
  | nil => intro s ha; exact ⟨ha, fun _ => rfl⟩
  | cons x rest ih =>
    intro s ha
    rw [run_wireOps_cons]
    have h1 := Autowire_other env s x addr hk ha
    have h2 := ih (Autowire env s x).2 h1.1
    refine ⟨h2.1, fun hall => ?_⟩
    rw [h2.2 (fun y hy => hall y (List.mem_cons_of_mem _ hy)),
      h1.2 (hall x (List.mem_cons_self _ _))]

theorem run_wireOps_append (env : Env) (s : State) (a b : List Value) :
    run env s (wireOps (a ++ b)) = run env (run env s (wireOps a)) (wireOps b) := by
  unfold wireOps
  rw [List.map_append, run_append]

/-- C20. A failure of `AutowireAll` is retryable: when the entries before some
pending entry can be autowired in turn and autowiring that entry fails,
`AutowireAll` returns the error of that entry wrapped with the type of the
entry, in the state that failing autowiring left (no later entry is attempted),
and the pending list is exactly as it was before the call; a later `AutowireAll`
in any state with that pending list in which every entry can be autowired in
turn returns no error, leaves the pending list empty and has wired every entry:
its effect is that of autowiring the entries in order, and the struct of each
entry holds what the autowiring of that entry left in it (provided no factory
writes that struct and no later entry points to it). -/
theorem autowire_all_retryable (env : Env) (s : State) (pre : List Value) (component : Value)
    (post : List Value) (e : Error) (sf : State)
    (hp : s.c.pendingAutowire = pre ++ component :: post)
    (hpre : ∀ j x, pre[j]? = some x →
      (Autowire env (run env s (wireOps (pre.take j))) x).1 = Result.ok ())
    (hfail : Autowire env (run env s (wireOps pre)) component = (Result.error e, sf)) :
    AutowireAll env s = (Result.error (Error.failedToAutowire component.typeOf e), sf) ∧
    (AutowireAll env s).2.c.pendingAutowire = s.c.pendingAutowire ∧
    (∀ service scope serviceType factory token,
      (RegisterScoped sf service scope).c.pendingAutowire = s.c.pendingAutowire ∧
      (RegisterFactory sf serviceType factory scope).c.pendingAutowire =
        s.c.pendingAutowire ∧
      (BindScoped sf token service scope).c.pendingAutowire = s.c.pendingAutowire ∧
      (BindFactory sf token factory scope).c.pendingAutowire = s.c.pendingAutowire) ∧
    (∀ s2 : State, s2.c.pendingAutowire = s.c.pendingAutowire →
      (∀ j x, s2.c.pendingAutowire[j]? = some x →
        (Autowire env (run env s2 (wireOps (s2.c.pendingAutowire.take j))) x).1 =
          Result.ok ()) →
      (AutowireAll env s2).1 = Result.ok () ∧
      (AutowireAll env s2).2.c.pendingAutowire = [] ∧
      (AutowireAll env s2).2 =
        { run env s2 (wireOps s.c.pendingAutowire) with
          c := { (run env s2 (wireOps s.c.pendingAutowire)).c with
            pendingAutowire := [] } } ∧
      (∀ (l1 l2 : List Value) (name : String) (addr : Nat),
        s.c.pendingAutowire = l1 ++ Value.pointer (GoType.struct name) (some addr) :: l2 →
        KeepsVar env addr → addr < s2.heap.next →
        (∀ y ∈ l2, ∀ t, y.elem ≠ Ref.var t addr) →
        (AutowireAll env s2).2.heap.read addr =
          (Autowire env (run env s2 (wireOps l1))
            (Value.pointer (GoType.struct name) (some addr))).2.heap.read addr ∧
        (∀ j f, (env.fields name)[j]? = some f → f.inject ≠ "" → f.canSet = true →
          ∃ s0 reg inst s1 v,
            autowireFields env "" addr ((env.fields name).take j) 0
              (run env s2 (wireOps l1)) = (Result.ok (), s0) ∧
            s0.lookup f.ref = some reg ∧
            getInstance env s0 f.ref reg (some f.Typ)
              (if f.inject = "type" then "" else f.inject) "" = (Result.ok inst, s1) ∧
            wiredValue s1.heap f inst = some v ∧
            (AutowireAll env s2).2.heap.field addr j = some v))) := by
  have hloop := autowireAllLoop_fail env pre component post e sf s hpre hfail
  have hres : AutowireAll env s =
      (Result.error (Error.failedToAutowire component.typeOf e), sf) := by
    unfold AutowireAll
    rw [hp, hloop]
  have hsf : sf.c.pendingAutowire = s.c.pendingAutowire := by
    have h1 := AutowireWithScope_pending env (run env s (wireOps pre)) component ""
    have h2 : AutowireWithScope env (run env s (wireOps pre)) component "" =
        (Result.error e, sf) := hfail
    rw [h2, run_wireOps_pending] at h1
    exact h1
  refine ⟨hres, ?_, ?_, ?_⟩
  · rw [hres]; exact hsf
  · intro service scope serviceType factory token
    exact ⟨hsf, hsf, hsf, hsf⟩
  · intro s2 hs2 hall
    have hloop2 := autowireAllLoop_ok env s2.c.pendingAutowire s2 hall
    have hres2 : AutowireAll env s2 = (Result.ok (),
        { run env s2 (wireOps s2.c.pendingAutowire) with
          c := { (run env s2 (wireOps s2.c.pendingAutowire)).c with
            pendingAutowire := [] } }) := by
      unfold AutowireAll
      rw [hloop2]
    rw [hres2, ← hs2]
    refine ⟨rfl, rfl, rfl, ?_⟩
    intro l1 l2 name addr hsplit hk ha hlater
    have hrun : run env s2 (wireOps s2.c.pendingAutowire) =
        run env (Autowire env (run env s2 (wireOps l1))
          (Value.pointer (GoType.struct name) (some addr))).2 (wireOps l2) := by
      rw [hsplit, run_wireOps_append, run_wireOps_cons]
    have h1 := (run_wireOps_other env addr hk l1 s2 ha).1
    have h2 := (Autowire_other env (run env s2 (wireOps l1))
      (Value.pointer (GoType.struct name) (some addr)) addr hk h1).1
    have h3 := (run_wireOps_other env addr hk l2 _ h2).2 hlater
    have hread : (run env s2 (wireOps s2.c.pendingAutowire)).heap.read addr =
        (Autowire env (run env s2 (wireOps l1))
          (Value.pointer (GoType.struct name) (some addr))).2.heap.read addr := by
      rw [hrun]; exact h3
    refine ⟨hread, ?_⟩
    intro j f hf hj1 hj2
    have hok : (Autowire env (run env s2 (wireOps l1))
        (Value.pointer (GoType.struct name) (some addr))).1 = Result.ok () := by
      have h := hall l1.length (Value.pointer (GoType.struct name) (some addr))
        (by rw [hsplit, List.getElem?_append_right (Nat.le_refl _)]; simp)
      have ht : s2.c.pendingAutowire.take l1.length = l1 := by
        rw [hsplit]; simp
      rw [ht] at h
      exact h
    have hok2 : (autowireFields env "" addr (env.fields name) 0
        (run env s2 (wireOps l1))).1 = Result.ok () := by
      rw [← AutowireWithScope_struct]; exact hok
    have hrun2 : autowireFields env "" addr (env.fields name) 0 (run env s2 (wireOps l1)) =
        (Result.ok (),
          (autowireFields env "" addr (env.fields name) 0 (run env s2 (wireOps l1))).2) := by
      rw [← hok2]
    obtain ⟨s0, inst, s1, v, hpre, hres, hw, hfield⟩ :=
      autowireFields_wired env "" addr hk (env.fields name) 0 (run env s2 (wireOps l1)) _ h1
        hrun2 j f hf hj1 hj2
    obtain ⟨reg, hreg, hget⟩ := resolveField_ok env s0 s1 f "" inst hres
    rw [Nat.zero_add] at hfield
    refine ⟨s0, reg, inst, s1, v, hpre, hreg, hget, hw, ?_⟩
    have hfr : (run env s2 (wireOps s2.c.pendingAutowire)).heap.field addr j =
        (AutowireWithScope env (run env s2 (wireOps l1))
          (Value.pointer (GoType.struct name) (some addr)) "").2.heap.field addr j :=
      field_of_read _ _ addr hread j
    rw [AutowireWithScope_struct] at hfr
    exact hfr.trans hfield

theorem autowire_all_retryable_witness :
    AutowireAll wireEnv (AddForAutowiring wireState wireHolder) =
      (Result.error (Error.failedToAutowire (some (GoType.ptr (GoType.struct "Holder")))
        (Error.missingDependencyForType testServicePtr)),
        AddForAutowiring wireState wireHolder) ∧
    (AutowireAll wireEnv
      (Bind (Register (AutowireAll wireEnv (AddForAutowiring wireState wireHolder)).2
        demoService) "tok" demoService)).1 = Result.ok () ∧
    (AutowireAll wireEnv
      (Bind (Register (AutowireAll wireEnv (AddForAutowiring wireState wireHolder)).2
        demoService) "tok" demoService)).2.c.pendingAutowire = [] ∧
    (AutowireAll wireEnv (AddForAutowiring wireState wireHolder)).2.heap.read 1 =
      some (Value.structV "Holder"
        [Value.pointer (GoType.struct "TestService") none,
         Value.pointer (GoType.struct "TestService") none,
         Value.basic "string" 5,
         Value.pointer (GoType.struct "TestService") none]) ∧
    (AutowireAll wireEnv
      (Bind (Register (AutowireAll wireEnv (AddForAutowiring wireState wireHolder)).2
        demoService) "tok" demoService)).2.heap.read 1 =
      some (Value.structV "Holder"
        [Value.pointer (GoType.struct "TestService") none, demoService,
         Value.basic "string" 5, demoService]) :=
  have h := autowire_all_retryable wireEnv (AddForAutowiring wireState wireHolder) []
    wireHolder [] (Error.missingDependencyForType testServicePtr)
    (AddForAutowiring wireState wireHolder) (by decide)
    (by intro j x hj; simp at hj) (by decide)
  have h2 := h.2.2.2
    (Bind (Register (AutowireAll wireEnv (AddForAutowiring wireState wireHolder)).2
      demoService) "tok" demoService) (by decide)
    (by
      intro j x hj
      have hpend : (Bind (Register
          (AutowireAll wireEnv (AddForAutowiring wireState wireHolder)).2
          demoService) "tok" demoService).c.pendingAutowire = [wireHolder] := by decide
      rw [hpend] at hj ⊢
      cases j with
      | zero =>
        have hc : wireHolder = x := by simpa using hj
        subst hc
        decide
      | succ j => simp at hj)
  ⟨h.1, h2.1, h2.2.1, by rw [h.1]; decide,
    by
      rw [(h2.2.2.2 [] [] "Holder" 1 (by decide) (wireEnv_keepsVar 1) (by decide)
        (by intro y hy; cases hy)).1]
      decide⟩

end GoNextCore
